import Mathlib

/-!
# PbCdlComm: framing, signature and message layer

A shallow embedding of the PakBus collection client (`pb5_buf.cpp`,
`pb5_proto_base.cpp`, `pb5_proto_bmp.cpp`, `pb5_data.cpp`) together with the
properties established about it.

Conventions of the embedding.

* `byte` (`unsigned char`) is `Fin 256`; arithmetic on it wraps modulo 256.
* `uint2` and `uint4` values are natural numbers, reduced modulo `2^16` and
  `2^32` at the places where the C++ code stores a wider result into them.
* A buffer is a `List byte`; a read at an index is `List.getD _ _ 0`.
* A `while`/`for` loop is a function by structural recursion on a fuel argument
  that carries the loop variables; the caller passes enough fuel for every
  terminating run.
-/

namespace PbCdlComm

/-- The type `byte` of the sources, `typedef unsigned char byte`. -/
abbrev byte := Fin 256

/-! ## pb5_buf.cpp: quoting and unquoting -/

/-- Packet structure of `pb5_buf.h`: positions of the opening sync byte and of
the end of a packet inside the input buffer, and the completeness flag. -/
structure Packet where
  begPacket : Nat
  endPacket : Nat
  Complete : Bool
  deriving DecidableEq, Repr

/-- The `while (tmp_idx < (msg_len-1))` loop of `pakbuf::quote_msg`.
The argument `seqbuf` is the part `seqbuf[0..count)` of the output written so
far, so that `seqbuf[count] = x; count++` appends `x`.  Returns the final
`tmp_idx` and the written prefix. -/
def quote_loop (tmpbuf : List byte) (msg_len : Nat) :
    Nat → Nat → List byte → Nat × List byte
  | 0, tmp_idx, seqbuf => (tmp_idx, seqbuf)
  | fuel + 1, tmp_idx, seqbuf =>
    if tmp_idx + 1 < msg_len then
      if tmpbuf.getD tmp_idx 0 = 0xbc ∨ tmpbuf.getD tmp_idx 0 = 0xbd then
        quote_loop tmpbuf msg_len fuel (tmp_idx + 1)
          (seqbuf ++ [0xbc, tmpbuf.getD tmp_idx 0 + 0x20])
      else
        quote_loop tmpbuf msg_len fuel (tmp_idx + 1) (seqbuf ++ [tmpbuf.getD tmp_idx 0])
    else (tmp_idx, seqbuf)

/-- Model of `pakbuf::quote_msg (seqbuf, msg_len)`: returns the bytes
`seqbuf[0..count)` after the call together with the returned `count`. -/
def quote_msg (seqbuf : List byte) (msg_len : Nat) : List byte × Nat :=
  let tmpbuf := seqbuf.take msg_len
  let r := quote_loop tmpbuf msg_len msg_len 1 [seqbuf.getD 0 0]
  let out := r.2 ++ [tmpbuf.getD r.1 0]
  (out, out.length)

/-- The `while (i < len)` loop of `pakbuf::unquote_pack`.  The last argument is
the sequence of bytes stored at `pptr[0..j)`; the result is `num_quotebytes`
and that sequence.  (`i` and `j` are `uint2`; they stay below `2^16` unless the
loop reads past the end of `tmpbuf`.) -/
def unquote_loop (tmpbuf : List byte) (len : Nat) :
    Nat → Nat → Nat → List byte → Nat × List byte
  | 0, _, num_quotebytes, out => (num_quotebytes, out)
  | fuel + 1, i, num_quotebytes, out =>
    if i < len then
      if tmpbuf.getD i 0 = 0xbc then
        if tmpbuf.getD (i + 1) 0 = 0xdd then
          unquote_loop tmpbuf len fuel (i + 2) (num_quotebytes + 1) (out ++ [0xbd])
        else if tmpbuf.getD (i + 1) 0 = 0xdc then
          unquote_loop tmpbuf len fuel (i + 2) (num_quotebytes + 1) (out ++ [0xbc])
        else
          unquote_loop tmpbuf len fuel (i + 2) (num_quotebytes + 1)
            (out ++ [tmpbuf.getD (i + 1) 0])
      else
        unquote_loop tmpbuf len fuel (i + 1) num_quotebytes (out ++ [tmpbuf.getD i 0])
    else (num_quotebytes, out)

/-- Model of `pakbuf::unquote_pack`: the input buffer after the in-place
rewrite and the packet with its moved end pointer.  `len` is a `uint2`, hence
the reduction modulo `2^16` of the pointer difference. -/
def unquote_pack (ibuf : List byte) (pack : Packet) : List byte × Packet :=
  let len := (pack.endPacket - pack.begPacket) % 65536
  let pptr := pack.begPacket + 1
  let tmpbuf := (ibuf.drop pptr).take len
  let r := unquote_loop tmpbuf len len 0 0 []
  (ibuf.take pptr ++ r.2 ++ ibuf.drop (pptr + r.2.length),
   { pack with endPacket := pack.endPacket - r.1 })

/-- The payload of a packet: the bytes strictly between `begPacket` and
`endPacket`. -/
def payload (ibuf : List byte) (pack : Packet) : List byte :=
  (ibuf.drop (pack.begPacket + 1)).take (pack.endPacket - pack.begPacket - 1)

/-- Quoting as the specification words it: every `0xBC` becomes `0xBC 0xDC`,
every `0xBD` becomes `0xBC 0xDD`, every other byte is copied. -/
def quote_spec : List byte → List byte
  | [] => []
  | x :: xs =>
    if x = 0xbc then 0xbc :: 0xdc :: quote_spec xs
    else if x = 0xbd then 0xbc :: 0xdd :: quote_spec xs
    else x :: quote_spec xs

/-- The frame of a payload: the payload between two sync bytes. -/
def frame (b : List byte) : List byte := 0xbd :: b ++ [0xbd]

/-- The result of `quote_msg` on the frame of a payload. -/
def quoted_frame (b : List byte) : List byte × Nat := quote_msg (frame b) (b.length + 2)

/-- The payload of a packet after `unquote_pack`. -/
def unquoted_payload (ibuf : List byte) (pack : Packet) : List byte :=
  payload (unquote_pack ibuf pack).1 (unquote_pack ibuf pack).2

/-- Number of bytes of a sequence that need quoting. -/
def count_special : List byte → Nat
  | [] => 0
  | x :: xs => (if x = 0xbc ∨ x = 0xbd then 1 else 0) + count_special xs

/-! ## pb5_proto.h: constants and outcomes -/

/-- Status code `SUCCESS`. -/
abbrev SUCCESS : Nat := 0
/-- Status code `FAILURE`. -/
abbrev FAILURE : Nat := 1
/-- Status code `LINK_STATE_PKT`. -/
abbrev LINK_STATE_PKT : Nat := 2
/-- Status code `HELLO_MSG`. -/
abbrev HELLO_MSG : Nat := 3
/-- Link-state message format `SERPKT_RING`. -/
abbrev SERPKT_RING : Nat := 4
/-- Link-state message format `SERPKT_READY`. -/
abbrev SERPKT_READY : Nat := 5
/-- Link-state message format `SERPKT_FINISHED`. -/
abbrev SERPKT_FINISHED : Nat := 6
/-- Link-state message format `SERPKT_BROADCAST`. -/
abbrev SERPKT_BROADCAST : Nat := 7
/-- Status code `IGNORE_MSG`. -/
abbrev IGNORE_MSG : Nat := 8
/-- Status code `DST_DIFF`. -/
abbrev DST_DIFF : Nat := 9
/-- Status code `SRC_UNKNOWN`. -/
abbrev SRC_UNKNOWN : Nat := 10
/-- Status code `INVALID_PACKET_SIZE`. -/
abbrev INVALID_PACKET_SIZE : Nat := 11
/-- Status code `CORRUPT_DATA`. -/
abbrev CORRUPT_DATA : Nat := 12
/-- Status code `INVALID_PROTOCOL`. -/
abbrev INVALID_PROTOCOL : Nat := 13
/-- Status code `INCOMPLETE_PKT`. -/
abbrev INCOMPLETE_PKT : Nat := 14
/-- Status code `DELIVERY_FAILURE`. -/
abbrev DELIVERY_FAILURE : Nat := 15
/-- Constant `MAX_PACK_SIZE` of `pb5_buf.h`. -/
abbrev MAX_PACK_SIZE : Int := 1112
/-- Constant `MAX_SUCCESSIVE_BAD_READ`. -/
abbrev MAX_SUCCESSIVE_BAD_READ : Nat := 3
/-- Constant `Seed`, the seed of every packet signature. -/
abbrev Seed : Nat := 0xaaaa
/-- Constant `SerSyncByte__`. -/
abbrev SerSyncByte__ : byte := 0xbd
/-- Constant `GET_LAST_REC`. -/
abbrev GET_LAST_REC : Nat := 0x05
/-- Constant `GET_DATA_RANGE`. -/
abbrev GET_DATA_RANGE : Nat := 0x06
/-- Constant `INQ_REC_INFO`. -/
abbrev INQ_REC_INFO : Nat := 0x10
/-- Constant `STORE_DATA`. -/
abbrev STORE_DATA : Nat := 0x20

/-- The exception classes of `utils.h` that the modelled code raises. -/
inductive Exception where
  | CommException
  | PakBusException
  | AppException
  | InvalidTDFException
  | StorageException
  | invalid_argument
  deriving DecidableEq, Repr

/-- How a call ends: it returns a value, raises an exception, or does not
terminate. -/
inductive Outcome (α : Type) where
  | ret (a : α)
  | throw (e : Exception)
  | diverge
  deriving DecidableEq, Repr

/-! ## pb5_buf.cpp: the I/O buffer object and the device behind it -/

/-- State of a `pakbuf` object and of the serial device it is attached to.

* `ibuf__` is the content of the input buffer.
* `obuf__` is the content of the put area, from `pbase()` up to `pptr()`;
  `obufsize__` is its capacity, the size of the block `new char[obuflen]`.
* `obuf_overrun` counts the bytes that `quote_msg` has written behind that
  block so far; it is not a member of the class.
* `devOut` lists the byte strings handed to `write(2)` so far, oldest first.
* `devWriteFails` gives the results of the coming calls of `write(2)`
  (`true`: the call returns `-1`); once it is used up every write succeeds.
* `devIn` gives, for each coming read cycle of `readFromDevice`, the bytes the
  device delivers before `read(2)` returns zero.
* `successive_bad_read` and `nbytes_last_read` are the static variables of
  `readFromDevice`. -/
structure pakbuf where
  ibuf__ : List byte
  obuf__ : List byte
  obufsize__ : Nat
  packetQueue__ : List Packet
  devOut : List (List byte)
  devWriteFails : List Bool
  devIn : List (List byte)
  successive_bad_read : Nat
  nbytes_last_read : Nat
  obuf_overrun : Nat := 0
  deriving DecidableEq, Repr

/-- `std::find (first, last, 0xbd)` on the input buffer: the first position in
`[first, last)` holding the sync byte, or `last`. -/
def find_sync (ibuf : List byte) : Nat → Nat → Nat → Nat
  | 0, first, _ => first
  | fuel + 1, first, last =>
    if first < last then
      if ibuf.getD first 0 = SerSyncByte__ then first
      else find_sync ibuf fuel (first + 1) last
    else last

/-- The `while (beg_search <= end)` loop of `pakbuf::split_sequence_to_packets`;
the last argument is the packet queue. -/
def split_loop (ibuf : List byte) (end_ : Nat) : Nat → Nat → List Packet → List Packet
  | 0, _, queue => queue
  | fuel + 1, beg_search, queue =>
    if beg_search ≤ end_ then
      let packet_beg := find_sync ibuf (end_ - beg_search) beg_search end_
      if ibuf.getD packet_beg 0 = SerSyncByte__ then
        if packet_beg = end_ then
          queue ++ [{ begPacket := packet_beg, endPacket := end_, Complete := false }]
        else
          let beg_search := packet_beg + 1
          let packet_end := find_sync ibuf (end_ - beg_search) beg_search end_
          split_loop ibuf end_ fuel (packet_end + 1)
            (queue ++ [{ begPacket := packet_beg, endPacket := packet_end,
                         Complete := decide (ibuf.getD packet_end 0 = SerSyncByte__) }])
      else queue
    else queue

/-- Model of `pakbuf::split_sequence_to_packets (beg, end)` with `beg` the start
of the input buffer: the packets appended to the queue. -/
def split_sequence_to_packets (ibuf : List byte) (end_ : Nat) (queue : List Packet) :
    List Packet :=
  split_loop ibuf end_ (end_ + 1) 0 queue

/-- The loop of `readFromDevice` that unquotes every packet of the queue in
place. -/
def unquote_queue (ibuf : List byte) : List Packet → List byte × List Packet
  | [] => (ibuf, [])
  | p :: ps =>
    let r := unquote_pack ibuf p
    let rs := unquote_queue r.1 ps
    (rs.1, r.2 :: rs.2)

/-- Model of `pakbuf::readFromDevice`.  The bytes of one read cycle overwrite
the start of the input buffer. -/
def readFromDevice (pb : pakbuf) : Outcome Nat × pakbuf :=
  let data := pb.devIn.headD []
  let nread := data.length
  let ibuf := data ++ pb.ibuf__.drop nread
  let read_ptr := if nread ≠ 0 then nread - 1 else nread
  let queue := split_sequence_to_packets ibuf read_ptr []
  let r := unquote_queue ibuf queue
  let pb := { pb with ibuf__ := r.1, packetQueue__ := r.2, devIn := pb.devIn.tail }
  if nread = 0 ∧ pb.nbytes_last_read = 0 then
    let pb := { pb with successive_bad_read := (pb.successive_bad_read + 1) % 4294967296 }
    if pb.successive_bad_read = MAX_SUCCESSIVE_BAD_READ then
      (Outcome.throw Exception.CommException, pb)
    else
      (Outcome.ret nread, { pb with nbytes_last_read := nread })
  else
    (Outcome.ret nread, { pb with successive_bad_read := 0, nbytes_last_read := nread })

/-- The call `write (devFd__, obuf__, nbytes)`: the result of the call (`true`
when it returns `-1`) and the device afterwards. -/
def dev_write (pb : pakbuf) (bytes : List byte) : Bool × pakbuf :=
  match pb.devWriteFails with
  | true :: rest => (true, { pb with devWriteFails := rest })
  | false :: rest => (false, { pb with devWriteFails := rest, devOut := pb.devOut ++ [bytes] })
  | [] => (false, { pb with devOut := pb.devOut ++ [bytes] })

/-- Model of `pakbuf::writeToDevice`.  `quote_msg` rewrites the output buffer
in place and leaves `pptr()` where it was; `setp` empties the put area, and is
not reached when the exception is raised.  `quote_msg` expands the message
inside the block `obuf__` of `obufsize__` bytes and makes no test against that
size: the bytes of the quoted message from the offset `obufsize__` on are
written behind the block, where `write(2)` reads them again, and
`obuf_overrun` counts them. -/
def writeToDevice (pb : pakbuf) : Outcome Unit × pakbuf :=
  let q := quote_msg pb.obuf__ pb.obuf__.length
  let pb := { pb with obuf_overrun := pb.obuf_overrun + (q.2 - pb.obufsize__) }
  let w := dev_write pb q.1
  if q.2 > 0 ∧ w.1 = true then
    (Outcome.throw Exception.CommException, { w.2 with obuf__ := q.1.take pb.obuf__.length })
  else
    (Outcome.ret (), { w.2 with obuf__ := [] })

/-- Model of `pakbuf::writeRaw`. -/
def writeRaw (pb : pakbuf) : Outcome Unit × pakbuf :=
  let w := dev_write pb pb.obuf__
  if pb.obuf__.length > 0 ∧ w.1 = true then
    (Outcome.throw Exception.CommException, w.2)
  else
    (Outcome.ret (), { w.2 with obuf__ := [] })

/-! ## pb5_proto_base.cpp: signature, nullifier, integer codec -/

/-- The cast `(byte) n` of an integer value. -/
def toByte (n : Nat) : byte := ⟨n % 256, Nat.mod_lt n (by decide)⟩

/-- Body of the `for` loop of `CalcSig`: the new value of the `uint2` variable
`ret` from its old value and the byte `ptr[n]`. -/
def CalcSig_body (ret : Nat) (p : byte) : Nat :=
  let j := ret
  let ret := (ret <<< 1) &&& 0x01ff
  let ret := if ret ≥ 0x100 then ret + 1 else ret
  (((ret + (j >>> 8) + p.val) &&& 0xff) ||| (j <<< 8)) % 65536

/-- The `for (n = 0; n < len; n++)` loop of `CalcSig`.  The counter `n` is a
`uint2`; the result is `none` when the fuel is used up before the loop
condition fails. -/
def CalcSig_loop (ptr : List byte) (len : Nat) : Nat → Nat → Nat → Option Nat
  | 0, _, _ => none
  | fuel + 1, n, ret =>
    if n < len then
      CalcSig_loop ptr len fuel ((n + 1) % 65536) (CalcSig_body ret (ptr.getD n 0))
    else some ret

/-- Model of `CalcSig (buf, len, seed)`.  A run that terminates makes at most
`65536` tests of the loop condition, so that with this fuel the result is
`none` exactly when the C++ loop does not terminate (`len ≥ 2^16`). -/
def CalcSig (buf : List byte) (len : Nat) (seed : Nat) : Option Nat :=
  CalcSig_loop buf len 65536 0 seed

/-- Model of `CalcSigNullifier (sig)`.  The expression for `null1` is computed
in `int` and may be negative before it is masked; `0x00ff & x` of a
two's-complement `int` is `x mod 256`. -/
def CalcSigNullifier (sig : Nat) : Nat :=
  let tmp := (0x1ff &&& (sig <<< 1)) % 65536
  let tmp := if tmp ≥ 0x100 then (tmp + 1) % 65536 else tmp
  let null1 : Nat :=
    (((0x100 : Int) - ((sig >>> 8 : Nat) : Int) - ((0x00ff &&& tmp : Nat) : Int)) % 256).toNat
  let msb : Nat := (0x00ff &&& sig) % 256
  let null0 : Nat := (0x00ff &&& (0x100 - (0xff &&& msb))) % 256
  0xffff &&& ((null1 <<< 8) + null0)

/-- The `for (i = 0; i <= len; i++)` loop of `PBSerialize`; the last argument
is the sequence of bytes stored at `ptr[0..i)`. -/
def PBSerialize_loop (val len : Nat) : Nat → Nat → List byte → List byte
  | 0, _, ptr => ptr
  | fuel + 1, i, ptr =>
    if i ≤ len then
      let shift := (8 * (len - i)) % 65536
      PBSerialize_loop val len fuel (i + 1) (ptr ++ [toByte (val >>> shift)])
    else ptr

/-- Model of `PBSerialize (ptr, val, len)`: the bytes written at `ptr`.
`len--` acts on a `uint2`. -/
def PBSerialize (val : Nat) (len : Nat) : List byte :=
  PBSerialize_loop val ((len + 65535) % 65536) ((len + 65535) % 65536 + 1) 0 []

/-- The `for (i = 0; i < len; i++)` loop of `PBDeserialize`; `val` is a `uint4`. -/
def PBDeserialize_loop (ptr : List byte) (len : Nat) : Nat → Nat → Nat → Nat
  | 0, _, val => val
  | fuel + 1, i, val =>
    if i < len then
      PBDeserialize_loop ptr len fuel (i + 1) (((val <<< 8) % 4294967296) ||| (ptr.getD i 0).val)
    else val

/-- Model of `PBDeserialize (ptr, len)`. -/
def PBDeserialize (ptr : List byte) (len : Nat) : Nat :=
  PBDeserialize_loop ptr len len 0 0

/-! ## pb5_proto_base.cpp: the PakBus message layer -/

/-- Structure `PktSummary` of `pb5_proto.h`. -/
structure PktSummary where
  Protocol : byte := 0
  MsgType : byte := 0
  TranNbr : byte := 0
  SrcPhyAddrFrmPkt : Nat := 0
  SrcNodeAddrFrmPkt : Nat := 0
  deriving DecidableEq, Repr

/-- State of a `PakBusMsg` object.  `MsgBody__` is the array `byte[1024]`,
`Hdr__` holds the ten header bytes last serialised, `odevs_bad` is the `badbit`
of the output stream `odevs__`, and `pbuf__` is the buffer object the stream
writes to. -/
structure PakBusMsg where
  Hdr__ : List byte
  MsgBody__ : Nat → byte
  MsgBodyLen__ : Nat
  LinkState__ : byte
  DstPhyAddr__ : Nat
  ExpMoreCode__ : byte
  SecurityCode__ : Nat
  Priority__ : byte
  SrcPhyAddr__ : Nat
  HiProtoCode__ : byte
  DstNodeId__ : Nat
  HopCnt__ : byte
  SrcNodeId__ : Nat
  MsgType__ : byte
  TranNbr__ : byte
  odevs_bad : Bool
  pbuf__ : pakbuf

/-- The statement `odevs__ << c` for a byte `c`: nothing happens once the
stream is bad, and the stream turns bad when the put area is full. -/
def odevs_put (st : PakBusMsg) (c : byte) : PakBusMsg :=
  if st.odevs_bad then st
  else if st.pbuf__.obuf__.length < st.pbuf__.obufsize__ then
    { st with pbuf__ := { st.pbuf__ with obuf__ := st.pbuf__.obuf__ ++ [c] } }
  else { st with odevs_bad := true }

/-- The statement `odevs__.write (s, n)` with `s` the `n` bytes to write: the
bytes that fit in the put area are stored, and the stream turns bad when some
do not fit. -/
def odevs_write (st : PakBusMsg) (s : List byte) : PakBusMsg :=
  if st.odevs_bad then st
  else if s.length ≤ st.pbuf__.obufsize__ - st.pbuf__.obuf__.length then
    { st with pbuf__ := { st.pbuf__ with obuf__ := st.pbuf__.obuf__ ++ s } }
  else
    { st with
      pbuf__ :=
        { st.pbuf__ with
          obuf__ := st.pbuf__.obuf__ ++ s.take (st.pbuf__.obufsize__ - st.pbuf__.obuf__.length) },
      odevs_bad := true }

/-- The first `n` entries of an array. -/
def array_take (a : Nat → byte) (n : Nat) : List byte := (List.range n).map a

/-- The assignment `a[i] = v` on an array. -/
def array_set (a : Nat → byte) (i : Nat) (v : byte) : Nat → byte :=
  fun k => if k = i then v else a k

/-- The ten bytes computed by `PakBusMsg::SerializeHdr`. -/
def header_bytes (st : PakBusMsg) : List byte :=
  [ toByte ((st.LinkState__.val <<< 4) ||| (st.DstPhyAddr__ >>> 8)),
    toByte (st.DstPhyAddr__ &&& 0xff),
    toByte ((st.ExpMoreCode__.val <<< 6) ||| (st.Priority__.val <<< 4) ||| (st.SrcPhyAddr__ >>> 8)),
    toByte (st.SrcPhyAddr__ &&& 0xff),
    toByte ((st.HiProtoCode__.val <<< 4) ||| (st.DstNodeId__ >>> 8)),
    toByte (st.DstNodeId__ &&& 0xff),
    toByte ((st.HopCnt__.val <<< 4) ||| (st.SrcNodeId__ >>> 8)),
    toByte (st.SrcNodeId__ &&& 0xff),
    st.MsgType__,
    st.TranNbr__ ]

/-- Model of `PakBusMsg::SerializeHdr`. -/
def SerializeHdr (st : PakBusMsg) : PakBusMsg :=
  odevs_write { st with Hdr__ := header_bytes st } (header_bytes st)

/-- Lift of `pakbuf::writeToDevice` to the message layer. -/
def pbuf_writeToDevice (st : PakBusMsg) : Outcome Unit × PakBusMsg :=
  ((writeToDevice st.pbuf__).1, { st with pbuf__ := (writeToDevice st.pbuf__).2 })

/-- Model of `PakBusMsg::SendPBPacket`.  The length handed to `CalcSig` is the
`uint4` conversion of `showManyBytesObuf() - 1`. -/
def SendPBPacket (st : PakBusMsg) : Outcome Unit × PakBusMsg :=
  if st.MsgBodyLen__ < 6 ∧ st.MsgBodyLen__ > 1000 then (Outcome.ret (), st)
  else
    let st := odevs_put st SerSyncByte__
    let st := SerializeHdr st
    let st := odevs_write st (array_take st.MsgBody__ st.MsgBodyLen__)
    let n := st.pbuf__.obuf__.length
    match CalcSig (st.pbuf__.obuf__.drop 1) (if n = 0 then 4294967295 else n - 1) Seed with
    | none => (Outcome.diverge, st)
    | some sig =>
      let signull := CalcSigNullifier sig
      let st := odevs_write st [toByte (signull >>> 8), toByte signull]
      let st := odevs_put st SerSyncByte__
      pbuf_writeToDevice st

/-- Model of `PakBusMsg::GenTranNbr`: the new transaction number and the state. -/
def GenTranNbr (st : PakBusMsg) : byte × PakBusMsg :=
  (st.TranNbr__ + 1, { st with TranNbr__ := st.TranNbr__ + 1 })

/-- Model of `PakBusMsg::SetSecurityCodeInMsgBody`. -/
def SetSecurityCodeInMsgBody (st : PakBusMsg) : PakBusMsg :=
  let b0 := toByte (st.SecurityCode__ >>> 8)
  let b1 := toByte st.SecurityCode__
  { st with MsgBody__ := array_set (array_set st.MsgBody__ 0 b0) 1 b1 }

/-- The byte `*(pack.begPacket + k)` of the input buffer. -/
def pkt_byte (ibuf : List byte) (pack : Packet) (k : Nat) : byte :=
  ibuf.getD (pack.begPacket + k) 0

/-- The expression `pack.endPacket - pack.begPacket + 1`. -/
def pkt_len (pack : Packet) : Int := (pack.endPacket : Int) - (pack.begPacket : Int) + 1

/-- Model of `PakBusMsg::get_link_state`. -/
def get_link_state (ibuf : List byte) (Pack : Packet) : byte :=
  toByte ((pkt_byte ibuf Pack 1).val &&& 0xf0)

/-- Model of `PakBusMsg::parse_pakbus_header`: the status and the digest,
which starts from the value its constructor gives it. -/
def parse_pakbus_header (st : PakBusMsg) (pack : Packet) (Digest : PktSummary) :
    Nat × PktSummary :=
  let len := pkt_len pack
  let ppkt := fun k => (pkt_byte st.pbuf__.ibuf__ pack (1 + k)).val
  let DstPhyAddrFrmPkt := ((0x0f &&& ppkt 0) <<< 8) ||| (0x00ff &&& ppkt 1)
  if DstPhyAddrFrmPkt ≠ st.SrcPhyAddr__ then (DST_DIFF, Digest)
  else
    let SrcPhyAddrFrmPkt := ((0x0f &&& ppkt 2) <<< 8) ||| (0x00ff &&& ppkt 3)
    if SrcPhyAddrFrmPkt ≠ st.DstPhyAddr__ then (SRC_UNKNOWN, Digest)
    else
      let Digest := { Digest with SrcPhyAddrFrmPkt := SrcPhyAddrFrmPkt }
      if len = 8 then (SUCCESS, Digest)
      else
        let DstNodeAddrFrmPkt := ((0x0f &&& ppkt 4) <<< 8) ||| (0x00ff &&& ppkt 5)
        if DstNodeAddrFrmPkt ≠ st.SrcNodeId__ then (DST_DIFF, Digest)
        else
          let SrcNodeAddrFrmPkt := ((0x0f &&& ppkt 6) <<< 8) ||| (0x00ff &&& ppkt 7)
          if SrcNodeAddrFrmPkt ≠ st.DstNodeId__ then (SRC_UNKNOWN, Digest)
          else
            let Digest := { Digest with
              SrcNodeAddrFrmPkt := SrcNodeAddrFrmPkt,
              Protocol := toByte ((0xf0 &&& ppkt 4) >>> 4) }
            if Digest.Protocol ≠ 0 ∧ Digest.Protocol ≠ 1 then (INVALID_PROTOCOL, Digest)
            else
              (SUCCESS, { Digest with
                MsgType := pkt_byte st.pbuf__.ibuf__ pack 9,
                TranNbr := pkt_byte st.pbuf__.ibuf__ pack 10 })

/-- Model of `PakBusMsg::reply_to_hello`.  When `SendPBPacket` raises, the
exception is passed on and the saved fields are not restored. -/
def reply_to_hello (st : PakBusMsg) (digest : PktSummary) (pack : Packet) :
    Outcome Unit × PakBusMsg :=
  let tmp_HiProtoCode := st.HiProtoCode__
  let tmp_MsgType := st.MsgType__
  let tmp_TranNbr := st.TranNbr__
  let tmp_DstPhyAddr := st.DstPhyAddr__
  let tmp_DstNodeId := st.DstNodeId__
  let tmp_MsgBodyLen := st.MsgBodyLen__
  let tmp_MsgBody := st.MsgBody__
  let hop := pkt_byte st.pbuf__.ibuf__ pack 12
  let st1 : PakBusMsg := { st with
    HiProtoCode__ := 0x00,
    MsgType__ := 0x89,
    TranNbr__ := digest.TranNbr,
    DstPhyAddr__ := digest.SrcPhyAddrFrmPkt,
    DstNodeId__ := digest.SrcNodeAddrFrmPkt,
    MsgBodyLen__ := 4,
    MsgBody__ := array_set (array_set (array_set (array_set st.MsgBody__ 0 0x00) 1 hop) 2 0x00)
                   3 0x60 }
  match SendPBPacket st1 with
  | (Outcome.ret _, st2) =>
    (Outcome.ret (), { st2 with
      HiProtoCode__ := tmp_HiProtoCode,
      MsgType__ := tmp_MsgType,
      TranNbr__ := tmp_TranNbr,
      DstPhyAddr__ := tmp_DstPhyAddr,
      DstNodeId__ := tmp_DstNodeId,
      MsgBodyLen__ := tmp_MsgBodyLen,
      MsgBody__ := array_set (array_set (array_set (array_set st2.MsgBody__ 0 (tmp_MsgBody 0))
                       1 (tmp_MsgBody 1)) 2 (tmp_MsgBody 2)) 3 (tmp_MsgBody 3) })
  | (Outcome.throw e, st2) => (Outcome.throw e, st2)
  | (Outcome.diverge, st2) => (Outcome.diverge, st2)

/-- Model of `PakBusMsg::send_link_state_pkt`. -/
def send_link_state_pkt (st : PakBusMsg) (SerPktMsgFormat : Nat) (PackSize : Nat) :
    Outcome Unit × PakBusMsg :=
  let ExpCode : Nat := 0x80
  let Prio : Nat := 0x00
  let signull : Nat := 0
  let DstAddr := st.DstPhyAddr__
  let sel : Option (Nat × Nat × Nat) :=
    if SerPktMsgFormat = SERPKT_RING then some (0x90, ExpCode, DstAddr)
    else if SerPktMsgFormat = SERPKT_READY then some (0xa0, 0x00, DstAddr)
    else if SerPktMsgFormat = SERPKT_FINISHED then some (0xb0, 0x00, DstAddr)
    else if SerPktMsgFormat = SERPKT_BROADCAST then some (0x80, ExpCode, 0x0fff)
    else none
  match sel with
  | none => (Outcome.ret (), st)
  | some (LinkState, ExpCode, DstAddr) =>
    let Msg0 := toByte (LinkState ||| (DstAddr >>> 8))
    let Msg1 := toByte (DstAddr &&& 0xff)
    let Msg2 := toByte (ExpCode ||| Prio ||| (st.SrcPhyAddr__ >>> 8))
    let Msg3 := toByte (st.SrcPhyAddr__ &&& 0xff)
    let st := odevs_put st SerSyncByte__
    let st :=
      if PackSize = 8 then
        odevs_write st [Msg0, Msg1, Msg2, Msg3,
          toByte (DstAddr >>> 8), toByte (DstAddr &&& 0xff),
          toByte (st.SrcPhyAddr__ >>> 8), toByte (st.SrcPhyAddr__ &&& 0xff),
          toByte (signull >>> 8), toByte (signull &&& 0xff)]
      else
        let sig := (CalcSig [Msg0, Msg1, Msg2, Msg3] 4 Seed).getD 0
        let signull := CalcSigNullifier sig
        odevs_write st [Msg0, Msg1, Msg2, Msg3, toByte (signull >>> 8), toByte (signull &&& 0xff)]
    let st := odevs_put st SerSyncByte__
    pbuf_writeToDevice st

/-- Model of `PakBusMsg::ParsePakBusPacket`. -/
def ParsePakBusPacket (st : PakBusMsg) (Pack : Packet) (msg_type tran_id : byte) :
    Outcome Nat × PakBusMsg :=
  if ¬ Pack.Complete then (Outcome.ret INCOMPLETE_PKT, st)
  else
    let len := pkt_len Pack
    if len < 8 ∨ len > MAX_PACK_SIZE then (Outcome.ret INVALID_PACKET_SIZE, st)
    else
      match CalcSig (st.pbuf__.ibuf__.drop (Pack.begPacket + 1)) (len - 2).toNat 0xaaaa with
      | none => (Outcome.diverge, st)
      | some sig =>
        if sig ≠ 0 then (Outcome.ret CORRUPT_DATA, st)
        else
          let hd := parse_pakbus_header st Pack {}
          if hd.1 ≠ 0 then (Outcome.ret hd.1, st)
          else
            let digest := hd.2
            if len = 8 then
              let link_state := get_link_state st.pbuf__.ibuf__ Pack
              if link_state = 0x90 then
                match send_link_state_pkt st SERPKT_READY 4 with
                | (Outcome.ret _, st') => (Outcome.ret LINK_STATE_PKT, st')
                | (Outcome.throw e, st') => (Outcome.throw e, st')
                | (Outcome.diverge, st') => (Outcome.diverge, st')
              else (Outcome.ret LINK_STATE_PKT, st)
            else if digest.TranNbr ≠ tran_id ∨ digest.MsgType ≠ msg_type then
              if digest.Protocol = 0 ∧ digest.MsgType = 0x09 then
                match reply_to_hello st digest Pack with
                | (Outcome.ret _, st') => (Outcome.ret HELLO_MSG, st')
                | (Outcome.throw e, st') => (Outcome.throw e, st')
                | (Outcome.diverge, st') => (Outcome.diverge, st')
              else if digest.Protocol = 0 ∧ digest.MsgType = 0x81 then
                (Outcome.ret DELIVERY_FAILURE, st)
              else (Outcome.ret IGNORE_MSG, st)
            else (Outcome.ret SUCCESS, st)

/-- The `while (packetQueue__->size())` loop of `PakBusMsg::HandShake`; the
last argument is the flag `IsOK`. -/
def HandShake_loop (mode : Nat) : Nat → PakBusMsg → Bool → Outcome Bool × PakBusMsg
  | 0, st, IsOK => (Outcome.ret IsOK, st)
  | fuel + 1, st, IsOK =>
    match st.pbuf__.packetQueue__ with
    | [] => (Outcome.ret IsOK, st)
    | pack :: _ =>
      match ParsePakBusPacket st pack 0 0 with
      | (Outcome.throw e, st) => (Outcome.throw e, st)
      | (Outcome.diverge, st) => (Outcome.diverge, st)
      | (Outcome.ret stat, st) =>
        let pop := fun (st : PakBusMsg) =>
          { st with pbuf__ := { st.pbuf__ with packetQueue__ := st.pbuf__.packetQueue__.tail } }
        if stat = LINK_STATE_PKT then
          let link_state := get_link_state st.pbuf__.ibuf__ pack
          if mode = SERPKT_RING ∧ link_state = 0xa0 then
            HandShake_loop mode fuel (pop st) true
          else if mode = SERPKT_FINISHED then
            HandShake_loop mode fuel (pop st) true
          else if link_state = 0x90 then
            let len := pkt_len pack
            if len = 8 then
              match send_link_state_pkt st SERPKT_READY 4 with
              | (Outcome.ret _, st) => HandShake_loop mode fuel (pop st) IsOK
              | (Outcome.throw e, st) => (Outcome.throw e, st)
              | (Outcome.diverge, st) => (Outcome.diverge, st)
            else if len = 12 then
              match send_link_state_pkt st SERPKT_READY 8 with
              | (Outcome.ret _, st) => HandShake_loop mode fuel (pop st) IsOK
              | (Outcome.throw e, st) => (Outcome.throw e, st)
              | (Outcome.diverge, st) => (Outcome.diverge, st)
            else HandShake_loop mode fuel (pop st) IsOK
          else HandShake_loop mode fuel (pop st) IsOK
        else HandShake_loop mode fuel (pop st) IsOK

/-- Lift of `pakbuf::readFromDevice` to the message layer. -/
def pbuf_readFromDevice (st : PakBusMsg) : Outcome Nat × PakBusMsg :=
  ((readFromDevice st.pbuf__).1, { st with pbuf__ := (readFromDevice st.pbuf__).2 })

/-- Model of `PakBusMsg::HandShake (mode)`. -/
def HandShake (st : PakBusMsg) (mode : Nat) : Outcome Unit × PakBusMsg :=
  match send_link_state_pkt st mode 4 with
  | (Outcome.throw e, st) => (Outcome.throw e, st)
  | (Outcome.diverge, st) => (Outcome.diverge, st)
  | (Outcome.ret _, st) =>
    match pbuf_readFromDevice st with
    | (Outcome.throw e, st) => (Outcome.throw e, st)
    | (Outcome.diverge, st) => (Outcome.diverge, st)
    | (Outcome.ret _, st) =>
      match HandShake_loop mode st.pbuf__.packetQueue__.length st false with
      | (Outcome.throw e, st) => (Outcome.throw e, st)
      | (Outcome.diverge, st) => (Outcome.diverge, st)
      | (Outcome.ret IsOK, st) =>
        if IsOK = false then (Outcome.throw Exception.PakBusException, st)
        else (Outcome.ret (), st)

/-- The state of a `pakbuf` after its constructor, attached to a device that
will deliver `devIn` and whose writes end as `devWriteFails` tells. -/
def pakbuf.init (ibuflen obuflen : Nat) (devIn : List (List byte))
    (devWriteFails : List Bool) : pakbuf :=
  { ibuf__ := List.replicate ibuflen 0
    obuf__ := []
    obufsize__ := obuflen
    packetQueue__ := []
    devOut := []
    devWriteFails := devWriteFails
    devIn := devIn
    successive_bad_read := 0
    nbytes_last_read := 1 }

/-- The state of a message-layer object after the constructor `PakBusMsg ()`,
the constructor of the derived class (which sets `HiProtoCode__`),
`setPakBusAddr` and `setIOBuf`.  Members the constructors leave unset are
zero. -/
def PakBusMsg.init (HiProtoCode : byte) (PakBusID NodePakBusID SecurityCode : Nat)
    (IOBuf : pakbuf) : PakBusMsg :=
  { Hdr__ := []
    MsgBody__ := fun _ => 0
    MsgBodyLen__ := 0
    LinkState__ := 0x0a
    DstPhyAddr__ := PakBusID % 65536
    ExpMoreCode__ := 0x01
    SecurityCode__ := SecurityCode
    Priority__ := 0x01
    SrcPhyAddr__ := 0x0ffe
    HiProtoCode__ := HiProtoCode
    DstNodeId__ := NodePakBusID % 65536
    HopCnt__ := 0x00
    SrcNodeId__ := 0x0ffe
    MsgType__ := 0
    TranNbr__ := 0x00
    odevs_bad := false
    pbuf__ := IOBuf }

/-- The value held in the low 12 bits of a pair of header bytes. -/
def hdr12 (hi lo : byte) : Nat := (hi.val % 16) * 256 + lo.val

/-- The value held in the high nibble of a header byte. -/
def hdr_nibble (b : byte) : Nat := b.val / 16

/-- One step of the signature as the specification words it. -/
def sig_step_spec (sig : Nat) (b : byte) : Nat :=
  let tmp := (sig <<< 1) &&& 0x1FF
  let tmp := if tmp ≥ 0x100 then tmp + 1 else tmp
  ((tmp + (sig >>> 8) + b.val) &&& 0xFF) ||| ((sig &&& 0xFF) <<< 8)

/-! ## pb5_data.cpp: time values -/

/-- Structure `NSec` of `pb5_data.h`; both members are `uint4`. -/
structure NSec where
  sec : Nat
  nsec : Nat
  deriving DecidableEq, Repr

/-- Model of `NSec::operator+=`.  The comparison `tmp >= 1E9` is made in
`double`, where both sides are exact. -/
def NSec.plusEq (self timeVal : NSec) : NSec :=
  let sec := (self.sec + timeVal.sec) % 4294967296
  let tmp := (self.nsec + timeVal.nsec) % 4294967296
  if tmp ≥ 1000000000 then
    { sec := (sec + 1) % 4294967296, nsec := (tmp + 4294967296 - 1000000000) % 4294967296 }
  else
    { sec := sec, nsec := self.nsec }

/-- Model of `nseccmp`. -/
def nseccmp (t1 t2 : NSec) : Int :=
  if t1.sec < t2.sec then -1
  else if t1.sec > t2.sec then 1
  else if t1.nsec = t2.nsec then 0
  else if t1.nsec < t2.nsec then -1
  else 1

/-- Total number of nanoseconds of a time value. -/
def NSec.total (t : NSec) : Nat := t.sec * 1000000000 + t.nsec

/-- Rotation to the left of an 8-bit value, as computed in `CalcSig`. -/
def rot8 (l : Nat) : Nat := if 256 ≤ 2 * l then 2 * l + 1 else 2 * l

/-- The packet `SendPBPacket` assembles in the output buffer, before quoting:
`0xBD`, the ten header bytes, the message body, the two bytes of the nullifier
of the signature of header and body, `0xBD`. -/
def wire_frame (st : PakBusMsg) : List byte :=
  let hb := header_bytes st ++ array_take st.MsgBody__ st.MsgBodyLen__
  let signull := CalcSigNullifier ((CalcSig hb hb.length Seed).getD 0)
  0xbd :: hb ++ [toByte (signull >>> 8), toByte signull] ++ [0xbd]

/-- The state in which the put area of the output buffer holds `o`. -/
def with_obuf (st : PakBusMsg) (o : List byte) : PakBusMsg :=
  { st with pbuf__ := { st.pbuf__ with obuf__ := o } }

/-- The state in which `Hdr__` holds `h`. -/
def with_Hdr (st : PakBusMsg) (h : List byte) : PakBusMsg := { st with Hdr__ := h }

/-- Whether the coming call of `write(2)` on the device returns `-1`. -/
def next_write_fails (pb : pakbuf) : Bool := pb.devWriteFails.headD false

/-- The header and body members as `reply_to_hello` sets them before it calls
`SendPBPacket`. -/
def hello_reply_state (st : PakBusMsg) (digest : PktSummary) (pack : Packet) : PakBusMsg :=
  { st with
    HiProtoCode__ := 0x00,
    MsgType__ := 0x89,
    TranNbr__ := digest.TranNbr,
    DstPhyAddr__ := digest.SrcPhyAddrFrmPkt,
    DstNodeId__ := digest.SrcNodeAddrFrmPkt,
    MsgBodyLen__ := 4,
    MsgBody__ := array_set (array_set (array_set (array_set st.MsgBody__ 0 0x00) 1
                   (pkt_byte st.pbuf__.ibuf__ pack 12)) 2 0x00) 3 0x60 }

/-! ## Sample inputs -/

/-- A message-layer object of protocol `HiProtoCode` set up for a logger with
PakBus id 1, node id 1 and security code 0, whose input buffer holds `ibuf`. -/
def sample_state (HiProtoCode : byte) (ibuf : List byte) (devIn : List (List byte))
    (devWriteFails : List Bool) : PakBusMsg :=
  PakBusMsg.init HiProtoCode 1 1 0 { pakbuf.init 0 512 devIn devWriteFails with ibuf__ := ibuf }

/-- An unsolicited Hello (`msg_type = 0x09`, protocol 0, transaction 5) from
logger 1, with a valid signature nullifier. -/
def sample_hello : List byte :=
  [0xbd, 0xaf, 0xfe, 0x50, 0x01, 0x0f, 0xfe, 0x00, 0x01, 0x09, 0x05, 0x00, 0x02, 0x00, 0x3c,
   0x50, 0xaf, 0xbd]

/-- A Ring link-state packet from logger 1 with a 4-byte body. -/
def sample_ring4 : List byte := [0xbd, 0x9f, 0xfe, 0x80, 0x01, 0xa4, 0x47, 0xbd]

/-- A Ring link-state packet from logger 1 with an 8-byte body (link byte,
addresses, protocol and node addresses), with a valid signature nullifier. -/
def sample_ring8 : List byte :=
  [0xbd, 0x9f, 0xfe, 0x80, 0x01, 0x0f, 0xfe, 0x00, 0x01, 0x43, 0x65, 0xbd]

/-- A collect-data response (`msg_type = 0x89`, protocol 1, transaction 5) from
logger 1 that carries a status byte and a table number only, with a valid
signature nullifier. -/
def sample_response : List byte :=
  [0xbd, 0xaf, 0xfe, 0x50, 0x01, 0x1f, 0xfe, 0x00, 0x01, 0x89, 0x05, 0x00, 0x00, 0x01, 0xfc,
   0xc1, 0xbd]

/-- Two states agree on the members that describe the message to send: the
body, its length and the header fields. -/
def same_message (a b : PakBusMsg) : Prop :=
  a.MsgBody__ = b.MsgBody__ ∧ a.MsgBodyLen__ = b.MsgBodyLen__ ∧ a.LinkState__ = b.LinkState__ ∧
  a.DstPhyAddr__ = b.DstPhyAddr__ ∧ a.ExpMoreCode__ = b.ExpMoreCode__ ∧
  a.SecurityCode__ = b.SecurityCode__ ∧ a.Priority__ = b.Priority__ ∧
  a.SrcPhyAddr__ = b.SrcPhyAddr__ ∧ a.HiProtoCode__ = b.HiProtoCode__ ∧
  a.DstNodeId__ = b.DstNodeId__ ∧ a.HopCnt__ = b.HopCnt__ ∧ a.SrcNodeId__ = b.SrcNodeId__ ∧
  a.MsgType__ = b.MsgType__ ∧ a.TranNbr__ = b.TranNbr__

/-- A message-layer object on the logger's side of the link (PakBus id 1, node
id 1, talking to node 0xffe) whose input buffer holds `ibuf`. -/
def sample_receiver (ibuf : List byte) : PakBusMsg :=
  { sample_state 1 ibuf [] [] with
    SrcPhyAddr__ := 1, DstPhyAddr__ := 0x0ffe, SrcNodeId__ := 1, DstNodeId__ := 0x0ffe }

/-! ## pb5_data.h, pb5_data.cpp: fields, tables and the record decoder -/

/-- Structure `Field` of `pb5_data.h` (the members the decoder uses). -/
structure Field where
  FieldType : byte
  FieldName : String
  Processing : String := ""
  Unit : String := ""
  Description : String := ""
  BegIdx : Nat := 0
  Dimension : Nat
  SubDim : List Nat := []
  deriving DecidableEq, Repr

/-- Structure `Table` of `pb5_data.h`. -/
structure Table where
  TblName : String
  TblNum : Int
  TblSize : Nat
  TimeType : byte := 0
  TblTimeInfo : NSec := ⟨0, 0⟩
  TblTimeInterval : NSec
  field_list : List Field
  TblSignature : Nat := 0
  FirstSampleInFile : Nat := 0
  NewFileTime : Nat := 0
  NextRecord : Nat := 0
  LastRecordTime : NSec := ⟨0, 0⟩
  deriving DecidableEq, Repr

/-- Structure `TableOpt` of `pb5_data.h`. -/
structure TableOpt where
  TableName : String
  TableSpan : Int := 3600
  SampleInt : Int := 0
  deriving DecidableEq, Repr

/-- A `float` handed to the writer, named by the conversion that produces it:
`GetFinalStorageFloat (unum)` or `intBitsToFloat (bits)`. -/
inductive FloatValue where
  | GetFinalStorageFloat (unum : Nat)
  | intBitsToFloat (bits : Nat)
  deriving DecidableEq, Repr

/-- A call of a member function of the `TableDataWriter` interface, with the
name of the table or field it is made for and its arguments. -/
inductive WriterCall where
  | initWrite (tbl : String)
  | processRecordBegin (tbl : String) (recordIdx : Int) (recordTime : NSec)
  | storeBool (var : String) (flag : Bool)
  | storeInt (var : String) (num : Int)
  | storeFloat (var : String) (num : FloatValue)
  | storeString (var : String) (str : List byte)
  | storeUint4 (var : String) (num : Nat)
  | processUnimplemented (var : String)
  | processRecordEnd (tbl : String)
  | finishWrite (tbl : String)
  | flush (tbl : String)
  deriving DecidableEq, Repr

/-- State of the data writer (`AsciiWriter`, the writer `TableDataManager`
creates): its file span, every call made to it so far (oldest first), and
which calls fail in the file system and raise (`raises`).  Of the calls of
`processRecordBegin` that raise, `raises_in_file_change` tells which do so
while the data file is changed (in `close`, `moveRawFile` or `openDataFile`);
the others raise in the write of the time stamp to the stream. -/
structure AsciiWriter where
  fileSpan__ : Int := 3600
  calls : List WriterCall := []
  raises : WriterCall → Bool := fun _ => false
  raises_in_file_change : WriterCall → Bool := fun _ => false

/-- A call of a member function of the writer: the call is recorded; the
first component tells whether it raises. -/
def AsciiWriter.call (w : AsciiWriter) (c : WriterCall) : Bool × AsciiWriter :=
  (w.raises c, { w with calls := w.calls ++ [c] })

/-- The conversion of a `uint4` to `int`. -/
def toInt32 (n : Nat) : Int :=
  if n % 4294967296 < 2147483648 then (n % 4294967296 : Nat) else (n % 4294967296 : Nat) - 4294967296

/-- The conversion of an `int` to `uint4`. -/
def toUInt32 (i : Int) : Nat := (i % 4294967296).toNat

/-- Model of `AsciiWriter::processRecordBegin`: the call, and the bookkeeping
of the file span on the table when the record opens a new span.  A call that
raises while the data file is changed leaves the table as it was; a call that
raises in the write to the stream, the last statement of the function, has
done the bookkeeping before.  The first component tells whether the call
raises.  The division is the unsigned one of C, for a non-zero `fileSpan__`. -/
def AsciiWriter.processRecordBegin (w : AsciiWriter) (tbl_ref : Table) (recordIdx : Int)
    (recordTime : NSec) : Bool × AsciiWriter × Table :=
  let r := w.call (WriterCall.processRecordBegin tbl_ref.TblName recordIdx recordTime)
  if recordTime.sec ≥ tbl_ref.NewFileTime then
    if r.1 ∧ w.raises_in_file_change
        (WriterCall.processRecordBegin tbl_ref.TblName recordIdx recordTime) then
      (true, r.2, tbl_ref)
    else
      (r.1, r.2,
        { tbl_ref with
          FirstSampleInFile := recordTime.sec,
          NewFileTime := toUInt32 (w.fileSpan__ * toInt32 (recordTime.sec / toUInt32 w.fileSpan__)
                           + w.fileSpan__) })
  else (r.1, r.2, tbl_ref)

/-- Model of `parseRecordTime`. -/
def parseRecordTime (data : List byte) : NSec :=
  { sec := PBDeserialize data 4, nsec := PBDeserialize (data.drop 4) 4 }

/-- Model of `GetVarLenString`: the bytes before the first zero byte. -/
def GetVarLenString (str_ptr : List byte) : List byte :=
  str_ptr.takeWhile (fun c => c ≠ 0x00)

/-- The loop of `GetFixedLenString`. -/
def GetFixedLenString_loop (Dimension : Nat) : List byte → Nat → List byte
  | [], _ => []
  | c :: rest, count =>
    if count < Dimension ∧ (c ≠ 0x0d ∧ c ≠ 0x0a ∧ c ≠ 0x00) then
      c :: GetFixedLenString_loop Dimension rest (count + 1)
    else []

/-- Model of `GetFixedLenString`. -/
def GetFixedLenString (str_ptr : List byte) (var : Field) : List byte :=
  GetFixedLenString_loop var.Dimension str_ptr 0

/-- Model of `TableDataManager::storeDataSample`: the call made to the writer
and the number of bytes by which `*data` is advanced. -/
def storeDataSample (var : Field) (data : List byte) : WriterCall × Nat :=
  match var.FieldType.val with
  | 7 => (WriterCall.storeFloat var.FieldName
            (FloatValue.GetFinalStorageFloat (PBDeserialize data 2 % 65536)), 2)
  | 6 => (WriterCall.storeInt var.FieldName (toInt32 (PBDeserialize data 4)), 4)
  | 9 => (WriterCall.storeFloat var.FieldName
            (FloatValue.intBitsToFloat (toUInt32 (toInt32 (PBDeserialize data 4)))), 4)
  | 10 => (WriterCall.storeBool var.FieldName (decide (PBDeserialize data 1 &&& 0x80 ≠ 0)), 1)
  | 16 => (WriterCall.storeString var.FieldName (GetVarLenString data),
            (GetVarLenString data).length + 1)
  | 11 => (WriterCall.storeString var.FieldName (GetFixedLenString data var), var.Dimension)
  | 1 => (WriterCall.storeUint4 var.FieldName (PBDeserialize data 1), 1)
  | 2 => (WriterCall.storeUint4 var.FieldName (PBDeserialize data 2), 2)
  | 3 => (WriterCall.storeUint4 var.FieldName (PBDeserialize data 4), 4)
  | 4 => (WriterCall.storeInt var.FieldName (toInt32 (PBDeserialize data 1)), 1)
  | 5 => (WriterCall.storeInt var.FieldName (toInt32 (PBDeserialize data 2)), 2)
  | 18 => (WriterCall.processUnimplemented var.FieldName, 8)
  | 15 => (WriterCall.processUnimplemented var.FieldName, 3)
  | 8 => (WriterCall.processUnimplemented var.FieldName, 4)
  | 17 => (WriterCall.storeUint4 var.FieldName (PBDeserialize data 1), 1)
  | 27 => (WriterCall.storeBool var.FieldName (decide (PBDeserialize data 1 &&& 0x80 ≠ 0)), 1)
  | 28 => (WriterCall.storeBool var.FieldName (decide (PBDeserialize data 1 &&& 0x80 ≠ 0)), 1)
  | 12 => (WriterCall.storeUint4 var.FieldName (PBDeserialize data 4), 4)
  | 13 => (WriterCall.storeUint4 var.FieldName (PBDeserialize data 4), 6)
  | 14 => (WriterCall.processUnimplemented var.FieldName, 8)
  | 19 => (WriterCall.processUnimplemented var.FieldName, 2)
  | 20 => (WriterCall.processUnimplemented var.FieldName, 4)
  | 21 => (WriterCall.processUnimplemented var.FieldName, 2)
  | 22 => (WriterCall.processUnimplemented var.FieldName, 4)
  | 24 => (WriterCall.processUnimplemented var.FieldName, 4)
  | 25 => (WriterCall.processUnimplemented var.FieldName, 8)
  | 23 => (WriterCall.processUnimplemented var.FieldName, 8)
  | 26 => (WriterCall.processUnimplemented var.FieldName, 4)
  | _ => (WriterCall.processUnimplemented var.FieldName, 0)

/-- Model of `TableDataManager::getFieldSize`; the result is an `int`, and the
product with the `uint4` dimension is converted back to `int`. -/
def getFieldSize (field : Field) : Int :=
  let field_size : Int :=
    match field.FieldType.val with
    | 1 => 1 | 2 => 2 | 3 => 4 | 4 => 1 | 5 => 2 | 6 => 4 | 7 => 2 | 8 => 4 | 9 => 4
    | 10 => 1 | 11 => toInt32 field.Dimension | 12 => 4 | 13 => 6 | 14 => 8 | 15 => 3 | 16 => -1
    | 17 => 1 | 18 => 8 | 19 => 2 | 20 => 4 | 21 => 2 | 22 => 4 | 23 => 8 | 24 => 4
    | 25 => 8 | 27 => 2 | 28 => 4
    | _ => -1
  if field_size > 0 then
    if field.FieldType ≠ 11 then toInt32 (field_size.toNat * field.Dimension) else field_size
  else field_size

/-- The `for` loop of `TableDataManager::getRecordSize`. -/
def getRecordSize_loop : List Field → Int → Int
  | [], RecSize => RecSize
  | f :: rest, RecSize =>
    if getFieldSize f > 0 then getRecordSize_loop rest (RecSize + getFieldSize f) else -1

/-- Model of `TableDataManager::getRecordSize`. -/
def getRecordSize (tbl : Table) : Int := getRecordSize_loop tbl.field_list 0

/-- The loop `for (dim = 0; dim < (int) Dimension; dim++) storeDataSample (...)`
of `TableDataManager::storeRecord`; `data` is the offset of `*data` in `buf`.
The sample is handed to the writer, and the offset advances when the writer
returns. -/
def storeRecord_dims (var : Field) (buf : List byte) :
    Nat → AsciiWriter → Nat → Outcome Unit × AsciiWriter × Nat
  | 0, w, data => (Outcome.ret (), w, data)
  | n + 1, w, data =>
    let s := storeDataSample var (buf.drop data)
    let r := w.call s.1
    if r.1 then (Outcome.throw Exception.StorageException, r.2, data)
    else storeRecord_dims var buf n r.2 (data + s.2)

/-- The loop over the fields of `TableDataManager::storeRecord`. -/
def storeRecord_fields (buf : List byte) :
    List Field → AsciiWriter → Nat → Outcome Unit × AsciiWriter × Nat
  | [], w, data => (Outcome.ret (), w, data)
  | f :: rest, w, data =>
    let n := if f.FieldType = 11 ∨ f.FieldType = 16 then 1 else (toInt32 f.Dimension).toNat
    match storeRecord_dims f buf n w data with
    | (Outcome.ret _, w, data) => storeRecord_fields buf rest w data
    | r => r

/-- Model of `TableDataManager::storeRecord`; `data` is the offset of `*data`
in `buf`, and the last component of the result its new value.  Whatever is
raised inside the `try` block leaves as a `StorageException`.  The parameter
`file_span` is not used by the function. -/
def storeRecord (w : AsciiWriter) (tbl_ref : Table) (buf : List byte) (data : Nat)
    (rec_num : Nat) (_file_span : Int) (parseTimestamp : Bool) :
    Outcome Nat × AsciiWriter × Table × Nat :=
  let recordTime :=
    if parseTimestamp then parseRecordTime (buf.drop data)
    else tbl_ref.LastRecordTime.plusEq tbl_ref.TblTimeInterval
  let data := if parseTimestamp then data + 8 else data
  let b := w.processRecordBegin tbl_ref (toInt32 rec_num) recordTime
  if b.1 then (Outcome.throw Exception.StorageException, b.2.1, b.2.2, data)
  else
    match storeRecord_fields buf tbl_ref.field_list b.2.1 data with
    | (Outcome.ret _, w, data) =>
      let e := w.call (WriterCall.processRecordEnd tbl_ref.TblName)
      if e.1 then (Outcome.throw Exception.StorageException, e.2, b.2.2, data)
      else
        (Outcome.ret SUCCESS, e.2,
          { b.2.2 with LastRecordTime := recordTime,
                       NextRecord := (b.2.2.NextRecord + 1) % 4294967296 }, data)
    | (Outcome.throw _, w, data) => (Outcome.throw Exception.StorageException, w, b.2.2, data)
    | (Outcome.diverge, w, data) => (Outcome.diverge, w, b.2.2, data)

/-- Model of `TableDataManager::flushTableDataCache`; `flush` of the writer
raises when the data file cannot be moved. -/
def flushTableDataCache (w : AsciiWriter) (tblRef : Table) : Outcome Unit × AsciiWriter × Table :=
  let r := w.call (WriterCall.flush tblRef.TblName)
  if r.1 then (Outcome.throw Exception.StorageException, r.2, tblRef)
  else (Outcome.ret (), r.2, { tblRef with NewFileTime := 0, FirstSampleInFile := 0 })

/-! ## pb5_proto_bmp.cpp: the collection of table data -/

/-- Structure `RecordStat` of `pb5_proto.h`. -/
structure RecordStat where
  count : Int := -1
  recordTime : NSec := ⟨0, 0⟩
  deriving DecidableEq, Repr

/-- State of a `BMP5Obj`: the `PakBusMsg` it derives from, the buffer
`dataBuf__` of `dataBufSize__` bytes in which fragments are assembled, and the
table list and the writer of the `TableDataManager` it points to. -/
structure BMP5Obj where
  base : PakBusMsg
  dataBuf__ : Nat → byte := fun _ => 0
  dataBufSize__ : Nat := 8192
  tableList__ : List Table := []
  tblDataWriter__ : AsciiWriter := {}

/-- The loop `while (rec_num < nrecs)` of `BMP5Obj::store_data`; the first
argument is `nrecs - rec_num`. -/
def store_data_loop (buf : List byte) (beg : Int) (file_span : Int) :
    Nat → Int → Bool → Nat → AsciiWriter → Table → Nat → Outcome Nat × AsciiWriter × Table × Nat
  | 0, _, _, stat, w, tbl, data => (Outcome.ret stat, w, tbl, data)
  | n + 1, rec_num, parseTimestamp, _, w, tbl, data =>
    match storeRecord w tbl buf data (toUInt32 (beg + rec_num)) file_span parseTimestamp with
    | (Outcome.ret stat, w, tbl, data) =>
      if stat = FAILURE then (Outcome.ret stat, w, tbl, data)
      else store_data_loop buf beg file_span n (rec_num + 1) false stat w tbl data
    | r => r

/-- Model of `BMP5Obj::store_data`; `buf` holds the bytes from the pointer
`buf` on. -/
def store_data (w : AsciiWriter) (tbl : Table) (buf : List byte) (beg nrecs : Int)
    (file_span : Int) : Outcome Nat × AsciiWriter × Table × Nat :=
  store_data_loop buf beg file_span nrecs.toNat 0 true FAILURE w tbl 0

/-- The assignment of the bytes `bytes` to `a[off], a[off + 1], ...`. -/
def array_write (a : Nat → byte) (off : Nat) (bytes : List byte) : Nat → byte :=
  fun k => if off ≤ k ∧ k < off + bytes.length then bytes.getD (k - off) 0 else a k

/-- Model of `BMP5Obj::sendCollectionCmd`. -/
def sendCollectionCmd (st : PakBusMsg) (message_type : Nat) (tbl : Table) (P1 P2 : Nat) :
    Outcome Int × PakBusMsg :=
  let st := { st with Priority__ := 0x02, MsgType__ := 0x09 }
  let len : Option Nat :=
    if message_type = 0x06 then some 17
    else if message_type = 0x05 then some 13
    else if message_type = 0x08 then some 17
    else if message_type = 0x03 then some 9
    else if message_type = 0x04 then some 13
    else if message_type = 0x07 then some 17
    else none
  match len with
  | none => (Outcome.ret (-1), st)
  | some len =>
    let st := SetSecurityCodeInMsgBody { st with MsgBodyLen__ := len }
    let body := array_set st.MsgBody__ 2 (toByte message_type)
    let body := array_write body 3 (PBSerialize (toUInt32 tbl.TblNum) 2)
    let body := array_write body 5 (PBSerialize tbl.TblSignature 2)
    let body :=
      if len = 9 then array_write body 7 (PBSerialize 0 2)
      else
        let body := array_write body 7 (PBSerialize P1 4)
        if len = 13 then array_write body 11 (PBSerialize 0 2)
        else array_write (array_write body 11 (PBSerialize P2 4)) 15 (PBSerialize 0 2)
    match SendPBPacket { st with MsgBody__ := body } with
    | (Outcome.ret _, st) => (Outcome.ret (st.TranNbr__.val : Int), st)
    | (Outcome.throw e, st) => (Outcome.throw e, st)
    | (Outcome.diverge, st) => (Outcome.diverge, st)

/-- Model of `BMP5Obj::test_data_packet`. -/
def test_data_packet (ibuf : List byte) (tbl_ref : Table) (pack : Packet) : Outcome Nat :=
  if pack.endPacket < pack.begPacket + 10 then Outcome.ret FAILURE
  else if pkt_byte ibuf pack 11 ≠ 0 then
    if pkt_byte ibuf pack 11 = 0x01 then Outcome.throw Exception.InvalidTDFException
    else if pkt_byte ibuf pack 11 = 0x02 then Outcome.throw Exception.AppException
    else if pkt_byte ibuf pack 11 = 0x07 then Outcome.throw Exception.AppException
    else Outcome.throw Exception.AppException
  else
    let tbl_num_from_resp := toInt32 (PBDeserialize (ibuf.drop (pack.begPacket + 12)) 2)
    if tbl_num_from_resp ≠ tbl_ref.TblNum then Outcome.ret FAILURE
    else if ((pack.begPacket + 14 : Nat) : Int) ≥ (pack.endPacket : Int) - 2 then
      Outcome.ret FAILURE
    else Outcome.ret SUCCESS

/-- The local variables of `BMP5Obj::get_records` that live across packets and
requests, with the parameters `P1` and `P2`, which the function reassigns. -/
structure get_records_vars where
  beg_rec_nbr : Nat := 0xffffffff
  beg_rec_time : NSec := ⟨0, 0⟩
  collect_mode : Nat
  data_len : Int := 0
  frag_record : Nat := 0
  num_recs : Nat := 0
  pending : Bool := false
  stat : Nat := SUCCESS
  P1 : Nat
  P2 : Nat
  deriving DecidableEq, Repr

/-- The call `store_data (...)` of `get_records` with the members of the
object. -/
def BMP5Obj.call_store_data (st : BMP5Obj) (tbl : Table) (buf : List byte) (beg nrecs : Int)
    (file_span : Int) : Outcome Nat × BMP5Obj × Table :=
  let r := store_data st.tblDataWriter__ tbl buf beg nrecs file_span
  (r.1, { st with tblDataWriter__ := r.2.1 }, r.2.2.1)

/-- The body of the loop `while (packetQueue__->size())` of
`BMP5Obj::get_records` for the packet `pack` at the front of the queue, up to
the `pop_front`.  A fragment whose data length `pack_data_len` is negative is
outside the model (its `memcpy` has no defined behaviour); the model copies
nothing for it. -/
def get_records_packet (store_mode : Nat) (record_size : Int) (span : Int) (tran_id : byte)
    (st : BMP5Obj) (tbl_ref : Table) (v : get_records_vars) (pack : Packet) :
    Outcome get_records_vars × BMP5Obj × Table :=
  match ParsePakBusPacket st.base pack 0x89 tran_id with
  | (Outcome.throw e, b) => (Outcome.throw e, { st with base := b }, tbl_ref)
  | (Outcome.diverge, b) => (Outcome.diverge, { st with base := b }, tbl_ref)
  | (Outcome.ret pack_stat, b) =>
    let st := { st with base := b }
    if pack_stat ≠ 0 then
      let stat := if pack_stat = FAILURE ∨ pack_stat &&& 0x0b = 0x0b then FAILURE else SUCCESS
      (Outcome.ret { v with stat := stat }, st, tbl_ref)
    else
      match test_data_packet st.base.pbuf__.ibuf__ tbl_ref pack with
      | Outcome.throw e => (Outcome.throw e, st, tbl_ref)
      | Outcome.diverge => (Outcome.diverge, st, tbl_ref)
      | Outcome.ret stat =>
        if stat ≠ 0 then (Outcome.ret { v with stat := stat }, st, tbl_ref)
        else
          let ibuf := st.base.pbuf__.ibuf__
          let beg := pack.begPacket
          let beg_rec_nbr := PBDeserialize (ibuf.drop (beg + 14)) 4
          let frag_record := ((pkt_byte ibuf pack 18).val &&& 0x80) >>> 7
          let beg_rec_time :=
            if frag_record ≠ 0 then parseRecordTime (ibuf.drop (beg + 22))
            else parseRecordTime (ibuf.drop (beg + 20))
          let v := { v with stat := stat, beg_rec_nbr := beg_rec_nbr,
                            frag_record := frag_record, beg_rec_time := beg_rec_time }
          if frag_record ≠ 0 then
            let byte_offset := PBDeserialize (ibuf.drop (beg + 18)) 4 &&& 0x7fffffff
            let pack_data_len : Int := ((pack.endPacket : Int) - 4) - ((beg : Int) + 30) + 1
            let dataBuf := array_write st.dataBuf__ byte_offset
              (array_take (fun k => ibuf.getD (beg + 22 + k) 0) pack_data_len.toNat)
            let st := { st with dataBuf__ := dataBuf }
            let v := { v with collect_mode := 0x08, P1 := beg_rec_nbr,
                              P2 := toUInt32 (pack_data_len + byte_offset) }
            let v := if record_size = -1 then v else { v with data_len := v.data_len + pack_data_len }
            let complete :=
              if record_size = -1 then decide (pack_data_len < 512)
              else decide (v.data_len ≥ record_size)
            if complete then
              if store_mode ≠ 0 then
                match st.call_store_data tbl_ref (array_take st.dataBuf__ st.dataBufSize__)
                        (toInt32 beg_rec_nbr) 1 span with
                | (Outcome.ret stat, st, tbl_ref) =>
                  (Outcome.ret { v with stat := stat, pending := false,
                                        num_recs := if stat = SUCCESS then 1 else v.num_recs },
                    st, tbl_ref)
                | (Outcome.throw e, st, tbl_ref) => (Outcome.throw e, st, tbl_ref)
                | (Outcome.diverge, st, tbl_ref) => (Outcome.diverge, st, tbl_ref)
              else (Outcome.ret { v with pending := false }, st, tbl_ref)
            else (Outcome.ret { v with pending := true }, st, tbl_ref)
          else
            if store_mode ≠ 0 then
              let num_recs := (PBDeserialize (ibuf.drop (beg + 18)) 2 % 65536) &&& 0x7fff
              match st.call_store_data tbl_ref (ibuf.drop (beg + 20)) (toInt32 beg_rec_nbr) num_recs
                      span with
              | (Outcome.ret stat, st, tbl_ref) =>
                (Outcome.ret { v with stat := stat, pending := false, num_recs := num_recs },
                  st, tbl_ref)
              | (Outcome.throw e, st, tbl_ref) => (Outcome.throw e, st, tbl_ref)
              | (Outcome.diverge, st, tbl_ref) => (Outcome.diverge, st, tbl_ref)
            else (Outcome.ret { v with pending := false }, st, tbl_ref)

/-- The statement `packetQueue__->pop_front ()`. -/
def BMP5Obj.pop_front (st : BMP5Obj) : BMP5Obj :=
  { st with base := { st.base with pbuf__ :=
      { st.base.pbuf__ with packetQueue__ := st.base.pbuf__.packetQueue__.tail } } }

/-- The loop `while (packetQueue__->size())` of `BMP5Obj::get_records`; the
first argument bounds the number of packets in the queue. -/
def get_records_queue (store_mode : Nat) (record_size : Int) (span : Int) (tran_id : byte) :
    Nat → BMP5Obj → Table → get_records_vars → Outcome get_records_vars × BMP5Obj × Table
  | 0, st, tbl_ref, v => (Outcome.ret v, st, tbl_ref)
  | n + 1, st, tbl_ref, v =>
    match st.base.pbuf__.packetQueue__ with
    | [] => (Outcome.ret v, st, tbl_ref)
    | pack :: _ =>
      match get_records_packet store_mode record_size span tran_id st tbl_ref v pack with
      | (Outcome.ret v, st, tbl_ref) =>
        get_records_queue store_mode record_size span tran_id n st.pop_front tbl_ref v
      | r => r

/-- The loop `do { ... } while (pending)` of `BMP5Obj::get_records`, with fuel
for the number of requests. -/
def get_records_loop (store_mode : Nat) (record_size : Int) (span : Int) :
    Nat → BMP5Obj → Table → get_records_vars → Outcome get_records_vars × BMP5Obj × Table
  | 0, st, tbl_ref, _ => (Outcome.diverge, st, tbl_ref)
  | fuel + 1, st, tbl_ref, v =>
    let g := GenTranNbr st.base
    match sendCollectionCmd g.2 v.collect_mode tbl_ref v.P1 v.P2 with
    | (Outcome.throw e, b) => (Outcome.throw e, { st with base := b }, tbl_ref)
    | (Outcome.diverge, b) => (Outcome.diverge, { st with base := b }, tbl_ref)
    | (Outcome.ret _, b) =>
      match pbuf_readFromDevice b with
      | (Outcome.throw e, b) => (Outcome.throw e, { st with base := b }, tbl_ref)
      | (Outcome.diverge, b) => (Outcome.diverge, { st with base := b }, tbl_ref)
      | (Outcome.ret _, b) =>
        match get_records_queue store_mode record_size span g.1 b.pbuf__.packetQueue__.length
                { st with base := b } tbl_ref v with
        | (Outcome.ret v, st, tbl_ref) =>
          if v.stat ≠ SUCCESS then (Outcome.ret v, st, tbl_ref)
          else if v.pending then get_records_loop store_mode record_size span fuel st tbl_ref v
          else (Outcome.ret v, st, tbl_ref)
        | r => r

/-- Model of `BMP5Obj::get_records`, with fuel for its request loop. -/
def get_records (fuel : Nat) (st : BMP5Obj) (tbl_ref : Table) (start_mode : Nat)
    (record_size : Int) (P1 P2 : Nat) (span : Int) : Outcome RecordStat × BMP5Obj × Table :=
  let collect_mode := start_mode &&& 0x0f
  let store_mode := start_mode &&& STORE_DATA
  if collect_mode ≠ 0x05 ∧ collect_mode ≠ 0x06 then (Outcome.ret {}, st, tbl_ref)
  else
    match get_records_loop store_mode record_size span fuel st tbl_ref
            { collect_mode := collect_mode, P1 := P1, P2 := P2 } with
    | (Outcome.ret v, st, tbl_ref) =>
      if v.stat ≠ SUCCESS then (Outcome.ret {}, st, tbl_ref)
      else if store_mode ≠ 0 then
        (Outcome.ret { count := if v.frag_record ≠ 0 then 1 else (v.num_recs : Int) }, st, tbl_ref)
      else
        (Outcome.ret { count := toInt32 v.beg_rec_nbr, recordTime := v.beg_rec_time }, st, tbl_ref)
    | (Outcome.throw e, st, tbl_ref) => (Outcome.throw e, st, tbl_ref)
    | (Outcome.diverge, st, tbl_ref) => (Outcome.diverge, st, tbl_ref)

/-- The loop `while (numAttempts < 3)` of `BMP5Obj::CollectData`, which asks
for the last record stored by the logger.  No statement of the loop assigns
`numAttempts`.  The result is the last `recordStat`. -/
def CollectData_attempts (fuel0 : Nat) (record_size : Int) (TableSpan : Int) (numAttempts : Int) :
    Nat → BMP5Obj → Table → RecordStat → Outcome RecordStat × BMP5Obj × Table
  | 0, st, tbl_ref, _ => (Outcome.diverge, st, tbl_ref)
  | fuel + 1, st, tbl_ref, recordStat =>
    if numAttempts < 3 then
      match get_records fuel0 st tbl_ref (GET_LAST_REC ||| INQ_REC_INFO) record_size 1 0
              TableSpan with
      | (Outcome.ret recordStat, st, tbl_ref) =>
        if recordStat.count ≥ 0 then (Outcome.ret recordStat, st, tbl_ref)
        else CollectData_attempts fuel0 record_size TableSpan numAttempts fuel st tbl_ref
               recordStat
      | r => r
    else (Outcome.ret recordStat, st, tbl_ref)

/-- The local variables of the main collection loop of `CollectData`. -/
structure CollectData_vars where
  lastBadRecordIndex : Nat := 0xffffffff
  countBadRecordCollAttempt : Int := 0
  nrecs_read : Int := 0
  num_collected_recs : Nat := 0
  deriving DecidableEq, Repr

/-- The main collection loop `while (tbl_ref.NextRecord <= (uint4) last_rec_nbr)`
of `BMP5Obj::CollectData`. -/
def CollectData_loop (fuel0 : Nat) (record_size : Int) (recs_per_request : Nat)
    (last_rec_nbr : Int) (TableSpan : Int) :
    Nat → BMP5Obj → Table → CollectData_vars → Outcome CollectData_vars × BMP5Obj × Table
  | 0, st, tbl_ref, _ => (Outcome.diverge, st, tbl_ref)
  | fuel + 1, st, tbl_ref, c =>
    if tbl_ref.NextRecord ≤ toUInt32 last_rec_nbr then
      match get_records fuel0 st tbl_ref (GET_DATA_RANGE ||| STORE_DATA) record_size
              tbl_ref.NextRecord ((tbl_ref.NextRecord + recs_per_request) % 4294967296)
              TableSpan with
      | (Outcome.ret recordStat, st, tbl_ref) =>
        let c := { c with nrecs_read := recordStat.count }
        if c.nrecs_read < 0 then (Outcome.ret c, st, tbl_ref)
        else if c.nrecs_read = 0 then
          if c.lastBadRecordIndex ≠ tbl_ref.NextRecord then
            CollectData_loop fuel0 record_size recs_per_request last_rec_nbr TableSpan fuel st
              tbl_ref
              { c with countBadRecordCollAttempt := c.countBadRecordCollAttempt + 1,
                       lastBadRecordIndex := tbl_ref.NextRecord }
          else if c.countBadRecordCollAttempt < 2 then
            CollectData_loop fuel0 record_size recs_per_request last_rec_nbr TableSpan fuel st
              tbl_ref { c with countBadRecordCollAttempt := c.countBadRecordCollAttempt + 1 }
          else
            CollectData_loop fuel0 record_size recs_per_request last_rec_nbr TableSpan fuel st
              { tbl_ref with NextRecord := (tbl_ref.NextRecord + 1) % 4294967296 }
              { c with countBadRecordCollAttempt := 0 }
        else
          CollectData_loop fuel0 record_size recs_per_request last_rec_nbr TableSpan fuel st
            tbl_ref
            { c with num_collected_recs :=
                (c.num_collected_recs + c.nrecs_read.toNat) % 4294967296 }
      | (Outcome.throw e, st, tbl_ref) => (Outcome.throw e, st, tbl_ref)
      | (Outcome.diverge, st, tbl_ref) => (Outcome.diverge, st, tbl_ref)
    else (Outcome.ret c, st, tbl_ref)

/-- A call of the writer `tblDataMgr__->getTableDataWriter ()` by name
(`initWrite`, `finishWrite`), which raises `StorageException` when it fails. -/
def BMP5Obj.writer_call (st : BMP5Obj) (c : WriterCall) : Outcome Unit × BMP5Obj :=
  let r := st.tblDataWriter__.call c
  (if r.1 then Outcome.throw Exception.StorageException else Outcome.ret (),
   { st with tblDataWriter__ := r.2 })

/-- The call `tblDataMgr__->flushTableDataCache (tbl_ref)`. -/
def BMP5Obj.call_flushTableDataCache (st : BMP5Obj) (tbl_ref : Table) :
    Outcome Unit × BMP5Obj × Table :=
  let r := flushTableDataCache st.tblDataWriter__ tbl_ref
  (r.1, { st with tblDataWriter__ := r.2.1 }, r.2.2)

/-- The value that the cursor reset of `CollectData` gives `NextRecord`:
`newIndex = last_rec_nbr - TblSize + 2`, and `(newIndex < 0) ? 1 : newIndex`. -/
def CollectData_newIndex (last_rec_nbr : Int) (TblSize : Nat) : Nat :=
  let newIndex := toInt32 (toUInt32 (last_rec_nbr - TblSize + 2))
  if newIndex < 0 then 1 else toUInt32 newIndex

/-- The end of `CollectData`, after the collection: the flush when the next
sample is due in a new file, and the status. -/
def CollectData_finish (st : BMP5Obj) (tbl_ref : Table) (table_opt : TableOpt)
    (nrecs_read : Int) : Outcome Nat × BMP5Obj × Table :=
  let status : Nat := if nrecs_read ≥ 0 then SUCCESS else FAILURE
  if table_opt.SampleInt ≥ 0 ∧ tbl_ref.LastRecordTime.sec > 0 ∧
      toUInt32 (tbl_ref.LastRecordTime.sec + table_opt.SampleInt) ≥ tbl_ref.NewFileTime then
    match st.call_flushTableDataCache tbl_ref with
    | (Outcome.ret _, st, tbl_ref) => (Outcome.ret status, st, tbl_ref)
    | (Outcome.throw e, st, tbl_ref) => (Outcome.throw e, st, tbl_ref)
    | (Outcome.diverge, st, tbl_ref) => (Outcome.diverge, st, tbl_ref)
  else (Outcome.ret status, st, tbl_ref)

/-- The part of `CollectData` for a table of known size, from the cursor
adjustment on: `last_rec_nbr >= 0` and `recordStat` come from the query for the
last record. -/
def CollectData_known (fuel : Nat) (st : BMP5Obj) (tbl_ref : Table) (table_opt : TableOpt)
    (record_size : Int) (recs_per_request : Nat) (recordStat : RecordStat) :
    Outcome Nat × BMP5Obj × Table :=
  let last_rec_nbr := recordStat.count
  let records_pending := toInt32 (toUInt32 (last_rec_nbr - tbl_ref.NextRecord))
  if records_pending = -1 ∧ nseccmp tbl_ref.LastRecordTime recordStat.recordTime = 0 then
    (Outcome.ret SUCCESS, st, tbl_ref)
  else
    let adjusted : Outcome Unit × BMP5Obj × Table :=
      if records_pending ≥ toInt32 tbl_ref.TblSize ∨ records_pending < 0 then
        let tbl_ref :=
          { tbl_ref with NextRecord := CollectData_newIndex last_rec_nbr tbl_ref.TblSize }
        if tbl_ref.NewFileTime ≠ 0 then st.call_flushTableDataCache tbl_ref
        else (Outcome.ret (), st, tbl_ref)
      else (Outcome.ret (), st, tbl_ref)
    match adjusted with
    | (Outcome.throw e, st, tbl_ref) => (Outcome.throw e, st, tbl_ref)
    | (Outcome.diverge, st, tbl_ref) => (Outcome.diverge, st, tbl_ref)
    | (Outcome.ret _, st, tbl_ref) =>
      match st.writer_call (WriterCall.initWrite tbl_ref.TblName) with
      | (Outcome.throw e, st) => (Outcome.throw e, st, tbl_ref)
      | (Outcome.diverge, st) => (Outcome.diverge, st, tbl_ref)
      | (Outcome.ret _, st) =>
        match CollectData_loop fuel record_size recs_per_request last_rec_nbr
                table_opt.TableSpan fuel st tbl_ref {} with
        | (Outcome.throw e, st, tbl_ref) => (Outcome.throw e, st, tbl_ref)
        | (Outcome.diverge, st, tbl_ref) => (Outcome.diverge, st, tbl_ref)
        | (Outcome.ret c, st, tbl_ref) =>
          match st.writer_call (WriterCall.finishWrite tbl_ref.TblName) with
          | (Outcome.throw e, st) => (Outcome.throw e, st, tbl_ref)
          | (Outcome.diverge, st) => (Outcome.diverge, st, tbl_ref)
          | (Outcome.ret _, st) => CollectData_finish st tbl_ref table_opt c.nrecs_read

/-- The value `CollectData` gives `recs_per_request`: `512 / record_size` for a
record size between 1 and 511, and 1 otherwise. -/
def CollectData_recs_per_request (record_size : Int) : Nat :=
  if record_size > 0 ∧ record_size < 512 then toUInt32 (512 / record_size) else 1

/-- The body of `BMP5Obj::CollectData` for the table `tbl_ref` that
`getTableRef` has found; the last component of the result is the table as the
function leaves it.  `fuel` bounds the number of requests of each loop. -/
def CollectData_table (fuel : Nat) (st : BMP5Obj) (tbl_ref : Table) (table_opt : TableOpt) :
    Outcome Nat × BMP5Obj × Table :=
  let record_size := getRecordSize tbl_ref
  let recs_per_request := CollectData_recs_per_request record_size
  if tbl_ref.TblSize > 1 then
    match CollectData_attempts fuel record_size table_opt.TableSpan 0 fuel st tbl_ref {} with
    | (Outcome.throw e, st, tbl_ref) => (Outcome.throw e, st, tbl_ref)
    | (Outcome.diverge, st, tbl_ref) => (Outcome.diverge, st, tbl_ref)
    | (Outcome.ret recordStat, st, tbl_ref) =>
      if recordStat.count < 0 then (Outcome.ret FAILURE, st, tbl_ref)
      else CollectData_known fuel st tbl_ref table_opt record_size recs_per_request recordStat
  else
    match st.writer_call (WriterCall.initWrite tbl_ref.TblName) with
    | (Outcome.throw e, st) => (Outcome.throw e, st, tbl_ref)
    | (Outcome.diverge, st) => (Outcome.diverge, st, tbl_ref)
    | (Outcome.ret _, st) =>
      match get_records fuel st tbl_ref (GET_LAST_REC ||| STORE_DATA) record_size 1 0
              table_opt.TableSpan with
      | (Outcome.throw e, st, tbl_ref) => (Outcome.throw e, st, tbl_ref)
      | (Outcome.diverge, st, tbl_ref) => (Outcome.diverge, st, tbl_ref)
      | (Outcome.ret _, st, tbl_ref) =>
        match st.writer_call (WriterCall.finishWrite tbl_ref.TblName) with
        | (Outcome.throw e, st) => (Outcome.throw e, st, tbl_ref)
        | (Outcome.diverge, st) => (Outcome.diverge, st, tbl_ref)
        | (Outcome.ret _, st) => CollectData_finish st tbl_ref table_opt 0

/-- The position of the first table named `TableName` in the table list, as
`TableDataManager::getTableRef` searches it. -/
def getTableRef (tableList : List Table) (TableName : String) : Option Nat :=
  let idx := tableList.findIdx (fun t => t.TblName = TableName)
  if idx < tableList.length then some idx else none

/-- Model of `BMP5Obj::CollectData`: the table is a reference into the table
list, which therefore holds the table as the function leaves it, also when an
exception is raised. -/
def CollectData (fuel : Nat) (st : BMP5Obj) (table_opt : TableOpt) : Outcome Nat × BMP5Obj :=
  match getTableRef st.tableList__ table_opt.TableName with
  | none => (Outcome.throw Exception.invalid_argument, st)
  | some idx =>
    match st.tableList__.get? idx with
    | none => (Outcome.throw Exception.invalid_argument, st)
    | some tbl_ref =>
      let r := CollectData_table fuel st tbl_ref table_opt
      (r.1, { r.2.1 with tableList__ := r.2.1.tableList__.set idx r.2.2 })

/-! ## Sample inputs for the collection of table data -/

/-- A field named `f` of the given type code and dimension. -/
def sample_field (FieldType : byte) (Dimension : Nat) : Field :=
  { FieldType := FieldType, FieldName := "f", Dimension := Dimension }

/-- A table named `T`, number 1, with a record interval of `TblTimeInterval`. -/
def sample_table (fields : List Field) (TblSize NextRecord : Nat) (TblTimeInterval : NSec) :
    Table :=
  { TblName := "T", TblNum := 1, TblSize := TblSize, TblTimeInterval := TblTimeInterval,
    field_list := fields, NextRecord := NextRecord }

/-- The bytes that logger 1 puts on the wire for a BMP5 message of type
`MsgType` with transaction number `TranNbr` and body `body`, sent to node
0xffe: the quoted packet with header and signature nullifier. -/
def logger_packet (MsgType TranNbr : byte) (body : List byte) : List byte :=
  (quote_msg
    (wire_frame { sample_receiver [] with
      MsgType__ := MsgType, TranNbr__ := TranNbr,
      MsgBody__ := fun k => body.getD k 0, MsgBodyLen__ := body.length })
    (body.length + 14)).1

/-- The body of a collect-data response: response code, table number, number
of the first record, number of records (bit 15: fragment flag), data. -/
def collect_body (RespCode : byte) (TblNum beg_rec_nbr num_recs : Nat) (data : List byte) :
    List byte :=
  [RespCode] ++ PBSerialize TblNum 2 ++ PBSerialize beg_rec_nbr 4 ++ PBSerialize num_recs 2
    ++ data

/-- A collect-data response (`0x89`) of logger 1 for table 1 with response
code 0. -/
def collect_response (TranNbr : byte) (beg_rec_nbr num_recs : Nat) (data : List byte) :
    List byte :=
  logger_packet 0x89 TranNbr (collect_body 0x00 1 beg_rec_nbr num_recs data)

/-- A `BMP5Obj` for logger 1 whose device will deliver `devIn`, with the table
list `tables` and a writer that never raises. -/
def sample_bmp5 (devIn : List (List byte)) (tables : List Table) : BMP5Obj :=
  { base := sample_state 1 [] devIn [], tableList__ := tables }

/-- The record indices handed to the writer: the `recordIdx` arguments of the
calls of `processRecordBegin`, oldest first. -/
def record_indices : List WriterCall → List Int
  | [] => []
  | WriterCall.processRecordBegin _ recordIdx _ :: rest => recordIdx :: record_indices rest
  | _ :: rest => record_indices rest

/-- The record times handed to the writer: the `recordTime` arguments of the
calls of `processRecordBegin`, oldest first. -/
def record_times : List WriterCall → List NSec
  | [] => []
  | WriterCall.processRecordBegin _ _ recordTime :: rest => recordTime :: record_times rest
  | _ :: rest => record_times rest

/-- The data of one record of a table with a single 4-byte field, with its
timestamp: the time `(sec, 0)` and the value. -/
def sample_record (sec value : Nat) : List byte :=
  PBSerialize sec 4 ++ PBSerialize 0 4 ++ PBSerialize value 4

/-- A collect-data response of logger 1 with response code 0 for table 2. -/
def other_table_response (TranNbr : byte) : List byte :=
  logger_packet 0x89 TranNbr (collect_body 0x00 2 3 1 (sample_record 1000 7))

/-! ## The cooperative logger -/

/-- The message layer is ready to send a collect command: the output stream
is good, the output buffer is empty and has room for the command, the device
accepts every write, and the four addresses are 12-bit values. -/
abbrev link_ready (b : PakBusMsg) : Prop :=
  b.odevs_bad = false ∧ b.pbuf__.obuf__ = [] ∧ 31 ≤ b.pbuf__.obufsize__ ∧
  b.pbuf__.devWriteFails = [] ∧ b.DstPhyAddr__ < 4096 ∧ b.SrcPhyAddr__ < 4096 ∧
  b.DstNodeId__ < 4096 ∧ b.SrcNodeId__ < 4096

/-- The ten header bytes of a BMP5 packet that the logger at the other end of
the link of `b` sends to `b`: the addresses of `b` with source and
destination exchanged. -/
def logger_header (b : PakBusMsg) (MsgType TranNbr : byte) : List byte :=
  header_bytes { b with
    LinkState__ := 0x0a, ExpMoreCode__ := 0x01, Priority__ := 0x01, HopCnt__ := 0x00,
    HiProtoCode__ := 0x01,
    DstPhyAddr__ := b.SrcPhyAddr__, SrcPhyAddr__ := b.DstPhyAddr__,
    DstNodeId__ := b.SrcNodeId__, SrcNodeId__ := b.DstNodeId__,
    MsgType__ := MsgType, TranNbr__ := TranNbr }

/-- A packet body followed by the two bytes of its signature nullifier. -/
def with_nullifier (p : List byte) : List byte :=
  p ++ [toByte (CalcSigNullifier ((CalcSig p p.length Seed).getD 0) >>> 8),
        toByte (CalcSigNullifier ((CalcSig p p.length Seed).getD 0))]

/-- The bytes on the wire of the collect-data response (`0x89`) with
transaction number `TranNbr` and body `body` that the logger sends to `b`:
sync byte, quoted header, body and nullifier, sync byte. -/
def logger_response (b : PakBusMsg) (TranNbr : byte) (body : List byte) : List byte :=
  (quoted_frame (with_nullifier (logger_header b 0x89 TranNbr ++ body))).1

/-- The responses of a cooperative logger that holds the records up to
`last_rec_nbr` to the range requests of `CollectData`, the first of which has
transaction number `TranNbr` and starts at record `cursor`: each request
`P1 = cursor`, `P2 = cursor + recs_per_request` is answered with one
non-fragmented response that carries the records `cursor .. min (P2 - 1,
last_rec_nbr)`, with the data `data cursor`.  The first argument bounds the
number of responses. -/
def cooperative_responses (b : PakBusMsg) (TblNum last_rec_nbr recs_per_request : Nat)
    (data : Nat → List byte) : Nat → byte → Nat → List (List byte)
  | 0, _, _ => []
  | n + 1, TranNbr, cursor =>
    if cursor ≤ last_rec_nbr then
      let num_recs := min (cursor + recs_per_request - 1) last_rec_nbr - cursor + 1
      logger_response b TranNbr (collect_body 0x00 TblNum cursor num_recs (data cursor))
        :: cooperative_responses b TblNum last_rec_nbr recs_per_request data n (TranNbr + 1)
             (cursor + num_recs)
    else []

/-- What a cooperative logger delivers during `CollectData` for the table
`tbl`: the response to the query for the last record (record `last_rec_nbr`,
with the data `data0`), then the responses to the range requests. -/
def cooperative_logger (b : PakBusMsg) (tbl : Table) (last_rec_nbr : Nat) (data0 : List byte)
    (data : Nat → List byte) : List (List byte) :=
  logger_response b (b.TranNbr__ + 1)
      (collect_body 0x00 tbl.TblNum.toNat last_rec_nbr 1 data0)
    :: cooperative_responses b tbl.TblNum.toNat last_rec_nbr
         (CollectData_recs_per_request (getRecordSize tbl)) data
         (last_rec_nbr + 1 - tbl.NextRecord) (b.TranNbr__ + 2) tbl.NextRecord

/-- The state of a collection in progress against the cooperative logger of
`b0`: the link is ready, the last transaction number is `t`, the device will
deliver `script`, the logger's headers are those for `b0`, and the writer does
not raise. -/
def collecting (b0 : PakBusMsg) (st : BMP5Obj) (t : byte) (script : List (List byte)) : Prop :=
  link_ready st.base ∧ st.base.TranNbr__ = t ∧ st.base.pbuf__.devIn = script ∧
  (∀ m t, logger_header st.base m t = logger_header b0 m t) ∧
  (∀ c, st.tblDataWriter__.raises c = false)

/-- The data of a response that carries four records of a table with a single
4-byte field: the timestamp `(900, 0)` and the values 5, 6, 7, 8. -/
def sample_data : List byte :=
  sample_record 900 5 ++ PBSerialize 6 4 ++ PBSerialize 7 4 ++ PBSerialize 8 4

/-- A `BMP5Obj` for logger 1 with the table list `tables` and a writer that
never raises, whose device behaves as the cooperative logger that holds the
records up to `last_rec_nbr` of the table `tbl`. -/
def sample_cooperative (tbl : Table) (last_rec_nbr : Nat) (tables : List Table) : BMP5Obj :=
  sample_bmp5
    (cooperative_logger (sample_state 1 [] [] []) tbl last_rec_nbr (sample_record 1000 7)
      (fun _ => sample_data))
    tables

/-! ## Successive read cycles -/

/-- Successive calls of `readFromDevice`, one for each of `n` read cycles,
up to the first call that raises: the position of that call, counted from `i`,
with the exception raised. -/
def first_raise : Nat → pakbuf → Nat → Option (Nat × Exception)
  | 0, _, _ => none
  | n + 1, pb, i =>
    match readFromDevice pb with
    | (Outcome.ret _, pb) => first_raise n pb (i + 1)
    | (Outcome.throw e, _) => some (i, e)
    | (Outcome.diverge, _) => none

/-- The position, counted from `i`, of the first read cycle of `cycles` that
is the fourth of four consecutive cycles returning zero bytes; `run` is the
number of consecutive empty cycles just before `cycles`. -/
def fourth_empty_read : List (List byte) → Nat → Nat → Option Nat
  | [], _, _ => none
  | c :: cycles, run, i =>
    if c.length = 0 then
      if run + 1 = 4 then some i else fourth_empty_read cycles (run + 1) (i + 1)
    else fourth_empty_read cycles 0 (i + 1)

/-- The body of a collect-data response with response code 0 that carries a
fragment of record `beg_rec_nbr` of table `TblNum`: the fragment flag (bit 31)
with the byte offset of the fragment, the time of the record (`sec` seconds),
and the data bytes `data` of the fragment. -/
def fragment_body (TblNum beg_rec_nbr offset sec : Nat) (data : List byte) : List byte :=
  [0x00] ++ PBSerialize TblNum 2 ++ PBSerialize beg_rec_nbr 4
    ++ PBSerialize (0x80000000 + offset) 4 ++ PBSerialize sec 4 ++ PBSerialize 0 4 ++ data

/-- A collect-data response (`0x89`) of logger 1 for table 1 that carries a
fragment of record `beg_rec_nbr`. -/
def fragment_response (TranNbr : byte) (beg_rec_nbr offset sec : Nat) (data : List byte) :
    List byte :=
  logger_packet 0x89 TranNbr (fragment_body 1 beg_rec_nbr offset sec data)

/-- A `BMP5Obj` for logger 1 that has just read the fragment response with
transaction number `TranNbr` into its input buffer: the unquoted packet
between its two sync bytes, followed by the bytes `tail` that earlier reads
have left in the buffer. -/
def fragment_received (TranNbr : byte) (beg_rec_nbr offset sec : Nat) (data tail : List byte)
    (tables : List Table) : BMP5Obj :=
  { base :=
      { sample_state 1
          ((0xbd : byte) :: with_nullifier (logger_header (sample_state 1 [] [] []) 0x89 TranNbr
            ++ fragment_body 1 beg_rec_nbr offset sec data) ++ [0xbd] ++ tail) [] [] with
        TranNbr__ := TranNbr },
    tableList__ := tables }

/-! ## pb5_data.cpp: the conversions to `float` -/

/-- A non-negative binary floating-point number, the value `m * 2^k`. -/
structure BinFloat where
  m : Nat
  k : Int
  deriving DecidableEq, Repr

/-- The value of a binary floating-point number. -/
def BinFloat.value (x : BinFloat) : ℚ := (x.m : ℚ) * (2 : ℚ) ^ x.k

/-- The integer nearest to the quotient `a / b` of two natural numbers, the
even one of the two when the quotient lies half-way. -/
def div_half_even (a b : Nat) : Nat :=
  if 2 * (a % b) < b then a / b
  else if b < 2 * (a % b) then a / b + 1
  else if a / b % 2 = 0 then a / b else a / b + 1

/-- The number of binary digits of `n`, counted in at most `fuel` steps. -/
def bit_length : Nat → Nat → Nat
  | 0, _ => 0
  | fuel + 1, n => if n = 0 then 0 else bit_length fuel (n / 2) + 1

/-- The binary exponent of the quotient `a / b` of two positive natural
numbers: the integer `e` with `2^e ≤ a / b < 2^(e + 1)`.  It is the difference
of the numbers of binary digits, or one less. -/
def binade (a b : Nat) : Int :=
  if a * 2 ^ ((bit_length b b : Int) - (bit_length a a : Int)).toNat
      < b * 2 ^ ((bit_length a a : Int) - (bit_length b b : Int)).toNat then
    (bit_length a a : Int) - (bit_length b b : Int) - 1
  else (bit_length a a : Int) - (bit_length b b : Int)

/-- The floating-point number with the mantissa `mant` and the exponent `k`,
written with `p` bits when the mantissa has reached `2^p`. -/
def BinFloat.normal (p : Nat) (k : Int) (mant : Nat) : BinFloat :=
  if mant = 2 ^ p then ⟨2 ^ (p - 1), k + 1⟩ else ⟨mant, k⟩

/-- The binary floating-point number with `p` significant bits nearest to the
quotient `a / b` (round to nearest, ties to even), for a format whose exponent
range holds the quotient: the rounding of the arithmetic of C in its default
mode.  With `e` the binary exponent of the quotient, `k = e - p + 1` is the
exponent of the unit in the last place, and the mantissa is `a / b / 2^k`
rounded to an integer. -/
def round_bits (p a b : Nat) : BinFloat :=
  if a = 0 then ⟨0, 0⟩
  else
    BinFloat.normal p (binade a b - (p : Int) + 1)
      (div_half_even (a * 2 ^ (-(binade a b - (p : Int) + 1)).toNat)
        (b * 2 ^ (binade a b - (p : Int) + 1).toNat))

/-- The number with `p` significant bits nearest to the product of a
floating-point number and the natural number `n`. -/
def BinFloat.round_mul (p : Nat) (x : BinFloat) (n : Nat) : BinFloat :=
  round_bits p (x.m * n * 2 ^ x.k.toNat) (2 ^ (-x.k).toNat)

/-- The number with `p` significant bits nearest to `x`. -/
def BinFloat.round (p : Nat) (x : BinFloat) : BinFloat := x.round_mul p 1

/-- The comparison `x > c` with a natural number `c`. -/
def BinFloat.gt (x : BinFloat) (c : Nat) : Bool :=
  decide (c * 2 ^ (-x.k).toNat < x.m * 2 ^ x.k.toNat)

/-- The variable `abs_val` of `GetFinalStorageFloat`, in the binary arithmetic
of IEEE 754 with rounding to nearest: `pow (10.0, -1 * factor)` is the `double`
(53 significant bits) nearest to `1 / 10^factor` (the library function is exact
to the last bit on these four arguments), its product with the `int`
`unum & 0x1fff`, which is converted to `double` without loss, is rounded to
`double`, and the initialisation of the `float` variable rounds it to 24
significant bits. -/
def GetFinalStorageFloat_abs_val (unum : Nat) : BinFloat :=
  ((round_bits 53 1 (10 ^ ((unum &&& 0x6000) >>> 13))).round_mul 53 (unum &&& 0x1fff)).round 24

/-- Model of `GetFinalStorageFloat (uint2 unum)`: the value of the `float`
returned.  The comparison with `6999.0` and the product with `s`, which is 1
or -1, are exact. -/
def GetFinalStorageFloat (unum : Nat) : ℚ :=
  let s : Int := if unum >>> 15 ≠ 0 then -1 else 1
  if (GetFinalStorageFloat_abs_val unum).gt 6999 then -9999
  else (s : ℚ) * (GetFinalStorageFloat_abs_val unum).value

/-- Model of `intBitsToFloat (uint4 bits)` with exact values: `s`, `e` and
`m` are the `int` variables of the function, and the result is the rational
number `s * m * 2^(e - 150)`. -/
def intBitsToFloat (bits : Nat) : ℚ :=
  let s : Int := if bits >>> 31 = 0 then 1 else -1
  let e : Int := (((bits >>> 23) &&& 0xff : Nat) : Int)
  let m : Int :=
    if e = 0 then toInt32 (((bits &&& 0x7fffff) <<< 1) % 4294967296)
    else toInt32 ((bits &&& 0x7fffff) ||| 0x800000)
  ((s * m : Int) : ℚ) * (2 : ℚ) ^ (e - 150)

/-- The exact value of a `float` handed to the writer. -/
def FloatValue.value : FloatValue → ℚ
  | FloatValue.GetFinalStorageFloat unum => PbCdlComm.GetFinalStorageFloat unum
  | FloatValue.intBitsToFloat bits => PbCdlComm.intBitsToFloat bits

/-- The value of the low-resolution final-storage word `u` as the format
defines it: sign from bit 15, decimal exponent `e = (u >> 13) & 3`, magnitude
`m = (u & 0x1FFF) / 10^e`, and -9999 for a magnitude above 6999. -/
def final_storage_value (u : Nat) : ℚ :=
  let s : ℚ := if u.testBit 15 then -1 else 1
  let e : Nat := (u >>> 13) &&& 3
  let m : ℚ := ((u &&& 0x1FFF : Nat) : ℚ) / (10 : ℚ) ^ e
  if m > 6999 then -9999 else s * m

/-- The value of the bit pattern `u` as an IEEE-754 single-precision number:
sign bit, 8-bit biased exponent `E` and 23-bit fraction `F`; `(-1)^sign *
2^(E - 127) * (1 + F / 2^23)` for a normal number, `(-1)^sign * 2^(-126) *
(F / 2^23)` for `E = 0` (zero and the subnormal numbers), and no number for
`E = 255` (infinities and NaN). -/
def ieee754_single (u : Nat) : Option ℚ :=
  let sign : Nat := u / 2 ^ 31 % 2
  let E : Nat := u / 2 ^ 23 % 256
  let F : Nat := u % 2 ^ 23
  if E = 255 then none
  else if E = 0 then some ((-1 : ℚ) ^ sign * (2 : ℚ) ^ (-126 : Int) * ((F : ℚ) / 2 ^ 23))
  else some ((-1 : ℚ) ^ sign * (2 : ℚ) ^ ((E : Int) - 127) * (1 + (F : ℚ) / 2 ^ 23))

/-! ## pb5_data.cpp: the parser of the table definitions file

The file is the byte list `buf`; a pointer into it is an offset, and `endptr`
is the offset one past its last byte.  A byte read past the end of the list
reads as zero. -/

/-- The `string` made of the bytes `l` (`string str (beg, count)`). -/
def string_of_bytes (l : List byte) : String := ⟨l.map (fun b => Char.ofNat b.val)⟩

/-- The loop `while (ptr < endptr)` of `readFieldList`, which reads the
sub-dimensions of a field up to a zero; the first argument bounds the number
of passes, and `endptr - ptr` passes are enough.  The result is `ptr` and
`var.SubDim` after the loop. -/
def readFieldList_subdim (buf : List byte) (endptr : Nat) : Nat → Nat → List Nat → Nat × List Nat
  | 0, ptr, SubDim => (ptr, SubDim)
  | fuel + 1, ptr, SubDim =>
    if ptr < endptr then
      let num := PBDeserialize (buf.drop ptr) 4
      if num ≠ 0x00 then readFieldList_subdim buf endptr fuel (ptr + 4) (SubDim ++ [num])
      else (ptr + 4, SubDim)
    else (ptr, SubDim)

/-- One pass of the body of the `do ... while (next_num != 0)` loop of
`readFieldList`, up to the end of the loop over the sub-dimensions: `none` for
`return -1`, and otherwise `ptr` and `var` at that point. -/
def readFieldList_pass (buf : List byte) (endptr : Nat) (ptr : Nat) (var : Field) :
    Option (Nat × Field) :=
  if ptr > endptr then none
  else
    let var := { var with FieldType := toByte ((buf.getD ptr 0).val &&& 0x7f) }
    let ptr := ptr + 1
    if ptr > endptr then none
    else
      let var := { var with FieldName := string_of_bytes (GetVarLenString (buf.drop ptr)) }
      let ptr := ptr + ((GetVarLenString (buf.drop ptr)).length + 1)
      let ptr := ptr + 1
      if ptr > endptr then none
      else
        let var := { var with Processing := string_of_bytes (GetVarLenString (buf.drop ptr)) }
        let ptr := ptr + ((GetVarLenString (buf.drop ptr)).length + 1)
        if ptr > endptr then none
        else
          let var := { var with Unit := string_of_bytes (GetVarLenString (buf.drop ptr)) }
          let ptr := ptr + ((GetVarLenString (buf.drop ptr)).length + 1)
          if ptr > endptr then none
          else
            let var :=
              { var with Description := string_of_bytes (GetVarLenString (buf.drop ptr)) }
            let ptr := ptr + ((GetVarLenString (buf.drop ptr)).length + 1)
            if ptr > endptr then none
            else
              let var := { var with BegIdx := PBDeserialize (buf.drop ptr) 4 }
              let ptr := ptr + 4
              if ptr > endptr then none
              else
                let var := { var with Dimension := PBDeserialize (buf.drop ptr) 4 }
                let ptr := ptr + 4
                let r := readFieldList_subdim buf endptr (endptr - ptr) ptr var.SubDim
                some (r.1, { var with SubDim := r.2 })

/-- The `do ... while (next_num != 0)` loop of `readFieldList`, with fuel for
the number of passes.  `var` is declared outside the loop and keeps its
`SubDim` from one pass to the next.  The result is `none` for `return -1`, and
otherwise `ptr` after the loop with the field list of the table. -/
def readFieldList_loop (buf : List byte) (endptr : Nat) :
    Nat → Nat → Field → List Field → Outcome (Option (Nat × List Field))
  | 0, _, _, _ => Outcome.diverge
  | fuel + 1, ptr, var, field_list =>
    match readFieldList_pass buf endptr ptr var with
    | none => Outcome.ret none
    | some (ptr, var) =>
      let field_list := field_list ++ [var]
      let next_num := PBDeserialize (buf.drop ptr) 1
      if next_num ≠ 0 then readFieldList_loop buf endptr fuel ptr var field_list
      else Outcome.ret (some (ptr, field_list))

/-- Model of `TableDataManager::readFieldList`: `none` for `return -1`, and
otherwise the number of bytes read with the field list of the table.  Every
pass of the loop but the last ends below the end of the file, so that
`buf.length + 1` passes are enough. -/
def readFieldList (buf : List byte) (byte_ptr endptr : Nat) (field_list : List Field) :
    Outcome (Option (Nat × List Field)) :=
  match readFieldList_loop buf endptr (buf.length + 1) byte_ptr
      { FieldType := 0, FieldName := "", Dimension := 0 } field_list with
  | Outcome.ret (some (ptr, field_list)) => Outcome.ret (some (ptr + 1 - byte_ptr, field_list))
  | r => r

/-- The first part of `TableDataManager::readTableDefinition`: the table `tbl`
built from the bytes at `byte_ptr` and the length `table_len` of its
definition; `none` for `return -1`.  The call does not return when `CalcSig`
does not. -/
def readTableDefinition_parse (table_num : Int) (buf : List byte) (byte_ptr endptr : Nat) :
    Outcome (Option (Table × Nat)) :=
  let ptr := byte_ptr
  if ptr > endptr then Outcome.ret none
  else
    let TblName := string_of_bytes (GetVarLenString (buf.drop ptr))
    let ptr := ptr + ((GetVarLenString (buf.drop ptr)).length + 1)
    if ptr > endptr then Outcome.ret none
    else
      let TblSize := PBDeserialize (buf.drop ptr) 4
      let ptr := ptr + 4
      if ptr > endptr then Outcome.ret none
      else
        let TimeType := buf.getD ptr 0
        let ptr := ptr + 1
        if ptr > endptr then Outcome.ret none
        else
          let TblTimeInfo_sec := PBDeserialize (buf.drop ptr) 4
          let ptr := ptr + 4
          if ptr > endptr then Outcome.ret none
          else
            let TblTimeInfo_nsec := PBDeserialize (buf.drop ptr) 4
            let ptr := ptr + 4
            if ptr > endptr then Outcome.ret none
            else
              let TblTimeInterval_sec := PBDeserialize (buf.drop ptr) 4
              let ptr := ptr + 4
              if ptr > endptr then Outcome.ret none
              else
                let TblTimeInterval_nsec := PBDeserialize (buf.drop ptr) 4
                let ptr := ptr + 4
                match readFieldList buf ptr endptr [] with
                | Outcome.throw e => Outcome.throw e
                | Outcome.diverge => Outcome.diverge
                | Outcome.ret none => Outcome.ret none
                | Outcome.ret (some (nbytes, field_list)) =>
                  let ptr := ptr + nbytes
                  let table_len := ptr - byte_ptr
                  match CalcSig (buf.drop byte_ptr) (table_len % 4294967296) 0xaaaa with
                  | none => Outcome.diverge
                  | some sig =>
                    Outcome.ret (some
                      ({ TblName := TblName, TblNum := table_num, TblSize := TblSize,
                         TimeType := TimeType,
                         TblTimeInfo := ⟨TblTimeInfo_sec, TblTimeInfo_nsec⟩,
                         TblTimeInterval := ⟨TblTimeInterval_sec, TblTimeInterval_nsec⟩,
                         field_list := field_list, TblSignature := sig }, table_len))

/-- Model of `TableDataManager::readTableDefinition`: the value returned and
the table list `tableList__` afterwards. -/
def readTableDefinition (tableList : List Table) (table_num : Int) (buf : List byte)
    (byte_ptr endptr : Nat) : Outcome (Int × List Table) :=
  match readTableDefinition_parse table_num buf byte_ptr endptr with
  | Outcome.throw e => Outcome.throw e
  | Outcome.diverge => Outcome.diverge
  | Outcome.ret none => Outcome.ret (-1, tableList)
  | Outcome.ret (some (tbl, table_len)) =>
    if tbl.TblName.length > 0 then
      let dupFound := tableList.any (fun t => decide (t.TblName = tbl.TblName))
      if true ≠ dupFound then Outcome.ret ((table_len : Int), tableList ++ [tbl])
      else Outcome.ret ((table_len : Int), tableList)
    else Outcome.ret ((table_len : Int), tableList)

/-- The loop `while (ptr < endptr)` of `TableDataManager::BuildTDF`, with fuel
for the number of table definitions: the status and the table list. -/
def BuildTDF_loop (buf : List byte) (endptr : Nat) :
    Nat → Nat → Int → List Table → Outcome (Nat × List Table)
  | 0, _, _, _ => Outcome.diverge
  | fuel + 1, ptr, table_num, tableList =>
    if ptr < endptr then
      match readTableDefinition tableList table_num buf ptr endptr with
      | Outcome.throw e => Outcome.throw e
      | Outcome.diverge => Outcome.diverge
      | Outcome.ret (nbytes, tableList) =>
        if nbytes = -1 then Outcome.ret (FAILURE, [])
        else BuildTDF_loop buf endptr fuel (ptr + nbytes.toNat) (table_num + 1) tableList
    else Outcome.ret (SUCCESS, tableList)

/-- Model of `TableDataManager::loadTableStorageHistory`: `info` gives, for
the name of a table, the content of its file `info.<name>` when the file
exists: `NextRecord`, `LastRecordTime`, `NewFileTime`, `FirstSampleInFile`. -/
def loadTableStorageHistory (info : String → Option (Nat × NSec × Nat × Nat))
    (tableList : List Table) : List Table :=
  tableList.map (fun t =>
    match info t.TblName with
    | some (NextRecord, lastRecordTime, NewFileTime, FirstSampleInFile) =>
      { t with NextRecord := NextRecord, LastRecordTime := lastRecordTime,
               NewFileTime := NewFileTime, FirstSampleInFile := FirstSampleInFile }
    | none => t)

/-- Model of `TableDataManager::BuildTDF`: `tdf` is the content of the file
`tdf.dat` when it exists.  The result is the status and the table list
`tableList__`.  Every table definition is at least one byte long, so that
`buf.length + 1` passes of the loop are enough. -/
def BuildTDF (tdf : Option (List byte)) (info : String → Option (Nat × NSec × Nat × Nat)) :
    Outcome (Nat × List Table) :=
  match tdf with
  | none => Outcome.ret (FAILURE, [])
  | some buf =>
    if buf.length = 0 then Outcome.ret (FAILURE, [])
    else
      match BuildTDF_loop buf buf.length (buf.length + 1) 1 1 [] with
      | Outcome.ret (status, tableList) =>
        if status = SUCCESS then Outcome.ret (SUCCESS, loadTableStorageHistory info tableList)
        else Outcome.ret (status, tableList)
      | r => r

/-- The tables that the passes of the loop of `BuildTDF` build, one for each
table definition (blob) of the file that parses, in the order of the file. -/
def BuildTDF_blobs (buf : List byte) (endptr : Nat) : Nat → Nat → Int → List Table
  | 0, _, _ => []
  | fuel + 1, ptr, table_num =>
    if ptr < endptr then
      match readTableDefinition_parse table_num buf ptr endptr with
      | Outcome.ret (some (tbl, table_len)) =>
        tbl :: BuildTDF_blobs buf endptr fuel (ptr + table_len) (table_num + 1)
      | _ => []
    else []

/-- The definition of a table: the table without the storage history that the
application tracks. -/
def Table.definition (t : Table) : Table :=
  { t with NextRecord := 0, LastRecordTime := ⟨0, 0⟩, NewFileTime := 0, FirstSampleInFile := 0 }

/-- The bytes of a field definition: type, name, processing, unit,
description, `BegIdx`, dimension and the zero that ends the sub-dimensions. -/
def sample_field_blob (FieldType : byte) (name : List byte) (Dimension : Nat) : List byte :=
  [FieldType] ++ name ++ [0x00, 0x00] ++ [0x00] ++ [0x00] ++ [0x00] ++ PBSerialize 1 4
    ++ PBSerialize Dimension 4 ++ PBSerialize 0 4

/-- The bytes of a table definition with the fields `fields`: name, size 10,
time type, time information, interval of 60 s, the fields and the zero that
ends the field list. -/
def sample_table_blob (name : List byte) (fields : List (List byte)) : List byte :=
  name ++ [0x00] ++ PBSerialize 10 4 ++ [0x0e] ++ PBSerialize 0 4 ++ PBSerialize 0 4
    ++ PBSerialize 60 4 ++ PBSerialize 0 4 ++ fields.flatten ++ [0x00]

/-- A table definitions file with four table definitions: `A`, a table with
an empty name, `B`, and a second `A` with another field. -/
def sample_tdf : List byte :=
  [0x01] ++ sample_table_blob [0x41] [sample_field_blob 6 [0x78] 1]
    ++ sample_table_blob [] [sample_field_blob 6 [0x78] 1]
    ++ sample_table_blob [0x42] [sample_field_blob 6 [0x78] 1, sample_field_blob 9 [] 1]
    ++ sample_table_blob [0x41] [sample_field_blob 9 [0x79] 2]

/-- The relation between the table definitions `seen` that the loop of
`BuildTDF` has parsed and its table list `acc`. -/
def tables_kept (seen acc : List Table) : Prop :=
  (∀ t ∈ acc, t.TblName ≠ "") ∧ (acc.map (fun t => t.TblName)).Nodup ∧
  (∀ t ∈ acc, ∃ i, seen.get? i = some t ∧
      ∀ j, j < i → ∀ b, seen.get? j = some b → b.TblName ≠ t.TblName) ∧
  (∀ b ∈ seen, b.TblName ≠ "" → ∃ t ∈ acc, t.TblName = b.TblName)


/-- The table list that `BuildTDF` builds from `sample_tdf`: table `A` from
the first definition, and table `B`, whose second field has an empty name. -/
def sample_tdf_tables : List Table :=
  [{ TblName := "A", TblNum := 1, TblSize := 10, TimeType := 14, TblTimeInterval := ⟨60, 0⟩,
     field_list := [{ FieldType := 6, FieldName := "x", BegIdx := 1, Dimension := 1 }],
     TblSignature := 54100 },
   { TblName := "B", TblNum := 3, TblSize := 10, TimeType := 14, TblTimeInterval := ⟨60, 0⟩,
     field_list := [{ FieldType := 6, FieldName := "x", BegIdx := 1, Dimension := 1 },
                    { FieldType := 9, FieldName := "", BegIdx := 1, Dimension := 1 }],
     TblSignature := 24145 }]

/-- The offsets at which the passes of the loop of `readFieldList` start: the
field definitions of a table definition that parses, in the order of the
file. -/
def readFieldList_starts (buf : List byte) (endptr : Nat) : Nat → Nat → Field → List Nat
  | 0, _, _ => []
  | fuel + 1, ptr, var =>
    match readFieldList_pass buf endptr ptr var with
    | none => []
    | some (p, v) =>
      ptr :: (if PBDeserialize (buf.drop p) 1 ≠ 0 then readFieldList_starts buf endptr fuel p v
              else [])

/-- A table definition with one field whose name is empty, after the byte of
the file version. -/
def sample_tdf_empty_field : List byte :=
  [0x01] ++ sample_table_blob [0x42] [sample_field_blob 9 [] 1]

/-! ## init_comm.h, init_comm.cpp: the serial connection -/

/-- Constant `NUM_MAX_RETRY`. -/
abbrev NUM_MAX_RETRY : Int := 8

/-- The members `int vtimeArray__[7]; int vtimeIndex__; int vtime__;` of class
`SerialConn`, which the class declares in this order, one after the other. -/
structure SerialConn where
  vtimeArray__ : List Int := List.replicate 7 0
  vtimeIndex__ : Int := 0
  vtime__ : Int := 0
  deriving DecidableEq, Repr

/-- A read of `vtimeArray__[k]`.  The array has seven elements; the code also
uses the elements 7 and 8, which lie past its end, where the object holds the
members declared after the array: `vtimeIndex__` and `vtime__`. -/
def SerialConn.vtimeArray_read (c : SerialConn) (k : Nat) : Int :=
  if k = 7 then c.vtimeIndex__
  else if k = 8 then c.vtime__
  else c.vtimeArray__.getD k 0

/-- The assignment `vtimeArray__[k] = v`, with the same layout. -/
def SerialConn.vtimeArray_write (c : SerialConn) (k : Nat) (v : Int) : SerialConn :=
  if k = 7 then { c with vtimeIndex__ := v }
  else if k = 8 then { c with vtime__ := v }
  else { c with vtimeArray__ := c.vtimeArray__.set k v }

/-- The loop `for (i = 0; i < 8; i++) if (vtimeArray__[i+1] > vtime__) break;`
of `SerialConn::setVtime`: the final `i`. -/
def setVtime_loop (c : SerialConn) : Nat → Nat → Nat
  | 0, i => i
  | fuel + 1, i =>
    if i < 8 then
      if c.vtimeArray_read (i + 1) > c.vtime__ then i else setVtime_loop c fuel (i + 1)
    else i

/-- Model of `SerialConn::setVtime`. -/
def SerialConn.setVtime (c : SerialConn) (vtime : Int) : SerialConn :=
  let c := { c with vtime__ := if vtime < 2 then 2 else vtime }
  if vtime = 2 then { c with vtimeIndex__ := 0 }
  else if vtime = 5 then { c with vtimeIndex__ := 1 }
  else if vtime = 10 then { c with vtimeIndex__ := 2 }
  else if vtime = 20 then { c with vtimeIndex__ := 3 }
  else if vtime = 30 then { c with vtimeIndex__ := 4 }
  else if vtime = 50 then { c with vtimeIndex__ := 5 }
  else if vtime = 100 then { c with vtimeIndex__ := 6 }
  else if vtime = 200 then { c with vtimeIndex__ := 7 }
  else if vtime = 600 then { c with vtimeIndex__ := 8 }
  else { c with vtimeIndex__ := (setVtime_loop c 9 0 : Nat) }

/-- Model of the constructor `SerialConn (addr, speed, vtime)`: the nine
assignments to `vtimeArray__[0..8]`, `vtimeIndex__ = 2` and `setVtime (vtime)`. -/
def SerialConn.init (vtime : Int) : SerialConn :=
  let c : SerialConn := {}
  let c := c.vtimeArray_write 0 2
  let c := c.vtimeArray_write 1 5
  let c := c.vtimeArray_write 2 10
  let c := c.vtimeArray_write 3 20
  let c := c.vtimeArray_write 4 30
  let c := c.vtimeArray_write 5 50
  let c := c.vtimeArray_write 6 100
  let c := c.vtimeArray_write 7 200
  let c := c.vtimeArray_write 8 600
  let c := { c with vtimeIndex__ := 2 }
  c.setVtime vtime

/-- Model of `SerialConn::retryOnFail`: the value returned and the object. -/
def SerialConn.retryOnFail (c : SerialConn) : Bool × SerialConn :=
  if c.vtimeIndex__ < NUM_MAX_RETRY then
    let c := { c with vtimeIndex__ := c.vtimeIndex__ + 1 }
    let c := { c with vtime__ := c.vtimeArray_read c.vtimeIndex__.toNat }
    (true, c)
  else (false, c)

/-- Successive calls of `retryOnFail`: the value each call returns, with
`vtime__` after the call. -/
def retryOnFail_calls : Nat → SerialConn → List (Bool × Int)
  | 0, _ => []
  | n + 1, c =>
    (c.retryOnFail.1, c.retryOnFail.2.vtime__) :: retryOnFail_calls n c.retryOnFail.2

/-! ## pb5_proto_bmp.cpp, pb5_proc.cpp: the clock check -/

/-- Constant `SECS_BEFORE_1990`. -/
abbrev SECS_BEFORE_1990 : Nat := 631152000

/-- Constant `MAX_TIME_OFFSET`. -/
abbrev MAX_TIME_OFFSET : Int := 1

/-- The loop `while (packetQueue__->size())` of `BMP5Obj::ClockTransaction`;
the first argument bounds the number of packets in the queue, and the last is
`ret_value`. -/
def ClockTransaction_queue (secs nsecs : Nat) (tran_id : byte) :
    Nat → PakBusMsg → Int → Outcome Int × PakBusMsg
  | 0, st, ret_value => (Outcome.ret ret_value, st)
  | n + 1, st, ret_value =>
    match st.pbuf__.packetQueue__ with
    | [] => (Outcome.ret ret_value, st)
    | pack :: _ =>
      match ParsePakBusPacket st pack 0x97 tran_id with
      | (Outcome.throw e, st) => (Outcome.throw e, st)
      | (Outcome.diverge, st) => (Outcome.diverge, st)
      | (Outcome.ret stat, st) =>
        let ret_value : Int :=
          if stat ≠ 0 then ret_value
          else if secs = 0 ∧ nsecs = 0 then
            toInt32 ((PBDeserialize (st.pbuf__.ibuf__.drop (pack.begPacket + 12)) 4
              + SECS_BEFORE_1990) % 4294967296)
          else if pkt_byte st.pbuf__.ibuf__ pack 11 ≠ 0 then 1 else 0
        ClockTransaction_queue secs nsecs tran_id n
          { st with pbuf__ := { st.pbuf__ with packetQueue__ := st.pbuf__.packetQueue__.tail } }
          ret_value

/-- Model of `BMP5Obj::ClockTransaction (secs, nsecs)`. -/
def ClockTransaction (st : BMP5Obj) (secs nsecs : Nat) : Outcome Int × BMP5Obj :=
  let b := SetSecurityCodeInMsgBody
    { st.base with Priority__ := 0x02, MsgType__ := 0x17, MsgBodyLen__ := 10 }
  let body := array_write (array_write b.MsgBody__ 2 (PBSerialize secs 4)) 6 (PBSerialize nsecs 4)
  let b := { b with MsgBody__ := body }
  let g := GenTranNbr b
  match SendPBPacket g.2 with
  | (Outcome.throw e, b) => (Outcome.throw e, { st with base := b })
  | (Outcome.diverge, b) => (Outcome.diverge, { st with base := b })
  | (Outcome.ret _, b) =>
    match pbuf_readFromDevice b with
    | (Outcome.throw e, b) => (Outcome.throw e, { st with base := b })
    | (Outcome.diverge, b) => (Outcome.diverge, { st with base := b })
    | (Outcome.ret _, b) =>
      let r := ClockTransaction_queue secs nsecs g.1 b.pbuf__.packetQueue__.length b 0
      (r.1, { st with base := r.2 })

/-- The members of class `PB5CollectionProcess` that the clock check uses. -/
structure PB5CollectionProcess where
  bmp5ImplObj__ : BMP5Obj
  loggerTimeCheckComplete__ : Bool := false

/-- Model of `PB5CollectionProcess::checkLoggerTime`; `host_t` is the value
of `time (NULL)`. -/
def checkLoggerTime (p : PB5CollectionProcess) (host_t : Int) :
    Outcome Unit × PB5CollectionProcess :=
  if p.loggerTimeCheckComplete__ then (Outcome.ret (), p)
  else
    match ClockTransaction p.bmp5ImplObj__ 0 0 with
    | (Outcome.throw e, o) => (Outcome.throw e, { p with bmp5ImplObj__ := o })
    | (Outcome.diverge, o) => (Outcome.diverge, { p with bmp5ImplObj__ := o })
    | (Outcome.ret logger_t, o) =>
      let p := { p with bmp5ImplObj__ := o }
      if logger_t = 0 then (Outcome.throw Exception.AppException, p)
      else
        let time_offset := host_t - logger_t
        if |time_offset| > MAX_TIME_OFFSET then
          match ClockTransaction p.bmp5ImplObj__ (toUInt32 time_offset) 0 with
          | (Outcome.throw e, o) => (Outcome.throw e, { p with bmp5ImplObj__ := o })
          | (Outcome.diverge, o) => (Outcome.diverge, { p with bmp5ImplObj__ := o })
          | (Outcome.ret logger_t, o) =>
            let p := { p with bmp5ImplObj__ := o }
            if logger_t ≠ 0 then (Outcome.throw Exception.AppException, p)
            else (Outcome.ret (), { p with loggerTimeCheckComplete__ := true })
        else (Outcome.ret (), { p with loggerTimeCheckComplete__ := true })

/-- A clock response (`0x97`) of logger 1: response code and the time of the
logger (seconds since 1990) before the transaction. -/
def clock_response (TranNbr RespCode : byte) (sec : Nat) : List byte :=
  logger_packet 0x97 TranNbr ([RespCode] ++ PBSerialize sec 4 ++ PBSerialize 0 4)

/-- A collection process for logger 1 whose device will deliver `devIn`,
before the clock check. -/
def sample_process (devIn : List (List byte)) : PB5CollectionProcess :=
  { bmp5ImplObj__ := sample_bmp5 devIn [] }

/-! ## pb5_buf.cpp: sync bytes of a buffer -/

/-- The number of sync bytes of the buffer at the offsets `p ≤ k < i`. -/
def sync_count (ibuf : List byte) (p i : Nat) : Nat :=
  ((List.range' p (i - p)).filter (fun k => decide (ibuf.getD k 0 = SerSyncByte__))).length

/-! ## pb5_data_writer.cpp: the timestamp of a record -/

/-- The value of `static int factor = (10^(6-nano_precision))` in
`AsciiWriter::GetTimestamp`, with `nano_precision = 3`: the operator `^` of C++
is the exclusive or. -/
def GetTimestamp_factor : Int := ((10 ^^^ (6 - 3) : Nat) : Int)

/-- The value `int nsecs = (int)(timeInfo.nsec/factor)` of
`AsciiWriter::GetTimestamp`; the division is the unsigned one. -/
def GetTimestamp_nsecs (timeInfo : NSec) : Int :=
  toInt32 (timeInfo.nsec / toUInt32 GetTimestamp_factor)

/-- The fractional field of the timestamp that `AsciiWriter::GetTimestamp`
prints: the text after the point, the conversion `%d` of `nsecs`. -/
def GetTimestamp_fraction (timeInfo : NSec) : String :=
  toString (GetTimestamp_nsecs timeInfo)

/-- The bytes of a field definition with the sub-dimensions `SubDim`: type,
name, processing, unit, description, `BegIdx`, dimension, the sub-dimensions
and the zero that ends them. -/
def sample_field_blob_dims (FieldType : byte) (name : List byte) (Dimension : Nat)
    (SubDim : List Nat) : List byte :=
  [FieldType] ++ name ++ [0x00, 0x00] ++ [0x00] ++ [0x00] ++ [0x00] ++ PBSerialize 1 4
    ++ PBSerialize Dimension 4 ++ (SubDim.map (fun d => PBSerialize d 4)).flatten
    ++ PBSerialize 0 4

/-- A table definitions file with one table `B` of two fields: `x` with the
dimension 6 and the sub-dimensions 2 and 3, and `y` with the dimension 1 and
no sub-dimension. -/
def sample_tdf_subdim : List byte :=
  [0x01] ++ sample_table_blob [0x42]
    [sample_field_blob_dims 6 [0x78] 6 [2, 3], sample_field_blob_dims 9 [0x79] 1 []]

/-- The file `sample_tdf_empty_field` without its last byte, the zero that
ends the field list of table `B`. -/
def sample_tdf_truncated : List byte := sample_tdf_empty_field.dropLast

/-- A file that ends inside the name of its first table: the byte of the file
version and the letter `A`, without the zero that ends the name. -/
def sample_tdf_open_name : List byte := [0x01, 0x41]

/-- The offsets of the bytes that `GetVarLenString (buf + ptr)` reads: its loop
`while (*ptr++ != 0x00)` reads the bytes of the string and the zero that ends
it. -/
def GetVarLenString_reads (buf : List byte) (ptr : Nat) : List Nat :=
  List.range' ptr ((GetVarLenString (buf.drop ptr)).length + 1)

/-- A `BMP5Obj` that has just read a fragment response (as `fragment_received`)
and whose buffer `dataBuf__` holds the byte `old` everywhere, left there by
earlier use. -/
def fragment_received_on (old : byte) (TranNbr : byte) (beg_rec_nbr offset sec : Nat)
    (data : List byte) (tables : List Table) : BMP5Obj :=
  { fragment_received TranNbr beg_rec_nbr offset sec data [] tables with
    dataBuf__ := fun _ => old }

/-- The packet of the fragment response in the input buffer of
`fragment_received`. -/
def fragment_packet (TranNbr : byte) (beg_rec_nbr offset sec : Nat) (data : List byte) : Packet :=
  ⟨0, (with_nullifier (logger_header (sample_state 1 [] [] []) 0x89 TranNbr
        ++ fragment_body 1 beg_rec_nbr offset sec data)).length + 1, true⟩

/-- Successive calls of `readFromDevice`, one for each of `n` read cycles, by
a caller that goes on reading after an exception: how each call ends. -/
def read_outcomes : Nat → pakbuf → List (Outcome Nat)
  | 0, _ => []
  | n + 1, pb => (readFromDevice pb).1 :: read_outcomes n (readFromDevice pb).2

/-! ## pb5_proc.cpp: the collection of the configured tables -/

/-- The `for` loop of `PB5CollectionProcess::collect`, with fuel for the number
of passes.  `Tables` is the list `dataOpt.Tables` of the configuration and
`count` the loop variable.  `ReloadTDF` stands for `BMP5Obj::ReloadTDF`, which
fetches the table definitions file from the logger: it gives the status
returned and the object afterwards.  The handlers are tried in the order of
the source: `invalid_argument`, `StorageException`, `InvalidTDFException`, and
`AppException` for every other exception of the application (among them
`CommException`, which derives from `IOException` and `AppException`).  The
last component of the result lists the tables for which `CollectData` has been
called, oldest first. -/
def collect_loop (fuel0 : Nat) (ReloadTDF : BMP5Obj → Nat × BMP5Obj) (Tables : List TableOpt) :
    Nat → Int → Bool → PB5CollectionProcess → List String →
      Outcome Unit × PB5CollectionProcess × List String
  | 0, _, _, p, called => (Outcome.diverge, p, called)
  | fuel + 1, count, recollect_tdf, p, called =>
    if count < (Tables.length : Int) then
      match Tables.get? count.toNat with
      | none => (Outcome.ret (), p, called)
      | some table_opt =>
        let called := called ++ [table_opt.TableName]
        match CollectData fuel0 p.bmp5ImplObj__ table_opt with
        | (Outcome.ret _, o) =>
          collect_loop fuel0 ReloadTDF Tables fuel (count + 1) recollect_tdf
            { p with bmp5ImplObj__ := o } called
        | (Outcome.diverge, o) => (Outcome.diverge, { p with bmp5ImplObj__ := o }, called)
        | (Outcome.throw Exception.invalid_argument, o) =>
          collect_loop fuel0 ReloadTDF Tables fuel (count + 1) recollect_tdf
            { p with bmp5ImplObj__ := o } called
        | (Outcome.throw Exception.StorageException, o) =>
          (Outcome.ret (), { p with bmp5ImplObj__ := o }, called)
        | (Outcome.throw Exception.InvalidTDFException, o) =>
          if recollect_tdf = false then
            let r := ReloadTDF o
            let count := if r.1 = SUCCESS then count - 1 else count
            collect_loop fuel0 ReloadTDF Tables fuel (count + 1) true
              { p with bmp5ImplObj__ := r.2 } called
          else (Outcome.ret (), { p with bmp5ImplObj__ := o }, called)
        | (Outcome.throw _, o) =>
          collect_loop fuel0 ReloadTDF Tables fuel (count + 1) recollect_tdf
            { p with bmp5ImplObj__ := o } called
    else (Outcome.ret (), p, called)

/-- Model of `PB5CollectionProcess::collect`.  The loop makes one pass for each
table and at most one more after a reload of the table definitions, so that
`Tables.length + 2` passes are enough. -/
def collect (fuel0 : Nat) (ReloadTDF : BMP5Obj → Nat × BMP5Obj) (p : PB5CollectionProcess)
    (Tables : List TableOpt) : Outcome Unit × PB5CollectionProcess × List String :=
  if Tables.length = 0 then (Outcome.ret (), p, [])
  else collect_loop fuel0 ReloadTDF Tables (Tables.length + 2) 0 false p []

/-- A second table, named `U`, number 2, with one field of type 6. -/
def sample_table_U : Table :=
  { sample_table [sample_field 6 1] 10 1 ⟨60, 0⟩ with TblName := "U", TblNum := 2 }

/-- A collect-data response of logger 1 for table 2 with response code 0. -/
def collect_response_U (TranNbr : byte) (beg_rec_nbr num_recs : Nat) (data : List byte) :
    List byte :=
  logger_packet 0x89 TranNbr (collect_body 0x00 2 beg_rec_nbr num_recs data)

/-- A collect-data response of logger 1 for table 1 with the response code
`RespCode` and no data. -/
def collect_refusal (TranNbr RespCode : byte) : List byte :=
  logger_packet 0x89 TranNbr (collect_body RespCode 1 0 0 [])

/-- A collection process for logger 1 with the tables `T` and `U`, whose device
will deliver `devIn` and whose writer raises on the calls for which `raises`
holds. -/
def sample_process_TU (devIn : List (List byte)) (raises : WriterCall → Bool) :
    PB5CollectionProcess :=
  { bmp5ImplObj__ :=
      { sample_bmp5 devIn [sample_table [sample_field 6 1] 10 1 ⟨60, 0⟩, sample_table_U] with
        tblDataWriter__ := { raises := raises } } }

/-- A reload of the table definitions that succeeds and finds the same
definitions. -/
def sample_reload (o : BMP5Obj) : Nat × BMP5Obj := (SUCCESS, o)

/-! ## The collect commands on the wire and the cooperative logger -/

/-- A collect-data command as the logger receives it: the transaction number,
the collect mode and the parameters `P1` and `P2`. -/
structure CollectRequest where
  TranNbr : byte
  mode : Nat
  P1 : Nat
  P2 : Nat
  deriving DecidableEq, Repr

/-- The ten header bytes of a command (message type `0x09`, priority 2) with
the transaction number `t` that `b` sends to its logger. -/
def command_header (b : PakBusMsg) (t : byte) : List byte :=
  header_bytes { b with Priority__ := 0x02, MsgType__ := 0x09, TranNbr__ := t }

/-- The body of a collect-data command as the protocol lays it out: security
code, collect mode, table number, table signature, `P1`, for the mode 6 also
`P2`, and the empty list of fields. -/
def collect_command_body (SecurityCode TblNum TblSignature : Nat) (r : CollectRequest) :
    List byte :=
  [toByte (SecurityCode >>> 8), toByte SecurityCode, toByte r.mode] ++ PBSerialize TblNum 2
    ++ PBSerialize TblSignature 2 ++ PBSerialize r.P1 4
    ++ (if r.mode = 6 then PBSerialize r.P2 4 else []) ++ PBSerialize 0 2

/-- The bytes on the wire of the collect-data command `r` for the table with
number `TblNum` and signature `TblSignature` that `b` sends to its logger:
sync byte, quoted header, body and nullifier, sync byte. -/
def collect_command (b : PakBusMsg) (TblNum TblSignature : Nat) (r : CollectRequest) :
    List byte :=
  (quoted_frame (with_nullifier (command_header b r.TranNbr
    ++ collect_command_body b.SecurityCode__ TblNum TblSignature r))).1

/-- How a cooperative logger that holds the records up to `last_rec_nbr` of the
table answers the collect-data command `r`: the query for the last record
(mode 5) with the record `last_rec_nbr` and the data `data0`, and a range
request `P1 .. P2` with one non-fragmented response that carries the records
`P1 .. min (P2 - 1, last_rec_nbr)`, with the data `data P1`.  The answer has
the transaction number of the command. -/
def cooperative_answer (b : PakBusMsg) (TblNum last_rec_nbr : Nat) (data0 : List byte)
    (data : Nat → List byte) (r : CollectRequest) : List byte :=
  if r.mode = 5 then logger_response b r.TranNbr (collect_body 0x00 TblNum last_rec_nbr 1 data0)
  else
    logger_response b r.TranNbr
      (collect_body 0x00 TblNum r.P1 (min (r.P2 - 1) last_rec_nbr - r.P1 + 1) (data r.P1))

/-- The range requests that lead from the record `cursor` to the record
`last_rec_nbr` in steps of `recs_per_request` records: `P1 = cursor`,
`P2 = cursor + recs_per_request`, with successive transaction numbers from
`TranNbr` on; a request is answered with `num_recs` records, and the next one
starts behind them.  The first argument bounds the number of requests. -/
def range_requests (last_rec_nbr recs_per_request : Nat) : Nat → byte → Nat → List CollectRequest
  | 0, _, _ => []
  | n + 1, TranNbr, cursor =>
    if cursor ≤ last_rec_nbr then
      let num_recs := min (cursor + recs_per_request - 1) last_rec_nbr - cursor + 1
      { TranNbr := TranNbr, mode := 6, P1 := cursor, P2 := cursor + recs_per_request }
        :: range_requests last_rec_nbr recs_per_request n (TranNbr + 1) (cursor + num_recs)
    else []

/-- The requests of a collection of the table `tbl` up to the record
`last_rec_nbr`: the query for the last record (mode 5 with `P1 = 1`), then the
range requests from the cursor of the table on. -/
def cooperative_requests (b : PakBusMsg) (tbl : Table) (last_rec_nbr : Nat) :
    List CollectRequest :=
  { TranNbr := b.TranNbr__ + 1, mode := 5, P1 := 1, P2 := 0 }
    :: range_requests last_rec_nbr (CollectData_recs_per_request (getRecordSize tbl))
         (last_rec_nbr + 1 - tbl.NextRecord) (b.TranNbr__ + 2) tbl.NextRecord

/-- The sending side of a collection in progress, seen from its start `b0`:
the members that make up the header of a command and the security code are
those of `b0`, the block of the output buffer has room for a quoted collect
command, the device has received `out` so far, and as many bytes as at the
start have been written behind the block. -/
def sending (b0 b : PakBusMsg) (out : List (List byte)) : Prop :=
  (∀ t, command_header b t = command_header b0 t) ∧ b.SecurityCode__ = b0.SecurityCode__ ∧
  60 ≤ b.pbuf__.obufsize__ ∧ b.pbuf__.obuf_overrun = b0.pbuf__.obuf_overrun ∧
  b.pbuf__.devOut = out

/-- A message-layer object whose body is `n` bytes `0xBD`, each of which
`quote_msg` expands to two bytes. -/
def sample_state_body (n : Nat) : PakBusMsg :=
  { sample_state 1 [] [] [] with MsgBody__ := fun _ => 0xbd, MsgBodyLen__ := n }

/-! # Theorems -/

/-! ### Lemmas on quoting -/

theorem getD_append_cons (pre : List byte) (x : byte) (rest : List byte) :
    (pre ++ x :: rest).getD pre.length 0 = x := by
  induction pre with
  | nil => rfl
  | cons a as ih => simpa using ih

theorem quote_loop_eq (last : byte) (mid : List byte) :
    ∀ (pre acc : List byte) (fuel : Nat), mid.length ≤ fuel →
      quote_loop (pre ++ mid ++ [last]) (pre.length + mid.length + 1) fuel pre.length acc
        = (pre.length + mid.length, acc ++ quote_spec mid) := by
  induction mid with
  | nil =>
    intro pre acc fuel _
    cases fuel with
    | zero => simp [quote_loop, quote_spec]
    | succ n => simp [quote_loop, quote_spec]
  | cons x xs ih =>
    intro pre acc fuel hfuel
    cases fuel with
    | zero => simp at hfuel
    | succ n =>
      have hn : xs.length ≤ n := by simpa using hfuel
      have hx : (pre ++ x :: xs ++ [last]).getD pre.length 0 = x := by
        rw [List.append_assoc]; exact getD_append_cons pre x _
      have hlen : pre.length + 1 < pre.length + (x :: xs).length + 1 := by simp
      have hstep := ih (pre ++ [x]) 
      have hre : pre ++ [x] ++ xs ++ [last] = pre ++ x :: xs ++ [last] := by simp
      have hl : (pre ++ [x]).length + xs.length = pre.length + (x :: xs).length := by
        simp; omega
      rw [hre, hl] at hstep
      have hl2 : (pre ++ [x]).length = pre.length + 1 := by simp
      rw [hl2] at hstep
      unfold quote_loop
      rw [if_pos hlen, hx]
      by_cases h1 : x = 0xbc
      · subst h1
        rw [if_pos (Or.inl rfl), hstep _ n hn]
        simp [quote_spec]
      · by_cases h2 : x = 0xbd
        · subst h2
          rw [if_pos (Or.inr rfl), hstep _ n hn]
          simp [quote_spec]
        · rw [if_neg (by simp [h1, h2]), hstep _ n hn]
          simp [quote_spec, h1, h2]

theorem quote_msg_eq (first last : byte) (interior tail : List byte) :
    quote_msg (first :: interior ++ [last] ++ tail) (interior.length + 2)
      = (first :: quote_spec interior ++ [last], (quote_spec interior).length + 2) := by
  have htake : (first :: interior ++ [last] ++ tail).take (interior.length + 2)
      = [first] ++ interior ++ [last] := by
    have : (first :: interior ++ [last]).length = interior.length + 2 := by simp
    rw [← this, List.take_left']
    · simp
    · rfl
  have h := quote_loop_eq last interior [first] [first] (interior.length + 2) (by omega)
  have hL : ([first] ++ interior).length = interior.length + 1 := by
    simp [Nat.add_comm]
  have hg := getD_append_cons ([first] ++ interior) last []
  rw [hL] at hg
  have hlen : [first].length + interior.length + 1 = interior.length + 2 := by
    simp only [List.length_singleton]; omega
  have hlen2 : [first].length + interior.length = interior.length + 1 := by
    simp only [List.length_singleton]; omega
  rw [hlen, hlen2] at h
  have h1 : [(first :: interior ++ [last] ++ tail).getD 0 0] = [first] := by simp
  simp only [quote_msg, htake, h1]
  simp only [List.length_singleton] at h
  rw [h]
  simp only [hg]
  simp

theorem quote_spec_length (xs : List byte) :
    (quote_spec xs).length = xs.length + count_special xs := by
  induction xs with
  | nil => simp [quote_spec, count_special]
  | cons x xs ih =>
    by_cases h1 : x = 0xbc
    · simp [quote_spec, count_special, h1, ih]; omega
    · by_cases h2 : x = 0xbd
      · subst h2; simp [quote_spec, count_special, ih]; omega
      · simp [quote_spec, count_special, h1, h2, ih]; omega

theorem sync_not_mem_quote_spec (xs : List byte) : (0xbd : byte) ∉ quote_spec xs := by
  induction xs with
  | nil => simp [quote_spec]
  | cons x xs ih =>
    by_cases h1 : x = 0xbc
    · subst h1; simp [quote_spec, ih]
    · by_cases h2 : x = 0xbd
      · subst h2; simp [quote_spec, ih]
      · simp [quote_spec, h1, h2, ih]; exact fun h => h2 h.symm


/-! ### Lemmas on unquoting -/

theorem unquote_loop_done (tmpbuf : List byte) (len fuel i nq : Nat) (out : List byte)
    (h : len ≤ i) : unquote_loop tmpbuf len fuel i nq out = (nq, out) := by
  cases fuel with
  | zero => rfl
  | succ n => simp [unquote_loop, Nat.not_lt.2 h]

theorem unquote_loop_succ (tmpbuf : List byte) (len fuel i nq : Nat) (out : List byte) :
    unquote_loop tmpbuf len (fuel + 1) i nq out =
      if i < len then
        if tmpbuf.getD i 0 = 0xbc then
          if tmpbuf.getD (i + 1) 0 = 0xdd then
            unquote_loop tmpbuf len fuel (i + 2) (nq + 1) (out ++ [0xbd])
          else if tmpbuf.getD (i + 1) 0 = 0xdc then
            unquote_loop tmpbuf len fuel (i + 2) (nq + 1) (out ++ [0xbc])
          else
            unquote_loop tmpbuf len fuel (i + 2) (nq + 1) (out ++ [tmpbuf.getD (i + 1) 0])
        else
          unquote_loop tmpbuf len fuel (i + 1) nq (out ++ [tmpbuf.getD i 0])
      else (nq, out) := rfl

theorem getD_append_cons_succ (pre : List byte) (x y : byte) (rest : List byte) :
    (pre ++ x :: y :: rest).getD (pre.length + 1) 0 = y := by
  have := getD_append_cons (pre ++ [x]) y rest
  simpa using this

theorem unquote_loop_quote_spec (rest : List byte) (len : Nat) (mid : List byte) :
    ∀ (pre out : List byte) (fuel nq : Nat), mid.length ≤ fuel →
      pre.length + (quote_spec mid).length ≤ len →
      unquote_loop (pre ++ quote_spec mid ++ rest) len fuel pre.length nq out
        = unquote_loop (pre ++ quote_spec mid ++ rest) len (fuel - mid.length)
            (pre.length + (quote_spec mid).length) (nq + count_special mid) (out ++ mid) := by
  induction mid with
  | nil => intro pre out fuel nq _ _; simp [quote_spec, count_special]
  | cons x xs ih =>
    intro pre out fuel nq hfuel hlen
    cases fuel with
    | zero => simp at hfuel
    | succ n =>
      have hn : xs.length ≤ n := by simpa using hfuel
      by_cases h1 : x = 0xbc
      · subst h1
        have hq : quote_spec ((0xbc : byte) :: xs) = 0xbc :: 0xdc :: quote_spec xs := by
          simp [quote_spec]
        rw [hq] at hlen ⊢
        have hT : pre ++ (0xbc : byte) :: 0xdc :: quote_spec xs ++ rest
            = (pre ++ [0xbc, 0xdc]) ++ quote_spec xs ++ rest := by simp
        have hi : pre.length < len := by simp at hlen; omega
        have hg0 : (pre ++ (0xbc : byte) :: 0xdc :: quote_spec xs ++ rest).getD pre.length 0
            = 0xbc := by
          have := getD_append_cons pre (0xbc : byte) (0xdc :: quote_spec xs ++ rest)
          simpa using this
        have hg1 : (pre ++ (0xbc : byte) :: 0xdc :: quote_spec xs ++ rest).getD
            (pre.length + 1) 0 = 0xdc := by
          have := getD_append_cons_succ pre (0xbc : byte) 0xdc (quote_spec xs ++ rest)
          simpa using this
        have hstep := ih (pre ++ [0xbc, 0xdc]) (out ++ [0xbc]) n (nq + 1) hn
          (by simp at hlen ⊢; omega)
        rw [← hT] at hstep
        have e1 : (pre ++ [(0xbc : byte), 0xdc]).length = pre.length + 2 := by simp
        rw [e1] at hstep
        rw [unquote_loop_succ]
        rw [if_pos hi, if_pos hg0, hg1, if_neg (by decide), if_pos rfl, hstep]
        have e2 : n + 1 - ((0xbc : byte) :: xs).length = n - xs.length := by simp
        have e3 : pre.length + 2 + (quote_spec xs).length
            = pre.length + ((0xbc : byte) :: 0xdc :: quote_spec xs).length := by
          simp; omega
        have e4 : nq + 1 + count_special xs = nq + count_special ((0xbc : byte) :: xs) := by
          simp [count_special]; omega
        rw [e2, e3, e4]
        simp
      · by_cases h2 : x = 0xbd
        · subst h2
          have hq : quote_spec ((0xbd : byte) :: xs) = 0xbc :: 0xdd :: quote_spec xs := by
            simp [quote_spec]
          rw [hq] at hlen ⊢
          have hT : pre ++ (0xbc : byte) :: 0xdd :: quote_spec xs ++ rest
              = (pre ++ [0xbc, 0xdd]) ++ quote_spec xs ++ rest := by simp
          have hi : pre.length < len := by simp at hlen; omega
          have hg0 : (pre ++ (0xbc : byte) :: 0xdd :: quote_spec xs ++ rest).getD pre.length 0
              = 0xbc := by
            have := getD_append_cons pre (0xbc : byte) (0xdd :: quote_spec xs ++ rest)
            simpa using this
          have hg1 : (pre ++ (0xbc : byte) :: 0xdd :: quote_spec xs ++ rest).getD
              (pre.length + 1) 0 = 0xdd := by
            have := getD_append_cons_succ pre (0xbc : byte) 0xdd (quote_spec xs ++ rest)
            simpa using this
          have hstep := ih (pre ++ [0xbc, 0xdd]) (out ++ [0xbd]) n (nq + 1) hn
            (by simp at hlen ⊢; omega)
          rw [← hT] at hstep
          have e1 : (pre ++ [(0xbc : byte), 0xdd]).length = pre.length + 2 := by simp
          rw [e1] at hstep
          rw [unquote_loop_succ]
          rw [if_pos hi, if_pos hg0, hg1, if_pos rfl, hstep]
          have e2 : n + 1 - ((0xbd : byte) :: xs).length = n - xs.length := by simp
          have e3 : pre.length + 2 + (quote_spec xs).length
              = pre.length + ((0xbc : byte) :: 0xdd :: quote_spec xs).length := by
            simp; omega
          have e4 : nq + 1 + count_special xs = nq + count_special ((0xbd : byte) :: xs) := by
            simp [count_special]; omega
          rw [e2, e3, e4]
          simp
        · have hq : quote_spec (x :: xs) = x :: quote_spec xs := by
            simp [quote_spec, h1, h2]
          rw [hq] at hlen ⊢
          have hT : pre ++ x :: quote_spec xs ++ rest
              = (pre ++ [x]) ++ quote_spec xs ++ rest := by simp
          have hi : pre.length < len := by simp at hlen; omega
          have hg0 : (pre ++ x :: quote_spec xs ++ rest).getD pre.length 0 = x := by
            have := getD_append_cons pre x (quote_spec xs ++ rest)
            simpa using this
          have hstep := ih (pre ++ [x]) (out ++ [x]) n nq hn
            (by simp at hlen ⊢; omega)
          rw [← hT] at hstep
          have e1 : (pre ++ [x]).length = pre.length + 1 := by simp
          rw [e1] at hstep
          rw [unquote_loop_succ]
          rw [if_pos hi, hg0, if_neg h1, hstep]
          have e2 : n + 1 - (x :: xs).length = n - xs.length := by simp
          have e3 : pre.length + 1 + (quote_spec xs).length
              = pre.length + (x :: quote_spec xs).length := by
            simp; omega
          have e4 : nq + count_special xs = nq + count_special (x :: xs) := by
            simp [count_special, h1, h2]
          rw [e2, e3, e4]
          simp


theorem unquote_loop_frame (b : List byte) :
    unquote_loop (quote_spec b ++ [0xbd]) ((quote_spec b).length + 1)
        ((quote_spec b).length + 1) 0 0 []
      = (count_special b, b ++ [0xbd]) := by
  have hfuel : b.length ≤ (quote_spec b).length + 1 := by
    rw [quote_spec_length]; omega
  have h := unquote_loop_quote_spec [0xbd] ((quote_spec b).length + 1) b [] []
    ((quote_spec b).length + 1) 0 hfuel (by simp)
  simp only [List.nil_append, List.length_nil, Nat.zero_add] at h
  rw [h]
  obtain ⟨k, hk⟩ : ∃ k, (quote_spec b).length + 1 - b.length = k + 1 :=
    ⟨(quote_spec b).length - b.length, by rw [quote_spec_length]; omega⟩
  rw [hk, unquote_loop_succ, if_pos (Nat.lt_succ_self _)]
  have hg : (quote_spec b ++ [(0xbd : byte)]).getD (quote_spec b).length 0 = 0xbd :=
    getD_append_cons (quote_spec b) 0xbd []
  rw [hg, if_neg (by decide), unquote_loop_done _ _ _ _ _ _ (Nat.le_refl _)]

theorem unquote_pack_quoted (pre b post : List byte)
    (hlen : (quote_spec b).length + 1 < 65536) :
    unquote_pack (pre ++ (0xbd :: quote_spec b ++ [0xbd]) ++ post)
        ⟨pre.length, pre.length + (quote_spec b).length + 1, true⟩
      = (pre ++ (0xbd :: b ++ [0xbd]) ++
          (pre ++ (0xbd :: quote_spec b ++ [0xbd]) ++ post).drop (pre.length + 1 + (b.length + 1)),
         ⟨pre.length, pre.length + b.length + 1, true⟩) := by
  have hl : (pre.length + (quote_spec b).length + 1 - pre.length) % 65536
      = (quote_spec b).length + 1 := by
    have : pre.length + (quote_spec b).length + 1 - pre.length = (quote_spec b).length + 1 := by
      omega
    rw [this, Nat.mod_eq_of_lt hlen]
  have hdrop : (pre ++ (0xbd :: quote_spec b ++ [0xbd]) ++ post).drop (pre.length + 1)
      = quote_spec b ++ [0xbd] ++ post := by
    have : pre ++ ((0xbd : byte) :: quote_spec b ++ [0xbd]) ++ post
        = (pre ++ [0xbd]) ++ (quote_spec b ++ [0xbd] ++ post) := by simp
    rw [this]
    have hL : pre.length + 1 = (pre ++ [(0xbd : byte)]).length := by simp
    rw [hL, List.drop_left']
    rfl
  have htake : (pre ++ (0xbd :: quote_spec b ++ [0xbd]) ++ post).take (pre.length + 1)
      = pre ++ [0xbd] := by
    have : pre ++ ((0xbd : byte) :: quote_spec b ++ [0xbd]) ++ post
        = (pre ++ [0xbd]) ++ (quote_spec b ++ [0xbd] ++ post) := by simp
    rw [this]
    have hL : pre.length + 1 = (pre ++ [(0xbd : byte)]).length := by simp
    rw [hL, List.take_left']
    rfl
  have htmp : (quote_spec b ++ [(0xbd : byte)] ++ post).take ((quote_spec b).length + 1)
      = quote_spec b ++ [0xbd] := by
    have hL : (quote_spec b).length + 1 = (quote_spec b ++ [(0xbd : byte)]).length := by simp
    rw [hL, List.take_left']
    rfl
  have hend : pre.length + (quote_spec b).length + 1 - count_special b
      = pre.length + b.length + 1 := by
    rw [quote_spec_length]; omega
  simp only [unquote_pack, hl, hdrop, htake, htmp, unquote_loop_frame, hend]
  simp

theorem payload_framed (pre b tail : List byte) :
    payload (pre ++ (0xbd :: b ++ [0xbd]) ++ tail) ⟨pre.length, pre.length + b.length + 1, true⟩
      = b := by
  have : pre ++ ((0xbd : byte) :: b ++ [0xbd]) ++ tail
      = (pre ++ [0xbd]) ++ (b ++ ([0xbd] ++ tail)) := by simp
  have hL : pre.length + 1 = (pre ++ [(0xbd : byte)]).length := by simp
  have hd : pre.length + b.length + 1 - pre.length - 1 = b.length := by omega
  simp only [payload, this, hd]
  rw [hL, List.drop_left', List.take_left']
  · rfl
  · rfl


theorem quote_spec_replicate_zero (n : Nat) :
    quote_spec (List.replicate n (0 : byte)) = List.replicate n 0 := by
  induction n with
  | zero => rfl
  | succ k ih =>
    have h1 : ¬ (0 : byte) = 0xbc := by decide
    have h2 : ¬ (0 : byte) = 0xbd := by decide
    simp [List.replicate_succ, quote_spec, h1, h2, ih]

theorem unquote_pack_len_zero (ibuf : List byte) (e : Nat) (h : e % 65536 = 0) :
    unquote_pack ibuf ⟨0, e, true⟩ = (ibuf, ⟨0, e, true⟩) := by
  have ht : List.take 1 ibuf ++ ibuf.tail = ibuf := by
    cases ibuf <;> simp
  simp [unquote_pack, h, unquote_loop, ht]

theorem quoted_frame_eq (b : List byte) :
    quoted_frame b = (0xbd :: quote_spec b ++ [0xbd], (quote_spec b).length + 2) := by
  have h := quote_msg_eq 0xbd 0xbd b []
  simpa [quoted_frame, frame] using h

theorem unquoted_payload_quoted_frame (pre b post : List byte)
    (h : (quoted_frame b).2 ≤ 65536) :
    unquoted_payload (pre ++ (quoted_frame b).1 ++ post)
      ⟨pre.length, pre.length + (quoted_frame b).2 - 1, true⟩ = b := by
  rw [quoted_frame_eq] at h ⊢
  simp only at h ⊢
  have he : pre.length + ((quote_spec b).length + 2) - 1 = pre.length + (quote_spec b).length + 1 := by
    omega
  rw [he, unquoted_payload, unquote_pack_quoted pre b post (by omega)]
  exact payload_framed pre b _

theorem unquoted_payload_long_frame (n : Nat) (h : (n + 3) % 65536 = 0) :
    unquoted_payload (quoted_frame (0xbc :: List.replicate n 0)).1
      ⟨0, (quoted_frame (0xbc :: List.replicate n 0)).2 - 1, true⟩
      ≠ 0xbc :: List.replicate n 0 := by
  have hs : quote_spec ((0xbc : byte) :: List.replicate n 0)
      = 0xbc :: 0xdc :: List.replicate n 0 := by
    simp [quote_spec, quote_spec_replicate_zero]
  rw [quoted_frame_eq, hs]
  have he : ((0xbc : byte) :: 0xdc :: List.replicate n 0).length + 2 - 1 = n + 3 := by simp
  simp only [he, unquoted_payload]
  rw [unquote_pack_len_zero _ _ h]
  intro hcontra
  have := congrArg List.length hcontra
  simp [payload] at this

/-! ### Lemmas on the signature -/

theorem and_511 (x : Nat) : x &&& 511 = x % 512 := Nat.and_pow_two_sub_one_eq_mod x 9
theorem and_255 (x : Nat) : x &&& 255 = x % 256 := Nat.and_pow_two_sub_one_eq_mod x 8
theorem and_65535 (x : Nat) : x &&& 65535 = x % 65536 := Nat.and_pow_two_sub_one_eq_mod x 16
theorem and_511' (x : Nat) : 511 &&& x = x % 512 := by rw [Nat.and_comm, and_511]
theorem and_255' (x : Nat) : 255 &&& x = x % 256 := by rw [Nat.and_comm, and_255]
theorem and_65535' (x : Nat) : 65535 &&& x = x % 65536 := by rw [Nat.and_comm, and_65535]
theorem shl_1 (x : Nat) : x <<< 1 = 2 * x := by rw [Nat.shiftLeft_eq]; omega
theorem shl_8 (x : Nat) : x <<< 8 = 256 * x := by rw [Nat.shiftLeft_eq]; omega
theorem shr_8 (x : Nat) : x >>> 8 = x / 256 := by rw [Nat.shiftRight_eq_div_pow]

theorem lor_mul_256 (a j : Nat) (ha : a < 256) : a ||| (256 * j) = 256 * j + a := by
  rw [Nat.or_comm]
  exact (Nat.mul_add_lt_is_or (i := 8) ha j).symm

theorem sig_step_arith (h l : Nat) (hl : l < 256) (b : byte) :
    sig_step_spec (256 * h + l) b = 256 * l + (rot8 l + h + b.val) % 256 := by
  have e1 : (2 * (256 * h + l)) % 512 = 2 * l := by omega
  have e2 : (256 * h + l) / 256 = h := by omega
  have e3 : (256 * h + l) % 256 = l := by omega
  simp only [sig_step_spec, shl_1, shl_8, shr_8, and_511, and_255, e1, e2, e3]
  rw [lor_mul_256 _ _ (Nat.mod_lt _ (by decide))]
  by_cases hc : 256 ≤ 2 * l
  · have hc' : 2 * l ≥ 256 := hc
    simp only [rot8, if_pos hc, if_pos hc']
  · have hc' : ¬ 2 * l ≥ 256 := hc
    simp only [rot8, if_neg hc, if_neg hc']

theorem int_mask (h t : Nat) (hh : h < 256) (ht : t < 256) :
    (((256 : Int) - (h : Int) - (t : Int)) % 256).toNat = (512 - h - t) % 256 := by
  have hnn : 0 ≤ ((256 : Int) - (h : Int) - (t : Int)) % 256 := Int.emod_nonneg _ (by decide)
  have h1 := Int.toNat_of_nonneg hnn
  generalize (((256 : Int) - (h : Int) - (t : Int)) % 256).toNat = r at h1 ⊢
  omega

theorem nullifier_arith (h l : Nat) (hh : h < 256) (hl : l < 256) :
    CalcSigNullifier (256 * h + l) / 256 % 256 = (512 - h - rot8 l % 256) % 256
    ∧ CalcSigNullifier (256 * h + l) % 256 = (256 - l) % 256 := by
  have e1 : (2 * (256 * h + l)) % 512 = 2 * l := by omega
  have e2 : (256 * h + l) / 256 = h := by omega
  have e3 : (256 * h + l) % 256 = l := by omega
  have e4 : 2 * l % 65536 = 2 * l := by omega
  have e5 : (2 * l + 1) % 65536 = 2 * l + 1 := by omega
  have e6 : l % 256 = l := Nat.mod_eq_of_lt hl
  have key : ∀ t, (256 * ((512 - h - t % 256) % 256) + (256 - l) % 256 % 256) % 65536 / 256 % 256
        = (512 - h - t % 256) % 256
      ∧ (256 * ((512 - h - t % 256) % 256) + (256 - l) % 256 % 256) % 65536 % 256
        = (256 - l) % 256 := by
    intro t
    have hu : (512 - h - t % 256) % 256 < 256 := Nat.mod_lt _ (by decide)
    have hv : (256 - l) % 256 < 256 := Nat.mod_lt _ (by decide)
    generalize (512 - h - t % 256) % 256 = u at hu ⊢
    generalize (256 - l) % 256 = v at hv ⊢
    omega
  simp only [CalcSigNullifier, shl_1, shl_8, shr_8, and_511', and_255', and_65535', and_255,
    e1, e2, e3, e4]
  by_cases hc : 256 ≤ 2 * l
  · have hc' : 2 * l ≥ 256 := hc
    simp only [rot8, if_pos hc, if_pos hc', e5, e6]
    rw [int_mask h _ hh (Nat.mod_lt _ (by decide))]
    exact key _
  · have hc' : ¬ 2 * l ≥ 256 := hc
    simp only [rot8, if_neg hc, if_neg hc', e6]
    rw [int_mask h _ hh (Nat.mod_lt _ (by decide))]
    exact key _

theorem sig_step_nullifier (s : Nat) (hs : s < 65536) :
    sig_step_spec (sig_step_spec s (toByte (CalcSigNullifier s >>> 8)))
      (toByte (CalcSigNullifier s)) = 0 := by
  obtain ⟨h, l, rfl, hh, hl⟩ : ∃ h l, s = 256 * h + l ∧ h < 256 ∧ l < 256 :=
    ⟨s / 256, s % 256, by omega, by omega, by omega⟩
  obtain ⟨n1, n0⟩ := nullifier_arith h l hh hl
  have hr : rot8 l % 256 < 256 := Nat.mod_lt _ (by decide)
  have hb1 : (toByte (CalcSigNullifier (256 * h + l) >>> 8)).val = (512 - h - rot8 l % 256) % 256 := by
    simp only [toByte, shr_8]; exact n1
  have hb0 : (toByte (CalcSigNullifier (256 * h + l))).val = (256 - l) % 256 := by
    simp only [toByte]; exact n0
  rw [sig_step_arith h l hl, hb1]
  have e : (rot8 l + h + (512 - h - rot8 l % 256) % 256) % 256 = 0 := by
    generalize rot8 l = r at hr ⊢
    omega
  rw [e]
  have := sig_step_arith l 0 (by decide) (toByte (CalcSigNullifier (256 * h + l)))
  have r0 : rot8 0 = 0 := by decide
  rw [this, hb0, r0]
  omega


theorem CalcSig_body_eq_spec (j : Nat) (b : byte) : CalcSig_body j b = sig_step_spec j b := by
  simp only [CalcSig_body, sig_step_spec, shl_8, and_255]
  rw [lor_mul_256 _ _ (Nat.mod_lt _ (by decide)), lor_mul_256 _ _ (Nat.mod_lt _ (by decide))]
  have ha : ((if j <<< 1 &&& 511 ≥ 256 then (j <<< 1 &&& 511) + 1 else j <<< 1 &&& 511)
      + j >>> 8 + b.val) % 256 < 256 := Nat.mod_lt _ (by decide)
  generalize ((if j <<< 1 &&& 511 ≥ 256 then (j <<< 1 &&& 511) + 1 else j <<< 1 &&& 511)
      + j >>> 8 + b.val) % 256 = a at ha ⊢
  omega

theorem sig_step_spec_lt (j : Nat) (b : byte) : sig_step_spec j b < 65536 := by
  rw [← CalcSig_body_eq_spec]
  exact Nat.mod_lt _ (by decide)

theorem CalcSig_loop_succ (ptr : List byte) (len fuel n ret : Nat) :
    CalcSig_loop ptr len (fuel + 1) n ret =
      if n < len then
        CalcSig_loop ptr len fuel ((n + 1) % 65536) (CalcSig_body ret (ptr.getD n 0))
      else some ret := rfl

theorem CalcSig_loop_eq (suf : List byte) :
    ∀ (pre : List byte) (ret fuel : Nat), pre.length + suf.length < 65536 → suf.length < fuel →
      CalcSig_loop (pre ++ suf) (pre.length + suf.length) fuel pre.length ret
        = some (suf.foldl sig_step_spec ret) := by
  induction suf with
  | nil =>
    intro pre ret fuel _ hfuel
    cases fuel with
    | zero => simp at hfuel
    | succ k => simp [CalcSig_loop_succ]
  | cons x xs ih =>
    intro pre ret fuel hlen hfuel
    cases fuel with
    | zero => simp at hfuel
    | succ k =>
      have hk : xs.length < k := by simpa using hfuel
      have hlen' : pre.length + xs.length + 1 < 65536 := by simpa [Nat.add_assoc] using hlen
      have hstep := ih (pre ++ [x]) (sig_step_spec ret x) k (by simp; omega) hk
      have e1 : pre ++ [x] ++ xs = pre ++ x :: xs := by simp
      have e2 : (pre ++ [x]).length + xs.length = pre.length + (x :: xs).length := by
        simp; omega
      have e3 : (pre ++ [x]).length = pre.length + 1 := by simp
      rw [e1, e2, e3] at hstep
      have e4 : (pre.length + 1) % 65536 = pre.length + 1 := Nat.mod_eq_of_lt (by omega)
      rw [CalcSig_loop_succ, if_pos (by simp), getD_append_cons, CalcSig_body_eq_spec, e4, hstep]
      rfl

theorem CalcSig_eq_foldl (buf : List byte) (seed : Nat) (h : buf.length < 65536) :
    CalcSig buf buf.length seed = some (buf.foldl sig_step_spec seed) := by
  have := CalcSig_loop_eq buf [] seed 65536 (by simpa using h) h
  simpa [CalcSig] using this

theorem foldl_sig_lt (buf : List byte) (seed : Nat) (h : seed < 65536) :
    buf.foldl sig_step_spec seed < 65536 := by
  induction buf generalizing seed with
  | nil => simpa using h
  | cons x xs ih => exact ih _ (sig_step_spec_lt seed x)

theorem CalcSig_append_nullifier (p : List byte) (seed : Nat) (hs : seed < 65536)
    (h : p.length + 2 < 65536) :
    CalcSig (p ++ [toByte (CalcSigNullifier (p.foldl sig_step_spec seed) >>> 8),
        toByte (CalcSigNullifier (p.foldl sig_step_spec seed))]) (p.length + 2) seed = some 0 := by
  have hl : (p ++ [toByte (CalcSigNullifier (p.foldl sig_step_spec seed) >>> 8),
        toByte (CalcSigNullifier (p.foldl sig_step_spec seed))]).length = p.length + 2 := by simp
  rw [← hl, CalcSig_eq_foldl _ _ (by rw [hl]; exact h), List.foldl_append]
  simp only [List.foldl_cons, List.foldl_nil]
  rw [sig_step_nullifier _ (foldl_sig_lt p seed hs)]


/-! ### Lemmas on the integer codec -/

theorem lor_byte (v : Nat) (b : Nat) (hb : b < 256) :
    ((v <<< 8) % 4294967296) ||| b = (256 * v) % 4294967296 + b := by
  rw [shl_8]
  obtain ⟨q, hq⟩ : ∃ q, (256 * v) % 4294967296 = 256 * q := ⟨v % 16777216, by omega⟩
  rw [hq, Nat.or_comm, lor_mul_256 _ _ hb]

theorem PBSerialize_1 (val : Nat) : PBSerialize val 1 = [toByte val] := by
  simp [PBSerialize, PBSerialize_loop]

theorem PBSerialize_2 (val : Nat) : PBSerialize val 2 = [toByte (val >>> 8), toByte val] := by
  simp [PBSerialize, PBSerialize_loop]

theorem PBSerialize_3 (val : Nat) :
    PBSerialize val 3 = [toByte (val >>> 16), toByte (val >>> 8), toByte val] := by
  simp [PBSerialize, PBSerialize_loop]

theorem PBSerialize_4 (val : Nat) :
    PBSerialize val 4
      = [toByte (val >>> 24), toByte (val >>> 16), toByte (val >>> 8), toByte val] := by
  simp [PBSerialize, PBSerialize_loop]

theorem PBDeserialize_1 (a : byte) (tl : List byte) : PBDeserialize (a :: tl) 1 = a.val := by
  simp [PBDeserialize, PBDeserialize_loop]

theorem PBDeserialize_2 (a b : byte) (tl : List byte) :
    PBDeserialize (a :: b :: tl) 2 = 256 * a.val + b.val := by
  simp only [PBDeserialize, PBDeserialize_loop, List.getD_cons_zero, List.getD_cons_succ]
  simp only [Nat.lt_irrefl, if_false, if_true, Nat.zero_lt_succ, Nat.zero_add, Nat.reduceLT,
    Nat.reduceAdd]
  rw [lor_byte _ _ a.isLt, lor_byte _ _ b.isLt]
  have := a.isLt; have := b.isLt
  omega


theorem PBDeserialize_3 (a b c : byte) (tl : List byte) :
    PBDeserialize (a :: b :: c :: tl) 3 = 65536 * a.val + 256 * b.val + c.val := by
  simp only [PBDeserialize, PBDeserialize_loop, List.getD_cons_zero, List.getD_cons_succ]
  simp only [Nat.lt_irrefl, if_false, if_true, Nat.zero_lt_succ, Nat.zero_add, Nat.reduceLT,
    Nat.reduceAdd]
  rw [lor_byte _ _ a.isLt, lor_byte _ _ b.isLt, lor_byte _ _ c.isLt]
  have := a.isLt; have := b.isLt; have := c.isLt
  omega

theorem PBDeserialize_4 (a b c d : byte) (tl : List byte) :
    PBDeserialize (a :: b :: c :: d :: tl) 4
      = 16777216 * a.val + 65536 * b.val + 256 * c.val + d.val := by
  simp only [PBDeserialize, PBDeserialize_loop, List.getD_cons_zero, List.getD_cons_succ]
  simp only [Nat.lt_irrefl, if_false, if_true, Nat.zero_lt_succ, Nat.zero_add, Nat.reduceLT,
    Nat.reduceAdd]
  rw [lor_byte _ _ a.isLt, lor_byte _ _ b.isLt, lor_byte _ _ c.isLt, lor_byte _ _ d.isLt]
  have := a.isLt; have := b.isLt; have := c.isLt; have := d.isLt
  omega

theorem toByte_val (n : Nat) : (toByte n).val = n % 256 := rfl

theorem shr_16 (x : Nat) : x >>> 16 = x / 65536 := by rw [Nat.shiftRight_eq_div_pow]
theorem shr_24 (x : Nat) : x >>> 24 = x / 16777216 := by rw [Nat.shiftRight_eq_div_pow]

theorem PBSerialize_roundtrip_aux (val len : Nat) (hlen : len = 1 ∨ len = 2 ∨ len = 3 ∨ len = 4)
    (hval : val < 2 ^ (8 * len)) :
    (PBSerialize val len).length = len
    ∧ (∀ i, i < len → ((PBSerialize val len).getD i 0).val = val / 256 ^ (len - 1 - i) % 256)
    ∧ PBDeserialize (PBSerialize val len) len = val := by
  rcases hlen with rfl | rfl | rfl | rfl
  · rw [PBSerialize_1]
    refine ⟨rfl, ?_, ?_⟩
    · intro i hi
      interval_cases i
      simp [toByte_val]
    · rw [PBDeserialize_1, toByte_val]
      norm_num at hval
      omega
  · rw [PBSerialize_2]
    refine ⟨rfl, ?_, ?_⟩
    · intro i hi
      interval_cases i <;> simp [toByte_val, shr_8]
    · rw [PBDeserialize_2, toByte_val, toByte_val, shr_8]
      norm_num at hval
      omega
  · rw [PBSerialize_3]
    refine ⟨rfl, ?_, ?_⟩
    · intro i hi
      interval_cases i <;> simp [toByte_val, shr_8, shr_16]
    · rw [PBDeserialize_3, toByte_val, toByte_val, toByte_val, shr_8, shr_16]
      norm_num at hval
      omega
  · rw [PBSerialize_4]
    refine ⟨rfl, ?_, ?_⟩
    · intro i hi
      interval_cases i <;> simp [toByte_val, shr_8, shr_16, shr_24]
    · rw [PBDeserialize_4, toByte_val, toByte_val, toByte_val, toByte_val, shr_8, shr_16, shr_24]
      norm_num at hval
      omega


/-! ### Lemmas on packet classification -/

theorem CalcSig_loop_take (buf : List byte) (len : Nat) :
    ∀ (fuel n ret : Nat),
      CalcSig_loop (buf.take len) len fuel n ret = CalcSig_loop buf len fuel n ret := by
  intro fuel
  induction fuel with
  | zero => intro n ret; rfl
  | succ k ih =>
    intro n ret
    rw [CalcSig_loop_succ, CalcSig_loop_succ]
    by_cases h : n < len
    · have hg : (buf.take len).getD n 0 = buf.getD n 0 := by
        simp [List.getD_eq_getElem?_getD, List.getElem?_take, h]
      rw [if_pos h, if_pos h, hg, ih]
    · rw [if_neg h, if_neg h]

theorem CalcSig_take (buf : List byte) (len seed : Nat) :
    CalcSig (buf.take len) len seed = CalcSig buf len seed :=
  CalcSig_loop_take buf len 65536 0 seed

theorem hdr12_eq (hi lo : byte) :
    ((0x0f &&& hi.val) <<< 8) ||| (0x00ff &&& lo.val) = hdr12 hi lo := by
  have h15 : 15 &&& hi.val = hi.val % 16 := by
    rw [Nat.and_comm]; exact Nat.and_pow_two_sub_one_eq_mod hi.val 4
  have hlo : lo.val % 256 = lo.val := Nat.mod_eq_of_lt lo.isLt
  rw [h15, and_255', shl_8, hlo, Nat.or_comm, lor_mul_256 _ _ lo.isLt, hdr12]
  omega

set_option maxRecDepth 20000 in
theorem nibble_eq (b : byte) : toByte ((0xf0 &&& b.val) >>> 4) = toByte (hdr_nibble b) := by
  revert b; decide

set_option maxRecDepth 20000 in
theorem nibble_cases (b : byte) :
    (toByte (hdr_nibble b) ≠ 0 ∧ toByte (hdr_nibble b) ≠ 1)
      ↔ ¬ (hdr_nibble b = 0 ∨ hdr_nibble b = 1) := by
  revert b; decide

set_option maxRecDepth 20000 in
theorem nibble_zero (b : byte) : toByte (hdr_nibble b) = 0 ↔ hdr_nibble b = 0 := by
  revert b; decide


/-! ## Framing -/

/-- C1 (amended): for every byte sequence `b` whose quoted frame
`0xBD ++ quote(b) ++ 0xBD` is at most 65536 bytes long, wherever that frame
lies in the input buffer, `unquote_pack` applied to the packet produced by
`quote_msg` from `0xBD ++ b ++ 0xBD` yields a packet whose payload is exactly
`b`. -/
theorem unquote_quote_roundtrip (pre b post : List byte)
    (h : (quoted_frame b).2 ≤ 65536) :
    unquoted_payload (pre ++ (quoted_frame b).1 ++ post)
      ⟨pre.length, pre.length + (quoted_frame b).2 - 1, true⟩ = b :=
  unquoted_payload_quoted_frame pre b post h

/-- Witness of C1: the frame of `01 BD BC 02` is quoted and unquoted back. -/
theorem unquote_quote_roundtrip_witness :
    (quoted_frame [0x01, 0xbd, 0xbc, 0x02]).2 ≤ 65536 ∧
    unquoted_payload (([] : List byte) ++ (quoted_frame [0x01, 0xbd, 0xbc, 0x02]).1 ++ [])
      ⟨([] : List byte).length,
        ([] : List byte).length + (quoted_frame [0x01, 0xbd, 0xbc, 0x02]).2 - 1, true⟩
      = [0x01, 0xbd, 0xbc, 0x02] :=
  ⟨by decide, unquote_quote_roundtrip [] [0x01, 0xbd, 0xbc, 0x02] [] (by decide)⟩

/-- Counterexample to C1 as stated: for the 65534-byte sequence `BC 00 ... 00`
the quoted frame has 65537 bytes, the 16-bit `len` of `unquote_pack` is zero,
nothing is unquoted and the payload of the packet is not `b`. -/
theorem unquote_quote_counterexample :
    unquoted_payload (quoted_frame (0xbc :: List.replicate 65533 0)).1
      ⟨0, (quoted_frame (0xbc :: List.replicate 65533 0)).2 - 1, true⟩
      ≠ 0xbc :: List.replicate 65533 0 :=
  unquoted_payload_long_frame 65533 (by decide)

/-- C2: for every message `first :: interior ++ [last]` (that is, every message
of length at least 2), `quote_msg` keeps the first and the last byte, replaces
in order each interior `0xBC` by `0xBC 0xDC` and each interior `0xBD` by
`0xBC 0xDD`, copies every other byte, and returns the old length plus the
number of interior `0xBC`/`0xBD` bytes; no `0xBD` occurs between the framing
bytes of the output, and `01 BD BC 02` is quoted to `01 BC DD BC DC 02`. -/
theorem quote_msg_correct (first last : byte) (interior : List byte) :
    quote_msg (first :: interior ++ [last]) (interior.length + 2)
      = (first :: quote_spec interior ++ [last],
         interior.length + 2 + count_special interior)
    ∧ (0xbd : byte) ∉ quote_spec interior
    ∧ quote_msg [0xbd, 0x01, 0xbd, 0xbc, 0x02, 0xbd] 6
      = ([0xbd, 0x01, 0xbc, 0xdd, 0xbc, 0xdc, 0x02, 0xbd], 8) := by
  refine ⟨?_, sync_not_mem_quote_spec interior, by decide⟩
  have h := quote_msg_eq first last interior []
  rw [List.append_nil] at h
  rw [h, quote_spec_length]
  simp only [Prod.mk.injEq, true_and]
  omega

/-! ## Signature and nullifier -/

/-- C3: for every payload `p` of length below 65534, `CalcSig (p, 0xAAAA)`
returns a signature `sig`, and appending the two bytes of
`CalcSigNullifier (sig)`, high byte first, gives a sequence whose `CalcSig`
with seed `0xAAAA` is 0. -/
theorem CalcSig_nullifier_zero (p : List byte) (h : p.length < 65534) :
    ∃ sig, CalcSig p p.length 0xAAAA = some sig ∧
      CalcSig (p ++ [toByte (CalcSigNullifier sig >>> 8), toByte (CalcSigNullifier sig)])
        (p.length + 2) 0xAAAA = some 0 :=
  ⟨p.foldl sig_step_spec 0xAAAA, CalcSig_eq_foldl p 0xAAAA (by omega),
    CalcSig_append_nullifier p 0xAAAA (by decide) (by omega)⟩

/-- Witness of C3 on the payload `00 01 02 03`. -/
theorem CalcSig_nullifier_zero_witness :
    ([0x00, 0x01, 0x02, 0x03] : List byte).length < 65534 ∧
    ∃ sig, CalcSig [0x00, 0x01, 0x02, 0x03] ([0x00, 0x01, 0x02, 0x03] : List byte).length 0xAAAA
        = some sig ∧
      CalcSig (([0x00, 0x01, 0x02, 0x03] : List byte) ++
          [toByte (CalcSigNullifier sig >>> 8), toByte (CalcSigNullifier sig)])
        (([0x00, 0x01, 0x02, 0x03] : List byte).length + 2) 0xAAAA = some 0 :=
  ⟨by decide, CalcSig_nullifier_zero [0x00, 0x01, 0x02, 0x03] (by decide)⟩

/-- C4: for every byte sequence of length below 65536 and every 16-bit seed,
`CalcSig` returns the left fold over the bytes, starting from the seed, of the
step `tmp = (sig << 1) & 0x1FF; if tmp >= 0x100 then tmp += 1;
sig = ((tmp + (sig >> 8) + byte) & 0xFF) | ((sig & 0xFF) << 8)`. -/
theorem CalcSig_is_fold (buf : List byte) (seed : Nat) (hlen : buf.length < 65536)
    (_hseed : seed < 65536) :
    CalcSig buf buf.length seed = some (buf.foldl sig_step_spec seed) :=
  CalcSig_eq_foldl buf seed hlen

/-- Witness of C4 on the payload `00 01 02 03` and the seed `0xAAAA`. -/
theorem CalcSig_is_fold_witness :
    ([0x00, 0x01, 0x02, 0x03] : List byte).length < 65536 ∧ 0xAAAA < 65536 ∧
    CalcSig [0x00, 0x01, 0x02, 0x03] ([0x00, 0x01, 0x02, 0x03] : List byte).length 0xAAAA
      = some (([0x00, 0x01, 0x02, 0x03] : List byte).foldl sig_step_spec 0xAAAA) :=
  ⟨by decide, by decide, CalcSig_is_fold [0x00, 0x01, 0x02, 0x03] 0xAAAA (by decide) (by decide)⟩

/-! ## Integer codec -/

/-- C5: for every `len` in `{1, 2, 3, 4}` and every `val < 2^(8*len)`,
`PBSerialize` writes exactly `len` bytes, byte `i` being byte `len - 1 - i` of
`val` (most significant first), and `PBDeserialize` of these bytes returns
`val`. -/
theorem PBSerialize_PBDeserialize_roundtrip (val len : Nat)
    (hlen : len = 1 ∨ len = 2 ∨ len = 3 ∨ len = 4) (hval : val < 2 ^ (8 * len)) :
    (PBSerialize val len).length = len
    ∧ (∀ i, i < len → ((PBSerialize val len).getD i 0).val = val / 256 ^ (len - 1 - i) % 256)
    ∧ PBDeserialize (PBSerialize val len) len = val :=
  PBSerialize_roundtrip_aux val len hlen hval

/-- Witness of C5 with `val = 0x123456` and `len = 3`. -/
theorem PBSerialize_PBDeserialize_roundtrip_witness :
    ((3 : Nat) = 1 ∨ (3 : Nat) = 2 ∨ (3 : Nat) = 3 ∨ (3 : Nat) = 4) ∧ 0x123456 < 2 ^ (8 * 3) ∧
    ((PBSerialize 0x123456 3).length = 3
    ∧ (∀ i, i < 3 → ((PBSerialize 0x123456 3).getD i 0).val = 0x123456 / 256 ^ (3 - 1 - i) % 256)
    ∧ PBDeserialize (PBSerialize 0x123456 3) 3 = 0x123456) :=
  ⟨by decide, by decide, PBSerialize_PBDeserialize_roundtrip 0x123456 3 (by decide) (by decide)⟩

/-! ## Time values -/

/-- C6 (the code at the failing input): `NSec::operator+=` leaves the nanosecond
member unchanged when the sum of the nanoseconds is below `10^9`, so that
`(0, 1) += (0, 1)` is `(0, 1)` and not `(0, 2)`, and
`(5, 7) + (0, 10^9 - 1) + (0, 1)` is `(6, 6)` and not `(6, 7)`. -/
theorem NSec_plusEq_drops_nanoseconds :
    NSec.plusEq ⟨0, 1⟩ ⟨0, 1⟩ = ⟨0, 1⟩
    ∧ (NSec.plusEq ⟨0, 1⟩ ⟨0, 1⟩).total ≠ (⟨0, 1⟩ : NSec).total + (⟨0, 1⟩ : NSec).total
    ∧ NSec.plusEq (NSec.plusEq ⟨5, 7⟩ ⟨0, 999999999⟩) ⟨0, 1⟩ = ⟨6, 6⟩ := by
  decide

theorem pkt_len_toNat (Pack : Packet) :
    (pkt_len Pack - 2).toNat = Pack.endPacket - Pack.begPacket - 1 := by
  unfold pkt_len; omega

theorem CalcSig_payload (ibuf : List byte) (Pack : Packet) (seed : Nat) :
    CalcSig (ibuf.drop (Pack.begPacket + 1)) (pkt_len Pack - 2).toNat seed
      = CalcSig (payload ibuf Pack) (pkt_len Pack - 2).toNat seed := by
  rw [pkt_len_toNat, payload, CalcSig_take]

theorem parse_pakbus_header_spec (st : PakBusMsg) (pack : Packet) (D : PktSummary) :
    (parse_pakbus_header st pack D).1 = SUCCESS ↔
      hdr12 (pkt_byte st.pbuf__.ibuf__ pack 1) (pkt_byte st.pbuf__.ibuf__ pack 2) = st.SrcPhyAddr__ ∧
      hdr12 (pkt_byte st.pbuf__.ibuf__ pack 3) (pkt_byte st.pbuf__.ibuf__ pack 4) = st.DstPhyAddr__ ∧
      (pkt_len pack = 8 ∨
        (hdr12 (pkt_byte st.pbuf__.ibuf__ pack 5) (pkt_byte st.pbuf__.ibuf__ pack 6)
            = st.SrcNodeId__ ∧
         hdr12 (pkt_byte st.pbuf__.ibuf__ pack 7) (pkt_byte st.pbuf__.ibuf__ pack 8)
            = st.DstNodeId__ ∧
         (hdr_nibble (pkt_byte st.pbuf__.ibuf__ pack 5) = 0 ∨
          hdr_nibble (pkt_byte st.pbuf__.ibuf__ pack 5) = 1))) := by
  simp only [parse_pakbus_header, hdr12_eq, nibble_eq, nibble_cases]
  split_ifs <;> simp_all

theorem parse_pakbus_header_digest (st : PakBusMsg) (pack : Packet)
    (h : (parse_pakbus_header st pack {}).1 = SUCCESS) (h8 : pkt_len pack ≠ 8) :
    (parse_pakbus_header st pack {}).2 =
      { Protocol := toByte (hdr_nibble (pkt_byte st.pbuf__.ibuf__ pack 5))
        MsgType := pkt_byte st.pbuf__.ibuf__ pack 9
        TranNbr := pkt_byte st.pbuf__.ibuf__ pack 10
        SrcPhyAddrFrmPkt :=
          hdr12 (pkt_byte st.pbuf__.ibuf__ pack 3) (pkt_byte st.pbuf__.ibuf__ pack 4)
        SrcNodeAddrFrmPkt :=
          hdr12 (pkt_byte st.pbuf__.ibuf__ pack 7) (pkt_byte st.pbuf__.ibuf__ pack 8) } := by
  simp only [parse_pakbus_header, hdr12_eq, nibble_eq, nibble_cases] at h ⊢
  split_ifs at h ⊢
  simp_all

theorem send_link_state_pkt_ne_SUCCESS (r : Outcome Unit × PakBusMsg) :
    (match r with
      | (Outcome.ret _, st') => (Outcome.ret LINK_STATE_PKT, st')
      | (Outcome.throw e, st') => (Outcome.throw e, st')
      | (Outcome.diverge, st') => ((Outcome.diverge : Outcome Nat), st')).1
      ≠ Outcome.ret SUCCESS := by
  rcases r with ⟨o, s⟩
  cases o <;> simp

theorem reply_to_hello_ne_SUCCESS (r : Outcome Unit × PakBusMsg) :
    (match r with
      | (Outcome.ret _, st') => (Outcome.ret HELLO_MSG, st')
      | (Outcome.throw e, st') => (Outcome.throw e, st')
      | (Outcome.diverge, st') => ((Outcome.diverge : Outcome Nat), st')).1
      ≠ Outcome.ret SUCCESS := by
  rcases r with ⟨o, s⟩
  cases o <;> simp

theorem ParsePakBusPacket_checked (st : PakBusMsg) (Pack : Packet) (msg_type tran_id : byte)
    (hc : Pack.Complete = true) (hlen : 8 < pkt_len Pack) (hmax : pkt_len Pack ≤ 1112)
    (hsig : CalcSig (payload st.pbuf__.ibuf__ Pack) (pkt_len Pack - 2).toNat 0xaaaa = some 0)
    (hhd : (parse_pakbus_header st Pack {}).1 = SUCCESS) :
    ParsePakBusPacket st Pack msg_type tran_id =
      if pkt_byte st.pbuf__.ibuf__ Pack 10 ≠ tran_id ∨ pkt_byte st.pbuf__.ibuf__ Pack 9 ≠ msg_type
      then
        if hdr_nibble (pkt_byte st.pbuf__.ibuf__ Pack 5) = 0 ∧
            pkt_byte st.pbuf__.ibuf__ Pack 9 = 0x09 then
          match reply_to_hello st (parse_pakbus_header st Pack {}).2 Pack with
          | (Outcome.ret _, st') => (Outcome.ret HELLO_MSG, st')
          | (Outcome.throw e, st') => (Outcome.throw e, st')
          | (Outcome.diverge, st') => (Outcome.diverge, st')
        else if hdr_nibble (pkt_byte st.pbuf__.ibuf__ Pack 5) = 0 ∧
            pkt_byte st.pbuf__.ibuf__ Pack 9 = 0x81 then
          (Outcome.ret DELIVERY_FAILURE, st)
        else (Outcome.ret IGNORE_MSG, st)
      else (Outcome.ret SUCCESS, st) := by
  have h8 : pkt_len Pack ≠ 8 := by omega
  have hd := parse_pakbus_header_digest st Pack hhd h8
  have hsz : ¬ (pkt_len Pack < 8 ∨ pkt_len Pack > MAX_PACK_SIZE) := by
    simp only [MAX_PACK_SIZE]; omega
  unfold ParsePakBusPacket
  simp only [hc, not_true_eq_false, if_false, hsz, CalcSig_payload, hsig, ne_eq,
    hhd, if_neg h8]
  simp only [hd, nibble_zero]

theorem ParsePakBusPacket_SUCCESS_iff_aux (st : PakBusMsg) (Pack : Packet)
    (msg_type tran_id : byte) :
    (ParsePakBusPacket st Pack msg_type tran_id).1 = Outcome.ret SUCCESS ↔
      Pack.Complete = true ∧ 8 ≤ pkt_len Pack ∧ pkt_len Pack ≤ 1112 ∧ pkt_len Pack ≠ 8 ∧
      CalcSig (payload st.pbuf__.ibuf__ Pack) (pkt_len Pack - 2).toNat 0xAAAA = some 0 ∧
      hdr12 (pkt_byte st.pbuf__.ibuf__ Pack 1) (pkt_byte st.pbuf__.ibuf__ Pack 2)
        = st.SrcPhyAddr__ ∧
      hdr12 (pkt_byte st.pbuf__.ibuf__ Pack 5) (pkt_byte st.pbuf__.ibuf__ Pack 6)
        = st.SrcNodeId__ ∧
      hdr12 (pkt_byte st.pbuf__.ibuf__ Pack 3) (pkt_byte st.pbuf__.ibuf__ Pack 4)
        = st.DstPhyAddr__ ∧
      hdr12 (pkt_byte st.pbuf__.ibuf__ Pack 7) (pkt_byte st.pbuf__.ibuf__ Pack 8)
        = st.DstNodeId__ ∧
      (hdr_nibble (pkt_byte st.pbuf__.ibuf__ Pack 5) = 0 ∨
        hdr_nibble (pkt_byte st.pbuf__.ibuf__ Pack 5) = 1) ∧
      pkt_byte st.pbuf__.ibuf__ Pack 9 = msg_type ∧
      pkt_byte st.pbuf__.ibuf__ Pack 10 = tran_id := by
  by_cases hc : Pack.Complete = true
  swap
  · simp [ParsePakBusPacket, hc]
  by_cases hsz : pkt_len Pack < 8 ∨ pkt_len Pack > MAX_PACK_SIZE
  · have : ¬ (8 ≤ pkt_len Pack ∧ pkt_len Pack ≤ 1112) := by
      simp only [MAX_PACK_SIZE] at hsz; omega
    simp only [ParsePakBusPacket, hc, not_true_eq_false, if_false, hsz, if_true]
    constructor
    · intro h; simp at h
    · intro h; exact absurd ⟨h.2.1, h.2.2.1⟩ this
  have hge : 8 ≤ pkt_len Pack ∧ pkt_len Pack ≤ 1112 := by
    simp only [MAX_PACK_SIZE] at hsz; omega
  cases hs : CalcSig (payload st.pbuf__.ibuf__ Pack) (pkt_len Pack - 2).toNat 0xAAAA with
  | none =>
    simp [ParsePakBusPacket, hc, hsz, CalcSig_payload, hs]
  | some sig =>
    by_cases hz : sig = 0
    swap
    · simp [ParsePakBusPacket, hc, hsz, CalcSig_payload, hs, hz]
    subst hz
    by_cases hhd : (parse_pakbus_header st Pack {}).1 = SUCCESS
    swap
    · have hspec := parse_pakbus_header_spec st Pack {}
      have hne : (parse_pakbus_header st Pack {}).1 ≠ 0 := hhd
      simp only [ParsePakBusPacket, hc, not_true_eq_false, if_false, hsz, CalcSig_payload, hs,
        ne_eq, not_true_eq_false, hne, not_false_eq_true, if_true]
      constructor
      · intro h
        exact absurd (Outcome.ret.inj h) hhd
      · intro h
        exact absurd (hspec.2 ⟨h.2.2.2.2.2.1, h.2.2.2.2.2.2.2.1,
          Or.inr ⟨h.2.2.2.2.2.2.1, h.2.2.2.2.2.2.2.2.1, h.2.2.2.2.2.2.2.2.2.1⟩⟩) hhd
    by_cases h8 : pkt_len Pack = 8
    · have hne : ¬ (parse_pakbus_header st Pack {}).1 ≠ 0 := by simpa using hhd
      simp only [ParsePakBusPacket, hc, not_true_eq_false, if_false, hsz, CalcSig_payload, hs,
        ne_eq, hne]
      rw [if_pos h8]
      constructor
      · intro h
        split_ifs at h
        · exact absurd h (send_link_state_pkt_ne_SUCCESS _)
        · simp at h
      · intro h; exact absurd h8 h.2.2.2.1
    have hlt : 8 < pkt_len Pack := by omega
    rw [ParsePakBusPacket_checked st Pack msg_type tran_id hc hlt hge.2 hs hhd]
    have hspec := (parse_pakbus_header_spec st Pack {}).1 hhd
    rcases hspec with ⟨p1, p2, p3⟩
    rcases p3 with p3 | ⟨p3, p4, p5⟩
    · exact absurd p3 h8
    by_cases hm : pkt_byte st.pbuf__.ibuf__ Pack 10 ≠ tran_id ∨
        pkt_byte st.pbuf__.ibuf__ Pack 9 ≠ msg_type
    · rw [if_pos hm]
      constructor
      · intro h
        split_ifs at h
        · exact absurd h (reply_to_hello_ne_SUCCESS _)
        · simp at h
        · simp at h
      · intro h
        rcases hm with hm | hm
        · exact absurd h.2.2.2.2.2.2.2.2.2.2.2 hm
        · exact absurd h.2.2.2.2.2.2.2.2.2.2.1 hm
    · rw [if_neg hm]
      have hm' : pkt_byte st.pbuf__.ibuf__ Pack 10 = tran_id ∧
          pkt_byte st.pbuf__.ibuf__ Pack 9 = msg_type := by
        constructor
        · by_contra hx; exact hm (Or.inl hx)
        · by_contra hx; exact hm (Or.inr hx)
      simp only [true_iff]
      exact ⟨hc, hge.1, hge.2, h8, trivial, p1, p3, p2, p4, p5, hm'.2, hm'.1⟩

/-! ### Lemmas on sending -/

theorem array_take_length (a : Nat → byte) (n : Nat) : (array_take a n).length = n := by
  simp [array_take]

theorem header_bytes_length (st : PakBusMsg) : (header_bytes st).length = 10 := rfl

theorem odevs_put_ok (st : PakBusMsg) (c : byte) (hbad : st.odevs_bad = false)
    (h : st.pbuf__.obuf__.length < st.pbuf__.obufsize__) :
    odevs_put st c = with_obuf st (st.pbuf__.obuf__ ++ [c]) := by
  simp [odevs_put, hbad, h, with_obuf]

theorem odevs_write_ok (st : PakBusMsg) (s : List byte) (hbad : st.odevs_bad = false)
    (h : s.length ≤ st.pbuf__.obufsize__ - st.pbuf__.obuf__.length) :
    odevs_write st s = with_obuf st (st.pbuf__.obuf__ ++ s) := by
  simp [odevs_write, hbad, h, with_obuf]

theorem with_obuf_obuf (st : PakBusMsg) (o : List byte) : (with_obuf st o).pbuf__.obuf__ = o := rfl
theorem with_obuf_bad (st : PakBusMsg) (o : List byte) :
    (with_obuf st o).odevs_bad = st.odevs_bad := rfl
theorem with_obuf_size (st : PakBusMsg) (o : List byte) :
    (with_obuf st o).pbuf__.obufsize__ = st.pbuf__.obufsize__ := rfl
theorem with_obuf_with_obuf (st : PakBusMsg) (a b : List byte) :
    with_obuf (with_obuf st a) b = with_obuf st b := rfl
theorem with_obuf_header (st : PakBusMsg) (o : List byte) :
    header_bytes (with_obuf st o) = header_bytes st := rfl
theorem with_Hdr_with_obuf (st : PakBusMsg) (o h : List byte) :
    with_Hdr (with_obuf st o) h = with_obuf (with_Hdr st h) o := rfl

theorem SendPBPacket_normal (st : PakBusMsg) (hbad : st.odevs_bad = false)
    (hobuf : st.pbuf__.obuf__ = []) (hroom : st.MsgBodyLen__ + 14 ≤ st.pbuf__.obufsize__)
    (hlen : st.MsgBodyLen__ ≤ 1024) :
    SendPBPacket st
      = pbuf_writeToDevice (with_obuf (with_Hdr st (header_bytes st)) (wire_frame st)) := by
  have hg : ¬ (st.MsgBodyLen__ < 6 ∧ st.MsgBodyLen__ > 1000) := by omega
  have hbl : (array_take st.MsgBody__ st.MsgBodyLen__).length = st.MsgBodyLen__ :=
    array_take_length _ _
  have h1 : odevs_put st SerSyncByte__ = with_obuf st [0xbd] := by
    rw [odevs_put_ok st _ hbad (by rw [hobuf]; simp; omega), hobuf]; rfl
  have h2 : SerializeHdr (with_obuf st [0xbd])
      = with_obuf (with_Hdr st (header_bytes st)) (0xbd :: header_bytes st) := by
    have hr : (header_bytes st).length ≤ st.pbuf__.obufsize__ - 1 := by
      rw [header_bytes_length]; omega
    exact odevs_write_ok (with_Hdr (with_obuf st [0xbd]) (header_bytes st)) (header_bytes st)
      hbad hr
  have h3 : odevs_write (with_obuf (with_Hdr st (header_bytes st)) (0xbd :: header_bytes st))
        (array_take st.MsgBody__ st.MsgBodyLen__)
      = with_obuf (with_Hdr st (header_bytes st))
          (0xbd :: header_bytes st ++ array_take st.MsgBody__ st.MsgBodyLen__) := by
    have hr : (array_take st.MsgBody__ st.MsgBodyLen__).length
        ≤ st.pbuf__.obufsize__ - (0xbd :: header_bytes st).length := by
      rw [hbl, List.length_cons, header_bytes_length]; omega
    exact odevs_write_ok (with_obuf (with_Hdr st (header_bytes st)) (0xbd :: header_bytes st))
      _ hbad hr
  have hsig : CalcSig (header_bytes st ++ array_take st.MsgBody__ st.MsgBodyLen__)
      (header_bytes st ++ array_take st.MsgBody__ st.MsgBodyLen__).length Seed
      = some ((header_bytes st ++ array_take st.MsgBody__ st.MsgBodyLen__).foldl
          sig_step_spec Seed) := by
    apply CalcSig_eq_foldl
    rw [List.length_append, hbl, header_bytes_length]; omega
  have hn : (0xbd :: header_bytes st ++ array_take st.MsgBody__ st.MsgBodyLen__).length
      = st.MsgBodyLen__ + 11 := by
    rw [List.length_append, hbl, List.length_cons, header_bytes_length]; omega
  have hsig' : CalcSig
      ((0xbd :: header_bytes st ++ array_take st.MsgBody__ st.MsgBodyLen__).drop 1)
      (if st.MsgBodyLen__ + 11 = 0 then 4294967295 else st.MsgBodyLen__ + 11 - 1) Seed
      = some ((header_bytes st ++ array_take st.MsgBody__ st.MsgBodyLen__).foldl
          sig_step_spec Seed) := by
    rw [if_neg (by omega), ← hsig, List.length_append, hbl, header_bytes_length]
    have : st.MsgBodyLen__ + 11 - 1 = 10 + st.MsgBodyLen__ := by omega
    rw [this]
    rfl
  unfold SendPBPacket
  rw [if_neg hg]
  simp only [h1, h2]
  have e1 : (with_obuf (with_Hdr st (header_bytes st)) (0xbd :: header_bytes st)).MsgBody__
      = st.MsgBody__ := rfl
  have e2 : (with_obuf (with_Hdr st (header_bytes st)) (0xbd :: header_bytes st)).MsgBodyLen__
      = st.MsgBodyLen__ := rfl
  simp only [e1, e2, h3, with_obuf_obuf, hn, hsig']
  have h4 : ∀ (a b : byte),
      odevs_write (with_obuf (with_Hdr st (header_bytes st))
          (0xbd :: header_bytes st ++ array_take st.MsgBody__ st.MsgBodyLen__)) [a, b]
      = with_obuf (with_Hdr st (header_bytes st))
          (0xbd :: header_bytes st ++ array_take st.MsgBody__ st.MsgBodyLen__ ++ [a, b]) := by
    intro a b
    have hr : [a, b].length ≤ st.pbuf__.obufsize__
        - (0xbd :: header_bytes st ++ array_take st.MsgBody__ st.MsgBodyLen__).length := by
      rw [hn]; simp; omega
    exact odevs_write_ok (with_obuf (with_Hdr st (header_bytes st))
      (0xbd :: header_bytes st ++ array_take st.MsgBody__ st.MsgBodyLen__)) _ hbad hr
  have h5 : ∀ (a b : byte),
      odevs_put (with_obuf (with_Hdr st (header_bytes st))
          (0xbd :: header_bytes st ++ array_take st.MsgBody__ st.MsgBodyLen__ ++ [a, b]))
          SerSyncByte__
      = with_obuf (with_Hdr st (header_bytes st))
          (0xbd :: header_bytes st ++ array_take st.MsgBody__ st.MsgBodyLen__ ++ [a, b]
            ++ [0xbd]) := by
    intro a b
    have hr : (0xbd :: header_bytes st ++ array_take st.MsgBody__ st.MsgBodyLen__
        ++ [a, b]).length < st.pbuf__.obufsize__ := by
      rw [List.length_append, hn]; simp; omega
    exact odevs_put_ok (with_obuf (with_Hdr st (header_bytes st))
      (0xbd :: header_bytes st ++ array_take st.MsgBody__ st.MsgBodyLen__ ++ [a, b])) _ hbad hr
  rw [h4, h5]
  simp only [wire_frame, hsig, Option.getD_some]
  rfl

theorem dev_write_eq (pb : pakbuf) (bytes : List byte) :
    dev_write pb bytes =
      if next_write_fails pb = true then (true, { pb with devWriteFails := pb.devWriteFails.tail })
      else (false, { pb with devWriteFails := pb.devWriteFails.tail,
                             devOut := pb.devOut ++ [bytes] }) := by
  unfold dev_write next_write_fails
  rcases h : pb.devWriteFails with _ | ⟨b, rest⟩
  · simp
  · cases b <;> simp

theorem quote_msg_count_pos (seqbuf : List byte) (n : Nat) : (quote_msg seqbuf n).2 > 0 := by
  simp [quote_msg]

theorem writeToDevice_ok (pb : pakbuf) (h : next_write_fails pb = false) :
    writeToDevice pb = (Outcome.ret (),
      { pb with devWriteFails := pb.devWriteFails.tail,
                devOut := pb.devOut ++ [(quote_msg pb.obuf__ pb.obuf__.length).1],
                obuf__ := [],
                obuf_overrun := pb.obuf_overrun +
                  ((quote_msg pb.obuf__ pb.obuf__.length).2 - pb.obufsize__) }) := by
  have h2 : ∀ n, next_write_fails { pb with obuf_overrun := n } = false := fun _ => h
  simp [writeToDevice, dev_write_eq, h2]

theorem writeToDevice_fail (pb : pakbuf) (h : next_write_fails pb = true) :
    (writeToDevice pb).1 = Outcome.throw Exception.CommException
    ∧ (writeToDevice pb).2.devOut = pb.devOut := by
  have h2 : ∀ n, next_write_fails { pb with obuf_overrun := n } = true := fun _ => h
  simp [writeToDevice, dev_write_eq, h2, quote_msg_count_pos]

theorem reply_to_hello_eq (st : PakBusMsg) (digest : PktSummary) (pack : Packet) :
    reply_to_hello st digest pack =
      match SendPBPacket (hello_reply_state st digest pack) with
      | (Outcome.ret _, st2) =>
        (Outcome.ret (), { st2 with
          HiProtoCode__ := st.HiProtoCode__,
          MsgType__ := st.MsgType__,
          TranNbr__ := st.TranNbr__,
          DstPhyAddr__ := st.DstPhyAddr__,
          DstNodeId__ := st.DstNodeId__,
          MsgBodyLen__ := st.MsgBodyLen__,
          MsgBody__ := array_set (array_set (array_set (array_set st2.MsgBody__ 0
                         (st.MsgBody__ 0)) 1 (st.MsgBody__ 1)) 2 (st.MsgBody__ 2)) 3
                         (st.MsgBody__ 3) })
      | (Outcome.throw e, st2) => (Outcome.throw e, st2)
      | (Outcome.diverge, st2) => (Outcome.diverge, st2) := rfl

theorem wire_frame_hello (st : PakBusMsg) (digest : PktSummary) (pack : Packet) :
    (wire_frame (hello_reply_state st digest pack)).length = 18
    ∧ (wire_frame (hello_reply_state st digest pack)).getD 9 0 = 0x89 := by
  constructor
  · simp [wire_frame, hello_reply_state, header_bytes, array_take]
  · simp [wire_frame, hello_reply_state, header_bytes]

theorem pbuf_writeToDevice_ok (S : PakBusMsg) (h : next_write_fails S.pbuf__ = false) :
    pbuf_writeToDevice S = (Outcome.ret (),
      { S with pbuf__ :=
          { S.pbuf__ with devWriteFails := S.pbuf__.devWriteFails.tail,
                          devOut := S.pbuf__.devOut ++
                            [(quote_msg S.pbuf__.obuf__ S.pbuf__.obuf__.length).1],
                          obuf__ := [],
                          obuf_overrun := S.pbuf__.obuf_overrun +
                            ((quote_msg S.pbuf__.obuf__ S.pbuf__.obuf__.length).2
                              - S.pbuf__.obufsize__) } }) := by
  rw [pbuf_writeToDevice, writeToDevice_ok S.pbuf__ h]

theorem reply_to_hello_ok (st : PakBusMsg) (digest : PktSummary) (pack : Packet)
    (hbad : st.odevs_bad = false) (hobuf : st.pbuf__.obuf__ = [])
    (hroom : 18 ≤ st.pbuf__.obufsize__) (hw : next_write_fails st.pbuf__ = false) :
    (reply_to_hello st digest pack).1 = Outcome.ret ()
    ∧ (reply_to_hello st digest pack).2.pbuf__.devOut = st.pbuf__.devOut ++
        [(quote_msg (wire_frame (hello_reply_state st digest pack)) 18).1] := by
  have hs := SendPBPacket_normal (hello_reply_state st digest pack) hbad hobuf
    (by show 4 + 14 ≤ st.pbuf__.obufsize__; omega) (by show 4 ≤ 1024; omega)
  have hl := (wire_frame_hello st digest pack).1
  have hp := pbuf_writeToDevice_ok
    (with_obuf (with_Hdr (hello_reply_state st digest pack)
      (header_bytes (hello_reply_state st digest pack)))
      (wire_frame (hello_reply_state st digest pack))) hw
  rw [reply_to_hello_eq, hs, hp]
  simp only [with_obuf_obuf, hl]
  exact ⟨trivial, rfl⟩

theorem reply_to_hello_fail (st : PakBusMsg) (digest : PktSummary) (pack : Packet)
    (hbad : st.odevs_bad = false) (hobuf : st.pbuf__.obuf__ = [])
    (hroom : 18 ≤ st.pbuf__.obufsize__) (hw : next_write_fails st.pbuf__ = true) :
    (reply_to_hello st digest pack).1 = Outcome.throw Exception.CommException
    ∧ (reply_to_hello st digest pack).2.pbuf__.devOut = st.pbuf__.devOut := by
  have hs := SendPBPacket_normal (hello_reply_state st digest pack) hbad hobuf
    (by show 4 + 14 ≤ st.pbuf__.obufsize__; omega) (by show 4 ≤ 1024; omega)
  have hf := writeToDevice_fail
    (with_obuf (with_Hdr (hello_reply_state st digest pack)
      (header_bytes (hello_reply_state st digest pack)))
      (wire_frame (hello_reply_state st digest pack))).pbuf__ hw
  rcases hf with ⟨hf1, hf2⟩
  rw [reply_to_hello_eq, hs, pbuf_writeToDevice, hf1]
  exact ⟨rfl, hf2⟩

theorem ParsePakBusPacket_mismatch_aux (st : PakBusMsg) (Pack : Packet) (msg_type tran_id : byte)
    (hc : Pack.Complete = true) (hlen : 8 < pkt_len Pack) (hmax : pkt_len Pack ≤ 1112)
    (hsig : CalcSig (payload st.pbuf__.ibuf__ Pack) (pkt_len Pack - 2).toNat 0xAAAA = some 0)
    (hhd : (parse_pakbus_header st Pack {}).1 = SUCCESS)
    (hmis : pkt_byte st.pbuf__.ibuf__ Pack 10 ≠ tran_id ∨ pkt_byte st.pbuf__.ibuf__ Pack 9 ≠ msg_type)
    (hbad : st.odevs_bad = false) (hobuf : st.pbuf__.obuf__ = [])
    (hroom : 18 ≤ st.pbuf__.obufsize__) :
    (hdr_nibble (pkt_byte st.pbuf__.ibuf__ Pack 5) = 0 ∧ pkt_byte st.pbuf__.ibuf__ Pack 9 = 0x09 →
      (next_write_fails st.pbuf__ = false →
        (ParsePakBusPacket st Pack msg_type tran_id).1 = Outcome.ret HELLO_MSG ∧
        ∃ reply : List byte, reply.length = 18 ∧ reply.getD 9 0 = 0x89 ∧
          (ParsePakBusPacket st Pack msg_type tran_id).2.pbuf__.devOut
            = st.pbuf__.devOut ++ [(quote_msg reply 18).1]) ∧
      (next_write_fails st.pbuf__ = true →
        (ParsePakBusPacket st Pack msg_type tran_id).1 = Outcome.throw Exception.CommException ∧
        (ParsePakBusPacket st Pack msg_type tran_id).2.pbuf__.devOut = st.pbuf__.devOut)) ∧
    (hdr_nibble (pkt_byte st.pbuf__.ibuf__ Pack 5) = 0 ∧ pkt_byte st.pbuf__.ibuf__ Pack 9 = 0x81 →
      (ParsePakBusPacket st Pack msg_type tran_id).1 = Outcome.ret DELIVERY_FAILURE ∧
      (ParsePakBusPacket st Pack msg_type tran_id).2.pbuf__.devOut = st.pbuf__.devOut) ∧
    (¬ (hdr_nibble (pkt_byte st.pbuf__.ibuf__ Pack 5) = 0 ∧
          pkt_byte st.pbuf__.ibuf__ Pack 9 = 0x09) →
     ¬ (hdr_nibble (pkt_byte st.pbuf__.ibuf__ Pack 5) = 0 ∧
          pkt_byte st.pbuf__.ibuf__ Pack 9 = 0x81) →
      (ParsePakBusPacket st Pack msg_type tran_id).1 = Outcome.ret IGNORE_MSG ∧
      (ParsePakBusPacket st Pack msg_type tran_id).2.pbuf__.devOut = st.pbuf__.devOut) := by
  rw [ParsePakBusPacket_checked st Pack msg_type tran_id hc hlen hmax hsig hhd, if_pos hmis]
  refine ⟨?_, ?_, ?_⟩
  · intro hh
    rw [if_pos hh]
    constructor
    · intro hw
      obtain ⟨h1, h2⟩ := reply_to_hello_ok st (parse_pakbus_header st Pack {}).2 Pack
        hbad hobuf hroom hw
      obtain ⟨f1, f2⟩ := wire_frame_hello st (parse_pakbus_header st Pack {}).2 Pack
      rcases hr : reply_to_hello st (parse_pakbus_header st Pack {}).2 Pack with ⟨o, s⟩
      rw [hr] at h1 h2
      simp only at h1 h2
      subst h1
      exact ⟨rfl, _, f1, f2, h2⟩
    · intro hw
      obtain ⟨h1, h2⟩ := reply_to_hello_fail st (parse_pakbus_header st Pack {}).2 Pack
        hbad hobuf hroom hw
      rcases hr : reply_to_hello st (parse_pakbus_header st Pack {}).2 Pack with ⟨o, s⟩
      rw [hr] at h1 h2
      simp only at h1 h2
      subst h1
      exact ⟨rfl, h2⟩
  · intro hh
    have h9 : ¬ (hdr_nibble (pkt_byte st.pbuf__.ibuf__ Pack 5) = 0 ∧
        pkt_byte st.pbuf__.ibuf__ Pack 9 = 0x09) := by
      intro hx
      rw [hx.2] at hh
      exact absurd hh.2 (by decide)
    rw [if_neg h9, if_pos hh]
    exact ⟨rfl, rfl⟩
  · intro h9 h81
    rw [if_neg h9, if_neg h81]
    exact ⟨rfl, rfl⟩

/-! ## Packet classification -/

/-- C8: for a message-layer object with the local addresses `0x0FFE`,
`ParsePakBusPacket (pack, msg_type, tran_id)` returns `SUCCESS` exactly when the
packet is complete, its length `len` (both syncs counted) satisfies
`8 <= len <= 1112` and `len != 8`, the `CalcSig` of the bytes between the syncs
with seed `0xAAAA` is 0, the destination physical and node addresses of the
header are `0x0FFE`, the source physical and node addresses are the configured
destination, the protocol nibble is 0 or 1, and the message type and
transaction number of the header are `msg_type` and `tran_id`. -/
theorem ParsePakBusPacket_SUCCESS_iff (st : PakBusMsg) (Pack : Packet)
    (msg_type tran_id : byte)
    (hphy : st.SrcPhyAddr__ = 0x0ffe) (hnode : st.SrcNodeId__ = 0x0ffe) :
    (ParsePakBusPacket st Pack msg_type tran_id).1 = Outcome.ret SUCCESS ↔
      Pack.Complete = true ∧ 8 ≤ pkt_len Pack ∧ pkt_len Pack ≤ 1112 ∧ pkt_len Pack ≠ 8 ∧
      CalcSig (payload st.pbuf__.ibuf__ Pack) (pkt_len Pack - 2).toNat 0xAAAA = some 0 ∧
      hdr12 (pkt_byte st.pbuf__.ibuf__ Pack 1) (pkt_byte st.pbuf__.ibuf__ Pack 2) = 0x0ffe ∧
      hdr12 (pkt_byte st.pbuf__.ibuf__ Pack 5) (pkt_byte st.pbuf__.ibuf__ Pack 6) = 0x0ffe ∧
      hdr12 (pkt_byte st.pbuf__.ibuf__ Pack 3) (pkt_byte st.pbuf__.ibuf__ Pack 4)
        = st.DstPhyAddr__ ∧
      hdr12 (pkt_byte st.pbuf__.ibuf__ Pack 7) (pkt_byte st.pbuf__.ibuf__ Pack 8)
        = st.DstNodeId__ ∧
      (hdr_nibble (pkt_byte st.pbuf__.ibuf__ Pack 5) = 0 ∨
        hdr_nibble (pkt_byte st.pbuf__.ibuf__ Pack 5) = 1) ∧
      pkt_byte st.pbuf__.ibuf__ Pack 9 = msg_type ∧
      pkt_byte st.pbuf__.ibuf__ Pack 10 = tran_id := by
  have h := ParsePakBusPacket_SUCCESS_iff_aux st Pack msg_type tran_id
  rw [hphy, hnode] at h
  exact h

set_option maxRecDepth 100000 in
/-- Witness of C8: the sample collect-data response is accepted as the answer
to transaction 5. -/
theorem ParsePakBusPacket_SUCCESS_iff_witness :
    (sample_state 1 sample_response [] []).SrcPhyAddr__ = 0x0ffe ∧
    (sample_state 1 sample_response [] []).SrcNodeId__ = 0x0ffe ∧
    (ParsePakBusPacket (sample_state 1 sample_response [] []) ⟨0, 16, true⟩ 0x89 5).1
      = Outcome.ret SUCCESS ∧
    ((ParsePakBusPacket (sample_state 1 sample_response [] []) ⟨0, 16, true⟩ 0x89 5).1
        = Outcome.ret SUCCESS ↔
      (⟨0, 16, true⟩ : Packet).Complete = true ∧ 8 ≤ pkt_len ⟨0, 16, true⟩ ∧
      pkt_len ⟨0, 16, true⟩ ≤ 1112 ∧ pkt_len ⟨0, 16, true⟩ ≠ 8 ∧
      CalcSig (payload (sample_state 1 sample_response [] []).pbuf__.ibuf__ ⟨0, 16, true⟩)
        (pkt_len ⟨0, 16, true⟩ - 2).toNat 0xAAAA = some 0 ∧
      hdr12 (pkt_byte (sample_state 1 sample_response [] []).pbuf__.ibuf__ ⟨0, 16, true⟩ 1)
        (pkt_byte (sample_state 1 sample_response [] []).pbuf__.ibuf__ ⟨0, 16, true⟩ 2)
        = 0x0ffe ∧
      hdr12 (pkt_byte (sample_state 1 sample_response [] []).pbuf__.ibuf__ ⟨0, 16, true⟩ 5)
        (pkt_byte (sample_state 1 sample_response [] []).pbuf__.ibuf__ ⟨0, 16, true⟩ 6)
        = 0x0ffe ∧
      hdr12 (pkt_byte (sample_state 1 sample_response [] []).pbuf__.ibuf__ ⟨0, 16, true⟩ 3)
        (pkt_byte (sample_state 1 sample_response [] []).pbuf__.ibuf__ ⟨0, 16, true⟩ 4)
        = (sample_state 1 sample_response [] []).DstPhyAddr__ ∧
      hdr12 (pkt_byte (sample_state 1 sample_response [] []).pbuf__.ibuf__ ⟨0, 16, true⟩ 7)
        (pkt_byte (sample_state 1 sample_response [] []).pbuf__.ibuf__ ⟨0, 16, true⟩ 8)
        = (sample_state 1 sample_response [] []).DstNodeId__ ∧
      (hdr_nibble (pkt_byte (sample_state 1 sample_response [] []).pbuf__.ibuf__
          ⟨0, 16, true⟩ 5) = 0 ∨
        hdr_nibble (pkt_byte (sample_state 1 sample_response [] []).pbuf__.ibuf__
          ⟨0, 16, true⟩ 5) = 1) ∧
      pkt_byte (sample_state 1 sample_response [] []).pbuf__.ibuf__ ⟨0, 16, true⟩ 9 = 0x89 ∧
      pkt_byte (sample_state 1 sample_response [] []).pbuf__.ibuf__ ⟨0, 16, true⟩ 10 = 5) :=
  ⟨rfl, rfl, by decide,
    ParsePakBusPacket_SUCCESS_iff (sample_state 1 sample_response [] []) ⟨0, 16, true⟩ 0x89 5
      rfl rfl⟩

/-- C9 (amended): for every packet that passes the size, signature and address
checks, has `len > 8` and whose `(msg_type, tran_nbr)` differs from the
caller's expectation, in a state whose output stream is good and whose put
area is empty and has room for 18 bytes: when protocol = 0 and
`msg_type = 0x09`, `ParsePakBusPacket` returns `HELLO_MSG` after handing the
device exactly one reply, of type `0x89`, provided the write of that reply
succeeds, and raises the communication error of the failed write otherwise;
when protocol = 0 and `msg_type = 0x81` it returns `DELIVERY_FAILURE`; in every
other case it returns `IGNORE_MSG`; in the last two cases nothing is sent. -/
theorem ParsePakBusPacket_mismatch (st : PakBusMsg) (Pack : Packet) (msg_type tran_id : byte)
    (hc : Pack.Complete = true) (hlen : 8 < pkt_len Pack) (hmax : pkt_len Pack ≤ 1112)
    (hsig : CalcSig (payload st.pbuf__.ibuf__ Pack) (pkt_len Pack - 2).toNat 0xAAAA = some 0)
    (hhd : (parse_pakbus_header st Pack {}).1 = SUCCESS)
    (hmis : pkt_byte st.pbuf__.ibuf__ Pack 10 ≠ tran_id ∨ pkt_byte st.pbuf__.ibuf__ Pack 9 ≠ msg_type)
    (hbad : st.odevs_bad = false) (hobuf : st.pbuf__.obuf__ = [])
    (hroom : 18 ≤ st.pbuf__.obufsize__) :
    (hdr_nibble (pkt_byte st.pbuf__.ibuf__ Pack 5) = 0 ∧ pkt_byte st.pbuf__.ibuf__ Pack 9 = 0x09 →
      (next_write_fails st.pbuf__ = false →
        (ParsePakBusPacket st Pack msg_type tran_id).1 = Outcome.ret HELLO_MSG ∧
        ∃ reply : List byte, reply.length = 18 ∧ reply.getD 9 0 = 0x89 ∧
          (ParsePakBusPacket st Pack msg_type tran_id).2.pbuf__.devOut
            = st.pbuf__.devOut ++ [(quote_msg reply 18).1]) ∧
      (next_write_fails st.pbuf__ = true →
        (ParsePakBusPacket st Pack msg_type tran_id).1 = Outcome.throw Exception.CommException ∧
        (ParsePakBusPacket st Pack msg_type tran_id).2.pbuf__.devOut = st.pbuf__.devOut)) ∧
    (hdr_nibble (pkt_byte st.pbuf__.ibuf__ Pack 5) = 0 ∧ pkt_byte st.pbuf__.ibuf__ Pack 9 = 0x81 →
      (ParsePakBusPacket st Pack msg_type tran_id).1 = Outcome.ret DELIVERY_FAILURE ∧
      (ParsePakBusPacket st Pack msg_type tran_id).2.pbuf__.devOut = st.pbuf__.devOut) ∧
    (¬ (hdr_nibble (pkt_byte st.pbuf__.ibuf__ Pack 5) = 0 ∧
          pkt_byte st.pbuf__.ibuf__ Pack 9 = 0x09) →
     ¬ (hdr_nibble (pkt_byte st.pbuf__.ibuf__ Pack 5) = 0 ∧
          pkt_byte st.pbuf__.ibuf__ Pack 9 = 0x81) →
      (ParsePakBusPacket st Pack msg_type tran_id).1 = Outcome.ret IGNORE_MSG ∧
      (ParsePakBusPacket st Pack msg_type tran_id).2.pbuf__.devOut = st.pbuf__.devOut) :=
  ParsePakBusPacket_mismatch_aux st Pack msg_type tran_id hc hlen hmax hsig hhd hmis hbad hobuf
    hroom

set_option maxRecDepth 100000 in
/-- Witness of C9: the sample Hello, received while transaction 7 of type `0x89`
is awaited, satisfies every hypothesis, and the reply is sent. -/
theorem ParsePakBusPacket_mismatch_witness :
    (⟨0, 17, true⟩ : Packet).Complete = true ∧ 8 < pkt_len ⟨0, 17, true⟩ ∧
    pkt_len ⟨0, 17, true⟩ ≤ 1112 ∧
    CalcSig (payload (sample_state 0 sample_hello [] []).pbuf__.ibuf__ ⟨0, 17, true⟩)
      (pkt_len ⟨0, 17, true⟩ - 2).toNat 0xAAAA = some 0 ∧
    (parse_pakbus_header (sample_state 0 sample_hello [] []) ⟨0, 17, true⟩ {}).1 = SUCCESS ∧
    (pkt_byte (sample_state 0 sample_hello [] []).pbuf__.ibuf__ ⟨0, 17, true⟩ 10 ≠ 7 ∨
      pkt_byte (sample_state 0 sample_hello [] []).pbuf__.ibuf__ ⟨0, 17, true⟩ 9 ≠ 0x89) ∧
    (sample_state 0 sample_hello [] []).odevs_bad = false ∧
    (sample_state 0 sample_hello [] []).pbuf__.obuf__ = [] ∧
    18 ≤ (sample_state 0 sample_hello [] []).pbuf__.obufsize__ ∧
    (ParsePakBusPacket (sample_state 0 sample_hello [] []) ⟨0, 17, true⟩ 0x89 7).1
      = Outcome.ret HELLO_MSG ∧
    (ParsePakBusPacket (sample_state 0 sample_hello [] []) ⟨0, 17, true⟩ 0x89 7).2.pbuf__.devOut
      = [[0xbd, 0xa0, 0x01, 0x5f, 0xfe, 0x00, 0x01, 0x0f, 0xfe, 0x89, 0x05, 0x00, 0x02, 0x00,
          0x60, 0x32, 0x6b, 0xbd]] :=
  ⟨rfl, by decide, by decide, by decide, by decide, by decide, rfl, rfl, by decide,
    ((ParsePakBusPacket_mismatch (sample_state 0 sample_hello [] []) ⟨0, 17, true⟩ 0x89 7
      rfl (by decide) (by decide) (by decide) (by decide) (by decide) rfl rfl
      (by decide)).1 (by decide)).1 (by decide) |>.1,
    by decide⟩

set_option maxRecDepth 100000 in
/-- Counterexample to C9 as stated: the sample Hello passes every check and
differs from the expectation, but when the write of the reply fails
`ParsePakBusPacket` raises `CommException` and returns no status. -/
theorem ParsePakBusPacket_mismatch_counterexample :
    (⟨0, 17, true⟩ : Packet).Complete = true ∧ 8 < pkt_len ⟨0, 17, true⟩ ∧
    pkt_len ⟨0, 17, true⟩ ≤ 1112 ∧
    CalcSig (payload (sample_state 0 sample_hello [] [true]).pbuf__.ibuf__ ⟨0, 17, true⟩)
      (pkt_len ⟨0, 17, true⟩ - 2).toNat 0xAAAA = some 0 ∧
    (parse_pakbus_header (sample_state 0 sample_hello [] [true]) ⟨0, 17, true⟩ {}).1 = SUCCESS ∧
    pkt_byte (sample_state 0 sample_hello [] [true]).pbuf__.ibuf__ ⟨0, 17, true⟩ 10 ≠ 7 ∧
    hdr_nibble (pkt_byte (sample_state 0 sample_hello [] [true]).pbuf__.ibuf__ ⟨0, 17, true⟩ 5)
      = 0 ∧
    pkt_byte (sample_state 0 sample_hello [] [true]).pbuf__.ibuf__ ⟨0, 17, true⟩ 9 = 0x09 ∧
    (ParsePakBusPacket (sample_state 0 sample_hello [] [true]) ⟨0, 17, true⟩ 0x89 7).1
      ≠ Outcome.ret HELLO_MSG ∧
    (ParsePakBusPacket (sample_state 0 sample_hello [] [true]) ⟨0, 17, true⟩ 0x89 7).1
      = Outcome.throw Exception.CommException := by
  decide

/-! ## Link-state handshake -/

set_option maxRecDepth 100000 in
/-- C10 (the code at the failing input): a valid Ring with an 8-byte body
(packet length 12) passes the size, signature and address checks of
`ParsePakBusPacket`, which classifies it as `IGNORE_MSG` and not as
`LINK_STATE_PKT`; `HandShake` therefore sends nothing but its own Ring, no
Ready of either size, and fails.  A Ring with a 4-byte body is answered with
Ready packets of body size 4. -/
theorem HandShake_ring8_no_ready :
    (ParsePakBusPacket (sample_state 0 sample_ring8 [] []) ⟨0, 11, true⟩ 0 0).1
      = Outcome.ret IGNORE_MSG
    ∧ (HandShake (sample_state 0 [] [sample_ring8] []) SERPKT_RING).1
      = Outcome.throw Exception.PakBusException
    ∧ (HandShake (sample_state 0 [] [sample_ring8] []) SERPKT_RING).2.pbuf__.devOut
      = [[0xbd, 0x90, 0x01, 0x8f, 0xfe, 0xef, 0xd1, 0xbd]]
    ∧ (HandShake (sample_state 0 [] [sample_ring4] []) SERPKT_RING).2.pbuf__.devOut
      = [[0xbd, 0x90, 0x01, 0x8f, 0xfe, 0xef, 0xd1, 0xbd],
         [0xbd, 0xa0, 0x01, 0x0f, 0xfe, 0x9e, 0x11, 0xbd],
         [0xbd, 0xa0, 0x01, 0x0f, 0xfe, 0x9e, 0x11, 0xbd]] := by
  decide

/-! ### Lemmas on the preservation of the message members -/

theorem same_message_refl (a : PakBusMsg) : same_message a a := by
  simp [same_message]

theorem same_message_trans {a b c : PakBusMsg} (h1 : same_message a b) (h2 : same_message b c) :
    same_message a c := by
  simp only [same_message] at h1 h2 ⊢
  simp [h1, h2]

theorem odevs_put_same (st : PakBusMsg) (c : byte) : same_message (odevs_put st c) st := by
  unfold odevs_put
  split_ifs <;> simp [same_message]

theorem odevs_write_same (st : PakBusMsg) (s : List byte) :
    same_message (odevs_write st s) st := by
  unfold odevs_write
  split_ifs <;> simp [same_message]

theorem SerializeHdr_same (st : PakBusMsg) : same_message (SerializeHdr st) st := by
  unfold SerializeHdr
  exact same_message_trans (odevs_write_same _ _) (by simp [same_message])

theorem pbuf_writeToDevice_same (st : PakBusMsg) :
    same_message (pbuf_writeToDevice st).2 st := by
  simp [pbuf_writeToDevice, same_message]

theorem SendPBPacket_same (st : PakBusMsg) : same_message (SendPBPacket st).2 st := by
  unfold SendPBPacket
  split_ifs
  · exact same_message_refl st
  · have h3 : same_message
        (odevs_write (SerializeHdr (odevs_put st SerSyncByte__))
          (array_take (SerializeHdr (odevs_put st SerSyncByte__)).MsgBody__
            (SerializeHdr (odevs_put st SerSyncByte__)).MsgBodyLen__)) st :=
      same_message_trans (odevs_write_same _ _)
        (same_message_trans (SerializeHdr_same _) (odevs_put_same _ _))
    simp only
    split
    · exact h3
    · exact same_message_trans (pbuf_writeToDevice_same _)
        (same_message_trans (odevs_put_same _ _)
          (same_message_trans (odevs_write_same _ _) h3))

theorem array_restore (a : Nat → byte) (v0 v1 v2 v3 : byte) :
    array_set (array_set (array_set (array_set
      (array_set (array_set (array_set (array_set a 0 v0) 1 v1) 2 v2) 3 v3)
      0 (a 0)) 1 (a 1)) 2 (a 2)) 3 (a 3) = a := by
  funext k
  simp only [array_set]
  split_ifs <;> simp_all

theorem reply_to_hello_restores_aux (st : PakBusMsg) (digest : PktSummary) (pack : Packet)
    (h : (reply_to_hello st digest pack).1 = Outcome.ret ()) :
    same_message (reply_to_hello st digest pack).2 st := by
  have hs := SendPBPacket_same (hello_reply_state st digest pack)
  rw [reply_to_hello_eq] at h ⊢
  rcases hr : SendPBPacket (hello_reply_state st digest pack) with ⟨o, s⟩
  rw [hr] at h hs
  cases o with
  | throw e => simp at h
  | diverge => simp at h
  | ret u =>
    unfold same_message at hs ⊢
    obtain ⟨b1, b2, b3, b4, b5, b6, b7, b8, b9, b10, b11, b12, b13, b14⟩ := hs
    refine ⟨?_, rfl, b3, rfl, b5, b6, b7, b8, rfl, rfl, b11, b12, rfl, rfl⟩
    show array_set (array_set (array_set (array_set s.MsgBody__ 0 (st.MsgBody__ 0)) 1
      (st.MsgBody__ 1)) 2 (st.MsgBody__ 2)) 3 (st.MsgBody__ 3) = st.MsgBody__
    rw [b1]
    exact array_restore st.MsgBody__ _ _ _ _

/-! ## Reply to an unsolicited Hello -/

/-- C11: for every message-layer state and every Hello packet, if
`reply_to_hello` returns (the reply is sent without a communication error)
then `MsgType`, `TranNbr`, `DstPhyAddr`, `DstNodeId`, `HiProtoCode`,
`MsgBodyLen` and the whole `MsgBody` are equal to their values before the
call, and `LinkState`, `ExpMoreCode`, `Priority`, `SrcPhyAddr`, `SrcNodeId`
are unchanged. -/
theorem reply_to_hello_restores (st : PakBusMsg) (digest : PktSummary) (pack : Packet)
    (h : (reply_to_hello st digest pack).1 = Outcome.ret ()) :
    (reply_to_hello st digest pack).2.MsgType__ = st.MsgType__ ∧
    (reply_to_hello st digest pack).2.TranNbr__ = st.TranNbr__ ∧
    (reply_to_hello st digest pack).2.DstPhyAddr__ = st.DstPhyAddr__ ∧
    (reply_to_hello st digest pack).2.DstNodeId__ = st.DstNodeId__ ∧
    (reply_to_hello st digest pack).2.HiProtoCode__ = st.HiProtoCode__ ∧
    (reply_to_hello st digest pack).2.MsgBodyLen__ = st.MsgBodyLen__ ∧
    (reply_to_hello st digest pack).2.MsgBody__ = st.MsgBody__ ∧
    (reply_to_hello st digest pack).2.LinkState__ = st.LinkState__ ∧
    (reply_to_hello st digest pack).2.ExpMoreCode__ = st.ExpMoreCode__ ∧
    (reply_to_hello st digest pack).2.Priority__ = st.Priority__ ∧
    (reply_to_hello st digest pack).2.SrcPhyAddr__ = st.SrcPhyAddr__ ∧
    (reply_to_hello st digest pack).2.SrcNodeId__ = st.SrcNodeId__ := by
  obtain ⟨b1, b2, b3, b4, b5, _, b7, b8, b9, b10, _, b12, b13, b14⟩ :=
    reply_to_hello_restores_aux st digest pack h
  exact ⟨b13, b14, b4, b10, b9, b2, b1, b3, b5, b7, b8, b12⟩

set_option maxRecDepth 100000 in
/-- Witness of C11: the reply to the sample Hello is sent, and the members of
the message in flight are as before. -/
theorem reply_to_hello_restores_witness :
    (reply_to_hello (sample_state 0 sample_hello [] []) ⟨0, 5, 5, 1, 1⟩ ⟨0, 17, true⟩).1
      = Outcome.ret () ∧
    (reply_to_hello (sample_state 0 sample_hello [] []) ⟨0, 5, 5, 1, 1⟩ ⟨0, 17, true⟩).2.TranNbr__
      = (sample_state 0 sample_hello [] []).TranNbr__ ∧
    (reply_to_hello (sample_state 0 sample_hello [] []) ⟨0, 5, 5, 1, 1⟩ ⟨0, 17, true⟩).2.MsgBody__
      = (sample_state 0 sample_hello [] []).MsgBody__ :=
  ⟨by decide,
   (reply_to_hello_restores (sample_state 0 sample_hello [] []) ⟨0, 5, 5, 1, 1⟩ ⟨0, 17, true⟩
     (by decide)).2.1,
   (reply_to_hello_restores (sample_state 0 sample_hello [] []) ⟨0, 5, 5, 1, 1⟩ ⟨0, 17, true⟩
     (by decide)).2.2.2.2.2.2.1⟩

/-! ## Sending a packet -/

theorem count_special_le (xs : List byte) : count_special xs ≤ xs.length := by
  induction xs with
  | nil => simp [count_special]
  | cons x xs ih =>
    simp only [count_special, List.length_cons]
    split_ifs <;> omega

theorem wire_frame_eq (st : PakBusMsg) (hlen : st.MsgBodyLen__ ≤ 1024) :
    wire_frame st = frame
      ((header_bytes st ++ array_take st.MsgBody__ st.MsgBodyLen__) ++
        [toByte (CalcSigNullifier ((header_bytes st ++ array_take st.MsgBody__
            st.MsgBodyLen__).foldl sig_step_spec Seed) >>> 8),
         toByte (CalcSigNullifier ((header_bytes st ++ array_take st.MsgBody__
            st.MsgBodyLen__).foldl sig_step_spec Seed))]) := by
  have hl : (header_bytes st ++ array_take st.MsgBody__ st.MsgBodyLen__).length < 65536 := by
    rw [List.length_append, header_bytes_length, array_take_length]; omega
  unfold wire_frame frame
  simp only [CalcSig_eq_foldl _ _ hl, Option.getD_some]
  simp

theorem quote_msg_wire_frame (st : PakBusMsg) (hlen : st.MsgBodyLen__ ≤ 1024) :
    quote_msg (wire_frame st) (wire_frame st).length
      = (0xbd :: quote_spec
          ((header_bytes st ++ array_take st.MsgBody__ st.MsgBodyLen__) ++
            [toByte (CalcSigNullifier ((header_bytes st ++ array_take st.MsgBody__
                st.MsgBodyLen__).foldl sig_step_spec Seed) >>> 8),
             toByte (CalcSigNullifier ((header_bytes st ++ array_take st.MsgBody__
                st.MsgBodyLen__).foldl sig_step_spec Seed))]) ++ [0xbd],
         (quote_spec
          ((header_bytes st ++ array_take st.MsgBody__ st.MsgBodyLen__) ++
            [toByte (CalcSigNullifier ((header_bytes st ++ array_take st.MsgBody__
                st.MsgBodyLen__).foldl sig_step_spec Seed) >>> 8),
             toByte (CalcSigNullifier ((header_bytes st ++ array_take st.MsgBody__
                st.MsgBodyLen__).foldl sig_step_spec Seed))])).length + 2) := by
  rw [wire_frame_eq st hlen, ← quoted_frame_eq]
  unfold quoted_frame
  congr 1
  simp [frame]
  omega

/-- C12: for every header state and every body of length `MsgBodyLen__ ≤ 1024`
that fits the (empty, good) output buffer, that is, whose frame
`0xBD ++ H ++ body ++ N ++ 0xBD` still fits the block of `obufsize__` bytes
after `quote_msg` has expanded it in place: when the device accepts the write,
`SendPBPacket` returns and hands to the device exactly the quoting of
`0xBD ++ H ++ body ++ N ++ 0xBD`, where `H` is the ten-byte header and `N` the
two bytes of the nullifier of `CalcSig (H ++ body, 0xAAAA)`, and no byte is
written behind the block; the quoting is `0xBD`, the escaped interior, `0xBD`;
wherever these bytes stand in a receiver's input buffer, unquoting gives back
`H ++ body ++ N` between the syncs, and `CalcSig` of these bytes with seed
`0xAAAA` is 0. -/
theorem SendPBPacket_wire (st : PakBusMsg) (hbad : st.odevs_bad = false)
    (hobuf : st.pbuf__.obuf__ = [])
    (hfit : (quote_msg (wire_frame st) (wire_frame st).length).2 ≤ st.pbuf__.obufsize__)
    (hlen : st.MsgBodyLen__ ≤ 1024) (hw : next_write_fails st.pbuf__ = false) :
    ∃ sig N : _,
      CalcSig (header_bytes st ++ array_take st.MsgBody__ st.MsgBodyLen__)
        (10 + st.MsgBodyLen__) Seed = some sig ∧
      N = [toByte (CalcSigNullifier sig >>> 8), toByte (CalcSigNullifier sig)] ∧
      wire_frame st
        = 0xbd :: (header_bytes st ++ array_take st.MsgBody__ st.MsgBodyLen__ ++ N) ++ [0xbd] ∧
      (SendPBPacket st).1 = Outcome.ret () ∧
      (SendPBPacket st).2.pbuf__.devOut = st.pbuf__.devOut ++
        [(quoted_frame (header_bytes st ++ array_take st.MsgBody__ st.MsgBodyLen__ ++ N)).1] ∧
      (SendPBPacket st).2.pbuf__.obuf_overrun = st.pbuf__.obuf_overrun ∧
      (quoted_frame (header_bytes st ++ array_take st.MsgBody__ st.MsgBodyLen__ ++ N)).1
        = 0xbd :: quote_spec (header_bytes st ++ array_take st.MsgBody__ st.MsgBodyLen__ ++ N)
            ++ [0xbd] ∧
      (∀ pre post : List byte,
        unquoted_payload
          (pre ++ (quoted_frame (header_bytes st ++ array_take st.MsgBody__ st.MsgBodyLen__
            ++ N)).1 ++ post)
          ⟨pre.length, pre.length + (quoted_frame (header_bytes st ++
            array_take st.MsgBody__ st.MsgBodyLen__ ++ N)).2 - 1, true⟩
          = header_bytes st ++ array_take st.MsgBody__ st.MsgBodyLen__ ++ N) ∧
      CalcSig (header_bytes st ++ array_take st.MsgBody__ st.MsgBodyLen__ ++ N)
        (10 + st.MsgBodyLen__ + 2) Seed = some 0 := by
  have hl : (header_bytes st ++ array_take st.MsgBody__ st.MsgBodyLen__).length
      = 10 + st.MsgBodyLen__ := by
    rw [List.length_append, header_bytes_length, array_take_length]
  have hsig := CalcSig_eq_foldl (header_bytes st ++ array_take st.MsgBody__ st.MsgBodyLen__)
    Seed (by rw [hl]; omega)
  have hnull := CalcSig_append_nullifier
    (header_bytes st ++ array_take st.MsgBody__ st.MsgBodyLen__) Seed (by decide)
    (by rw [hl]; omega)
  rw [hl] at hsig hnull
  have hq := quote_msg_wire_frame st hlen
  have hcount : (quote_msg (wire_frame st) (wire_frame st).length).2
      = 10 + st.MsgBodyLen__ + 2 + count_special
          ((header_bytes st ++ array_take st.MsgBody__ st.MsgBodyLen__) ++
            [toByte (CalcSigNullifier ((header_bytes st ++ array_take st.MsgBody__
                st.MsgBodyLen__).foldl sig_step_spec Seed) >>> 8),
             toByte (CalcSigNullifier ((header_bytes st ++ array_take st.MsgBody__
                st.MsgBodyLen__).foldl sig_step_spec Seed))]) + 2 := by
    rw [hq]
    show (quote_spec _).length + 2 = _
    rw [quote_spec_length, List.length_append, hl]
    rfl
  have hroom : st.MsgBodyLen__ + 14 ≤ st.pbuf__.obufsize__ := by omega
  refine ⟨_, _, hsig, rfl, ?_, ?_, ?_, ?_, ?_, ?_, hnull⟩
  · rw [wire_frame_eq st hlen]
    simp [frame]
  · rw [SendPBPacket_normal st hbad hobuf hroom hlen,
      pbuf_writeToDevice_ok (with_obuf (with_Hdr st (header_bytes st)) (wire_frame st)) hw]
  · rw [SendPBPacket_normal st hbad hobuf hroom hlen,
      pbuf_writeToDevice_ok (with_obuf (with_Hdr st (header_bytes st)) (wire_frame st)) hw]
    show st.pbuf__.devOut ++ [(quote_msg (wire_frame st) (wire_frame st).length).1] = _
    rw [wire_frame_eq st hlen]
    unfold quoted_frame
    congr 4
    simp [frame]
    omega
  · rw [SendPBPacket_normal st hbad hobuf hroom hlen,
      pbuf_writeToDevice_ok (with_obuf (with_Hdr st (header_bytes st)) (wire_frame st)) hw]
    show st.pbuf__.obuf_overrun
      + ((quote_msg (wire_frame st) (wire_frame st).length).2 - st.pbuf__.obufsize__) = _
    omega
  · rw [quoted_frame_eq]
  · intro pre post
    apply unquoted_payload_quoted_frame
    rw [quoted_frame_eq]
    show (quote_spec _).length + 2 ≤ 65536
    rw [quote_spec_length]
    have := count_special_le (header_bytes st ++ array_take st.MsgBody__ st.MsgBodyLen__ ++
      [toByte (CalcSigNullifier ((header_bytes st ++ array_take st.MsgBody__
            st.MsgBodyLen__).foldl sig_step_spec Seed) >>> 8),
         toByte (CalcSigNullifier ((header_bytes st ++ array_take st.MsgBody__
            st.MsgBodyLen__).foldl sig_step_spec Seed))])
    rw [List.length_append, hl] at this ⊢
    simp only [List.length_cons, List.length_nil] at this ⊢
    omega

set_option maxRecDepth 100000 in
/-- Witness of C12: the four-byte reply to the sample Hello satisfies the
hypotheses (its quoted frame has eighteen bytes), and the bytes handed to the
device are the eighteen bytes of the quoted packet. -/
theorem SendPBPacket_wire_witness :
    (hello_reply_state (sample_state 0 sample_hello [] []) ⟨0, 5, 5, 1, 1⟩ ⟨0, 17, true⟩).odevs_bad = false ∧
    (hello_reply_state (sample_state 0 sample_hello [] []) ⟨0, 5, 5, 1, 1⟩ ⟨0, 17, true⟩).pbuf__.obuf__ = [] ∧
    (quote_msg
        (wire_frame (hello_reply_state (sample_state 0 sample_hello [] []) ⟨0, 5, 5, 1, 1⟩
          ⟨0, 17, true⟩))
        (wire_frame (hello_reply_state (sample_state 0 sample_hello [] []) ⟨0, 5, 5, 1, 1⟩
          ⟨0, 17, true⟩)).length).2 = 18 ∧
    (SendPBPacket (hello_reply_state (sample_state 0 sample_hello [] []) ⟨0, 5, 5, 1, 1⟩
        ⟨0, 17, true⟩)).1 = Outcome.ret () ∧
    (SendPBPacket (hello_reply_state (sample_state 0 sample_hello [] []) ⟨0, 5, 5, 1, 1⟩
        ⟨0, 17, true⟩)).2.pbuf__.devOut
      = [[0xbd, 0xa0, 0x01, 0x5f, 0xfe, 0x00, 0x01, 0x0f, 0xfe, 0x89, 0x05, 0x00, 0x02, 0x00,
          0x60, 0x32, 0x6b, 0xbd]] :=
  ⟨rfl, rfl, by decide,
   (SendPBPacket_wire (hello_reply_state (sample_state 0 sample_hello [] []) ⟨0, 5, 5, 1, 1⟩ ⟨0, 17, true⟩)
     rfl rfl (by decide) (by decide) (by decide)).elim
     (fun _ h => h.elim (fun _ h => h.2.2.2.1)),
   by decide⟩

theorem count_special_append (xs ys : List byte) :
    count_special (xs ++ ys) = count_special xs + count_special ys := by
  induction xs with
  | nil => simp [count_special]
  | cons x xs ih =>
    show (if x = 0xbc ∨ x = 0xbd then 1 else 0) + count_special (xs ++ ys) = _
    rw [ih]
    simp only [count_special]
    omega

theorem count_special_sync (n : Nat) : count_special (array_take (fun _ => 0xbd) n) = n := by
  have h : ∀ l : List Nat, count_special (l.map (fun _ => (0xbd : byte))) = l.length := by
    intro l
    induction l with
    | nil => rfl
    | cons x xs ih =>
      simp only [List.map_cons, count_special, ih, List.length_cons]
      simp
      omega
  unfold array_take
  rw [h, List.length_range]

theorem SendPBPacket_overrun_count (st : PakBusMsg) (hbad : st.odevs_bad = false)
    (hobuf : st.pbuf__.obuf__ = []) (hroom : st.MsgBodyLen__ + 14 ≤ st.pbuf__.obufsize__)
    (hlen : st.MsgBodyLen__ ≤ 1024) (hw : next_write_fails st.pbuf__ = false) :
    (SendPBPacket st).1 = Outcome.ret () ∧
    (SendPBPacket st).2.pbuf__.obuf_overrun
      = st.pbuf__.obuf_overrun
        + (st.MsgBodyLen__ + 14
            + count_special ((header_bytes st ++ array_take st.MsgBody__ st.MsgBodyLen__) ++
                [toByte (CalcSigNullifier ((header_bytes st ++ array_take st.MsgBody__
                    st.MsgBodyLen__).foldl sig_step_spec Seed) >>> 8),
                 toByte (CalcSigNullifier ((header_bytes st ++ array_take st.MsgBody__
                    st.MsgBodyLen__).foldl sig_step_spec Seed))])
            - st.pbuf__.obufsize__) := by
  have hl : (header_bytes st ++ array_take st.MsgBody__ st.MsgBodyLen__).length
      = 10 + st.MsgBodyLen__ := by
    rw [List.length_append, header_bytes_length, array_take_length]
  have hq := quote_msg_wire_frame st hlen
  have hcount : (quote_msg (wire_frame st) (wire_frame st).length).2
      = 10 + st.MsgBodyLen__ + 2 + count_special
          ((header_bytes st ++ array_take st.MsgBody__ st.MsgBodyLen__) ++
            [toByte (CalcSigNullifier ((header_bytes st ++ array_take st.MsgBody__
                st.MsgBodyLen__).foldl sig_step_spec Seed) >>> 8),
             toByte (CalcSigNullifier ((header_bytes st ++ array_take st.MsgBody__
                st.MsgBodyLen__).foldl sig_step_spec Seed))]) + 2 := by
    rw [hq]
    show (quote_spec _).length + 2 = _
    rw [quote_spec_length, List.length_append, hl]
    rfl
  constructor
  · rw [SendPBPacket_normal st hbad hobuf hroom hlen,
      pbuf_writeToDevice_ok (with_obuf (with_Hdr st (header_bytes st)) (wire_frame st)) hw]
  · rw [SendPBPacket_normal st hbad hobuf hroom hlen,
      pbuf_writeToDevice_ok (with_obuf (with_Hdr st (header_bytes st)) (wire_frame st)) hw]
    show st.pbuf__.obuf_overrun
      + ((quote_msg (wire_frame st) (wire_frame st).length).2 - st.pbuf__.obufsize__) = _
    rw [hcount]
    congr 1
    omega

/-- Room for the frame before quoting is not enough: with a body of 498 bytes
`0xBD` the frame has the 512 bytes of the block of the output buffer,
`SendPBPacket` accepts it and returns, and `quote_msg` has written at least 498
bytes behind the block. -/
theorem SendPBPacket_overrun :
    (sample_state_body 498).MsgBodyLen__ + 14 = (sample_state_body 498).pbuf__.obufsize__ ∧
    (SendPBPacket (sample_state_body 498)).1 = Outcome.ret () ∧
    498 ≤ (SendPBPacket (sample_state_body 498)).2.pbuf__.obuf_overrun := by
  have h := SendPBPacket_overrun_count (sample_state_body 498) rfl rfl (by decide) (by decide)
    (by decide)
  refine ⟨by decide, h.1, ?_⟩
  rw [h.2, count_special_append, count_special_append]
  have hb : count_special (array_take (sample_state_body 498).MsgBody__
      (sample_state_body 498).MsgBodyLen__) = 498 := count_special_sync 498
  have e1 : (sample_state_body 498).MsgBodyLen__ = 498 := rfl
  have e2 : (sample_state_body 498).pbuf__.obufsize__ = 512 := by decide
  rw [hb, e1, e2]
  omega

/-! ## Header layout -/

theorem SerializeHdr_Hdr (st : PakBusMsg) : (SerializeHdr st).Hdr__ = header_bytes st := by
  unfold SerializeHdr odevs_write
  split_ifs <;> rfl

theorem hdr_pack (l a : Nat) (ha : a < 4096) : (l <<< 4) ||| (a >>> 8) = 16 * l + a / 256 := by
  rw [Nat.shiftLeft_eq, shr_8, Nat.mul_comm]
  have h : a / 256 < 2 ^ 4 := by norm_num; omega
  exact (Nat.mul_add_lt_is_or h l).symm

theorem hdr_pack3 (e p a : Nat) (hp : p < 4) (ha : a < 4096) :
    (e <<< 6) ||| (p <<< 4) ||| (a >>> 8) = 64 * e + 16 * p + a / 256 := by
  rw [Nat.shiftLeft_eq, Nat.shiftLeft_eq, shr_8]
  have h1 : p * 2 ^ 4 < 2 ^ 6 := by norm_num; omega
  have h2 : a / 256 < 2 ^ 4 := by norm_num; omega
  rw [Nat.mul_comm e, ← Nat.mul_add_lt_is_or h1 e]
  have e1 : 2 ^ 6 * e + p * 2 ^ 4 = 2 ^ 4 * (4 * e + p) := by norm_num; omega
  rw [e1, ← Nat.mul_add_lt_is_or h2]
  norm_num; omega

theorem header_bytes_layout (st : PakBusMsg)
    (hL : st.LinkState__.val < 16) (hP : st.HiProtoCode__.val < 16) (hH : st.HopCnt__.val < 16)
    (hE : st.ExpMoreCode__.val < 4) (hPr : st.Priority__.val < 4)
    (hDP : st.DstPhyAddr__ < 4096) (hSP : st.SrcPhyAddr__ < 4096)
    (hDN : st.DstNodeId__ < 4096) (hSN : st.SrcNodeId__ < 4096) :
    hdr_nibble ((header_bytes st).getD 0 0) = st.LinkState__.val ∧
    hdr12 ((header_bytes st).getD 0 0) ((header_bytes st).getD 1 0) = st.DstPhyAddr__ ∧
    ((header_bytes st).getD 2 0).val / 64 = st.ExpMoreCode__.val ∧
    ((header_bytes st).getD 2 0).val / 16 % 4 = st.Priority__.val ∧
    hdr12 ((header_bytes st).getD 2 0) ((header_bytes st).getD 3 0) = st.SrcPhyAddr__ ∧
    hdr_nibble ((header_bytes st).getD 4 0) = st.HiProtoCode__.val ∧
    hdr12 ((header_bytes st).getD 4 0) ((header_bytes st).getD 5 0) = st.DstNodeId__ ∧
    hdr_nibble ((header_bytes st).getD 6 0) = st.HopCnt__.val ∧
    hdr12 ((header_bytes st).getD 6 0) ((header_bytes st).getD 7 0) = st.SrcNodeId__ ∧
    (header_bytes st).getD 8 0 = st.MsgType__ ∧
    (header_bytes st).getD 9 0 = st.TranNbr__ := by
  simp only [header_bytes, List.getD_cons_zero, List.getD_cons_succ, hdr_nibble, hdr12,
    toByte_val, hdr_pack _ _ hDP, hdr_pack _ _ hSP, hdr_pack _ _ hDN, hdr_pack _ _ hSN,
    hdr_pack3 _ _ _ hPr hSP, and_255]
  refine ⟨?_, ?_, ?_, ?_, ?_, ?_, ?_, ?_, ?_, trivial, trivial⟩ <;> omega

/-- C13: for all field values in range (`LinkState`, `HiProtoCode`, `HopCnt`
below 16; `ExpMoreCode`, `Priority` below 4; the four addresses below 4096)
the ten header bytes written by `SerializeHdr` carry `LinkState` in the high
nibble of byte 0 and `DstPhyAddr` in the low 12 bits of bytes 0..1,
`ExpMoreCode` in bits 7..6 and `Priority` in bits 5..4 of byte 2 and
`SrcPhyAddr` in the low 12 bits of bytes 2..3, `HiProtoCode` in the high nibble
of byte 4 and `DstNodeId` in the low 12 bits of bytes 4..5, `HopCnt` in the
high nibble of byte 6 and `SrcNodeId` in the low 12 bits of bytes 6..7, then
`MsgType` and `TranNbr`; and a receiver `r` with the mirrored addresses that
finds these ten bytes after the sync byte of a packet longer than a link-state
packet (protocol 0 or 1) gets `SUCCESS` from `parse_pakbus_header`, with a
digest that holds the sender's addresses, protocol, message type and
transaction number. -/
theorem SerializeHdr_layout (st r : PakBusMsg) (pack : Packet)
    (hL : st.LinkState__.val < 16) (hP : st.HiProtoCode__.val < 16) (hH : st.HopCnt__.val < 16)
    (hE : st.ExpMoreCode__.val < 4) (hPr : st.Priority__.val < 4)
    (hDP : st.DstPhyAddr__ < 4096) (hSP : st.SrcPhyAddr__ < 4096)
    (hDN : st.DstNodeId__ < 4096) (hSN : st.SrcNodeId__ < 4096)
    (hb : ∀ k, k < 10 → pkt_byte r.pbuf__.ibuf__ pack (1 + k) = (SerializeHdr st).Hdr__.getD k 0)
    (h8 : pkt_len pack ≠ 8)
    (hr : r.SrcPhyAddr__ = st.DstPhyAddr__ ∧ r.DstPhyAddr__ = st.SrcPhyAddr__ ∧
          r.SrcNodeId__ = st.DstNodeId__ ∧ r.DstNodeId__ = st.SrcNodeId__)
    (hproto : st.HiProtoCode__.val ≤ 1) :
    ((SerializeHdr st).Hdr__.length = 10 ∧
     hdr_nibble ((SerializeHdr st).Hdr__.getD 0 0) = st.LinkState__.val ∧
     hdr12 ((SerializeHdr st).Hdr__.getD 0 0) ((SerializeHdr st).Hdr__.getD 1 0)
       = st.DstPhyAddr__ ∧
     ((SerializeHdr st).Hdr__.getD 2 0).val / 64 = st.ExpMoreCode__.val ∧
     ((SerializeHdr st).Hdr__.getD 2 0).val / 16 % 4 = st.Priority__.val ∧
     hdr12 ((SerializeHdr st).Hdr__.getD 2 0) ((SerializeHdr st).Hdr__.getD 3 0)
       = st.SrcPhyAddr__ ∧
     hdr_nibble ((SerializeHdr st).Hdr__.getD 4 0) = st.HiProtoCode__.val ∧
     hdr12 ((SerializeHdr st).Hdr__.getD 4 0) ((SerializeHdr st).Hdr__.getD 5 0)
       = st.DstNodeId__ ∧
     hdr_nibble ((SerializeHdr st).Hdr__.getD 6 0) = st.HopCnt__.val ∧
     hdr12 ((SerializeHdr st).Hdr__.getD 6 0) ((SerializeHdr st).Hdr__.getD 7 0)
       = st.SrcNodeId__ ∧
     (SerializeHdr st).Hdr__.getD 8 0 = st.MsgType__ ∧
     (SerializeHdr st).Hdr__.getD 9 0 = st.TranNbr__) ∧
    parse_pakbus_header r pack {} =
      (SUCCESS, { Protocol := st.HiProtoCode__, MsgType := st.MsgType__,
                  TranNbr := st.TranNbr__, SrcPhyAddrFrmPkt := st.SrcPhyAddr__,
                  SrcNodeAddrFrmPkt := st.SrcNodeId__ }) := by
  have lay := header_bytes_layout st hL hP hH hE hPr hDP hSP hDN hSN
  rw [SerializeHdr_Hdr] at hb ⊢
  obtain ⟨l0, l1, l2, l3, l4, l5, l6, l7, l8, l9, l10⟩ := lay
  refine ⟨⟨rfl, l0, l1, l2, l3, l4, l5, l6, l7, l8, l9, l10⟩, ?_⟩
  have b0 := hb 0 (by omega)
  have b1 := hb 1 (by omega)
  have b2 := hb 2 (by omega)
  have b3 := hb 3 (by omega)
  have b4 := hb 4 (by omega)
  have b5 := hb 5 (by omega)
  have b6 := hb 6 (by omega)
  have b7 := hb 7 (by omega)
  have b8 := hb 8 (by omega)
  have b9 := hb 9 (by omega)
  simp only [Nat.reduceAdd] at b0 b1 b2 b3 b4 b5 b6 b7 b8 b9
  obtain ⟨r1, r2, r3, r4⟩ := hr
  have hs : (parse_pakbus_header r pack {}).1 = SUCCESS := by
    rw [parse_pakbus_header_spec, b0, b1, b2, b3, b4, b5, b6, b7, l1, l4, l6, l8, l5]
    refine ⟨r1.symm, r2.symm, Or.inr ⟨r3.symm, r4.symm, ?_⟩⟩
    omega
  have hd := parse_pakbus_header_digest r pack hs h8
  rw [b2, b3, b4, b6, b7, b8, b9, l4, l5, l8, l9, l10] at hd
  have hp : toByte st.HiProtoCode__.val = st.HiProtoCode__ := by
    apply Fin.ext
    rw [toByte_val]
    omega
  rw [hp] at hd
  exact Prod.ext hs hd

set_option maxRecDepth 100000 in
/-- Witness of C13: the header of the collecting side (protocol 1, addresses
0xffe and 1) read by the sample receiver. -/
theorem SerializeHdr_layout_witness :
    (∀ k, k < 10 →
      pkt_byte (sample_receiver (0xbd :: (SerializeHdr (sample_state 1 [] [] [])).Hdr__
          ++ [0x00, 0x00, 0xbd])).pbuf__.ibuf__ ⟨0, 13, true⟩ (1 + k)
        = (SerializeHdr (sample_state 1 [] [] [])).Hdr__.getD k 0) ∧
    (SerializeHdr (sample_state 1 [] [] [])).Hdr__
      = [0xa0, 0x01, 0x5f, 0xfe, 0x10, 0x01, 0x0f, 0xfe, 0x00, 0x00] ∧
    parse_pakbus_header (sample_receiver (0xbd :: (SerializeHdr (sample_state 1 [] [] [])).Hdr__
        ++ [0x00, 0x00, 0xbd])) ⟨0, 13, true⟩ {} =
      (SUCCESS, { Protocol := 1, MsgType := 0, TranNbr := 0, SrcPhyAddrFrmPkt := 0x0ffe,
                  SrcNodeAddrFrmPkt := 0x0ffe }) :=
  ⟨by decide, by decide,
   (SerializeHdr_layout (sample_state 1 [] [] [])
     (sample_receiver (0xbd :: (SerializeHdr (sample_state 1 [] [] [])).Hdr__
        ++ [0x00, 0x00, 0xbd])) ⟨0, 13, true⟩
     (by decide) (by decide) (by decide) (by decide) (by decide) (by decide) (by decide)
     (by decide) (by decide) (by decide) (by decide) (by decide) (by decide)).2⟩

/-! ## Record decoding -/

/-- C14 (the code at the failing inputs): for field code 4 the byte `FF` is
handed to the writer as the integer 255, and for field code 5 the bytes
`FF FE` as 65534: the one or two bytes are not sign-extended.  Field code 6
hands the four bytes `FF FF FF FE` over as -2.  The decoder advances by 1, 2
and 4 bytes. -/
theorem storeDataSample_no_sign_extension :
    storeDataSample (sample_field 4 1) [0xff] = (WriterCall.storeInt "f" 255, 1) ∧
    storeDataSample (sample_field 5 1) [0xff, 0xfe] = (WriterCall.storeInt "f" 65534, 2) ∧
    storeDataSample (sample_field 6 1) [0xff, 0xff, 0xff, 0xfe]
      = (WriterCall.storeInt "f" (-2), 4) := by
  decide

/-- C15 (the code at the failing inputs): for a table with one field of
dimension 1 and type code 27, `getRecordSize` is 2 while the decoder consumes 1
byte for the record after its timestamp; for code 28 the size is 4 and the
decoder consumes 1 byte; for code 26 `getRecordSize` is -1 (no size) and the
decoder consumes 4 bytes. -/
theorem getRecordSize_differs_from_decoder :
    getRecordSize (sample_table [sample_field 27 1] 10 1 ⟨60, 0⟩) = 2 ∧
    (storeRecord_fields [0, 0, 0, 0] [sample_field 27 1] {} 0).2.2 = 1 ∧
    getRecordSize (sample_table [sample_field 28 1] 10 1 ⟨60, 0⟩) = 4 ∧
    (storeRecord_fields [0, 0, 0, 0] [sample_field 28 1] {} 0).2.2 = 1 ∧
    getRecordSize (sample_table [sample_field 26 1] 10 1 ⟨60, 0⟩) = -1 ∧
    (storeRecord_fields [0, 0, 0, 0] [sample_field 26 1] {} 0).2.2 = 4 := by
  decide

/-- C16 (the code at the failing input): for a table with a record interval of
half a second, the three records of one non-fragmented response whose
timestamp is `(1000, 0)` are all handed to the writer with the time
`(1000, 0)`; the times required are `(1000, 0)`, `(1000, 500000000)` and
`(1001, 0)`. -/
theorem store_data_subsecond_interval :
    record_times (store_data {} (sample_table [sample_field 6 1] 10 1 ⟨0, 500000000⟩)
        (sample_record 1000 5 ++ PBSerialize 6 4 ++ PBSerialize 7 4) 1 3 3600).2.1.calls
      = [⟨1000, 0⟩, ⟨1000, 0⟩, ⟨1000, 0⟩] ∧
    record_indices (store_data {} (sample_table [sample_field 6 1] 10 1 ⟨0, 500000000⟩)
        (sample_record 1000 5 ++ PBSerialize 6 4 ++ PBSerialize 7 4) 1 3 3600).2.1.calls
      = [1, 2, 3] := by
  decide

/-! ## Collection of table data -/

set_option maxRecDepth 1000000 in
/-- C17 (the code at the failing input): for a table with `TblSize = 10`, when
the logger answers each query for the last record with a response for another
table (so that no attempt yields a record number) four times and is silent
afterwards, `CollectData` sends the query more than three times (eight
commands reach the device) and does not return `FAILURE`: the loop ends only
with the `CommException` of the silent device. -/
theorem CollectData_attempts_not_bounded :
    (CollectData 20
      (sample_bmp5 [other_table_response 1, other_table_response 2, other_table_response 3,
                    other_table_response 4] [sample_table [sample_field 6 1] 10 1 ⟨60, 0⟩])
      { TableName := "T" }).1 = Outcome.throw Exception.CommException ∧
    (CollectData 20
      (sample_bmp5 [other_table_response 1, other_table_response 2, other_table_response 3,
                    other_table_response 4] [sample_table [sample_field 6 1] 10 1 ⟨60, 0⟩])
      { TableName := "T" }).2.base.pbuf__.devOut.length = 8 ∧
    ((CollectData 20
      (sample_bmp5 [other_table_response 1, other_table_response 2, other_table_response 3,
                    other_table_response 4] [sample_table [sample_field 6 1] 10 1 ⟨60, 0⟩])
      { TableName := "T" }).2.base.pbuf__.devOut.map (fun p => p.getD 13 0))
      = [5, 5, 5, 5, 5, 5, 5, 5] := by
  decide

set_option maxRecDepth 1000000 in
/-- C18 (the code at the failing input): with `TblSize = 500`,
`NextRecord = 600` and `last_rec_nbr = 498` the pending count is negative and
the cursor is reset to `last_rec_nbr - TblSize + 2 = 0`, not to
`max (1, 0) = 1`: the next command asks for the records from 0 on (`P1 = 0`),
and the record the logger answers with is handed to the writer with index 0.
For `last_rec_nbr = 7` the reset gives 1. -/
theorem CollectData_cursor_reset_zero :
    CollectData_newIndex 498 500 = 0 ∧
    CollectData_newIndex 7 500 = 1 ∧
    ((CollectData 20
      (sample_bmp5 [collect_response 1 498 1 (sample_record 1000 7),
                    collect_response 2 0 1 (sample_record 900 5)]
        [sample_table [sample_field 6 1] 500 600 ⟨60, 0⟩])
      { TableName := "T" }).2.base.pbuf__.devOut.getD 1 []).drop 13
      = [0x06, 0x00, 0x01, 0x00, 0x00, 0x00, 0x00, 0x00, 0x00, 0x00, 0x00, 0x00, 0x80, 0x00, 0x00,
         0xa3, 0xd7, 0xbd] ∧
    record_indices (CollectData 20
      (sample_bmp5 [collect_response 1 498 1 (sample_record 1000 7),
                    collect_response 2 0 1 (sample_record 900 5)]
        [sample_table [sample_field 6 1] 500 600 ⟨60, 0⟩])
      { TableName := "T" }).2.tblDataWriter__.calls = [0] := by
  decide

set_option maxRecDepth 1000000 in
/-- C19 (the code at the failing input): the logger holds records up to 3 and
the cursor is at 1.  The first request for record 1 gets a response that
yields no record (a response with a stale transaction number), the second one
record 1.  Record 2 is then requested twice only, each time with a response
that yields no record, and is skipped: the next request is for record 3, and
the writer receives the records 1 and 3.  The zero-record response obtained
for index 1 has shortened the count for index 2. -/
theorem CollectData_skips_after_two :
    (CollectData 20
      (sample_bmp5 [collect_response 1 3 1 (sample_record 1000 7),
                    collect_response 0 1 1 (sample_record 900 5),
                    collect_response 3 1 1 (sample_record 900 5),
                    collect_response 0 1 1 (sample_record 900 5),
                    collect_response 0 1 1 (sample_record 900 5),
                    collect_response 6 3 1 (sample_record 1020 9)]
        [sample_table [sample_field 6 1] 10 1 ⟨60, 0⟩])
      { TableName := "T" }).1 = Outcome.ret SUCCESS ∧
    ((CollectData 20
      (sample_bmp5 [collect_response 1 3 1 (sample_record 1000 7),
                    collect_response 0 1 1 (sample_record 900 5),
                    collect_response 3 1 1 (sample_record 900 5),
                    collect_response 0 1 1 (sample_record 900 5),
                    collect_response 0 1 1 (sample_record 900 5),
                    collect_response 6 3 1 (sample_record 1020 9)]
        [sample_table [sample_field 6 1] 10 1 ⟨60, 0⟩])
      { TableName := "T" }).2.base.pbuf__.devOut.map
        (fun p => (p.getD 13 0, PBDeserialize (p.drop 18) 4)))
      = [(5, 1), (6, 1), (6, 1), (6, 2), (6, 2), (6, 3)] ∧
    record_indices (CollectData 20
      (sample_bmp5 [collect_response 1 3 1 (sample_record 1000 7),
                    collect_response 0 1 1 (sample_record 900 5),
                    collect_response 3 1 1 (sample_record 900 5),
                    collect_response 0 1 1 (sample_record 900 5),
                    collect_response 0 1 1 (sample_record 900 5),
                    collect_response 6 3 1 (sample_record 1020 9)]
        [sample_table [sample_field 6 1] 10 1 ⟨60, 0⟩])
      { TableName := "T" }).2.tblDataWriter__.calls = [1, 3] := by
  decide

set_option maxRecDepth 1000000 in
/-- C20 (the code at the failing input): a collect-data response whose status
byte is `0x07` makes `test_data_packet`, and with it `CollectData`, raise a
plain `AppException`, not `InvalidTDFException`; the status byte `0x01`
(permission denied) is the one that raises `InvalidTDFException`. -/
theorem test_data_packet_invalid_tdf :
    test_data_packet (logger_packet 0x89 1 (collect_body 0x07 1 0 0 []))
      (sample_table [sample_field 6 1] 10 1 ⟨60, 0⟩) ⟨0, 22, true⟩
      = Outcome.throw Exception.AppException ∧
    (CollectData 20
      (sample_bmp5 [logger_packet 0x89 1 (collect_body 0x07 1 0 0 [])]
        [sample_table [sample_field 6 1] 10 1 ⟨60, 0⟩])
      { TableName := "T" }).1 = Outcome.throw Exception.AppException ∧
    (CollectData 20
      (sample_bmp5 [logger_packet 0x89 1 (collect_body 0x01 1 0 0 [])]
        [sample_table [sample_field 6 1] 10 1 ⟨60, 0⟩])
      { TableName := "T" }).1 = Outcome.throw Exception.InvalidTDFException := by
  decide

/-! ### Lemmas on reading a response -/

theorem find_sync_none (ibuf : List byte) (last : Nat) :
    ∀ (fuel first : Nat), last - first ≤ fuel → first ≤ last →
      (∀ i, first ≤ i → i < last → ibuf.getD i 0 ≠ SerSyncByte__) →
      find_sync ibuf fuel first last = last := by
  intro fuel
  induction fuel with
  | zero =>
    intro first hf hle _
    simp only [find_sync]
    omega
  | succ n ih =>
    intro first hf hle h
    simp only [find_sync]
    by_cases hlt : first < last
    · rw [if_pos hlt, if_neg (h first (le_refl _) hlt)]
      exact ih (first + 1) (by omega) (by omega) (fun i hi hil => h i (by omega) hil)
    · rw [if_neg hlt]

theorem getD_frame_interior (q tail : List byte) (i : Nat) (h1 : 1 ≤ i) (h2 : i < q.length + 1) :
    ((0xbd : byte) :: q ++ [0xbd] ++ tail).getD i 0 = q.getD (i - 1) 0 := by
  obtain ⟨j, rfl⟩ : ∃ j, i = j + 1 := ⟨i - 1, by omega⟩
  simp only [List.cons_append, List.getD_cons_succ, Nat.add_sub_cancel, List.append_assoc]
  rw [List.getD_append _ _ _ _ (by omega)]

theorem getD_frame_last (q tail : List byte) :
    ((0xbd : byte) :: q ++ [0xbd] ++ tail).getD (q.length + 1) 0 = 0xbd := by
  simp only [List.cons_append, List.getD_cons_succ, List.append_assoc]
  rw [List.getD_append_right _ _ _ _ (le_refl _)]
  simp

theorem split_sequence_frame (q tail : List byte) (hq : (0xbd : byte) ∉ q) :
    split_sequence_to_packets ((0xbd : byte) :: q ++ [0xbd] ++ tail) (q.length + 1) []
      = [⟨0, q.length + 1, true⟩] := by
  have hint : ∀ i, 1 ≤ i → i < q.length + 1 →
      ((0xbd : byte) :: q ++ [0xbd] ++ tail).getD i 0 ≠ SerSyncByte__ := by
    intro i h1 h2
    rw [getD_frame_interior q tail i h1 h2]
    intro hc
    apply hq
    have hlt : i - 1 < q.length := by omega
    rw [List.getD_eq_getElem _ _ hlt] at hc
    have hc2 : q[i - 1] = (0xbd : byte) := hc
    rw [← hc2]
    exact List.getElem_mem _
  have hend := find_sync_none ((0xbd : byte) :: q ++ [0xbd] ++ tail) (q.length + 1)
    (q.length + 1 - 1) 1 (le_refl _) (by omega) hint
  simp only [split_sequence_to_packets, split_loop]
  have h0 : ((0xbd : byte) :: q ++ [0xbd] ++ tail).getD 0 0 = SerSyncByte__ := rfl
  have hfs : find_sync ((0xbd : byte) :: q ++ [0xbd] ++ tail) (q.length + 1 - 0) 0 (q.length + 1)
      = 0 := by
    simp only [Nat.sub_zero, find_sync]
    rw [if_pos (by omega), if_pos h0]
  rw [if_pos (by omega), hfs, if_pos h0, if_neg (by omega)]
  simp only [Nat.zero_add]
  rw [hend, getD_frame_last]
  cases hq2 : q.length with
  | zero => simp [split_loop]
  | succ n =>
    simp only [split_loop]
    rw [if_neg (by omega)]
    simp

theorem readFromDevice_frame (pb : pakbuf) (p : List byte) (rest : List (List byte))
    (hdev : pb.devIn = ((0xbd : byte) :: quote_spec p ++ [0xbd]) :: rest)
    (hlen : (quote_spec p).length + 1 < 65536) :
    ∃ tail n, readFromDevice pb =
      (Outcome.ret n,
        { pb with ibuf__ := (0xbd : byte) :: p ++ [0xbd] ++ tail,
                  packetQueue__ := [⟨0, p.length + 1, true⟩],
                  devIn := rest, successive_bad_read := 0, nbytes_last_read := n }) := by
  have hn : ((0xbd : byte) :: quote_spec p ++ [0xbd]).length = (quote_spec p).length + 2 := by
    simp
  have hsplit := split_sequence_frame (quote_spec p)
    (pb.ibuf__.drop ((quote_spec p).length + 2)) (sync_not_mem_quote_spec p)
  have hun := unquote_pack_quoted [] p (pb.ibuf__.drop ((quote_spec p).length + 2)) hlen
  simp only [List.nil_append, List.length_nil, Nat.zero_add] at hun
  refine ⟨List.drop (1 + (p.length + 1)) ((0xbd : byte) :: quote_spec p ++ [0xbd] ++
    List.drop ((quote_spec p).length + 2) pb.ibuf__), (quote_spec p).length + 2, ?_⟩
  have hne : (quote_spec p).length + 2 ≠ 0 := by omega
  simp only [readFromDevice, hdev, List.headD_cons, List.tail_cons, hn, if_pos hne,
    show (quote_spec p).length + 2 - 1 = (quote_spec p).length + 1 from by omega, hsplit,
    unquote_queue, hun]
  rw [if_neg (fun h => hne h.1)]

theorem with_nullifier_eq (p : List byte) (h : p.length < 65536) :
    with_nullifier p = p ++ [toByte (CalcSigNullifier (p.foldl sig_step_spec Seed) >>> 8),
      toByte (CalcSigNullifier (p.foldl sig_step_spec Seed))] := by
  unfold with_nullifier
  rw [CalcSig_eq_foldl p Seed h]
  rfl

theorem with_nullifier_length (p : List byte) : (with_nullifier p).length = p.length + 2 := by
  simp [with_nullifier]

theorem CalcSig_with_nullifier (p : List byte) (h : p.length + 2 < 65536) :
    CalcSig (with_nullifier p) (p.length + 2) Seed = some 0 := by
  rw [with_nullifier_eq p (by omega)]
  exact CalcSig_append_nullifier p Seed (by decide) h

theorem logger_header_length (b : PakBusMsg) (m t : byte) : (logger_header b m t).length = 10 :=
  rfl

theorem frame_getD_header (H body tail : List byte) (k : Nat) (hk : k < H.length) :
    ((0xbd : byte) :: with_nullifier (H ++ body) ++ [0xbd] ++ tail).getD (k + 1) 0
      = H.getD k 0 := by
  simp only [with_nullifier, List.cons_append, List.getD_cons_succ, List.append_assoc]
  rw [List.getD_append _ _ _ _ hk]

theorem frame_drop_body (H body tail : List byte) (j : Nat) (hj : j ≤ body.length) :
    ((0xbd : byte) :: with_nullifier (H ++ body) ++ [0xbd] ++ tail).drop (H.length + 1 + j)
      = body.drop j ++ (List.drop (H ++ body).length (with_nullifier (H ++ body))
          ++ [0xbd] ++ tail) := by
  have e : (0xbd : byte) :: with_nullifier (H ++ body) ++ [0xbd] ++ tail
      = ((0xbd : byte) :: H) ++ (body ++ (List.drop (H ++ body).length
          (with_nullifier (H ++ body)) ++ [0xbd] ++ tail)) := by
    simp [with_nullifier]
  have hl : H.length + 1 + j = ((0xbd : byte) :: H).length + j := by simp
  rw [e, hl, List.drop_append, List.drop_append_of_le_length hj]

theorem logger_header_layout (b : PakBusMsg) (m t : byte)
    (hDP : b.DstPhyAddr__ < 4096) (hSP : b.SrcPhyAddr__ < 4096)
    (hDN : b.DstNodeId__ < 4096) (hSN : b.SrcNodeId__ < 4096) :
    hdr12 ((logger_header b m t).getD 0 0) ((logger_header b m t).getD 1 0) = b.SrcPhyAddr__ ∧
    hdr12 ((logger_header b m t).getD 2 0) ((logger_header b m t).getD 3 0) = b.DstPhyAddr__ ∧
    hdr_nibble ((logger_header b m t).getD 4 0) = 1 ∧
    hdr12 ((logger_header b m t).getD 4 0) ((logger_header b m t).getD 5 0) = b.SrcNodeId__ ∧
    hdr12 ((logger_header b m t).getD 6 0) ((logger_header b m t).getD 7 0) = b.DstNodeId__ ∧
    (logger_header b m t).getD 8 0 = m ∧
    (logger_header b m t).getD 9 0 = t := by
  have h := header_bytes_layout { b with
    LinkState__ := 0x0a, ExpMoreCode__ := 0x01, Priority__ := 0x01, HopCnt__ := 0x00,
    HiProtoCode__ := 0x01,
    DstPhyAddr__ := b.SrcPhyAddr__, SrcPhyAddr__ := b.DstPhyAddr__,
    DstNodeId__ := b.SrcNodeId__, SrcNodeId__ := b.DstNodeId__,
    MsgType__ := m, TranNbr__ := t }
    (show ((0x0a : byte) : Nat) < 16 by decide) (show ((0x01 : byte) : Nat) < 16 by decide)
    (show ((0x00 : byte) : Nat) < 16 by decide) (show ((0x01 : byte) : Nat) < 4 by decide)
    (show ((0x01 : byte) : Nat) < 4 by decide) hSP hDP hSN hDN
  obtain ⟨_, l1, _, _, l4, l5, l6, _, l8, l9, l10⟩ := h
  exact ⟨l1, l4, l5, l6, l8, l9, l10⟩

theorem ParsePakBusPacket_response (b : PakBusMsg) (t : byte) (body tail : List byte)
    (hDP : b.DstPhyAddr__ < 4096) (hSP : b.SrcPhyAddr__ < 4096)
    (hDN : b.DstNodeId__ < 4096) (hSN : b.SrcNodeId__ < 4096)
    (hbody : body.length ≤ 1090)
    (hibuf : b.pbuf__.ibuf__
      = (0xbd : byte) :: with_nullifier (logger_header b 0x89 t ++ body) ++ [0xbd] ++ tail) :
    ParsePakBusPacket b ⟨0, (with_nullifier (logger_header b 0x89 t ++ body)).length + 1, true⟩
      0x89 t = (Outcome.ret SUCCESS, b) := by
  have hL : (with_nullifier (logger_header b 0x89 t ++ body)).length = body.length + 12 := by
    rw [with_nullifier_length, List.length_append, logger_header_length]; omega
  have hpl : pkt_len ⟨0, (with_nullifier (logger_header b 0x89 t ++ body)).length + 1, true⟩
      = (body.length : Int) + 14 := by
    simp only [pkt_len, hL]; push_cast; omega
  have hpay : payload b.pbuf__.ibuf__
      ⟨0, (with_nullifier (logger_header b 0x89 t ++ body)).length + 1, true⟩
      = with_nullifier (logger_header b 0x89 t ++ body) := by
    have := payload_framed [] (with_nullifier (logger_header b 0x89 t ++ body)) tail
    simpa [hibuf] using this
  have hbyte : ∀ k, k < 10 →
      pkt_byte b.pbuf__.ibuf__
        ⟨0, (with_nullifier (logger_header b 0x89 t ++ body)).length + 1, true⟩ (k + 1)
        = (logger_header b 0x89 t).getD k 0 := by
    intro k hk
    simp only [pkt_byte, hibuf, Nat.zero_add]
    exact frame_getD_header _ _ _ k (by rw [logger_header_length]; exact hk)
  obtain ⟨l1, l2, l3, l4, l5, l6, l7⟩ := logger_header_layout b 0x89 t hDP hSP hDN hSN
  have b1 := hbyte 0 (by omega)
  have b2 := hbyte 1 (by omega)
  have b3 := hbyte 2 (by omega)
  have b4 := hbyte 3 (by omega)
  have b5 := hbyte 4 (by omega)
  have b6 := hbyte 5 (by omega)
  have b7 := hbyte 6 (by omega)
  have b8 := hbyte 7 (by omega)
  have b9 := hbyte 8 (by omega)
  have b10 := hbyte 9 (by omega)
  simp only [Nat.zero_add, Nat.reduceAdd] at b1 b2 b3 b4 b5 b6 b7 b8 b9 b10
  have hsig : CalcSig (payload b.pbuf__.ibuf__
      ⟨0, (with_nullifier (logger_header b 0x89 t ++ body)).length + 1, true⟩)
      (pkt_len ⟨0, (with_nullifier (logger_header b 0x89 t ++ body)).length + 1, true⟩
        - 2).toNat 0xaaaa = some 0 := by
    rw [hpay, hpl]
    have e : ((body.length : Int) + 14 - 2).toNat = (logger_header b 0x89 t ++ body).length + 2 := by
      rw [List.length_append, logger_header_length]; omega
    rw [e]
    exact CalcSig_with_nullifier _ (by rw [List.length_append, logger_header_length]; omega)
  have hhd : (parse_pakbus_header b
      ⟨0, (with_nullifier (logger_header b 0x89 t ++ body)).length + 1, true⟩ {}).1 = SUCCESS := by
    rw [parse_pakbus_header_spec, b1, b2, b3, b4, b5, b6, b7, b8]
    exact ⟨l1, l2, Or.inr ⟨l4, l5, Or.inr l3⟩⟩
  rw [ParsePakBusPacket_checked b _ 0x89 t rfl (by rw [hpl]; omega) (by rw [hpl]; omega) hsig hhd,
    b9, b10, l6, l7]
  simp

/-! ### Lemmas on storing records with a writer that does not raise -/

theorem record_indices_append (a b : List WriterCall) :
    record_indices (a ++ b) = record_indices a ++ record_indices b := by
  induction a with
  | nil => rfl
  | cons c cs ih => cases c <;> simp [record_indices, ih]

theorem storeDataSample_indices (var : Field) (data : List byte) :
    record_indices [(storeDataSample var data).1] = [] := by
  unfold storeDataSample
  split <;> rfl

theorem storeRecord_dims_ok (var : Field) (buf : List byte) :
    ∀ (n : Nat) (w : AsciiWriter) (data : Nat), (∀ c, w.raises c = false) →
      (storeRecord_dims var buf n w data).1 = Outcome.ret () ∧
      (storeRecord_dims var buf n w data).2.1.raises = w.raises ∧
      (storeRecord_dims var buf n w data).2.1.fileSpan__ = w.fileSpan__ ∧
      record_indices (storeRecord_dims var buf n w data).2.1.calls = record_indices w.calls := by
  intro n
  induction n with
  | zero => intro w data _; exact ⟨rfl, rfl, rfl, rfl⟩
  | succ n ih =>
    intro w data hw
    simp only [storeRecord_dims, AsciiWriter.call, hw, Bool.false_eq_true, if_false]
    have := ih { w with calls := w.calls ++ [(storeDataSample var (List.drop data buf)).1] }
      (data + (storeDataSample var (List.drop data buf)).2) hw
    obtain ⟨h1, h2, h3, h4⟩ := this
    refine ⟨h1, h2, h3, ?_⟩
    rw [h4, record_indices_append, storeDataSample_indices, List.append_nil]

theorem storeRecord_fields_ok (buf : List byte) :
    ∀ (fields : List Field) (w : AsciiWriter) (data : Nat), (∀ c, w.raises c = false) →
      (storeRecord_fields buf fields w data).1 = Outcome.ret () ∧
      (storeRecord_fields buf fields w data).2.1.raises = w.raises ∧
      (storeRecord_fields buf fields w data).2.1.fileSpan__ = w.fileSpan__ ∧
      record_indices (storeRecord_fields buf fields w data).2.1.calls
        = record_indices w.calls := by
  intro fields
  induction fields with
  | nil => intro w data _; exact ⟨rfl, rfl, rfl, rfl⟩
  | cons f rest ih =>
    intro w data hw
    simp only [storeRecord_fields]
    obtain ⟨h1, h2, h3, h4⟩ := storeRecord_dims_ok f buf
      (if f.FieldType = 11 ∨ f.FieldType = 16 then 1 else (toInt32 f.Dimension).toNat) w data hw
    rcases hr : storeRecord_dims f buf
      (if f.FieldType = 11 ∨ f.FieldType = 16 then 1 else (toInt32 f.Dimension).toNat) w data
      with ⟨o, w1, d1⟩
    rw [hr] at h1 h2 h3 h4
    simp only at h1 h2 h3 h4
    subst h1
    simp only
    obtain ⟨g1, g2, g3, g4⟩ := ih w1 d1 (by rw [h2]; exact hw)
    exact ⟨g1, by rw [g2, h2], by rw [g3, h3], by rw [g4, h4]⟩

theorem storeRecord_ok (w : AsciiWriter) (tbl : Table) (buf : List byte) (data rec_num : Nat)
    (span : Int) (pts : Bool) (hw : ∀ c, w.raises c = false) :
    (storeRecord w tbl buf data rec_num span pts).1 = Outcome.ret SUCCESS ∧
    (storeRecord w tbl buf data rec_num span pts).2.1.raises = w.raises ∧
    (storeRecord w tbl buf data rec_num span pts).2.1.fileSpan__ = w.fileSpan__ ∧
    record_indices (storeRecord w tbl buf data rec_num span pts).2.1.calls
      = record_indices w.calls ++ [toInt32 rec_num] ∧
    (storeRecord w tbl buf data rec_num span pts).2.2.1.NextRecord
      = (tbl.NextRecord + 1) % 4294967296 ∧
    (storeRecord w tbl buf data rec_num span pts).2.2.1.TblNum = tbl.TblNum := by
  simp only [storeRecord, AsciiWriter.processRecordBegin, AsciiWriter.call, hw,
    Bool.false_eq_true, false_and, if_false]
  generalize hrt : (if pts = true then parseRecordTime (List.drop data buf)
    else tbl.LastRecordTime.plusEq tbl.TblTimeInterval) = recordTime
  generalize hd : (if pts = true then data + 8 else data) = d
  by_cases hnf : recordTime.sec ≥ tbl.NewFileTime
  · simp only [hnf, if_true]
    obtain ⟨h1, h2, h3, h4⟩ := storeRecord_fields_ok buf tbl.field_list
      { w with calls := w.calls ++ [WriterCall.processRecordBegin tbl.TblName (toInt32 rec_num)
          recordTime] } d hw
    rcases hr : storeRecord_fields buf tbl.field_list
      { w with calls := w.calls ++ [WriterCall.processRecordBegin tbl.TblName (toInt32 rec_num)
          recordTime] } d with ⟨o, w1, d1⟩
    rw [hr] at h1 h2 h3 h4
    simp only at h1 h2 h3 h4
    subst h1
    have hw1 : ∀ c, w1.raises c = false := by rw [h2]; exact hw
    simp only [hw1, Bool.false_eq_true, if_false]
    refine ⟨trivial, h2, h3, ?_, trivial, trivial⟩
    rw [record_indices_append, h4, record_indices_append]
    simp [record_indices]
  · simp only [hnf, if_false]
    obtain ⟨h1, h2, h3, h4⟩ := storeRecord_fields_ok buf tbl.field_list
      { w with calls := w.calls ++ [WriterCall.processRecordBegin tbl.TblName (toInt32 rec_num)
          recordTime] } d hw
    rcases hr : storeRecord_fields buf tbl.field_list
      { w with calls := w.calls ++ [WriterCall.processRecordBegin tbl.TblName (toInt32 rec_num)
          recordTime] } d with ⟨o, w1, d1⟩
    rw [hr] at h1 h2 h3 h4
    simp only at h1 h2 h3 h4
    subst h1
    have hw1 : ∀ c, w1.raises c = false := by rw [h2]; exact hw
    simp only [hw1, Bool.false_eq_true, if_false]
    refine ⟨trivial, h2, h3, ?_, trivial, trivial⟩
    rw [record_indices_append, h4, record_indices_append]
    simp [record_indices]

theorem store_data_loop_ok (buf : List byte) (beg : Int) (span : Int) :
    ∀ (n : Nat) (rec_num : Int) (pts : Bool) (stat : Nat) (w : AsciiWriter) (tbl : Table)
      (data : Nat), (∀ c, w.raises c = false) → tbl.NextRecord < 4294967296 →
      (store_data_loop buf beg span n rec_num pts stat w tbl data).1
        = Outcome.ret (if n = 0 then stat else SUCCESS) ∧
      (store_data_loop buf beg span n rec_num pts stat w tbl data).2.1.raises = w.raises ∧
      (store_data_loop buf beg span n rec_num pts stat w tbl data).2.1.fileSpan__
        = w.fileSpan__ ∧
      record_indices (store_data_loop buf beg span n rec_num pts stat w tbl data).2.1.calls
        = record_indices w.calls
            ++ (List.range n).map (fun (k : Nat) => toInt32 (toUInt32 (beg + rec_num + (k : Int)))) ∧
      (store_data_loop buf beg span n rec_num pts stat w tbl data).2.2.1.NextRecord
        = (tbl.NextRecord + n) % 4294967296 ∧
      (store_data_loop buf beg span n rec_num pts stat w tbl data).2.2.1.TblNum = tbl.TblNum := by
  intro n
  induction n with
  | zero =>
    intro rec_num pts stat w tbl data _ hN
    simp [store_data_loop]
    omega
  | succ n ih =>
    intro rec_num pts stat w tbl data hw hN
    obtain ⟨h1, h2, h3, h4, h5, h6⟩ :=
      storeRecord_ok w tbl buf data (toUInt32 (beg + rec_num)) span pts hw
    rcases hr : storeRecord w tbl buf data (toUInt32 (beg + rec_num)) span pts
      with ⟨o, w1, tbl1, d1⟩
    rw [hr] at h1 h2 h3 h4 h5 h6
    simp only at h1 h2 h3 h4 h5 h6
    subst h1
    simp only [store_data_loop, hr]
    rw [if_neg (by decide)]
    obtain ⟨g1, g2, g3, g4, g5, g6⟩ := ih (rec_num + 1) false SUCCESS w1 tbl1 d1
      (by rw [h2]; exact hw) (by rw [h5]; omega)
    refine ⟨?_, by rw [g2, h2], by rw [g3, h3], ?_, ?_, by rw [g6, h6]⟩
    · rw [g1]; simp
    · rw [g4, h4, List.range_succ_eq_map]
      simp only [List.map_cons, List.map_map, List.append_assoc, List.singleton_append,
        Nat.cast_zero, add_zero]
      congr 2
      apply List.map_congr_left
      intro k _
      simp only [Function.comp]
      congr 2
      push_cast
      ring
    · rw [g5, h5]
      omega

/-! ### Lemmas on the collect command -/

theorem logger_header_congr (a b : PakBusMsg) (h1 : a.DstPhyAddr__ = b.DstPhyAddr__)
    (h2 : a.SrcPhyAddr__ = b.SrcPhyAddr__) (h3 : a.DstNodeId__ = b.DstNodeId__)
    (h4 : a.SrcNodeId__ = b.SrcNodeId__) (m t : byte) :
    logger_header a m t = logger_header b m t := by
  simp only [logger_header, header_bytes, h1, h2, h3, h4]

theorem SendPBPacket_ready (S : PakBusMsg) (hr : link_ready S) (hlen : S.MsgBodyLen__ ≤ 17) :
    (SendPBPacket S).1 = Outcome.ret () ∧ link_ready (SendPBPacket S).2 ∧
    (SendPBPacket S).2.TranNbr__ = S.TranNbr__ ∧
    (SendPBPacket S).2.pbuf__.devIn = S.pbuf__.devIn ∧
    (SendPBPacket S).2.pbuf__.nbytes_last_read = S.pbuf__.nbytes_last_read ∧
    (∀ m t, logger_header (SendPBPacket S).2 m t = logger_header S m t) := by
  obtain ⟨hbad, hobuf, hroom, hwf, hDP, hSP, hDN, hSN⟩ := hr
  have hw : next_write_fails (with_obuf (with_Hdr S (header_bytes S)) (wire_frame S)).pbuf__
      = false := by
    show (S.pbuf__.devWriteFails).headD false = false
    rw [hwf]; rfl
  rw [SendPBPacket_normal S hbad hobuf (by omega) (by omega),
    pbuf_writeToDevice_ok (with_obuf (with_Hdr S (header_bytes S)) (wire_frame S)) hw]
  refine ⟨rfl, ⟨hbad, rfl, hroom, ?_, hDP, hSP, hDN, hSN⟩, rfl, rfl, rfl, fun _ _ => rfl⟩
  show (S.pbuf__.devWriteFails).tail = []
  rw [hwf]; rfl

theorem sendCollectionCmd_eq (b : PakBusMsg) (mode : Nat) (tbl : Table) (P1 P2 : Nat)
    (hmode : mode = 5 ∨ mode = 6) :
    ∃ S : PakBusMsg, S.MsgBodyLen__ ≤ 17 ∧ S.odevs_bad = b.odevs_bad ∧ S.pbuf__ = b.pbuf__ ∧
      S.TranNbr__ = b.TranNbr__ ∧ S.DstPhyAddr__ = b.DstPhyAddr__ ∧
      S.SrcPhyAddr__ = b.SrcPhyAddr__ ∧ S.DstNodeId__ = b.DstNodeId__ ∧
      S.SrcNodeId__ = b.SrcNodeId__ ∧
      sendCollectionCmd b mode tbl P1 P2 =
        (match SendPBPacket S with
          | (Outcome.ret _, st) => (Outcome.ret (st.TranNbr__.val : Int), st)
          | (Outcome.throw e, st) => (Outcome.throw e, st)
          | (Outcome.diverge, st) => (Outcome.diverge, st)) := by
  rcases hmode with rfl | rfl
  · refine ⟨_, ?_, ?_, ?_, ?_, ?_, ?_, ?_, ?_, rfl⟩
    · show 13 ≤ 17
      omega
    all_goals rfl
  · refine ⟨_, ?_, ?_, ?_, ?_, ?_, ?_, ?_, ?_, rfl⟩
    · show 17 ≤ 17
      omega
    all_goals rfl

theorem sendCollectionCmd_ok (b : PakBusMsg) (mode : Nat) (tbl : Table) (P1 P2 : Nat)
    (hmode : mode = 5 ∨ mode = 6) (hr : link_ready b) :
    (sendCollectionCmd b mode tbl P1 P2).1 = Outcome.ret (b.TranNbr__.val : Int) ∧
    link_ready (sendCollectionCmd b mode tbl P1 P2).2 ∧
    (sendCollectionCmd b mode tbl P1 P2).2.TranNbr__ = b.TranNbr__ ∧
    (sendCollectionCmd b mode tbl P1 P2).2.pbuf__.devIn = b.pbuf__.devIn ∧
    (sendCollectionCmd b mode tbl P1 P2).2.pbuf__.nbytes_last_read
      = b.pbuf__.nbytes_last_read ∧
    (∀ m t, logger_header (sendCollectionCmd b mode tbl P1 P2).2 m t = logger_header b m t) := by
  obtain ⟨S, hS1, hS2, hS3, hS4, hS5, hS6, hS7, hS8, heq⟩ :=
    sendCollectionCmd_eq b mode tbl P1 P2 hmode
  obtain ⟨hbad, hobuf, hroom, hwf, hDP, hSP, hDN, hSN⟩ := hr
  have hrS : link_ready S :=
    ⟨by rw [hS2]; exact hbad, by rw [hS3]; exact hobuf, by rw [hS3]; exact hroom,
     by rw [hS3]; exact hwf, by rw [hS5]; exact hDP, by rw [hS6]; exact hSP,
     by rw [hS7]; exact hDN, by rw [hS8]; exact hSN⟩
  obtain ⟨g1, g2, g3, g4, g5, g6⟩ := SendPBPacket_ready S hrS hS1
  rw [heq]
  rcases hs : SendPBPacket S with ⟨o, s⟩
  rw [hs] at g1 g2 g3 g4 g5 g6
  simp only at g1 g2 g3 g4 g5 g6
  subst g1
  simp only
  refine ⟨by rw [g3, hS4], g2, by rw [g3, hS4], by rw [g4, hS3], by rw [g5, hS3], ?_⟩
  intro m t
  rw [g6]
  exact logger_header_congr S b hS5 hS6 hS7 hS8 m t

/-! ### Lemmas on the fields of a collect response -/

theorem PBDeserialize_PBSerialize_2 (v : Nat) (rest : List byte) (h : v < 65536) :
    PBDeserialize (PBSerialize v 2 ++ rest) 2 = v := by
  rw [PBSerialize_2]
  show PBDeserialize (toByte (v >>> 8) :: toByte v :: rest) 2 = v
  rw [PBDeserialize_2, toByte_val, toByte_val, shr_8]
  omega

theorem PBDeserialize_PBSerialize_4 (v : Nat) (rest : List byte) (h : v < 4294967296) :
    PBDeserialize (PBSerialize v 4 ++ rest) 4 = v := by
  rw [PBSerialize_4]
  show PBDeserialize (toByte (v >>> 24) :: toByte (v >>> 16) :: toByte (v >>> 8) :: toByte v
    :: rest) 4 = v
  rw [PBDeserialize_4, toByte_val, toByte_val, toByte_val, toByte_val, shr_8, shr_16, shr_24]
  omega

theorem collect_body_length (c : byte) (T beg n : Nat) (data : List byte) :
    (collect_body c T beg n data).length = 9 + data.length := by
  simp only [collect_body, List.length_append, PBSerialize_2, PBSerialize_4, List.length_cons,
    List.length_nil]

theorem collect_body_drop_1 (c : byte) (T beg n : Nat) (data : List byte) :
    (collect_body c T beg n data).drop 1
      = PBSerialize T 2 ++ (PBSerialize beg 4 ++ (PBSerialize n 2 ++ data)) := by
  simp [collect_body]

theorem collect_body_drop_3 (c : byte) (T beg n : Nat) (data : List byte) :
    (collect_body c T beg n data).drop 3 = PBSerialize beg 4 ++ (PBSerialize n 2 ++ data) := by
  simp [collect_body, PBSerialize_2]

theorem collect_body_drop_7 (c : byte) (T beg n : Nat) (data : List byte) :
    (collect_body c T beg n data).drop 7 = PBSerialize n 2 ++ data := by
  simp [collect_body, PBSerialize_2, PBSerialize_4]

theorem collect_body_drop_9 (c : byte) (T beg n : Nat) (data : List byte) :
    (collect_body c T beg n data).drop 9 = data := by
  simp [collect_body, PBSerialize_2, PBSerialize_4]

theorem frame_getD_body (H body tail : List byte) (j : Nat) (hj : j < body.length) :
    ((0xbd : byte) :: with_nullifier (H ++ body) ++ [0xbd] ++ tail).getD (H.length + 1 + j) 0
      = body.getD j 0 := by
  have e : (0xbd : byte) :: with_nullifier (H ++ body) ++ [0xbd] ++ tail
      = ((0xbd : byte) :: H) ++ (body ++ (List.drop (H ++ body).length
          (with_nullifier (H ++ body)) ++ [0xbd] ++ tail)) := by
    simp [with_nullifier]
  have hl : H.length + 1 + j = ((0xbd : byte) :: H).length + j := by simp
  rw [e, hl, List.getD_append_right _ _ _ _ (by omega), Nat.add_sub_cancel_left,
    List.getD_append _ _ _ _ hj]

theorem response_drop (H : List byte) (hH : H.length = 10) (c : byte) (T beg n : Nat)
    (data tail : List byte) (j : Nat) (hj : j ≤ 9) :
    ((0xbd : byte) :: with_nullifier (H ++ collect_body c T beg n data) ++ [0xbd] ++ tail).drop
        (11 + j)
      = (collect_body c T beg n data).drop j ++
          (List.drop (H ++ collect_body c T beg n data).length
            (with_nullifier (H ++ collect_body c T beg n data)) ++ [0xbd] ++ tail) := by
  have := frame_drop_body H (collect_body c T beg n data) tail j
    (by rw [collect_body_length]; omega)
  rw [hH] at this
  exact this

theorem and_0x80_shr (n : Nat) (hn : n < 32768) : ((toByte (n >>> 8)).val &&& 0x80) >>> 7 = 0 := by
  rw [toByte_val, shr_8]
  have h : n / 256 % 256 < 128 := by omega
  generalize n / 256 % 256 = x at h
  interval_cases x <;> rfl

theorem and_0x7fff (n : Nat) (hn : n < 32768) : n % 65536 &&& 0x7fff = n := by
  have : (0x7fff : Nat) = 2 ^ 15 - 1 := by norm_num
  rw [this, Nat.and_pow_two_sub_one_eq_mod]
  omega

theorem response_fields (H : List byte) (hH : H.length = 10) (T beg n : Nat)
    (data tail : List byte) (tbl : Table) (hT : tbl.TblNum = (T : Int)) (hT2 : T < 65536)
    (hbeg : beg < 4294967296) (hn : n < 32768) :
    test_data_packet
        ((0xbd : byte) :: with_nullifier (H ++ collect_body 0 T beg n data) ++ [0xbd] ++ tail)
        tbl ⟨0, (with_nullifier (H ++ collect_body 0 T beg n data)).length + 1, true⟩
      = Outcome.ret SUCCESS ∧
    PBDeserialize (List.drop 14
      ((0xbd : byte) :: with_nullifier (H ++ collect_body 0 T beg n data) ++ [0xbd] ++ tail)) 4
      = beg ∧
    ((pkt_byte
        ((0xbd : byte) :: with_nullifier (H ++ collect_body 0 T beg n data) ++ [0xbd] ++ tail)
        ⟨0, (with_nullifier (H ++ collect_body 0 T beg n data)).length + 1, true⟩ 18).val
      &&& 0x80) >>> 7 = 0 ∧
    (PBDeserialize (List.drop 18
      ((0xbd : byte) :: with_nullifier (H ++ collect_body 0 T beg n data) ++ [0xbd] ++ tail)) 2
      % 65536) &&& 0x7fff = n ∧
    List.drop 20
      ((0xbd : byte) :: with_nullifier (H ++ collect_body 0 T beg n data) ++ [0xbd] ++ tail)
      = data ++ (List.drop (H ++ collect_body 0 T beg n data).length
            (with_nullifier (H ++ collect_body 0 T beg n data)) ++ [0xbd] ++ tail) := by
  have hL : (with_nullifier (H ++ collect_body 0 T beg n data)).length = 21 + data.length := by
    rw [with_nullifier_length, List.length_append, hH, collect_body_length]; omega
  have d1 := response_drop H hH 0 T beg n data tail 1 (by omega)
  have d3 := response_drop H hH 0 T beg n data tail 3 (by omega)
  have d7 := response_drop H hH 0 T beg n data tail 7 (by omega)
  have d9 := response_drop H hH 0 T beg n data tail 9 (by omega)
  simp only [Nat.reduceAdd] at d1 d3 d7 d9
  rw [collect_body_drop_1] at d1
  rw [collect_body_drop_3] at d3
  rw [collect_body_drop_7] at d7
  rw [collect_body_drop_9] at d9
  have g11 : pkt_byte
      ((0xbd : byte) :: with_nullifier (H ++ collect_body 0 T beg n data) ++ [0xbd] ++ tail)
      ⟨0, (with_nullifier (H ++ collect_body 0 T beg n data)).length + 1, true⟩ 11 = 0 := by
    have := frame_getD_body H (collect_body 0 T beg n data) tail 0
      (by rw [collect_body_length]; omega)
    rw [hH] at this
    simp only [pkt_byte, Nat.zero_add]
    rw [this]
    rfl
  have g18 : pkt_byte
      ((0xbd : byte) :: with_nullifier (H ++ collect_body 0 T beg n data) ++ [0xbd] ++ tail)
      ⟨0, (with_nullifier (H ++ collect_body 0 T beg n data)).length + 1, true⟩ 18
      = toByte (n >>> 8) := by
    have := frame_getD_body H (collect_body 0 T beg n data) tail 7
      (by rw [collect_body_length]; omega)
    rw [hH] at this
    simp only [pkt_byte, Nat.zero_add]
    rw [this]
    simp [collect_body, PBSerialize_2, PBSerialize_4]
  refine ⟨?_, ?_, ?_, ?_, d9⟩
  · unfold test_data_packet
    rw [if_neg (by simp only [hL]; omega), g11]
    simp only [ne_eq, not_true_eq_false, if_false, Nat.zero_add, d1]
    rw [List.append_assoc, PBDeserialize_PBSerialize_2 T _ hT2]
    have ht : toInt32 T = (T : Int) := by
      unfold toInt32
      rw [if_pos (by omega)]
      congr 1
      omega
    rw [ht, hT]
    simp only [not_true_eq_false, if_false, hL]
    rw [if_neg (by push_cast; omega)]
  · rw [d3, List.append_assoc, PBDeserialize_PBSerialize_4 beg _ hbeg]
  · rw [g18]; exact and_0x80_shr n hn
  · rw [d7, List.append_assoc, PBDeserialize_PBSerialize_2 n _ (by omega)]
    exact and_0x7fff n hn

/-! ### Lemmas on one request and its response -/

theorem quote_spec_length_le (p : List byte) : (quote_spec p).length ≤ 2 * p.length := by
  rw [quote_spec_length]
  have := count_special_le p
  omega

theorem pbuf_readFromDevice_response (b1 : PakBusMsg) (P : List byte) (rest : List (List byte))
    (hdev : b1.pbuf__.devIn = (quoted_frame P).1 :: rest) (hlen : P.length ≤ 2000) :
    ∃ n tail, pbuf_readFromDevice b1 =
      (Outcome.ret n,
        { b1 with pbuf__ :=
          { b1.pbuf__ with ibuf__ := (0xbd : byte) :: P ++ [0xbd] ++ tail,
                           packetQueue__ := [⟨0, P.length + 1, true⟩],
                           devIn := rest, successive_bad_read := 0, nbytes_last_read := n } }) := by
  rw [quoted_frame_eq] at hdev
  have hq := quote_spec_length_le P
  obtain ⟨tail, n, h⟩ := readFromDevice_frame b1.pbuf__ P rest hdev (by omega)
  refine ⟨n, tail, ?_⟩
  simp only [pbuf_readFromDevice, h]

theorem toInt32_small (n : Nat) (h : n < 2147483648) : toInt32 n = (n : Int) := by
  unfold toInt32
  rw [if_pos (by omega)]
  congr 1
  omega

theorem toUInt32_small (n : Nat) (h : n < 4294967296) : toUInt32 (n : Int) = n := by
  unfold toUInt32
  omega

/-! ### The collect command on the wire -/

theorem storeRecord_TblSignature (w : AsciiWriter) (tbl : Table) (buf : List byte)
    (data rec_num : Nat) (span : Int) (pts : Bool) :
    (storeRecord w tbl buf data rec_num span pts).2.2.1.TblSignature = tbl.TblSignature := by
  have hb : ∀ (i : Int) (rt : NSec),
      (w.processRecordBegin tbl i rt).2.2.TblSignature = tbl.TblSignature := by
    intro i rt
    simp only [AsciiWriter.processRecordBegin]
    split_ifs <;> rfl
  simp only [storeRecord]
  generalize (if pts = true then parseRecordTime (List.drop data buf)
    else tbl.LastRecordTime.plusEq tbl.TblTimeInterval) = rt
  generalize (if pts = true then data + 8 else data) = d
  have h := hb (toInt32 rec_num) rt
  rcases hp : w.processRecordBegin tbl (toInt32 rec_num) rt with ⟨r0, w0, t0⟩
  rw [hp] at h
  simp only at h ⊢
  cases r0
  · simp only [Bool.false_eq_true, if_false]
    rcases hf : storeRecord_fields buf tbl.field_list w0 d with ⟨o, w1, d1⟩
    cases o
    · simp only
      split_ifs <;> exact h
    · exact h
    · exact h
  · exact h

theorem store_data_loop_TblSignature (buf : List byte) (beg : Int) (span : Int) :
    ∀ (n : Nat) (rec_num : Int) (pts : Bool) (stat : Nat) (w : AsciiWriter) (tbl : Table)
      (data : Nat),
      (store_data_loop buf beg span n rec_num pts stat w tbl data).2.2.1.TblSignature
        = tbl.TblSignature := by
  intro n
  induction n with
  | zero => intro rec_num pts stat w tbl data; rfl
  | succ n ih =>
    intro rec_num pts stat w tbl data
    have h := storeRecord_TblSignature w tbl buf data (toUInt32 (beg + rec_num)) span pts
    rcases hr : storeRecord w tbl buf data (toUInt32 (beg + rec_num)) span pts
      with ⟨o, w1, tbl1, d1⟩
    rw [hr] at h
    simp only at h
    simp only [store_data_loop, hr]
    cases o with
    | ret s =>
      simp only
      split_ifs
      · exact h
      · rw [ih, h]
    | throw e => exact h
    | diverge => exact h

theorem sendCollectionCmd_body (b : PakBusMsg) (mode : Nat) (tbl : Table) (P1 P2 : Nat)
    (hmode : mode = 5 ∨ mode = 6) :
    ∃ S : PakBusMsg, S.MsgBodyLen__ ≤ 17 ∧ S.odevs_bad = b.odevs_bad ∧ S.pbuf__ = b.pbuf__ ∧
      S.TranNbr__ = b.TranNbr__ ∧ S.DstPhyAddr__ = b.DstPhyAddr__ ∧
      S.SrcPhyAddr__ = b.SrcPhyAddr__ ∧ S.DstNodeId__ = b.DstNodeId__ ∧
      S.SrcNodeId__ = b.SrcNodeId__ ∧
      (∀ t, command_header S t = command_header b t) ∧
      header_bytes S = command_header b b.TranNbr__ ∧
      S.SecurityCode__ = b.SecurityCode__ ∧
      array_take S.MsgBody__ S.MsgBodyLen__
        = collect_command_body b.SecurityCode__ (toUInt32 tbl.TblNum) tbl.TblSignature
            { TranNbr := b.TranNbr__, mode := mode, P1 := P1, P2 := P2 } ∧
      sendCollectionCmd b mode tbl P1 P2 =
        (match SendPBPacket S with
          | (Outcome.ret _, st) => (Outcome.ret (st.TranNbr__.val : Int), st)
          | (Outcome.throw e, st) => (Outcome.throw e, st)
          | (Outcome.diverge, st) => (Outcome.diverge, st)) := by
  rcases hmode with rfl | rfl
  · refine ⟨_, ?_, ?_, ?_, ?_, ?_, ?_, ?_, ?_, ?_, ?_, ?_, ?_, rfl⟩
    · show 13 ≤ 17
      omega
    · rfl
    · rfl
    · rfl
    · rfl
    · rfl
    · rfl
    · rfl
    · intro t; rfl
    · rfl
    · rfl
    · show array_take _ 13 = _
      simp [array_take, List.range_succ, collect_command_body, PBSerialize_2, PBSerialize_4,
        array_write, array_set, SetSecurityCodeInMsgBody]
  · refine ⟨_, ?_, ?_, ?_, ?_, ?_, ?_, ?_, ?_, ?_, ?_, ?_, ?_, rfl⟩
    · show 17 ≤ 17
      omega
    · rfl
    · rfl
    · rfl
    · rfl
    · rfl
    · rfl
    · rfl
    · intro t; rfl
    · rfl
    · rfl
    · show array_take _ 17 = _
      simp [array_take, List.range_succ, collect_command_body, PBSerialize_2, PBSerialize_4,
        array_write, array_set, SetSecurityCodeInMsgBody]

theorem wire_frame_with_nullifier (S : PakBusMsg) :
    (quote_msg (wire_frame S) (wire_frame S).length)
      = quoted_frame (with_nullifier
          (header_bytes S ++ array_take S.MsgBody__ S.MsgBodyLen__)) := by
  have e : wire_frame S
      = frame (with_nullifier (header_bytes S ++ array_take S.MsgBody__ S.MsgBodyLen__)) := by
    simp [wire_frame, frame, with_nullifier]
  rw [e]
  unfold quoted_frame
  congr 1
  simp [frame]

theorem SendPBPacket_sending (S : PakBusMsg) (hr : link_ready S) (hlen : S.MsgBodyLen__ ≤ 17)
    (hroom : 60 ≤ S.pbuf__.obufsize__) :
    (SendPBPacket S).2.pbuf__.devOut = S.pbuf__.devOut ++
      [(quoted_frame (with_nullifier
          (header_bytes S ++ array_take S.MsgBody__ S.MsgBodyLen__))).1] ∧
    (SendPBPacket S).2.pbuf__.obuf_overrun = S.pbuf__.obuf_overrun ∧
    (SendPBPacket S).2.pbuf__.obufsize__ = S.pbuf__.obufsize__ ∧
    (∀ t, command_header (SendPBPacket S).2 t = command_header S t) ∧
    (SendPBPacket S).2.SecurityCode__ = S.SecurityCode__ := by
  obtain ⟨hbad, hobuf, hroom1, hwf, hDP, hSP, hDN, hSN⟩ := hr
  have hw : next_write_fails (with_obuf (with_Hdr S (header_bytes S)) (wire_frame S)).pbuf__
      = false := by
    show (S.pbuf__.devWriteFails).headD false = false
    rw [hwf]; rfl
  rw [SendPBPacket_normal S hbad hobuf (by omega) (by omega),
    pbuf_writeToDevice_ok (with_obuf (with_Hdr S (header_bytes S)) (wire_frame S)) hw]
  refine ⟨?_, ?_, rfl, fun _ => rfl, rfl⟩
  · show S.pbuf__.devOut ++ [(quote_msg (wire_frame S) (wire_frame S).length).1] = _
    rw [wire_frame_with_nullifier]
  · show S.pbuf__.obuf_overrun
      + ((quote_msg (wire_frame S) (wire_frame S).length).2 - S.pbuf__.obufsize__) = _
    rw [wire_frame_with_nullifier, quoted_frame_eq]
    have h1 := quote_spec_length_le
      (with_nullifier (header_bytes S ++ array_take S.MsgBody__ S.MsgBodyLen__))
    rw [with_nullifier_length, List.length_append, header_bytes_length, array_take_length] at h1
    show S.pbuf__.obuf_overrun + ((quote_spec _).length + 2 - S.pbuf__.obufsize__) = _
    omega

theorem sendCollectionCmd_sending (b0 b : PakBusMsg) (mode : Nat) (tbl : Table) (P1 P2 : Nat)
    (out : List (List byte))
    (hmode : mode = 5 ∨ mode = 6) (hr : link_ready b) (hs : sending b0 b out) :
    sending b0 (sendCollectionCmd b mode tbl P1 P2).2
      (out ++ [collect_command b0 (toUInt32 tbl.TblNum) tbl.TblSignature
        { TranNbr := b.TranNbr__, mode := mode, P1 := P1, P2 := P2 }]) := by
  obtain ⟨hh, hsec, hroom, hov, hout⟩ := hs
  obtain ⟨S, hS1, hS2, hS3, hS4, hS5, hS6, hS7, hS8, hS9, hS10, hS11, hS12, heq⟩ :=
    sendCollectionCmd_body b mode tbl P1 P2 hmode
  obtain ⟨hbad, hobuf, hroom1, hwf, hDP, hSP, hDN, hSN⟩ := hr
  have hrS : link_ready S :=
    ⟨by rw [hS2]; exact hbad, by rw [hS3]; exact hobuf, by rw [hS3]; exact hroom1,
     by rw [hS3]; exact hwf, by rw [hS5]; exact hDP, by rw [hS6]; exact hSP,
     by rw [hS7]; exact hDN, by rw [hS8]; exact hSN⟩
  obtain ⟨g1, g2, g3, g4, g5⟩ := SendPBPacket_sending S hrS hS1 (by rw [hS3]; exact hroom)
  rw [heq]
  rcases hsp : SendPBPacket S with ⟨o, s⟩
  rw [hsp] at g1 g2 g3 g4 g5
  simp only at g1 g2 g3 g4 g5
  have key : sending b0 s
      (out ++ [collect_command b0 (toUInt32 tbl.TblNum) tbl.TblSignature
        { TranNbr := b.TranNbr__, mode := mode, P1 := P1, P2 := P2 }]) := by
    refine ⟨?_, ?_, ?_, ?_, ?_⟩
    · intro t; rw [g4, hS9, hh]
    · rw [g5, hS11, hsec]
    · rw [g3, hS3]; exact hroom
    · rw [g2, hS3]; exact hov
    · rw [g1, hS3, hout, hS10, hS12, hh, hsec]
      rfl
  cases o <;> exact key

theorem get_records_packet_store (st : BMP5Obj) (tbl : Table) (v : get_records_vars)
    (record_size span : Int) (t : byte) (T beg n : Nat) (data tail : List byte)
    (hibuf : st.base.pbuf__.ibuf__ = (0xbd : byte) ::
      with_nullifier (logger_header st.base 0x89 t ++ collect_body 0 T beg n data) ++ [0xbd]
        ++ tail)
    (hr : link_ready st.base) (hw : ∀ c, st.tblDataWriter__.raises c = false)
    (hT : tbl.TblNum = (T : Int)) (hT2 : T < 65536) (hbeg : beg + n < 2147483648)
    (hn1 : 1 ≤ n) (hn : n < 32768) (hdata : data.length ≤ 1024)
    (hN : tbl.NextRecord < 4294967296) :
    ∃ v' st' tbl',
      get_records_packet 0x20 record_size span t st tbl v
        ⟨0, (with_nullifier (logger_header st.base 0x89 t
              ++ collect_body 0 T beg n data)).length + 1, true⟩
        = (Outcome.ret v', st', tbl') ∧
      v'.stat = SUCCESS ∧ v'.frag_record = 0 ∧ v'.num_recs = n ∧ v'.pending = false ∧
      st'.base = st.base ∧ st'.tableList__ = st.tableList__ ∧
      st'.tblDataWriter__.raises = st.tblDataWriter__.raises ∧
      record_indices st'.tblDataWriter__.calls
        = record_indices st.tblDataWriter__.calls
            ++ (List.range n).map (fun (k : Nat) => ((beg + k : Nat) : Int)) ∧
      tbl'.NextRecord = (tbl.NextRecord + n) % 4294967296 ∧ tbl'.TblNum = tbl.TblNum ∧
      tbl'.TblSignature = tbl.TblSignature := by
  obtain ⟨hbad, hobuf, hroom, hwf, hDP, hSP, hDN, hSN⟩ := hr
  have hparse := ParsePakBusPacket_response st.base t (collect_body 0 T beg n data) tail
    hDP hSP hDN hSN (by rw [collect_body_length]; omega) hibuf
  obtain ⟨f1, f2, f3, f4, f5⟩ := response_fields (logger_header st.base 0x89 t) rfl T beg n data
    tail tbl hT hT2 (by omega) hn
  rw [← hibuf] at f1 f2 f3 f4 f5
  unfold get_records_packet
  rw [hparse]
  simp only [ne_eq, not_true_eq_false, if_false, f1, Nat.zero_add, f2, f3, f4, f5]
  rw [if_pos (by decide)]
  simp only [BMP5Obj.call_store_data, store_data, Int.toNat_ofNat]
  obtain ⟨g1, g2, _, g4, g5, g6⟩ := store_data_loop_ok
    (data ++ (List.drop (logger_header st.base 137 t ++ collect_body 0 T beg n data).length
      (with_nullifier (logger_header st.base 137 t ++ collect_body 0 T beg n data)) ++ [189]
        ++ tail))
    (toInt32 beg) span n 0 true FAILURE st.tblDataWriter__ tbl 0 hw hN
  have hsig := store_data_loop_TblSignature
    (data ++ (List.drop (logger_header st.base 137 t ++ collect_body 0 T beg n data).length
      (with_nullifier (logger_header st.base 137 t ++ collect_body 0 T beg n data)) ++ [189]
        ++ tail))
    (toInt32 beg) span n 0 true FAILURE st.tblDataWriter__ tbl 0
  rcases hsd : store_data_loop
    (data ++ (List.drop (logger_header st.base 137 t ++ collect_body 0 T beg n data).length
      (with_nullifier (logger_header st.base 137 t ++ collect_body 0 T beg n data)) ++ [189]
        ++ tail))
    (toInt32 beg) span n 0 true FAILURE st.tblDataWriter__ tbl 0 with ⟨o, w1, tbl1, d1⟩
  rw [hsd] at g1 g2 g4 g5 g6 hsig
  simp only at g1 g2 g4 g5 g6 hsig
  rw [if_neg (by omega)] at g1
  subst g1
  refine ⟨_, _, _, rfl, rfl, rfl, rfl, rfl, rfl, rfl, g2, ?_, g5, g6, hsig⟩
  rw [g4]
  congr 1
  apply List.map_congr_left
  intro k hk
  rw [List.mem_range] at hk
  rw [toInt32_small beg (by omega), add_zero, ← Nat.cast_add, toUInt32_small _ (by omega),
    toInt32_small _ (by omega)]

theorem get_records_packet_inquire (st : BMP5Obj) (tbl : Table) (v : get_records_vars)
    (record_size span : Int) (t : byte) (T beg n : Nat) (data tail : List byte)
    (hibuf : st.base.pbuf__.ibuf__ = (0xbd : byte) ::
      with_nullifier (logger_header st.base 0x89 t ++ collect_body 0 T beg n data) ++ [0xbd]
        ++ tail)
    (hr : link_ready st.base)
    (hT : tbl.TblNum = (T : Int)) (hT2 : T < 65536) (hbeg : beg < 4294967296)
    (hn : n < 32768) (hdata : data.length ≤ 1024) :
    ∃ v',
      get_records_packet 0 record_size span t st tbl v
        ⟨0, (with_nullifier (logger_header st.base 0x89 t
              ++ collect_body 0 T beg n data)).length + 1, true⟩
        = (Outcome.ret v', st, tbl) ∧
      v'.stat = SUCCESS ∧ v'.beg_rec_nbr = beg ∧ v'.pending = false := by
  obtain ⟨hbad, hobuf, hroom, hwf, hDP, hSP, hDN, hSN⟩ := hr
  have hparse := ParsePakBusPacket_response st.base t (collect_body 0 T beg n data) tail
    hDP hSP hDN hSN (by rw [collect_body_length]; omega) hibuf
  obtain ⟨f1, f2, f3, f4, f5⟩ := response_fields (logger_header st.base 0x89 t) rfl T beg n data
    tail tbl hT hT2 hbeg hn
  rw [← hibuf] at f1 f2 f3 f4 f5
  unfold get_records_packet
  rw [hparse]
  simp only [ne_eq, not_true_eq_false, if_false, f1, Nat.zero_add, f2, f3, f4, f5]
  exact ⟨_, rfl, rfl, rfl, rfl⟩

theorem pbuf_readFromDevice_ready (b1 : PakBusMsg) (P : List byte) (rest : List (List byte))
    (hdev : b1.pbuf__.devIn = (quoted_frame P).1 :: rest) (hlen : P.length ≤ 2000)
    (hr : link_ready b1) :
    ∃ n b2 tail, pbuf_readFromDevice b1 = (Outcome.ret n, b2) ∧
      b2.pbuf__.ibuf__ = (0xbd : byte) :: P ++ [0xbd] ++ tail ∧
      b2.pbuf__.packetQueue__ = [⟨0, P.length + 1, true⟩] ∧
      b2.pbuf__.devIn = rest ∧ link_ready b2 ∧ b2.TranNbr__ = b1.TranNbr__ ∧
      (∀ m t, logger_header b2 m t = logger_header b1 m t) ∧
      (∀ b0 out, sending b0 b1 out → sending b0 b2 out) := by
  obtain ⟨n, tail, h⟩ := pbuf_readFromDevice_response b1 P rest hdev hlen
  exact ⟨n, _, tail, h, rfl, rfl, rfl, hr, rfl, fun _ _ => rfl, fun _ _ hs => hs⟩

theorem get_records_queue_single (store_mode : Nat) (record_size span : Int) (tran_id : byte)
    (st : BMP5Obj) (tbl : Table) (v : get_records_vars) (pack : Packet)
    (hq : st.base.pbuf__.packetQueue__ = [pack])
    (v1 : get_records_vars) (st1 : BMP5Obj) (tbl1 : Table)
    (hp : get_records_packet store_mode record_size span tran_id st tbl v pack
      = (Outcome.ret v1, st1, tbl1)) :
    get_records_queue store_mode record_size span tran_id 1 st tbl v
      = (Outcome.ret v1, st1.pop_front, tbl1) := by
  simp only [get_records_queue, hq, hp]

theorem collecting_pop_front (b0 : PakBusMsg) (st : BMP5Obj) (t : byte)
    (script : List (List byte)) (h : collecting b0 st t script) :
    collecting b0 st.pop_front t script := h

theorem get_records_loop_store (fuel : Nat) (b0 : PakBusMsg) (st : BMP5Obj) (tbl : Table)
    (v : get_records_vars) (record_size span : Int) (t : byte) (T beg n : Nat)
    (data : List byte) (rest : List (List byte)) (out : List (List byte))
    (hc : collecting b0 st t
      (logger_response b0 (t + 1) (collect_body 0 T beg n data) :: rest))
    (hsd : sending b0 st.base out)
    (hmode : v.collect_mode = 5 ∨ v.collect_mode = 6)
    (hT : tbl.TblNum = (T : Int)) (hT2 : T < 65536) (hbeg : beg + n < 2147483648)
    (hn1 : 1 ≤ n) (hn : n < 32768) (hdata : data.length ≤ 1024)
    (hN : tbl.NextRecord < 4294967296) :
    ∃ v' st' tbl',
      get_records_loop 0x20 record_size span (fuel + 1) st tbl v = (Outcome.ret v', st', tbl') ∧
      v'.stat = SUCCESS ∧ v'.frag_record = 0 ∧ v'.num_recs = n ∧
      collecting b0 st' (t + 1) rest ∧ st'.tableList__ = st.tableList__ ∧
      record_indices st'.tblDataWriter__.calls
        = record_indices st.tblDataWriter__.calls
            ++ (List.range n).map (fun (k : Nat) => ((beg + k : Nat) : Int)) ∧
      tbl'.NextRecord = (tbl.NextRecord + n) % 4294967296 ∧ tbl'.TblNum = tbl.TblNum ∧
      tbl'.TblSignature = tbl.TblSignature ∧
      sending b0 st'.base
        (out ++ [collect_command b0 (toUInt32 tbl.TblNum) tbl.TblSignature
          { TranNbr := t + 1, mode := v.collect_mode, P1 := v.P1, P2 := v.P2 }]) := by
  obtain ⟨hr, ht, hdev, hh, hw⟩ := hc
  have hrg : link_ready (GenTranNbr st.base).2 := hr
  have hg1 : (GenTranNbr st.base).1 = t + 1 := by rw [← ht]; rfl
  have hg2 : (GenTranNbr st.base).2.TranNbr__ = t + 1 := by rw [← ht]; rfl
  obtain ⟨s1, s2, s3, s4, s5, s6⟩ :=
    sendCollectionCmd_ok (GenTranNbr st.base).2 v.collect_mode tbl v.P1 v.P2 hmode hrg
  rcases hs : sendCollectionCmd (GenTranNbr st.base).2 v.collect_mode tbl v.P1 v.P2
    with ⟨o, b1⟩
  rw [hs] at s1 s2 s3 s4 s5 s6
  simp only at s1 s2 s3 s4 s5 s6
  subst s1
  have hdev1 : b1.pbuf__.devIn
      = (quoted_frame (with_nullifier (logger_header b0 0x89 (t + 1)
          ++ collect_body 0 T beg n data))).1 :: rest := by
    rw [s4]; exact hdev
  have hsend := sendCollectionCmd_sending b0 (GenTranNbr st.base).2 v.collect_mode tbl v.P1 v.P2
    out hmode hrg hsd
  rw [hs, hg2] at hsend
  obtain ⟨nr, b2, tail, hread, r1, r2, r3, r4, r5, r6, r7⟩ := pbuf_readFromDevice_ready b1 _ rest hdev1
    (by rw [with_nullifier_length, List.length_append, logger_header_length,
          collect_body_length]; omega) s2
  have hh2 : ∀ m t, logger_header b2 m t = logger_header b0 m t := by
    intro m t'
    rw [r6, s6]
    exact hh m t'
  rw [← hh2] at r1 r2
  obtain ⟨v1, st1, tbl1, p1, p2, p3, p4, p5, p6, pl, p7, p8, p9, p10, p11⟩ :=
    get_records_packet_store { st with base := b2 } tbl v record_size span (t + 1) T beg n data
      tail r1 r4 hw hT hT2 hbeg hn1 hn hdata hN
  have hq := get_records_queue_single 0x20 record_size span (t + 1) { st with base := b2 } tbl v
    _ r2 v1 st1 tbl1 p1
  unfold get_records_loop
  simp only [hs, hread, r2, List.length_singleton, hg1, hq]
  rw [if_neg (by rw [p2]; simp), if_neg (by rw [p5]; simp)]
  refine ⟨v1, st1.pop_front, tbl1, rfl, p2, p3, p4, ?_, pl, p8, p9, p10, p11, ?_⟩
  rotate_left
  · show sending b0 st1.base _
    rw [p6]
    exact r7 _ _ hsend
  apply collecting_pop_front
  refine ⟨?_, ?_, ?_, ?_, ?_⟩
  · rw [p6]; exact r4
  · rw [p6]; show b2.TranNbr__ = t + 1; rw [r5, s3, hg2]
  · rw [p6]; exact r3
  · intro m t'; rw [p6]; exact hh2 m t'
  · intro c; rw [p7]; exact hw c

theorem get_records_loop_inquire (fuel : Nat) (b0 : PakBusMsg) (st : BMP5Obj) (tbl : Table)
    (v : get_records_vars) (record_size span : Int) (t : byte) (T beg n : Nat)
    (data : List byte) (rest : List (List byte)) (out : List (List byte))
    (hc : collecting b0 st t
      (logger_response b0 (t + 1) (collect_body 0 T beg n data) :: rest))
    (hsd : sending b0 st.base out)
    (hmode : v.collect_mode = 5 ∨ v.collect_mode = 6)
    (hT : tbl.TblNum = (T : Int)) (hT2 : T < 65536) (hbeg : beg < 4294967296)
    (hn : n < 32768) (hdata : data.length ≤ 1024) :
    ∃ v' st',
      get_records_loop 0 record_size span (fuel + 1) st tbl v = (Outcome.ret v', st', tbl) ∧
      v'.stat = SUCCESS ∧ v'.beg_rec_nbr = beg ∧
      collecting b0 st' (t + 1) rest ∧ st'.tblDataWriter__ = st.tblDataWriter__ ∧
      st'.tableList__ = st.tableList__ ∧
      sending b0 st'.base
        (out ++ [collect_command b0 (toUInt32 tbl.TblNum) tbl.TblSignature
          { TranNbr := t + 1, mode := v.collect_mode, P1 := v.P1, P2 := v.P2 }]) := by
  obtain ⟨hr, ht, hdev, hh, hw⟩ := hc
  have hrg : link_ready (GenTranNbr st.base).2 := hr
  have hg1 : (GenTranNbr st.base).1 = t + 1 := by rw [← ht]; rfl
  have hg2 : (GenTranNbr st.base).2.TranNbr__ = t + 1 := by rw [← ht]; rfl
  obtain ⟨s1, s2, s3, s4, s5, s6⟩ :=
    sendCollectionCmd_ok (GenTranNbr st.base).2 v.collect_mode tbl v.P1 v.P2 hmode hrg
  rcases hs : sendCollectionCmd (GenTranNbr st.base).2 v.collect_mode tbl v.P1 v.P2
    with ⟨o, b1⟩
  rw [hs] at s1 s2 s3 s4 s5 s6
  simp only at s1 s2 s3 s4 s5 s6
  subst s1
  have hdev1 : b1.pbuf__.devIn
      = (quoted_frame (with_nullifier (logger_header b0 0x89 (t + 1)
          ++ collect_body 0 T beg n data))).1 :: rest := by
    rw [s4]; exact hdev
  have hsend := sendCollectionCmd_sending b0 (GenTranNbr st.base).2 v.collect_mode tbl v.P1 v.P2
    out hmode hrg hsd
  rw [hs, hg2] at hsend
  obtain ⟨nr, b2, tail, hread, r1, r2, r3, r4, r5, r6, r7⟩ := pbuf_readFromDevice_ready b1 _ rest hdev1
    (by rw [with_nullifier_length, List.length_append, logger_header_length,
          collect_body_length]; omega) s2
  have hh2 : ∀ m t, logger_header b2 m t = logger_header b0 m t := by
    intro m t'
    rw [r6, s6]
    exact hh m t'
  rw [← hh2] at r1 r2
  obtain ⟨v1, p1, p2, p3, p4⟩ :=
    get_records_packet_inquire { st with base := b2 } tbl v record_size span (t + 1) T beg n data
      tail r1 r4 hT hT2 hbeg hn hdata
  have hq := get_records_queue_single 0 record_size span (t + 1) { st with base := b2 } tbl v
    _ r2 v1 _ tbl p1
  unfold get_records_loop
  simp only [hs, hread, r2, List.length_singleton, hg1, hq]
  rw [if_neg (by rw [p2]; simp), if_neg (by rw [p4]; simp)]
  refine ⟨v1, _, rfl, p2, p3, ?_, rfl, rfl, r7 _ _ hsend⟩
  refine ⟨r4, ?_, r3, hh2, hw⟩
  show b2.TranNbr__ = t + 1
  rw [r5, s3, hg2]

theorem get_records_range (fuel : Nat) (b0 : PakBusMsg) (st : BMP5Obj) (tbl : Table)
    (record_size span : Int) (P1 P2 : Nat) (t : byte) (T beg n : Nat)
    (data : List byte) (rest : List (List byte)) (out : List (List byte))
    (hc : collecting b0 st t
      (logger_response b0 (t + 1) (collect_body 0 T beg n data) :: rest))
    (hsd : sending b0 st.base out)
    (hT : tbl.TblNum = (T : Int)) (hT2 : T < 65536) (hbeg : beg + n < 2147483648)
    (hn1 : 1 ≤ n) (hn : n < 32768) (hdata : data.length ≤ 1024)
    (hN : tbl.NextRecord < 4294967296) :
    ∃ st' tbl',
      get_records (fuel + 1) st tbl (GET_DATA_RANGE ||| STORE_DATA) record_size P1 P2 span
        = (Outcome.ret { count := (n : Int) }, st', tbl') ∧
      collecting b0 st' (t + 1) rest ∧ st'.tableList__ = st.tableList__ ∧
      record_indices st'.tblDataWriter__.calls
        = record_indices st.tblDataWriter__.calls
            ++ (List.range n).map (fun (k : Nat) => ((beg + k : Nat) : Int)) ∧
      tbl'.NextRecord = (tbl.NextRecord + n) % 4294967296 ∧ tbl'.TblNum = tbl.TblNum ∧
      tbl'.TblSignature = tbl.TblSignature ∧
      sending b0 st'.base
        (out ++ [collect_command b0 (toUInt32 tbl.TblNum) tbl.TblSignature
          { TranNbr := t + 1, mode := 6, P1 := P1, P2 := P2 }]) := by
  have m1 : (GET_DATA_RANGE ||| STORE_DATA) &&& 0x0f = 6 := by decide
  have m2 : (GET_DATA_RANGE ||| STORE_DATA) &&& STORE_DATA = 0x20 := by decide
  obtain ⟨v', st', tbl', h1, h2, h3, h4, h5, hl, h6, h7, h8, h9, h10⟩ :=
    get_records_loop_store fuel b0 st tbl { collect_mode := 6, P1 := P1, P2 := P2 } record_size
      span t T beg n data rest out hc hsd (Or.inr rfl) hT hT2 hbeg hn1 hn hdata hN
  refine ⟨st', tbl', ?_, h5, hl, h6, h7, h8, h9, h10⟩
  unfold get_records
  simp only [m1, m2, h1]
  rw [if_neg (by decide), if_neg (by rw [h2]; simp), if_pos (by decide), if_neg (by rw [h3]; simp),
    h4]

theorem get_records_last (fuel : Nat) (b0 : PakBusMsg) (st : BMP5Obj) (tbl : Table)
    (record_size span : Int) (P1 P2 : Nat) (t : byte) (T beg n : Nat)
    (data : List byte) (rest : List (List byte)) (out : List (List byte))
    (hc : collecting b0 st t
      (logger_response b0 (t + 1) (collect_body 0 T beg n data) :: rest))
    (hsd : sending b0 st.base out)
    (hT : tbl.TblNum = (T : Int)) (hT2 : T < 65536) (hbeg : beg < 2147483648)
    (hn : n < 32768) (hdata : data.length ≤ 1024) :
    ∃ st' time,
      get_records (fuel + 1) st tbl (GET_LAST_REC ||| INQ_REC_INFO) record_size P1 P2 span
        = (Outcome.ret { count := (beg : Int), recordTime := time }, st', tbl) ∧
      collecting b0 st' (t + 1) rest ∧ st'.tblDataWriter__ = st.tblDataWriter__ ∧
      st'.tableList__ = st.tableList__ ∧
      sending b0 st'.base
        (out ++ [collect_command b0 (toUInt32 tbl.TblNum) tbl.TblSignature
          { TranNbr := t + 1, mode := 5, P1 := P1, P2 := P2 }]) := by
  have m1 : (GET_LAST_REC ||| INQ_REC_INFO) &&& 0x0f = 5 := by decide
  have m2 : (GET_LAST_REC ||| INQ_REC_INFO) &&& STORE_DATA = 0 := by decide
  obtain ⟨v', st', h1, h2, h3, h4, h5, h6, h7⟩ :=
    get_records_loop_inquire fuel b0 st tbl { collect_mode := 5, P1 := P1, P2 := P2 } record_size
      span t T beg n data rest out hc hsd (Or.inl rfl) hT hT2 (by omega) hn hdata
  refine ⟨st', v'.beg_rec_time, ?_, h4, h5, h6, h7⟩
  unfold get_records
  simp only [m1, m2, h1]
  rw [if_neg (by decide), if_neg (by rw [h2]; simp), if_neg (by decide), h3,
    toInt32_small beg hbeg]

/-! ### The main collection loop against the cooperative logger -/

theorem range_map_add (beg n : Nat) :
    (List.range n).map (fun (k : Nat) => ((beg + k : Nat) : Int))
      = (List.range' beg n).map (fun (k : Nat) => (k : Int)) := by
  rw [List.range_eq_range', List.range'_eq_map_range, List.range'_eq_map_range]
  simp [Function.comp]

theorem CollectData_loop_cooperative (b0 : PakBusMsg) (T sig last recs_per_request : Nat)
    (data : Nat → List byte) (record_size span : Int) (fuel0 : Nat) (hf0 : 1 ≤ fuel0)
    (hlast : last + 1 < 2147483648) (hrpr1 : 1 ≤ recs_per_request)
    (hrpr : recs_per_request < 32768) (hT2 : T < 65536) (hdata : ∀ r, (data r).length ≤ 1024) :
    ∀ (k fuel : Nat) (st : BMP5Obj) (tbl : Table) (t : byte) (c : CollectData_vars)
      (out : List (List byte)),
      k < fuel → last + 1 - tbl.NextRecord ≤ k → tbl.NextRecord ≤ last + 1 →
      tbl.TblNum = (T : Int) → tbl.TblSignature = sig →
      collecting b0 st t
        (cooperative_responses b0 T last recs_per_request data k (t + 1) tbl.NextRecord) →
      sending b0 st.base out →
      0 ≤ c.nrecs_read →
      ∃ c' st' tbl',
        CollectData_loop fuel0 record_size recs_per_request (last : Int) span fuel st tbl c
          = (Outcome.ret c', st', tbl') ∧
        0 ≤ c'.nrecs_read ∧ tbl'.NextRecord = last + 1 ∧ tbl'.TblNum = tbl.TblNum ∧
        st'.tableList__ = st.tableList__ ∧
        (∀ w, st'.tblDataWriter__.raises w = false) ∧
        record_indices st'.tblDataWriter__.calls
          = record_indices st.tblDataWriter__.calls
              ++ (List.range' tbl.NextRecord (last + 1 - tbl.NextRecord)).map
                   (fun (k : Nat) => (k : Int)) ∧
        sending b0 st'.base
          (out ++ (range_requests last recs_per_request k (t + 1) tbl.NextRecord).map
            (collect_command b0 T sig)) := by
  obtain ⟨f0, rfl⟩ : ∃ f0, fuel0 = f0 + 1 := ⟨fuel0 - 1, by omega⟩
  intro k
  induction k with
  | zero =>
    intro fuel st tbl t c out hf hk hle hT hsig hc hsd hn
    obtain ⟨f, rfl⟩ : ∃ f, fuel = f + 1 := ⟨fuel - 1, by omega⟩
    have hNR : tbl.NextRecord = last + 1 := by omega
    unfold CollectData_loop
    rw [toUInt32_small last (by omega), if_neg (by omega)]
    refine ⟨c, st, tbl, rfl, hn, hNR, rfl, rfl, hc.2.2.2.2, ?_, ?_⟩
    · rw [hNR]
      simp
    · simpa [range_requests] using hsd
  | succ k ih =>
    intro fuel st tbl t c out hf hk hle hT hsig hc hsd hn
    obtain ⟨f, rfl⟩ : ∃ f, fuel = f + 1 := ⟨fuel - 1, by omega⟩
    by_cases hcur : tbl.NextRecord ≤ last
    · have hnum1 : 1 ≤ min (tbl.NextRecord + recs_per_request - 1) last - tbl.NextRecord + 1 := by
        omega
      have hnum2 : tbl.NextRecord
          + (min (tbl.NextRecord + recs_per_request - 1) last - tbl.NextRecord + 1) ≤ last + 1 := by
        omega
      have hnum3 : min (tbl.NextRecord + recs_per_request - 1) last - tbl.NextRecord + 1
          ≤ recs_per_request := by
        omega
      generalize hnum : min (tbl.NextRecord + recs_per_request - 1) last - tbl.NextRecord + 1
        = num at hnum1 hnum2 hnum3
      have hscript : cooperative_responses b0 T last recs_per_request data (k + 1) (t + 1)
          tbl.NextRecord
          = logger_response b0 (t + 1) (collect_body 0x00 T tbl.NextRecord num
              (data tbl.NextRecord))
            :: cooperative_responses b0 T last recs_per_request data k (t + 1 + 1)
                 (tbl.NextRecord + num) := by
        simp only [cooperative_responses, if_pos hcur, hnum]
      have hreq : range_requests last recs_per_request (k + 1) (t + 1) tbl.NextRecord
          = { TranNbr := t + 1, mode := 6, P1 := tbl.NextRecord,
              P2 := tbl.NextRecord + recs_per_request }
            :: range_requests last recs_per_request k (t + 1 + 1) (tbl.NextRecord + num) := by
        simp only [range_requests, if_pos hcur, hnum]
      rw [hscript] at hc
      obtain ⟨st1, tbl1, g1, g2, gl, g3, g4, g5, g6, g7⟩ :=
        get_records_range f0 b0 st tbl record_size span tbl.NextRecord
          ((tbl.NextRecord + recs_per_request) % 4294967296) t T tbl.NextRecord num
          (data tbl.NextRecord) _ out hc hsd hT hT2 (by omega) hnum1 (by omega) (hdata _)
          (by omega)
      have hNR1 : tbl1.NextRecord = tbl.NextRecord + num := by rw [g4]; omega
      rw [← hNR1] at g2
      rw [hT, toUInt32_small T (by omega), hsig,
        Nat.mod_eq_of_lt (show tbl.NextRecord + recs_per_request < 4294967296 by omega)] at g7
      obtain ⟨c', st', tbl', e1, e2, e3, e4, el, e5, e6, e7⟩ :=
        ih f st1 tbl1 (t + 1)
          { c with nrecs_read := (num : Int),
                   num_collected_recs := (c.num_collected_recs + (num : Int).toNat) % 4294967296 }
          _ (by omega) (by omega) (by omega) (by rw [g5]; exact hT) (by rw [g6]; exact hsig) g2 g7
          (by show (0 : Int) ≤ (num : Int); omega)
      unfold CollectData_loop
      rw [toUInt32_small last (by omega), if_pos hcur]
      simp only [g1]
      rw [if_neg (by omega), if_neg (by omega)]
      refine ⟨c', st', tbl', e1, e2, e3, by rw [e4, g5], by rw [el, gl], e5, ?_, ?_⟩
      · rw [e6, g3, range_map_add, hNR1, List.append_assoc, ← List.map_append]
        congr 2
        rw [List.range'_append_1]
        congr 1
        omega
      · rw [hreq, List.map_cons, ← hNR1]
        rw [List.append_assoc] at e7
        exact e7
    · have hNR : tbl.NextRecord = last + 1 := by omega
      unfold CollectData_loop
      rw [toUInt32_small last (by omega), if_neg (by omega)]
      refine ⟨c, st, tbl, rfl, hn, hNR, rfl, rfl, hc.2.2.2.2, ?_, ?_⟩
      · rw [hNR]
        simp
      · simpa [range_requests, hcur] using hsd

/-! ### The collection against the cooperative logger -/

theorem CollectData_recs_per_request_bounds (record_size : Int) :
    1 ≤ CollectData_recs_per_request record_size ∧
    CollectData_recs_per_request record_size ≤ 512 := by
  unfold CollectData_recs_per_request
  split_ifs with h
  · have h1 : (1 : Int) ≤ 512 / record_size := Int.le_ediv_of_mul_le h.1 (by omega)
    have h2 : (512 : Int) / record_size ≤ 512 := Int.ediv_le_self _ (by omega)
    generalize (512 : Int) / record_size = x at h1 h2
    unfold toUInt32
    omega
  · omega

theorem writer_call_ok (st : BMP5Obj) (c : WriterCall)
    (hw : ∀ w, st.tblDataWriter__.raises w = false) :
    st.writer_call c = (Outcome.ret (),
      { st with tblDataWriter__ :=
          { st.tblDataWriter__ with calls := st.tblDataWriter__.calls ++ [c] } }) := by
  simp only [BMP5Obj.writer_call, AsciiWriter.call, hw, Bool.false_eq_true, if_false]

theorem CollectData_finish_ok (st : BMP5Obj) (tbl : Table) (table_opt : TableOpt)
    (nrecs_read : Int) (hn : 0 ≤ nrecs_read) (hw : ∀ w, st.tblDataWriter__.raises w = false) :
    ∃ st' tbl', CollectData_finish st tbl table_opt nrecs_read = (Outcome.ret SUCCESS, st', tbl') ∧
      tbl'.NextRecord = tbl.NextRecord ∧ st'.tableList__ = st.tableList__ ∧
      record_indices st'.tblDataWriter__.calls = record_indices st.tblDataWriter__.calls ∧
      st'.base = st.base := by
  unfold CollectData_finish
  rw [if_pos hn]
  split_ifs with h
  · simp only [BMP5Obj.call_flushTableDataCache, flushTableDataCache, AsciiWriter.call, hw,
      Bool.false_eq_true, if_false]
    refine ⟨_, _, rfl, rfl, rfl, ?_, rfl⟩
    simp [record_indices_append, record_indices]
  · exact ⟨_, _, rfl, rfl, rfl, rfl, rfl⟩

theorem CollectData_table_cooperative (fuel : Nat) (st : BMP5Obj) (tbl : Table)
    (table_opt : TableOpt) (last : Nat) (data0 : List byte) (data : Nat → List byte)
    (hsize : tbl.TblSize > 1) (hTs : tbl.TblSize < 2147483648)
    (hnum : 0 ≤ tbl.TblNum) (hnum2 : tbl.TblNum < 65536)
    (hle : tbl.NextRecord ≤ last)
    (hpend : last - tbl.NextRecord < tbl.TblSize) (hlast : last + 1 < 2147483648)
    (hready : link_ready st.base) (hroom : 60 ≤ st.base.pbuf__.obufsize__)
    (hw : ∀ c, st.tblDataWriter__.raises c = false)
    (hdev : st.base.pbuf__.devIn = cooperative_logger st.base tbl last data0 data)
    (hd0 : data0.length ≤ 1024) (hdata : ∀ r, (data r).length ≤ 1024)
    (hfuel : last + 1 - tbl.NextRecord < fuel) :
    ∃ st' tbl', CollectData_table fuel st tbl table_opt = (Outcome.ret SUCCESS, st', tbl') ∧
      tbl'.NextRecord = last + 1 ∧ st'.tableList__ = st.tableList__ ∧
      record_indices st'.tblDataWriter__.calls
        = record_indices st.tblDataWriter__.calls
            ++ (List.range' tbl.NextRecord (last + 1 - tbl.NextRecord)).map
                 (fun (k : Nat) => (k : Int)) ∧
      st'.base.pbuf__.devOut
        = st.base.pbuf__.devOut ++ (cooperative_requests st.base tbl last).map
            (collect_command st.base tbl.TblNum.toNat tbl.TblSignature) ∧
      st'.base.pbuf__.obuf_overrun = st.base.pbuf__.obuf_overrun := by
  obtain ⟨f, rfl⟩ : ∃ f, fuel = f + 1 := ⟨fuel - 1, by omega⟩
  obtain ⟨hr1, hr2⟩ := CollectData_recs_per_request_bounds (getRecordSize tbl)
  have hT : tbl.TblNum = ((tbl.TblNum.toNat : Nat) : Int) := by omega
  have hT2 : tbl.TblNum.toNat < 65536 := by omega
  have hc0 : collecting st.base st st.base.TranNbr__
      (logger_response st.base (st.base.TranNbr__ + 1)
          (collect_body 0x00 tbl.TblNum.toNat last 1 data0)
        :: cooperative_responses st.base tbl.TblNum.toNat last
             (CollectData_recs_per_request (getRecordSize tbl)) data
             (last + 1 - tbl.NextRecord) (st.base.TranNbr__ + 1 + 1) tbl.NextRecord) := by
    refine ⟨hready, rfl, ?_, fun _ _ => rfl, hw⟩
    rw [hdev, cooperative_logger]
    have : st.base.TranNbr__ + 2 = st.base.TranNbr__ + 1 + 1 := by
      rw [add_assoc]; rfl
    rw [this]
  have hs0 : sending st.base st.base st.base.pbuf__.devOut :=
    ⟨fun _ => rfl, rfl, hroom, rfl, rfl⟩
  obtain ⟨st1, time, q1, q2, q3, q4, q5⟩ :=
    get_records_last f st.base st tbl (getRecordSize tbl) table_opt.TableSpan 1 0
      st.base.TranNbr__ tbl.TblNum.toNat last 1 data0 _ _ hc0 hs0 hT hT2 (by omega) (by omega) hd0
  have hTn : toUInt32 tbl.TblNum = tbl.TblNum.toNat := by
    unfold toUInt32
    omega
  rw [hTn] at q5
  have hatt : CollectData_attempts (f + 1) (getRecordSize tbl) table_opt.TableSpan 0 (f + 1) st
      tbl {} = (Outcome.ret { count := (last : Int), recordTime := time }, st1, tbl) := by
    unfold CollectData_attempts
    rw [if_pos (by decide)]
    simp only [q1]
    rw [if_pos (by omega)]
  have hw1 : ∀ c, st1.tblDataWriter__.raises c = false := by rw [q3]; exact hw
  obtain ⟨c', st2, tbl2, e1, e2, e3, _, e5, e6, e7, e8⟩ :=
    CollectData_loop_cooperative st.base tbl.TblNum.toNat tbl.TblSignature last
      (CollectData_recs_per_request (getRecordSize tbl)) data (getRecordSize tbl)
      table_opt.TableSpan (f + 1) (by omega) hlast hr1 (by omega) hT2 hdata
      (last + 1 - tbl.NextRecord) (f + 1)
      { st1 with tblDataWriter__ :=
          { st1.tblDataWriter__ with
            calls := st1.tblDataWriter__.calls ++ [WriterCall.initWrite tbl.TblName] } }
      tbl (st.base.TranNbr__ + 1) {} _ hfuel (le_refl _) (by omega) hT rfl
      ⟨q2.1, q2.2.1, q2.2.2.1, q2.2.2.2.1, hw1⟩ q5 (le_refl _)
  obtain ⟨st3, tbl3, k1, k2, k3, k4, k5⟩ := CollectData_finish_ok
    { st2 with tblDataWriter__ :=
        { st2.tblDataWriter__ with
          calls := st2.tblDataWriter__.calls ++ [WriterCall.finishWrite tbl2.TblName] } }
    tbl2 table_opt c'.nrecs_read e2 e6
  have e9 : sending st.base st3.base
      (st.base.pbuf__.devOut ++ (cooperative_requests st.base tbl last).map
        (collect_command st.base tbl.TblNum.toNat tbl.TblSignature)) := by
    rw [k5]
    show sending st.base st2.base _
    have hreq : cooperative_requests st.base tbl last
        = { TranNbr := st.base.TranNbr__ + 1, mode := 5, P1 := 1, P2 := 0 }
          :: range_requests last (CollectData_recs_per_request (getRecordSize tbl))
               (last + 1 - tbl.NextRecord) (st.base.TranNbr__ + 1 + 1) tbl.NextRecord := by
      have : st.base.TranNbr__ + 2 = st.base.TranNbr__ + 1 + 1 := by
        rw [add_assoc]; rfl
      rw [cooperative_requests, this]
    rw [hreq, List.map_cons]
    rw [List.append_assoc] at e8
    exact e8
  refine ⟨st3, tbl3, ?_, by rw [k2, e3], by rw [k3]; show st2.tableList__ = _; rw [e5]; exact q4,
    ?_, e9.2.2.2.2, e9.2.2.2.1⟩
  · unfold CollectData_table
    rw [if_pos hsize]
    simp only [hatt]
    rw [if_neg (by omega)]
    unfold CollectData_known
    have hp : toInt32 (toUInt32 ((last : Int) - (tbl.NextRecord : Int)))
        = (last : Int) - (tbl.NextRecord : Int) := by
      have : (last : Int) - (tbl.NextRecord : Int) = ((last - tbl.NextRecord : Nat) : Int) := by
        omega
      rw [this, toUInt32_small _ (by omega), toInt32_small _ (by omega)]
    simp only [hp]
    rw [if_neg (by omega), toInt32_small tbl.TblSize hTs, if_neg (by omega)]
    simp only [writer_call_ok st1 _ hw1, e1, writer_call_ok st2 _ e6, k1]
  · rw [k4]
    simp only [record_indices_append]
    rw [e7]
    simp only [record_indices_append, q3]
    simp [record_indices]

/-! ## Collection against a cooperative logger -/

theorem cooperative_responses_answers (b : PakBusMsg) (TblNum last rpr : Nat)
    (data0 : List byte) (data : Nat → List byte) :
    ∀ (n : Nat) (t : byte) (cursor : Nat),
      cooperative_responses b TblNum last rpr data n t cursor
        = (range_requests last rpr n t cursor).map
            (cooperative_answer b TblNum last data0 data) := by
  intro n
  induction n with
  | zero => intro t cursor; rfl
  | succ n ih =>
    intro t cursor
    by_cases h : cursor ≤ last
    · simp only [cooperative_responses, range_requests, if_pos h, List.map_cons, ih]
      congr 1
    · simp only [cooperative_responses, range_requests, if_neg h, List.map_nil]

theorem cooperative_logger_answers (b : PakBusMsg) (tbl : Table) (last : Nat)
    (data0 : List byte) (data : Nat → List byte) :
    cooperative_logger b tbl last data0 data
      = (cooperative_requests b tbl last).map
          (cooperative_answer b tbl.TblNum.toNat last data0 data) := by
  simp only [cooperative_logger, cooperative_requests, List.map_cons,
    cooperative_responses_answers b tbl.TblNum.toNat last _ data0 data]
  congr 1

/-- C7: against a cooperative logger (the query for the last record is
answered with record `last`, and every range request `P1 .. P2` with one
non-fragmented response that carries the records `P1 .. min (P2 - 1, last)`),
for a table with `TblSize > 1` and an initial cursor with
`NextRecord <= last` (in particular `1 <= NextRecord <= last`) and
`last - NextRecord < TblSize`, with a link that is ready, an output buffer with
room for a quoted collect command, a device that accepts every write and a
writer that does not raise, `CollectData` (with enough fuel for its loops)
returns `SUCCESS`, hands to the writer exactly the record indices `NextRecord,
NextRecord + 1, ..., last`, each once and in increasing order, and leaves the
cursor of the table at `NextRecord = last + 1`.  The logger is cooperative with
respect to what is sent: the packets handed to the device during the call are
the collect commands `cooperative_requests` (the query for the last record,
then the range requests) in this order, and the packets that the device
delivers are, one for one and in the same order, the answers
`cooperative_answer` of the logger to these commands.  No byte is written
behind the output buffer. -/
theorem CollectData_cooperative (fuel : Nat) (st : BMP5Obj) (table_opt : TableOpt) (idx : Nat)
    (tbl : Table) (last : Nat) (data0 : List byte) (data : Nat → List byte)
    (hfind : getTableRef st.tableList__ table_opt.TableName = some idx)
    (hget : st.tableList__.get? idx = some tbl)
    (hsize : tbl.TblSize > 1) (hTs : tbl.TblSize < 2147483648)
    (hnum : 0 ≤ tbl.TblNum ∧ tbl.TblNum < 65536)
    (hle : tbl.NextRecord ≤ last)
    (hpend : last - tbl.NextRecord < tbl.TblSize) (hlast : last + 1 < 2147483648)
    (hready : link_ready st.base) (hroom : 60 ≤ st.base.pbuf__.obufsize__)
    (hw : ∀ c, st.tblDataWriter__.raises c = false)
    (hdev : st.base.pbuf__.devIn = cooperative_logger st.base tbl last data0 data)
    (hd0 : data0.length ≤ 1024) (hdata : ∀ r, (data r).length ≤ 1024)
    (hfuel : last + 1 - tbl.NextRecord < fuel) :
    (CollectData fuel st table_opt).1 = Outcome.ret SUCCESS ∧
    record_indices (CollectData fuel st table_opt).2.tblDataWriter__.calls
      = record_indices st.tblDataWriter__.calls
          ++ (List.range' tbl.NextRecord (last + 1 - tbl.NextRecord)).map
               (fun (k : Nat) => (k : Int)) ∧
    ((CollectData fuel st table_opt).2.tableList__.get? idx).map (fun t => t.NextRecord)
      = some (last + 1) ∧
    (CollectData fuel st table_opt).2.base.pbuf__.devOut
      = st.base.pbuf__.devOut ++ (cooperative_requests st.base tbl last).map
          (collect_command st.base tbl.TblNum.toNat tbl.TblSignature) ∧
    st.base.pbuf__.devIn
      = (cooperative_requests st.base tbl last).map
          (cooperative_answer st.base tbl.TblNum.toNat last data0 data) ∧
    (CollectData fuel st table_opt).2.base.pbuf__.obuf_overrun
      = st.base.pbuf__.obuf_overrun := by
  obtain ⟨st', tbl', h1, h2, h3, h4, h5, h6⟩ :=
    CollectData_table_cooperative fuel st tbl table_opt last data0 data hsize hTs hnum.1 hnum.2
      hle hpend hlast hready hroom hw hdev hd0 hdata hfuel
  have hidx : idx < st.tableList__.length := by
    rw [List.get?_eq_some] at hget
    exact hget.1
  unfold CollectData
  simp only [hfind, hget, h1]
  refine ⟨trivial, h4, ?_, h5, ?_, h6⟩
  · rw [h3, List.get?_eq_getElem?, List.getElem?_set_self (by exact hidx)]
    simp [h2]
  · rw [hdev, cooperative_logger_answers]

set_option maxRecDepth 1000000 in
/-- Witness of C7: the table `T` with ten records of room and the cursor at 2,
against the cooperative logger that holds the records up to 5: the hypotheses
hold, the writer receives the records 2, 3, 4, 5, and two commands are sent:
the query for the last record and the range request `P1 = 2`, `P2 = 130`. -/
theorem CollectData_cooperative_witness :
    link_ready (sample_cooperative (sample_table [sample_field 6 1] 10 2 ⟨60, 0⟩) 5
      [sample_table [sample_field 6 1] 10 2 ⟨60, 0⟩]).base ∧
    cooperative_requests (sample_cooperative (sample_table [sample_field 6 1] 10 2 ⟨60, 0⟩) 5
      [sample_table [sample_field 6 1] 10 2 ⟨60, 0⟩]).base
        (sample_table [sample_field 6 1] 10 2 ⟨60, 0⟩) 5
      = [{ TranNbr := 1, mode := 5, P1 := 1, P2 := 0 },
         { TranNbr := 2, mode := 6, P1 := 2, P2 := 130 }] ∧
    (CollectData 10 (sample_cooperative (sample_table [sample_field 6 1] 10 2 ⟨60, 0⟩) 5
      [sample_table [sample_field 6 1] 10 2 ⟨60, 0⟩]) { TableName := "T" }).1
      = Outcome.ret SUCCESS ∧
    record_indices (CollectData 10
      (sample_cooperative (sample_table [sample_field 6 1] 10 2 ⟨60, 0⟩) 5
        [sample_table [sample_field 6 1] 10 2 ⟨60, 0⟩]) { TableName := "T" }).2.tblDataWriter__.calls
      = [2, 3, 4, 5] ∧
    ((CollectData 10 (sample_cooperative (sample_table [sample_field 6 1] 10 2 ⟨60, 0⟩) 5
      [sample_table [sample_field 6 1] 10 2 ⟨60, 0⟩]) { TableName := "T" }).2.tableList__.get? 0).map
        (fun t => t.NextRecord) = some 6 ∧
    (CollectData 10 (sample_cooperative (sample_table [sample_field 6 1] 10 2 ⟨60, 0⟩) 5
      [sample_table [sample_field 6 1] 10 2 ⟨60, 0⟩]) { TableName := "T" }).2.base.pbuf__.devOut
      = (cooperative_requests (sample_cooperative (sample_table [sample_field 6 1] 10 2 ⟨60, 0⟩) 5
          [sample_table [sample_field 6 1] 10 2 ⟨60, 0⟩]).base
            (sample_table [sample_field 6 1] 10 2 ⟨60, 0⟩) 5).map
          (collect_command (sample_cooperative (sample_table [sample_field 6 1] 10 2 ⟨60, 0⟩) 5
            [sample_table [sample_field 6 1] 10 2 ⟨60, 0⟩]).base 1
            (sample_table [sample_field 6 1] 10 2 ⟨60, 0⟩).TblSignature) :=
  (fun h => ⟨by decide, by decide, h.1, h.2.1, h.2.2.1, h.2.2.2.1⟩)
   (CollectData_cooperative 10
     (sample_cooperative (sample_table [sample_field 6 1] 10 2 ⟨60, 0⟩) 5
       [sample_table [sample_field 6 1] 10 2 ⟨60, 0⟩]) { TableName := "T" } 0
     (sample_table [sample_field 6 1] 10 2 ⟨60, 0⟩) 5 (sample_record 1000 7) (fun _ => sample_data)
     (by decide) rfl (by decide) (by decide) (by decide) (by decide) (by decide) (by decide)
     (by decide) (by decide) (fun _ => rfl) rfl (by decide)
     (fun _ => (by decide : sample_data.length ≤ 1024)) (by decide))

set_option maxRecDepth 1000000 in
/-- C21 (the code at the failing input): the logger holds the records up to 3
of table `T` and the cursor is at 1.  When the logger answers the query for
the last record and every request after it, `CollectData` returns and the
writer has received `initWrite` once and `finishWrite` once.  When the logger
answers the query for the last record and then falls silent, the first request
of the main loop ends in `CommException`, which leaves `CollectData`: the writer
has received `initWrite` for `T` and no `finishWrite`. -/
theorem CollectData_no_finishWrite :
    (CollectData 20
      (sample_bmp5 [collect_response 1 3 1 (sample_record 1000 7),
                    collect_response 2 1 3 (sample_record 880 5 ++ sample_record 940 6
                      ++ sample_record 1000 7)]
        [sample_table [sample_field 6 1] 10 1 ⟨60, 0⟩])
      { TableName := "T" }).1 = Outcome.ret SUCCESS ∧
    ((CollectData 20
      (sample_bmp5 [collect_response 1 3 1 (sample_record 1000 7),
                    collect_response 2 1 3 (sample_record 880 5 ++ sample_record 940 6
                      ++ sample_record 1000 7)]
        [sample_table [sample_field 6 1] 10 1 ⟨60, 0⟩])
      { TableName := "T" }).2.tblDataWriter__.calls.filter
        (fun c => c = WriterCall.initWrite "T" ∨ c = WriterCall.finishWrite "T"))
      = [WriterCall.initWrite "T", WriterCall.finishWrite "T"] ∧
    (CollectData 20
      (sample_bmp5 [collect_response 1 3 1 (sample_record 1000 7)]
        [sample_table [sample_field 6 1] 10 1 ⟨60, 0⟩])
      { TableName := "T" }).1 = Outcome.throw Exception.CommException ∧
    (CollectData 20
      (sample_bmp5 [collect_response 1 3 1 (sample_record 1000 7)]
        [sample_table [sample_field 6 1] 10 1 ⟨60, 0⟩])
      { TableName := "T" }).2.tblDataWriter__.calls = [WriterCall.initWrite "T"] := by
  decide

set_option maxRecDepth 1000000 in
/-- A whole run of `get_records` on a record delivered in fragments: table 1
has one field of type 11 and dimension 12 (`record_size = 12`), and the logger
delivers record 42 in two fragments with 8 data bytes at offset 0 and 4 data
bytes at offset 8.  The commands on the wire are the range request, then mode
`0x08` with `P1 = 42` and `P2 = 7`, then mode `0x08` with `P2 = 8 + 3`, repeated
while the logger is silent; the writer is never called and the function ends
in `CommException`. -/
theorem get_records_fragments_run :
    (fun (r : Outcome RecordStat × BMP5Obj × Table) =>
        (r.1, r.2.1.tblDataWriter__.calls,
          r.2.1.base.pbuf__.devOut.map (fun p => (p.drop 13).take 13)))
      (get_records 20
        (sample_bmp5 [fragment_response 1 42 0 1000 (List.replicate 8 0x41),
                      fragment_response 2 42 8 1000 (List.replicate 4 0x41)]
          [sample_table [sample_field 11 12] 10 42 ⟨60, 0⟩])
        (sample_table [sample_field 11 12] 10 42 ⟨60, 0⟩) (GET_DATA_RANGE ||| STORE_DATA) 12
        42 43 3600)
      = (Outcome.throw Exception.CommException, [],
         [[0x06, 0x00, 0x01, 0x00, 0x00, 0x00, 0x00, 0x00, 0x2a, 0x00, 0x00, 0x00, 0x2b],
          [0x08, 0x00, 0x01, 0x00, 0x00, 0x00, 0x00, 0x00, 0x2a, 0x00, 0x00, 0x00, 0x07],
          [0x08, 0x00, 0x01, 0x00, 0x00, 0x00, 0x00, 0x00, 0x2a, 0x00, 0x00, 0x00, 0x0b],
          [0x08, 0x00, 0x01, 0x00, 0x00, 0x00, 0x00, 0x00, 0x2a, 0x00, 0x00, 0x00, 0x0b],
          [0x08, 0x00, 0x01, 0x00, 0x00, 0x00, 0x00, 0x00, 0x2a, 0x00, 0x00, 0x00, 0x0b],
          [0x08, 0x00, 0x01, 0x00, 0x00, 0x00, 0x00, 0x00, 0x2a, 0x00, 0x00, 0x00, 0x0b]]) := by
  decide

/-- The counters of `readFromDevice` follow the number `run` of consecutive
empty read cycles: the runs of the code and of `fourth_empty_read` agree. -/
theorem first_raise_run (cycles : List (List byte)) :
    ∀ (pb : pakbuf) (run i : Nat), pb.devIn = cycles → run ≤ 3 →
      (run = 0 → pb.nbytes_last_read ≠ 0) →
      (1 ≤ run → pb.nbytes_last_read = 0 ∧ pb.successive_bad_read + 1 = run) →
      first_raise cycles.length pb i
        = (fourth_empty_read cycles run i).map (fun k => (k, Exception.CommException)) := by
  induction cycles with
  | nil => intro pb run i _ _ _ _; rfl
  | cons c cs ih =>
    intro pb run i hdev hrun h0 h1
    simp only [List.length_cons, first_raise, fourth_empty_read]
    unfold readFromDevice
    simp only [hdev, List.headD_cons, List.tail_cons, MAX_SUCCESSIVE_BAD_READ]
    by_cases hc : c.length = 0
    · simp only [hc, if_true, true_and]
      by_cases hr : run = 0
      · have := h0 hr
        rw [if_neg this, if_neg (show ¬ (run + 1 = 4) by omega)]
        simp only
        exact ih _ (run + 1) _ rfl (by omega) (by omega) (fun _ => ⟨rfl, by simp only; omega⟩)
      · obtain ⟨hl, hs⟩ := h1 (by omega)
        rw [if_pos hl]
        by_cases h3 : run = 3
        · rw [if_pos (show (pb.successive_bad_read + 1) % 4294967296 = 3 by omega),
            if_pos (show run + 1 = 4 by omega)]
          rfl
        · rw [if_neg (show ¬ ((pb.successive_bad_read + 1) % 4294967296 = 3) by omega),
            if_neg (show ¬ (run + 1 = 4) by omega)]
          simp only
          exact ih _ (run + 1) _ rfl (by omega) (by omega) (fun _ => ⟨rfl, by simp only; omega⟩)
    · rw [if_neg (fun h => hc h.1), if_neg hc]
      simp only
      exact ih _ 0 _ rfl (by omega) (fun _ => hc) (fun h => absurd h (by omega))

/-- C28: over any sequence of read cycles, starting after a read that
returned bytes (the initial state), the first call of `readFromDevice` that
raises is the one for the fourth of four consecutive cycles returning zero
bytes, and it raises `CommException` ("No response from device"); no earlier
call raises, and a cycle that returns at least one byte starts the count
again. -/
theorem readFromDevice_NoResponse (pb : pakbuf) (h : pb.nbytes_last_read ≠ 0) :
    first_raise pb.devIn.length pb 0
      = (fourth_empty_read pb.devIn 0 0).map (fun k => (k, Exception.CommException)) :=
  first_raise_run pb.devIn pb 0 0 rfl (by omega) (fun _ => h) (fun h0 => absurd h0 (by omega))

/-- C28, witness: three empty cycles, one byte, then four empty cycles: the
call for the eighth cycle (position 7) is the first to raise. -/
theorem readFromDevice_NoResponse_witness :
    (pakbuf.init 0 512 [[], [], [], [0x01], [], [], [], [], []] []).nbytes_last_read ≠ 0 ∧
    first_raise 9 (pakbuf.init 0 512 [[], [], [], [0x01], [], [], [], [], []] []) 0
      = some (7, Exception.CommException) :=
  ⟨by decide,
   readFromDevice_NoResponse (pakbuf.init 0 512 [[], [], [], [0x01], [], [], [], [], []] [])
     (by decide)⟩

/-- The arithmetic of the boundary of a file span, in `int` and `uint4`,
when the boundary is below `2^31`. -/
theorem boundary_value (fs t : Nat) (hfs0 : 0 < fs)
    (hfit : fs * (t / fs) + fs < 2147483648) :
    toUInt32 ((fs : Int) * toInt32 (t / toUInt32 (fs : Int)) + (fs : Int))
      = fs * (t / fs) + fs := by
  have hq1 : 1 * (t / fs) ≤ fs * (t / fs) := Nat.mul_le_mul_right _ hfs0
  have h1 : toUInt32 (fs : Int) = fs := by unfold toUInt32; omega
  rw [h1]
  generalize t / fs = q at *
  have h2 : toInt32 q = (q : Int) := by
    unfold toInt32; rw [if_pos (by omega)]; omega
  rw [h2]
  have hpi : (fs : Int) * (q : Int) = ((fs * q : Nat) : Int) := by push_cast; rfl
  rw [hpi]
  generalize fs * q = p at *
  unfold toUInt32
  omega

/-- C29 (amended): when a record whose time has second component `t` opens a
new file span (`t ≥ NewFileTime`, the call not raising), and the boundary
`fileSpan * floor (t / fileSpan) + fileSpan` is below `2^31` (so that it fits
the `int` arithmetic and the `uint4` member), the `NewFileTime` stored is
`fileSpan * ceil ((t + 1) / fileSpan)`; it is greater than `t` and a multiple
of the file span. -/
theorem processRecordBegin_boundary (w : AsciiWriter) (tbl_ref : Table) (recordIdx : Int)
    (recordTime : NSec) (hspan : 0 < w.fileSpan__)
    (hraise : w.raises (WriterCall.processRecordBegin tbl_ref.TblName recordIdx recordTime)
      = false)
    (hnew : recordTime.sec ≥ tbl_ref.NewFileTime)
    (hfit : w.fileSpan__ * ((recordTime.sec : Int) / w.fileSpan__) + w.fileSpan__ < 2147483648) :
    ((w.processRecordBegin tbl_ref recordIdx recordTime).2.2.NewFileTime : Int)
        = w.fileSpan__ * ⌈((recordTime.sec : ℚ) + 1) / (w.fileSpan__ : ℚ)⌉ ∧
      recordTime.sec < (w.processRecordBegin tbl_ref recordIdx recordTime).2.2.NewFileTime ∧
      w.fileSpan__ ∣ ((w.processRecordBegin tbl_ref recordIdx recordTime).2.2.NewFileTime : Int) := by
  obtain ⟨fs, hfs⟩ : ∃ fs : Nat, w.fileSpan__ = (fs : Int) := ⟨w.fileSpan__.toNat, by omega⟩
  rw [hfs] at hspan hfit
  have hfs0 : 0 < fs := by exact_mod_cast hspan
  obtain ⟨t, ht⟩ : ∃ t : Nat, recordTime.sec = t := ⟨_, rfl⟩
  rw [ht] at hfit hnew
  rw [← Int.natCast_div] at hfit
  have hfit2 : fs * (t / fs) + fs < 2147483648 := by exact_mod_cast hfit
  have hlo : fs * (t / fs) ≤ t := Nat.mul_div_le t fs
  have hhi : t < fs * (t / fs) + fs := by
    have := Nat.lt_div_mul_add (a := t) hfs0
    rw [Nat.mul_comm] at this; exact this
  have hval : (w.processRecordBegin tbl_ref recordIdx recordTime).2.2.NewFileTime
      = fs * (t / fs) + fs := by
    unfold AsciiWriter.processRecordBegin AsciiWriter.call
    simp only [hraise, Bool.false_eq_true, if_false, ge_iff_le, ht, hnew, if_true, hfs]
    exact boundary_value fs t hfs0 hfit2
  rw [hval, hfs, ht]
  refine ⟨?_, hhi, ?_⟩
  · have hc : ⌈((t : ℚ) + 1) / ((fs : Int) : ℚ)⌉ = ((t / fs : Nat) : Int) + 1 := by
      rw [Int.ceil_eq_iff]
      have hfsq : (0 : ℚ) < ((fs : Int) : ℚ) := by exact_mod_cast hfs0
      constructor
      · rw [lt_div_iff₀ hfsq]
        have : ((t / fs : Nat) : ℚ) * (fs : ℚ) < (t : ℚ) + 1 := by
          have : (t / fs) * fs < t + 1 := by rw [Nat.mul_comm]; omega
          exact_mod_cast this
        push_cast; simpa using this
      · rw [div_le_iff₀ hfsq]
        have : (t : ℚ) + 1 ≤ (((t / fs : Nat) : ℚ) + 1) * (fs : ℚ) := by
          have : t + 1 ≤ (t / fs + 1) * fs := by rw [Nat.add_mul, Nat.mul_comm]; omega
          exact_mod_cast this
        push_cast; simpa using this
    rw [hc]; push_cast; ring
  · exact ⟨((t / fs : Nat) : Int) + 1, by push_cast; ring⟩

/-- C29, witness: file span 3600 and a record at second 1000 of an empty
history: the boundary stored is 3600. -/
theorem processRecordBegin_boundary_witness :
    (0 : Int) < ({} : AsciiWriter).fileSpan__ ∧
    (((({} : AsciiWriter).processRecordBegin (sample_table [] 10 0 ⟨60, 0⟩) 0
        ⟨1000, 0⟩).2.2.NewFileTime : Nat) : Int)
      = ({} : AsciiWriter).fileSpan__ * ⌈(((1000 : Nat) : ℚ) + 1) / (3600 : ℚ)⌉ :=
  ⟨by decide,
   by simpa using (processRecordBegin_boundary {} (sample_table [] 10 0 ⟨60, 0⟩) 0 ⟨1000, 0⟩
     (by decide) rfl (by decide) (by decide)).1⟩

/-- C29, counterexample: with a file span of one second and a record at the
last second a `uint4` holds, the boundary stored is 0: it is not greater than
`t`, and it is not `file_span * ceil ((t + 1) / file_span) = 4294967296`. -/
theorem processRecordBegin_boundary_wraps :
    (({ fileSpan__ := 1 } : AsciiWriter).processRecordBegin (sample_table [] 10 0 ⟨60, 0⟩) 0
        ⟨4294967295, 0⟩).2.2.NewFileTime = 0 ∧
      ¬ (4294967295 <
          (({ fileSpan__ := 1 } : AsciiWriter).processRecordBegin (sample_table [] 10 0 ⟨60, 0⟩)
            0 ⟨4294967295, 0⟩).2.2.NewFileTime) ∧
      (1 : Int) * ⌈(((4294967295 : Nat) : ℚ) + 1) / (1 : ℚ)⌉ = 4294967296 := by
  refine ⟨by decide, by decide, ?_⟩
  norm_num

/-- The two places at which `processRecordBegin` raises: for a record at second
100 that opens a new span of 60 seconds, a call that raises in the write to the
stream has set `FirstSampleInFile = 100` and `NewFileTime = 120` on the table
before, and a call that raises while the data file is changed has not. -/
theorem processRecordBegin_raise_places :
    (({ fileSpan__ := 60, raises := fun _ => true } : AsciiWriter).processRecordBegin
        (sample_table [] 10 0 ⟨60, 0⟩) 0 ⟨100, 0⟩).1 = true ∧
    (({ fileSpan__ := 60, raises := fun _ => true } : AsciiWriter).processRecordBegin
        (sample_table [] 10 0 ⟨60, 0⟩) 0 ⟨100, 0⟩).2.2.FirstSampleInFile = 100 ∧
    (({ fileSpan__ := 60, raises := fun _ => true } : AsciiWriter).processRecordBegin
        (sample_table [] 10 0 ⟨60, 0⟩) 0 ⟨100, 0⟩).2.2.NewFileTime = 120 ∧
    (({ fileSpan__ := 60, raises := fun _ => true,
        raises_in_file_change := fun _ => true } : AsciiWriter).processRecordBegin
        (sample_table [] 10 0 ⟨60, 0⟩) 0 ⟨100, 0⟩).1 = true ∧
    (({ fileSpan__ := 60, raises := fun _ => true,
        raises_in_file_change := fun _ => true } : AsciiWriter).processRecordBegin
        (sample_table [] 10 0 ⟨60, 0⟩) 0 ⟨100, 0⟩).2.2 = sample_table [] 10 0 ⟨60, 0⟩ ∧
    (sample_table [] 10 0 ⟨60, 0⟩).NewFileTime = 0 := by
  decide

theorem and_0x6000_shr (u : Nat) : (u &&& 0x6000) >>> 13 = (u >>> 13) &&& 3 := by
  apply Nat.eq_of_testBit_eq
  intro i
  have h : (0x6000 : Nat) = 3 <<< 13 := by decide
  rw [Nat.testBit_shiftRight, Nat.testBit_and, Nat.testBit_and, Nat.testBit_shiftRight, h,
    Nat.testBit_shiftLeft]
  simp

/-! ### Rounding to a number of significant bits -/

theorem two_zpow_split (k : Int) :
    (2 : ℚ) ^ k = (2 : ℚ) ^ k.toNat / (2 : ℚ) ^ (-k).toNat := by
  rcases le_total 0 k with h | h
  · have h1 : (-k).toNat = 0 := by omega
    rw [h1, pow_zero, div_one, ← zpow_natCast, Int.toNat_of_nonneg h]
  · have h1 : k.toNat = 0 := by omega
    have h2 : k = -((-k).toNat : Int) := by omega
    rw [h1, pow_zero, one_div, ← zpow_natCast, ← zpow_neg, ← h2]

theorem bit_length_spec : ∀ (fuel n : Nat), 0 < n → n < 2 ^ fuel →
    2 ^ (bit_length fuel n - 1) ≤ n ∧ n < 2 ^ bit_length fuel n ∧ 1 ≤ bit_length fuel n := by
  intro fuel
  induction fuel with
  | zero => intro n h0 h; simp at h; omega
  | succ fuel ih =>
    intro n h0 h
    rw [bit_length, if_neg (by omega)]
    by_cases h1 : n / 2 = 0
    · have hn : n = 1 := by omega
      subst hn
      cases fuel with
      | zero => simp [bit_length]
      | succ f => simp [bit_length]
    · have h2 : n / 2 < 2 ^ fuel := by
        rw [pow_succ] at h
        omega
      obtain ⟨i1, i2, i3⟩ := ih (n / 2) (by omega) h2
      refine ⟨?_, ?_, by omega⟩
      · rw [Nat.add_sub_cancel]
        have : bit_length fuel (n / 2) = (bit_length fuel (n / 2) - 1) + 1 := by omega
        rw [this, pow_succ]
        omega
      · rw [pow_succ]
        omega

theorem bit_length_self (n : Nat) (h0 : 0 < n) :
    2 ^ (bit_length n n - 1) ≤ n ∧ n < 2 ^ bit_length n n ∧ 1 ≤ bit_length n n :=
  bit_length_spec n n h0 (Nat.lt_two_pow n)

theorem quotient_lt_two_zpow (a b : Nat) (hb : 0 < b) (e : Int) :
    a * 2 ^ (-e).toNat < b * 2 ^ e.toNat ↔ (a : ℚ) / b < (2 : ℚ) ^ e := by
  have hb' : (0 : ℚ) < b := by exact_mod_cast hb
  have h2 : (0 : ℚ) < (2 : ℚ) ^ (-e).toNat := by positivity
  rw [two_zpow_split, div_lt_div_iff₀ hb' h2]
  constructor
  · intro h
    have : ((a * 2 ^ (-e).toNat : Nat) : ℚ) < ((b * 2 ^ e.toNat : Nat) : ℚ) := by
      exact_mod_cast h
    push_cast at this
    linarith
  · intro h
    have : ((a * 2 ^ (-e).toNat : Nat) : ℚ) < ((b * 2 ^ e.toNat : Nat) : ℚ) := by
      push_cast
      linarith
    exact_mod_cast this

theorem bit_length_zpow (n : Nat) (h0 : 0 < n) :
    (2 : ℚ) ^ ((bit_length n n : Int) - 1) ≤ n ∧ (n : ℚ) < (2 : ℚ) ^ (bit_length n n : Int) := by
  obtain ⟨h1, h2, h3⟩ := bit_length_self n h0
  constructor
  · have e : ((bit_length n n : Int) - 1) = ((bit_length n n - 1 : Nat) : Int) := by omega
    rw [e, zpow_natCast]
    exact_mod_cast h1
  · rw [zpow_natCast]
    exact_mod_cast h2

theorem binade_spec (a b : Nat) (ha : 0 < a) (hb : 0 < b) :
    (2 : ℚ) ^ binade a b ≤ (a : ℚ) / b ∧ (a : ℚ) / b < (2 : ℚ) ^ (binade a b + 1) := by
  have hb' : (0 : ℚ) < b := by exact_mod_cast hb
  obtain ⟨a1, a2⟩ := bit_length_zpow a ha
  obtain ⟨b1, b2⟩ := bit_length_zpow b hb
  have hneg : (bit_length b b : Int) - (bit_length a a : Int)
      = -((bit_length a a : Int) - (bit_length b b : Int)) := by ring
  have hcond := quotient_lt_two_zpow a b hb ((bit_length a a : Int) - (bit_length b b : Int))
  rw [← hneg] at hcond
  have hB : (0 : ℚ) < (2 : ℚ) ^ (bit_length b b : Int) := by positivity
  have hB1 : (0 : ℚ) < (2 : ℚ) ^ ((bit_length b b : Int) - 1) := by positivity
  have low : (2 : ℚ) ^ ((bit_length a a : Int) - (bit_length b b : Int) - 1) ≤ (a : ℚ) / b := by
    rw [le_div_iff₀ hb']
    have e : (2 : ℚ) ^ ((bit_length a a : Int) - (bit_length b b : Int) - 1)
        * (2 : ℚ) ^ (bit_length b b : Int) = (2 : ℚ) ^ ((bit_length a a : Int) - 1) := by
      rw [← zpow_add₀ (by norm_num : (2 : ℚ) ≠ 0)]
      congr 1
      ring
    have hp : (0 : ℚ) < (2 : ℚ) ^ ((bit_length a a : Int) - (bit_length b b : Int) - 1) := by
      positivity
    calc (2 : ℚ) ^ ((bit_length a a : Int) - (bit_length b b : Int) - 1) * b
        ≤ (2 : ℚ) ^ ((bit_length a a : Int) - (bit_length b b : Int) - 1)
            * (2 : ℚ) ^ (bit_length b b : Int) := by
          apply mul_le_mul_of_nonneg_left (le_of_lt b2) (le_of_lt hp)
      _ = (2 : ℚ) ^ ((bit_length a a : Int) - 1) := e
      _ ≤ a := a1
  have up : (a : ℚ) / b < (2 : ℚ) ^ ((bit_length a a : Int) - (bit_length b b : Int) + 1) := by
    rw [div_lt_iff₀ hb']
    have e : (2 : ℚ) ^ ((bit_length a a : Int) - (bit_length b b : Int) + 1)
        * (2 : ℚ) ^ ((bit_length b b : Int) - 1) = (2 : ℚ) ^ (bit_length a a : Int) := by
      rw [← zpow_add₀ (by norm_num : (2 : ℚ) ≠ 0)]
      congr 1
      ring
    have hp : (0 : ℚ) < (2 : ℚ) ^ ((bit_length a a : Int) - (bit_length b b : Int) + 1) := by
      positivity
    calc (a : ℚ) < (2 : ℚ) ^ (bit_length a a : Int) := a2
      _ = (2 : ℚ) ^ ((bit_length a a : Int) - (bit_length b b : Int) + 1)
            * (2 : ℚ) ^ ((bit_length b b : Int) - 1) := e.symm
      _ ≤ (2 : ℚ) ^ ((bit_length a a : Int) - (bit_length b b : Int) + 1) * b := by
          apply mul_le_mul_of_nonneg_left b1 (le_of_lt hp)
  unfold binade
  split_ifs with h
  · rw [hcond] at h
    refine ⟨low, ?_⟩
    rw [sub_add_cancel]
    exact h
  · rw [hcond] at h
    exact ⟨not_lt.mp h, up⟩

theorem div_half_even_error (a b : Nat) (hb : 0 < b) :
    |(div_half_even a b : ℚ) - (a : ℚ) / b| ≤ 1 / 2 := by
  have hb' : (0 : ℚ) < b := by exact_mod_cast hb
  have hdm : (a : ℚ) = (b : ℚ) * (a / b : Nat) + (a % b : Nat) := by
    exact_mod_cast (Nat.div_add_mod a b).symm
  have hq : (a : ℚ) / b = (a / b : Nat) + ((a % b : Nat) : ℚ) / b := by
    have h0 : ((a / b : Nat) : ℚ) + ((a % b : Nat) : ℚ) / b
        = ((b : ℚ) * (a / b : Nat) + (a % b : Nat)) / b := by
      field_simp
      ring
    rw [h0, ← hdm]
  have hr0 : (0 : ℚ) ≤ ((a % b : Nat) : ℚ) / b := by positivity
  have hrb : (a % b) < b := Nat.mod_lt a hb
  unfold div_half_even
  rw [hq]
  split_ifs with h1 h2 h3
  · have : ((a % b : Nat) : ℚ) / b ≤ 1 / 2 := by
      rw [div_le_iff₀ hb']
      have : ((2 * (a % b) : Nat) : ℚ) < (b : ℚ) := by exact_mod_cast h1
      push_cast at this
      linarith
    rw [abs_le]
    constructor <;> linarith
  · have : 1 / 2 ≤ ((a % b : Nat) : ℚ) / b := by
      rw [le_div_iff₀ hb']
      have : ((b : Nat) : ℚ) < ((2 * (a % b) : Nat) : ℚ) := by exact_mod_cast h2
      push_cast at this
      linarith
    have h4 : ((a % b : Nat) : ℚ) / b ≤ 1 := by
      rw [div_le_iff₀ hb']
      have : ((a % b : Nat) : ℚ) < (b : ℚ) := by exact_mod_cast hrb
      linarith
    push_cast
    rw [abs_le]
    constructor <;> linarith
  · have h5 : 2 * (a % b) = b := by omega
    have : ((a % b : Nat) : ℚ) / b = 1 / 2 := by
      rw [div_eq_iff (ne_of_gt hb')]
      have : ((2 * (a % b) : Nat) : ℚ) = (b : ℚ) := by exact_mod_cast h5
      push_cast at this
      linarith
    rw [abs_le]
    constructor <;> linarith
  · have h5 : 2 * (a % b) = b := by omega
    have : ((a % b : Nat) : ℚ) / b = 1 / 2 := by
      rw [div_eq_iff (ne_of_gt hb')]
      have : ((2 * (a % b) : Nat) : ℚ) = (b : ℚ) := by exact_mod_cast h5
      push_cast at this
      linarith
    push_cast
    rw [abs_le]
    constructor <;> linarith

theorem div_half_even_exact (a b : Nat) (hb : 0 < b) (h : b ∣ a) :
    (div_half_even a b : ℚ) = (a : ℚ) / b := by
  have hb' : (0 : ℚ) < b := by exact_mod_cast hb
  have hm : a % b = 0 := Nat.mod_eq_zero_of_dvd h
  unfold div_half_even
  rw [hm, if_pos (by omega)]
  rw [eq_div_iff (ne_of_gt hb')]
  exact_mod_cast Nat.div_mul_cancel h

theorem div_half_even_le (a b N : Nat) (hb : 0 < b) (h : a < b * N) :
    div_half_even a b ≤ N := by
  have h1 : a / b < N := (Nat.div_lt_iff_lt_mul hb).mpr (by rw [Nat.mul_comm] at h; exact h)
  unfold div_half_even
  split_ifs <;> omega

theorem div_half_even_nat (a b N : Nat) (hb : 0 < b) (h : (a : ℚ) / b = N) :
    div_half_even a b = N := by
  have hb' : (0 : ℚ) < b := by exact_mod_cast hb
  have h1 : (a : ℚ) = ((N * b : Nat) : ℚ) := by
    rw [div_eq_iff (ne_of_gt hb')] at h
    rw [h]
    push_cast
    ring
  have h2 : a = N * b := by exact_mod_cast h1
  have h3 := div_half_even_exact a b hb ⟨N, by rw [h2, Nat.mul_comm]⟩
  rw [h] at h3
  exact_mod_cast h3

theorem BinFloat.normal_value (p : Nat) (hp : 1 ≤ p) (k : Int) (mant : Nat) :
    (BinFloat.normal p k mant).value = (mant : ℚ) * (2 : ℚ) ^ k := by
  unfold BinFloat.normal
  split_ifs with h
  · have e : p = (p - 1) + 1 := by omega
    simp only [BinFloat.value]
    rw [h, zpow_add₀ (by norm_num : (2 : ℚ) ≠ 0), zpow_one]
    push_cast
    nth_rewrite 2 [e]
    rw [pow_succ]
    ring
  · rfl

theorem BinFloat.normal_mantissa (p : Nat) (hp : 1 ≤ p) (k : Int) (mant : Nat)
    (h : mant ≤ 2 ^ p) : (BinFloat.normal p k mant).m < 2 ^ p := by
  unfold BinFloat.normal
  split_ifs with h1
  · exact Nat.pow_lt_pow_right (by norm_num) (by omega)
  · exact lt_of_le_of_ne h h1

theorem round_bits_quotient (a b : Nat) (hb : 0 < b) (k : Int) :
    ((a * 2 ^ (-k).toNat : Nat) : ℚ) / ((b * 2 ^ k.toNat : Nat) : ℚ)
      = (a : ℚ) / b / (2 : ℚ) ^ k := by
  have hb' : (b : ℚ) ≠ 0 := by exact_mod_cast (ne_of_gt hb)
  rw [two_zpow_split k]
  push_cast
  field_simp

theorem round_bits_value (p a b : Nat) (hp : 1 ≤ p) (ha : 0 < a) :
    (round_bits p a b).value
      = (div_half_even (a * 2 ^ (-(binade a b - (p : Int) + 1)).toNat)
          (b * 2 ^ (binade a b - (p : Int) + 1).toNat) : ℚ)
        * (2 : ℚ) ^ (binade a b - (p : Int) + 1) := by
  unfold round_bits
  rw [if_neg (by omega), BinFloat.normal_value p hp]

theorem ulp_eq (e : Int) (p : Nat) :
    (2 : ℚ) ^ (e - (p : Int) + 1) = (2 : ℚ) ^ e * 2 / (2 : ℚ) ^ p := by
  rw [zpow_add₀ (by norm_num : (2 : ℚ) ≠ 0), zpow_sub₀ (by norm_num : (2 : ℚ) ≠ 0), zpow_one,
    zpow_natCast]
  ring

theorem round_bits_error (p a b : Nat) (hp : 1 ≤ p) (ha : 0 < a) (hb : 0 < b) :
    |(round_bits p a b).value - (a : ℚ) / b| ≤ (a : ℚ) / b / (2 : ℚ) ^ p := by
  obtain ⟨e1, _⟩ := binade_spec a b ha hb
  have hB : 0 < b * 2 ^ (binade a b - (p : Int) + 1).toNat := by positivity
  have hd := div_half_even_error (a * 2 ^ (-(binade a b - (p : Int) + 1)).toNat)
    (b * 2 ^ (binade a b - (p : Int) + 1).toNat) hB
  rw [round_bits_quotient a b hb] at hd
  rw [round_bits_value p a b hp ha]
  generalize (div_half_even (a * 2 ^ (-(binade a b - (p : Int) + 1)).toNat)
    (b * 2 ^ (binade a b - (p : Int) + 1).toNat) : ℚ) = M at hd ⊢
  have hk : (0 : ℚ) < (2 : ℚ) ^ (binade a b - (p : Int) + 1) := by positivity
  have hp2 : (0 : ℚ) < (2 : ℚ) ^ p := by positivity
  have e : M * (2 : ℚ) ^ (binade a b - (p : Int) + 1) - (a : ℚ) / b
      = (M - (a : ℚ) / b / (2 : ℚ) ^ (binade a b - (p : Int) + 1))
        * (2 : ℚ) ^ (binade a b - (p : Int) + 1) := by
    field_simp
    ring
  rw [e, abs_mul, abs_of_pos hk]
  calc |M - (a : ℚ) / b / (2 : ℚ) ^ (binade a b - (p : Int) + 1)|
        * (2 : ℚ) ^ (binade a b - (p : Int) + 1)
      ≤ 1 / 2 * (2 : ℚ) ^ (binade a b - (p : Int) + 1) :=
        mul_le_mul_of_nonneg_right hd (le_of_lt hk)
    _ = (2 : ℚ) ^ binade a b / (2 : ℚ) ^ p := by rw [ulp_eq]; ring
    _ ≤ (a : ℚ) / b / (2 : ℚ) ^ p := by
        apply div_le_div_of_nonneg_right e1 (le_of_lt hp2)

theorem round_bits_mantissa (p a b : Nat) (hp : 1 ≤ p) (hb : 0 < b) :
    (round_bits p a b).m < 2 ^ p := by
  rcases Nat.eq_zero_or_pos a with h0 | ha
  · unfold round_bits
    rw [if_pos h0]
    positivity
  · obtain ⟨_, e2⟩ := binade_spec a b ha hb
    have hb' : (0 : ℚ) < b := by exact_mod_cast hb
    unfold round_bits
    rw [if_neg (by omega)]
    apply BinFloat.normal_mantissa p hp
    apply div_half_even_le _ _ _ (by positivity)
    have hk : (0 : ℚ) < (2 : ℚ) ^ (binade a b - (p : Int) + 1) := by positivity
    have hB : (0 : ℚ) < ((b * 2 ^ (binade a b - (p : Int) + 1).toNat : Nat) : ℚ) := by
      push_cast
      positivity
    have hq : ((a * 2 ^ (-(binade a b - (p : Int) + 1)).toNat : Nat) : ℚ)
        / ((b * 2 ^ (binade a b - (p : Int) + 1).toNat : Nat) : ℚ) < ((2 ^ p : Nat) : ℚ) := by
      rw [round_bits_quotient a b hb, div_lt_iff₀ hk]
      have e : ((2 ^ p : Nat) : ℚ) * (2 : ℚ) ^ (binade a b - (p : Int) + 1)
          = (2 : ℚ) ^ (binade a b + 1) := by
        have hp2 : (2 : ℚ) ^ p ≠ 0 := by positivity
        rw [ulp_eq, zpow_add₀ (by norm_num : (2 : ℚ) ≠ 0), zpow_one]
        push_cast
        field_simp
      rw [e]
      exact e2
    rw [div_lt_iff₀ hB] at hq
    have hq2 : ((a * 2 ^ (-(binade a b - (p : Int) + 1)).toNat : Nat) : ℚ)
        < ((b * 2 ^ (binade a b - (p : Int) + 1).toNat * 2 ^ p : Nat) : ℚ) := by
      push_cast at hq ⊢
      linarith
    exact_mod_cast hq2

theorem round_bits_exact (p a b n : Nat) (hp : 1 ≤ p) (hb : 0 < b) (hab : (a : ℚ) / b = n)
    (hn : n < 2 ^ p) : (round_bits p a b).value = n := by
  have hb' : (0 : ℚ) < b := by exact_mod_cast hb
  rcases Nat.eq_zero_or_pos a with h0 | ha
  · subst h0
    have : (n : ℚ) = 0 := by rw [← hab]; simp
    rw [this]
    simp [round_bits, BinFloat.value]
  · obtain ⟨e1, _⟩ := binade_spec a b ha hb
    rw [hab] at e1
    have hlt : (2 : ℚ) ^ binade a b < (2 : ℚ) ^ (p : Int) := by
      rw [zpow_natCast]
      have : (n : ℚ) < ((2 ^ p : Nat) : ℚ) := by exact_mod_cast hn
      push_cast at this
      linarith
    have he : binade a b < (p : Int) := by
      by_contra hc
      have := zpow_le_zpow_right₀ (by norm_num : (1 : ℚ) ≤ 2) (not_lt.mp hc)
      linarith
    have hk : (binade a b - (p : Int) + 1).toNat = 0 := by omega
    have hk2 : binade a b - (p : Int) + 1 = -((-(binade a b - (p : Int) + 1)).toNat : Int) := by
      omega
    have hB : 0 < b * 2 ^ (binade a b - (p : Int) + 1).toNat := by positivity
    have hq := round_bits_quotient a b hb (binade a b - (p : Int) + 1)
    rw [round_bits_value p a b hp ha]
    have hN : ((a * 2 ^ (-(binade a b - (p : Int) + 1)).toNat : Nat) : ℚ)
        / ((b * 2 ^ (binade a b - (p : Int) + 1).toNat : Nat) : ℚ)
        = ((n * 2 ^ (-(binade a b - (p : Int) + 1)).toNat : Nat) : ℚ) := by
      rw [hq, hab]
      nth_rewrite 1 [hk2]
      rw [zpow_neg, zpow_natCast]
      push_cast
      field_simp
    rw [div_half_even_nat _ _ _ hB hN]
    nth_rewrite 2 [hk2]
    rw [zpow_neg, zpow_natCast]
    push_cast
    field_simp

theorem round_mul_quotient (x : BinFloat) (n : Nat) :
    ((x.m * n * 2 ^ x.k.toNat : Nat) : ℚ) / ((2 ^ (-x.k).toNat : Nat) : ℚ) = x.value * n := by
  unfold BinFloat.value
  rw [two_zpow_split x.k]
  push_cast
  ring

theorem BinFloat.gt_spec (x : BinFloat) (c : Nat) : x.gt c = true ↔ (c : ℚ) < x.value := by
  unfold BinFloat.gt BinFloat.value
  rw [decide_eq_true_iff, two_zpow_split x.k]
  have h2 : (0 : ℚ) < (2 : ℚ) ^ (-x.k).toNat := by positivity
  rw [← mul_div_assoc, lt_div_iff₀ h2]
  constructor
  · intro h
    have : ((c * 2 ^ (-x.k).toNat : Nat) : ℚ) < ((x.m * 2 ^ x.k.toNat : Nat) : ℚ) := by
      exact_mod_cast h
    push_cast at this
    exact this
  · intro h
    have : ((c * 2 ^ (-x.k).toNat : Nat) : ℚ) < ((x.m * 2 ^ x.k.toNat : Nat) : ℚ) := by
      push_cast
      exact h
    exact_mod_cast this

theorem BinFloat.value_nonneg (x : BinFloat) : 0 ≤ x.value := by
  unfold BinFloat.value
  positivity

theorem round_mul_exact (p : Nat) (x : BinFloat) (n N : Nat) (hp : 1 ≤ p)
    (h : x.value * n = N) (hN : N < 2 ^ p) : (x.round_mul p n).value = N := by
  unfold BinFloat.round_mul
  apply round_bits_exact p _ _ N hp (by positivity) _ hN
  rw [round_mul_quotient, h]

theorem round_mul_error (p : Nat) (x : BinFloat) (n : Nat) (hp : 1 ≤ p) :
    |(x.round_mul p n).value - x.value * n| ≤ x.value * n / (2 : ℚ) ^ p := by
  rcases Nat.eq_zero_or_pos (x.m * n * 2 ^ x.k.toNat) with h0 | ha
  · have h1 : x.value * n = 0 := by
      rw [← round_mul_quotient, h0]
      simp
    have h2 : (x.round_mul p n).value = 0 := by
      unfold BinFloat.round_mul
      rw [h0]
      simp [round_bits, BinFloat.value]
    rw [h1, h2]
    simp
  · have h := round_bits_error p (x.m * n * 2 ^ x.k.toNat) (2 ^ (-x.k).toNat) hp ha
      (by positivity)
    rw [round_mul_quotient] at h
    exact h

theorem round_mul_mantissa (p : Nat) (x : BinFloat) (n : Nat) (hp : 1 ≤ p) :
    (x.round_mul p n).m < 2 ^ p :=
  round_bits_mantissa p _ _ hp (by positivity)

theorem abs_val_mantissa (u : Nat) : (GetFinalStorageFloat_abs_val u).m < 2 ^ 24 := by
  unfold GetFinalStorageFloat_abs_val BinFloat.round
  exact round_mul_mantissa 24 _ 1 (by norm_num)

theorem abs_val_exact (u : Nat) (he : (u &&& 0x6000) >>> 13 = 0) :
    (GetFinalStorageFloat_abs_val u).value = ((u &&& 0x1fff : Nat) : ℚ) := by
  have hn : u &&& 0x1fff < 8192 := by
    have : u &&& 0x1fff ≤ 0x1fff := Nat.and_le_right
    omega
  unfold GetFinalStorageFloat_abs_val BinFloat.round
  rw [he]
  have h1 : (round_bits 53 1 (10 ^ 0)).value = ((1 : Nat) : ℚ) :=
    round_bits_exact 53 1 (10 ^ 0) 1 (by norm_num) (by norm_num) (by norm_num) (by norm_num)
  have h2 : ((round_bits 53 1 (10 ^ 0)).round_mul 53 (u &&& 0x1fff)).value
      = ((u &&& 0x1fff : Nat) : ℚ) := by
    apply round_mul_exact 53 _ _ _ (by norm_num)
    · rw [h1]
      push_cast
      ring
    · have : (8192 : Nat) < 2 ^ 53 := by norm_num
      omega
  apply round_mul_exact 24 _ _ _ (by norm_num)
  · rw [h2]
    push_cast
    ring
  · have : (8192 : Nat) < 2 ^ 24 := by norm_num
    omega

theorem abs_val_error (u : Nat) :
    |(GetFinalStorageFloat_abs_val u).value
        - ((u &&& 0x1fff : Nat) : ℚ) / (10 : ℚ) ^ ((u &&& 0x6000) >>> 13)|
      ≤ ((u &&& 0x1fff : Nat) : ℚ) / (10 : ℚ) ^ ((u &&& 0x6000) >>> 13) / (2 : ℚ) ^ 23 := by
  unfold GetFinalStorageFloat_abs_val BinFloat.round
  generalize (u &&& 0x6000) >>> 13 = e
  generalize u &&& 0x1fff = n
  have hD : (0 : ℚ) < (10 : ℚ) ^ e := by positivity
  have h1 := round_bits_error 53 1 (10 ^ e) (by norm_num) (by norm_num) (by positivity)
  have h2 := round_mul_error 53 (round_bits 53 1 (10 ^ e)) n (by norm_num)
  have h3 := round_mul_error 24 ((round_bits 53 1 (10 ^ e)).round_mul 53 n) 1 (by norm_num)
  push_cast at h1 h3
  rw [mul_one] at h3
  generalize (((round_bits 53 1 (10 ^ e)).round_mul 53 n).round_mul 24 1).value = zv at h3 ⊢
  generalize ((round_bits 53 1 (10 ^ e)).round_mul 53 n).value = yv at h2 h3
  generalize (round_bits 53 1 (10 ^ e)).value = dv at h1 h2
  have hn : (0 : ℚ) ≤ n := by positivity
  have ht : (0 : ℚ) ≤ (n : ℚ) / (10 : ℚ) ^ e := by positivity
  rw [abs_le] at h1 h2 h3
  have hw1 : (dv - 1 / (10 : ℚ) ^ e) * n ≤ 1 / (10 : ℚ) ^ e / 2 ^ 53 * n :=
    mul_le_mul_of_nonneg_right h1.2 hn
  have hw2 : -(1 / (10 : ℚ) ^ e / 2 ^ 53) * n ≤ (dv - 1 / (10 : ℚ) ^ e) * n :=
    mul_le_mul_of_nonneg_right h1.1 hn
  have ew : 1 / (10 : ℚ) ^ e * n = (n : ℚ) / (10 : ℚ) ^ e := by ring
  have ew2 : 1 / (10 : ℚ) ^ e / 2 ^ 53 * n = (n : ℚ) / (10 : ℚ) ^ e / 2 ^ 53 := by ring
  rw [sub_mul, ew, ew2] at hw1
  rw [sub_mul, ew, neg_mul, ew2] at hw2
  generalize dv * (n : ℚ) = w at h2 hw1 hw2
  generalize (n : ℚ) / (10 : ℚ) ^ e = t at ht hw1 hw2 ⊢
  obtain ⟨h2a, h2b⟩ := h2
  obtain ⟨h3a, h3b⟩ := h3
  norm_num at h2a h2b h3a h3b hw1 hw2 ⊢
  rw [abs_le]
  constructor <;> linarith

theorem abs_val_threshold (u : Nat) :
    (GetFinalStorageFloat_abs_val u).gt 6999 = true
      ↔ ((u &&& 0x1fff : Nat) : ℚ) / (10 : ℚ) ^ ((u &&& 0x6000) >>> 13) > 6999 := by
  have hn : u &&& 0x1fff ≤ 8191 := Nat.and_le_right
  have hc : ((6999 : Nat) : ℚ) = 6999 := by norm_num
  rw [BinFloat.gt_spec, hc]
  by_cases he : (u &&& 0x6000) >>> 13 = 0
  · rw [abs_val_exact u he, he, pow_zero, div_one]
  · have herr := abs_val_error u
    have h10 : (10 : ℚ) ≤ (10 : ℚ) ^ ((u &&& 0x6000) >>> 13) := by
      have : (10 : Nat) ^ 1 ≤ 10 ^ ((u &&& 0x6000) >>> 13) :=
        Nat.pow_le_pow_right (by norm_num) (by omega)
      exact_mod_cast this
    have hn' : ((u &&& 0x1fff : Nat) : ℚ) ≤ 8191 := by exact_mod_cast hn
    have hm : ((u &&& 0x1fff : Nat) : ℚ) / (10 : ℚ) ^ ((u &&& 0x6000) >>> 13) ≤ 8191 / 10 := by
      rw [div_le_div_iff₀ (by positivity) (by norm_num)]
      have h0 : (0 : ℚ) ≤ ((u &&& 0x1fff : Nat) : ℚ) := by positivity
      nlinarith
    have hm0 : (0 : ℚ) ≤ ((u &&& 0x1fff : Nat) : ℚ) / (10 : ℚ) ^ ((u &&& 0x6000) >>> 13) := by
      positivity
    generalize ((u &&& 0x1fff : Nat) : ℚ) / (10 : ℚ) ^ ((u &&& 0x6000) >>> 13) = t at *
    generalize (GetFinalStorageFloat_abs_val u).value = z at *
    rw [abs_le] at herr
    obtain ⟨_, h2⟩ := herr
    norm_num at h2
    constructor
    · intro h
      linarith
    · intro h
      linarith

theorem sign_cast (u : Nat) (hu : u < 65536) :
    (((if u >>> 15 ≠ 0 then (-1 : Int) else 1 : Int)) : ℚ) = if u.testBit 15 then -1 else 1 := by
  rw [Nat.testBit_to_div_mod, Nat.shiftRight_eq_div_pow]
  have h1 : u / 2 ^ 15 < 2 := by omega
  generalize u / 2 ^ 15 = x at h1
  interval_cases x <;> simp

/-- C23: for every 16-bit word `u`, with `s = -1` if bit 15 is set and `+1`
otherwise, `e = (u >> 13) & 3` and `m = (u & 0x1FFF) / 10^e` taken as an exact
rational, `GetFinalStorageFloat` yields -9999 if `m > 6999`, and otherwise
`s * f`, where `f` is the `float` (a number with a mantissa below `2^24`) that
the arithmetic of the function produces for `m`: `f = m` when `e = 0`, and
`|f - m| ≤ m / 2^23` in general.  So the result differs from the final-storage
value of `u` by at most that value divided by `2^23`; and `0x1FFF` gives -9999,
`0x0064` gives 100, `0x8064` gives -100 and `0x2064` gives 10. -/
theorem GetFinalStorageFloat_value (u : Nat) (hu : u < 65536) :
    (((u &&& 0x1FFF : Nat) : ℚ) / (10 : ℚ) ^ ((u >>> 13) &&& 3) > 6999 →
      GetFinalStorageFloat u = -9999) ∧
    (¬ ((u &&& 0x1FFF : Nat) : ℚ) / (10 : ℚ) ^ ((u >>> 13) &&& 3) > 6999 →
      ∃ f : BinFloat, f.m < 2 ^ 24 ∧
        GetFinalStorageFloat u = (if u.testBit 15 then (-1 : ℚ) else 1) * f.value ∧
        |f.value - ((u &&& 0x1FFF : Nat) : ℚ) / (10 : ℚ) ^ ((u >>> 13) &&& 3)|
          ≤ ((u &&& 0x1FFF : Nat) : ℚ) / (10 : ℚ) ^ ((u >>> 13) &&& 3) / 2 ^ 23 ∧
        ((u >>> 13) &&& 3 = 0 → f.value = ((u &&& 0x1FFF : Nat) : ℚ))) ∧
    |GetFinalStorageFloat u - final_storage_value u| ≤ |final_storage_value u| / 2 ^ 23 ∧
    GetFinalStorageFloat 0x1FFF = -9999 ∧ GetFinalStorageFloat 0x0064 = 100 ∧
    GetFinalStorageFloat 0x8064 = -100 ∧ GetFinalStorageFloat 0x2064 = 10 := by
  have hthr := abs_val_threshold u
  have herr := abs_val_error u
  have hex := abs_val_exact u
  have hs := sign_cast u hu
  rw [and_0x6000_shr] at hthr herr hex
  have p1 : ((u &&& 0x1FFF : Nat) : ℚ) / (10 : ℚ) ^ ((u >>> 13) &&& 3) > 6999 →
      GetFinalStorageFloat u = -9999 := by
    intro h
    simp only [GetFinalStorageFloat]
    rw [if_pos (hthr.mpr h)]
  have p2 : ¬ ((u &&& 0x1FFF : Nat) : ℚ) / (10 : ℚ) ^ ((u >>> 13) &&& 3) > 6999 →
      GetFinalStorageFloat u
        = (if u.testBit 15 then (-1 : ℚ) else 1) * (GetFinalStorageFloat_abs_val u).value := by
    intro h
    have hg : ¬ (GetFinalStorageFloat_abs_val u).gt 6999 = true := fun hc => h (hthr.mp hc)
    simp only [GetFinalStorageFloat]
    rw [if_neg hg, hs]
  refine ⟨p1, ?_, ?_, ?_, ?_, ?_, ?_⟩
  · intro h
    exact ⟨GetFinalStorageFloat_abs_val u, abs_val_mantissa u, p2 h, herr, hex⟩
  · by_cases h : ((u &&& 0x1FFF : Nat) : ℚ) / (10 : ℚ) ^ ((u >>> 13) &&& 3) > 6999
    · have e : final_storage_value u = -9999 := by
        simp only [final_storage_value]
        rw [if_pos h]
      rw [p1 h, e, sub_self, abs_zero]
      positivity
    · have e : final_storage_value u = (if u.testBit 15 then (-1 : ℚ) else 1)
          * (((u &&& 0x1FFF : Nat) : ℚ) / (10 : ℚ) ^ ((u >>> 13) &&& 3)) := by
        simp only [final_storage_value]
        rw [if_neg h]
      have hm0 : (0 : ℚ) ≤ ((u &&& 0x1FFF : Nat) : ℚ) / (10 : ℚ) ^ ((u >>> 13) &&& 3) := by
        positivity
      have hsa : |(if u.testBit 15 then (-1 : ℚ) else 1)| = 1 := by
        split_ifs <;> simp
      rw [p2 h, e, ← mul_sub, abs_mul, abs_mul, hsa, one_mul, one_mul, abs_of_nonneg hm0]
      exact herr
  · have h1 : (GetFinalStorageFloat_abs_val 0x1FFF).gt 6999 = true := by decide!
    simp only [GetFinalStorageFloat]
    rw [if_pos h1]
  · have h1 : (GetFinalStorageFloat_abs_val 0x0064).gt 6999 = false := by decide!
    have h2 : GetFinalStorageFloat_abs_val 0x0064 = ⟨13107200, -17⟩ := by decide!
    have h3 : (0x0064 : Nat) >>> 15 = 0 := by decide
    simp only [GetFinalStorageFloat, h3]
    rw [if_neg (by rw [h1]; decide), h2]
    norm_num [BinFloat.value]
  · have h1 : (GetFinalStorageFloat_abs_val 0x8064).gt 6999 = false := by decide!
    have h2 : GetFinalStorageFloat_abs_val 0x8064 = ⟨13107200, -17⟩ := by decide!
    have h3 : (0x8064 : Nat) >>> 15 = 1 := by decide
    simp only [GetFinalStorageFloat, h3]
    rw [if_neg (by rw [h1]; decide), h2]
    norm_num [BinFloat.value]
  · have h1 : (GetFinalStorageFloat_abs_val 0x2064).gt 6999 = false := by decide!
    have h2 : GetFinalStorageFloat_abs_val 0x2064 = ⟨10485760, -20⟩ := by decide!
    have h3 : (0x2064 : Nat) >>> 15 = 0 := by decide
    simp only [GetFinalStorageFloat, h3]
    rw [if_neg (by rw [h1]; decide), h2]
    norm_num [BinFloat.value]

/-- C23, witness: the word `0xA001`, the value -1/10, is decoded to
`-13421773 / 2^27`. -/
theorem GetFinalStorageFloat_value_witness :
    (0xA001 : Nat) < 65536 ∧
    |GetFinalStorageFloat 0xA001 - final_storage_value 0xA001|
      ≤ |final_storage_value 0xA001| / 2 ^ 23 :=
  ⟨by decide, (GetFinalStorageFloat_value 0xA001 (by decide)).2.2.1⟩

/-- C23, counterexample to the exact value: the word `0x2001` has `e = 1` and
`m = 1 / 10`, which no `float` holds; `GetFinalStorageFloat` yields the `float`
next to it, `13421773 / 2^27`. -/
theorem GetFinalStorageFloat_rounds :
    final_storage_value 0x2001 = 1 / 10 ∧
    GetFinalStorageFloat 0x2001 = 13421773 / 2 ^ 27 ∧
    GetFinalStorageFloat 0x2001 ≠ final_storage_value 0x2001 := by
  have h1 : (GetFinalStorageFloat_abs_val 0x2001).gt 6999 = false := by decide!
  have h2 : GetFinalStorageFloat_abs_val 0x2001 = ⟨13421773, -27⟩ := by decide!
  have h3 : (0x2001 : Nat) >>> 15 = 0 := by decide
  have h4 : (0x2001 : Nat).testBit 15 = false := by decide
  have h5 : ((0x2001 : Nat) >>> 13) &&& 3 = 1 := by decide
  have h6 : (0x2001 : Nat) &&& 0x1FFF = 1 := by decide
  have a : final_storage_value 0x2001 = 1 / 10 := by
    simp only [final_storage_value, h4, h5, h6]
    norm_num
  have b : GetFinalStorageFloat 0x2001 = 13421773 / 2 ^ 27 := by
    simp only [GetFinalStorageFloat, h3]
    rw [if_neg (by rw [h1]; decide), h2]
    norm_num [BinFloat.value]
  refine ⟨a, b, ?_⟩
  rw [a, b]
  norm_num

theorem and_0x7fffff (u : Nat) : u &&& 0x7fffff = u % 2 ^ 23 := by
  have : (0x7fffff : Nat) = 2 ^ 23 - 1 := by norm_num
  rw [this, Nat.and_pow_two_sub_one_eq_mod]

theorem shr_23_and_0xff (u : Nat) : (u >>> 23) &&& 0xff = u / 2 ^ 23 % 256 := by
  have : (0xff : Nat) = 2 ^ 8 - 1 := by norm_num
  rw [this, Nat.and_pow_two_sub_one_eq_mod, Nat.shiftRight_eq_div_pow]

theorem lor_0x800000 (x : Nat) (hx : x < 2 ^ 23) : x ||| 0x800000 = 2 ^ 23 + x := by
  have h := Nat.mul_add_lt_is_or (i := 23) hx 1
  rw [Nat.or_comm]
  simpa using h.symm

/-- C24: for every 32-bit pattern `u` whose exponent field `(u >> 23) & 0xFF`
is not 255, the exact value `s * m * 2^(e - 150)` computed by `intBitsToFloat`
is the IEEE-754 single-precision value of `u`.  So `3F 80 00 00` gives 1,
`BF 80 00 00` gives -1 and `00 00 00 00` gives 0. -/
theorem intBitsToFloat_ieee754 (u : Nat) (hu : u < 4294967296)
    (he : (u >>> 23) &&& 0xFF ≠ 255) :
    ieee754_single u = some (intBitsToFloat u) ∧
    intBitsToFloat 0x3F800000 = 1 ∧ intBitsToFloat 0xBF800000 = -1 ∧
    intBitsToFloat 0x00000000 = 0 := by
  refine ⟨?_, ?_, ?_, ?_⟩
  · rw [shr_23_and_0xff] at he
    unfold ieee754_single intBitsToFloat
    simp only [shr_23_and_0xff, and_0x7fffff]
    simp only [Nat.shiftRight_eq_div_pow, Nat.shiftLeft_eq]
    have hF : u % 2 ^ 23 < 2 ^ 23 := Nat.mod_lt _ (by norm_num)
    have hS : u / 2 ^ 31 < 2 := by omega
    obtain ⟨F, hFd⟩ : ∃ F, u % 2 ^ 23 = F := ⟨_, rfl⟩
    obtain ⟨E, hEd⟩ : ∃ E, u / 2 ^ 23 % 256 = E := ⟨_, rfl⟩
    obtain ⟨S, hSd⟩ : ∃ S, u / 2 ^ 31 = S := ⟨_, rfl⟩
    rw [hFd] at hF
    rw [hEd] at he
    rw [hSd] at hS
    have hE : E < 256 := by omega
    simp only [hFd, hEd, hSd]
    rw [if_neg he]
    have hsign : (((if S = 0 then (1 : Int) else -1 : Int)) : ℚ) = (-1 : ℚ) ^ (S % 2) := by
      interval_cases S <;> simp
    by_cases hE0 : E = 0
    · have hm : toInt32 (F * 2 ^ 1 % 4294967296) = ((2 * F : Nat) : Int) := by
        have : F * 2 ^ 1 % 4294967296 = 2 * F := by omega
        rw [this, toInt32_small _ (by omega)]
      simp only [hE0, if_true, Nat.cast_zero, hm, Int.cast_mul, hsign]
      congr 1
      rw [show ((0 : Int) - 150) = -126 + -24 from by norm_num,
        zpow_add₀ (by norm_num : (2 : ℚ) ≠ 0)]
      push_cast
      norm_num
      ring
    · have hm : toInt32 (F ||| 0x800000) = ((2 ^ 23 + F : Nat) : Int) := by
        rw [lor_0x800000 F hF, toInt32_small _ (by omega)]
      have hEi : ¬ ((E : Int) = 0) := by exact_mod_cast hE0
      simp only [hE0, hEi, if_false, hm, Int.cast_mul, hsign]
      congr 1
      rw [show ((E : Int) - 150) = ((E : Int) - 127) + -23 from by ring,
        zpow_add₀ (by norm_num : (2 : ℚ) ≠ 0)]
      push_cast
      norm_num
      ring
  · have h1 : (0x3F800000 : Nat) >>> 31 = 0 := by decide
    have h2 : ((0x3F800000 : Nat) >>> 23) &&& 0xff = 127 := by decide
    have h3 : ((0x3F800000 : Nat) &&& 0x7fffff) ||| 0x800000 = 8388608 := by decide
    simp only [intBitsToFloat, h1, h2, h3]
    norm_num [toInt32]
  · have h1 : (0xBF800000 : Nat) >>> 31 = 1 := by decide
    have h2 : ((0xBF800000 : Nat) >>> 23) &&& 0xff = 127 := by decide
    have h3 : ((0xBF800000 : Nat) &&& 0x7fffff) ||| 0x800000 = 8388608 := by decide
    simp only [intBitsToFloat, h1, h2, h3]
    norm_num [toInt32]
  · have h1 : (0x00000000 : Nat) >>> 31 = 0 := by decide
    have h2 : ((0x00000000 : Nat) >>> 23) &&& 0xff = 0 := by decide
    have h3 : (((0x00000000 : Nat) &&& 0x7fffff) <<< 1) % 4294967296 = 0 := by decide
    simp only [intBitsToFloat, h1, h2, h3]
    norm_num [toInt32]

/-- C24, witness: the pattern `3F 80 00 00`, which is the number 1. -/
theorem intBitsToFloat_ieee754_witness :
    ieee754_single 0x3F800000 = some (intBitsToFloat 0x3F800000) :=
  (intBitsToFloat_ieee754 0x3F800000 (by decide) (by decide)).1

/-! ### The table list built by `BuildTDF` -/

theorem tables_kept_nil : tables_kept [] [] := by
  refine ⟨?_, ?_, ?_, ?_⟩ <;> simp

theorem string_length_pos (s : String) : s.length > 0 ↔ s ≠ "" := by
  rw [gt_iff_lt, String.length, List.length_pos]
  constructor
  · intro h e; apply h; rw [e]
  · intro h e; apply h; exact String.ext e

theorem tables_kept_step (seen acc : List Table) (tbl : Table) (h : tables_kept seen acc) :
    tables_kept (seen ++ [tbl])
      (if tbl.TblName.length > 0 then
        (if true ≠ acc.any (fun t => decide (t.TblName = tbl.TblName)) then acc ++ [tbl] else acc)
       else acc) := by
  obtain ⟨h1, h2, h3, h4⟩ := h
  have old3 : ∀ t ∈ acc, ∃ i, (seen ++ [tbl]).get? i = some t ∧
      ∀ j, j < i → ∀ b, (seen ++ [tbl]).get? j = some b → b.TblName ≠ t.TblName := by
    intro t ht
    obtain ⟨i, hi, hj⟩ := h3 t ht
    have hil : i < seen.length := by
      rw [List.get?_eq_getElem?] at hi
      exact (List.getElem?_eq_some_iff.mp hi).1
    refine ⟨i, ?_, ?_⟩
    · rw [List.get?_eq_getElem?, List.getElem?_append_left hil, ← List.get?_eq_getElem?]
      exact hi
    · intro j hji b hb
      rw [List.get?_eq_getElem?, List.getElem?_append_left (by omega),
        ← List.get?_eq_getElem?] at hb
      exact hj j hji b hb
  by_cases hn : tbl.TblName.length > 0
  · have hne : tbl.TblName ≠ "" := (string_length_pos _).mp hn
    rw [if_pos hn]
    by_cases hd : acc.any (fun t => decide (t.TblName = tbl.TblName)) = true
    · rw [if_neg (by rw [hd]; simp)]
      refine ⟨h1, h2, old3, ?_⟩
      intro b hb hbn
      rw [List.mem_append, List.mem_singleton] at hb
      rcases hb with hb | hb
      · exact h4 b hb hbn
      · rw [List.any_eq_true] at hd
        obtain ⟨t, ht, hte⟩ := hd
        exact ⟨t, ht, by rw [hb]; exact of_decide_eq_true hte⟩
    · rw [if_pos (by intro e; exact hd e.symm)]
      have hnot : ∀ t ∈ acc, t.TblName ≠ tbl.TblName := by
        intro t ht e
        apply hd
        rw [List.any_eq_true]
        exact ⟨t, ht, decide_eq_true e⟩
      refine ⟨?_, ?_, ?_, ?_⟩
      · intro t ht
        rw [List.mem_append, List.mem_singleton] at ht
        rcases ht with ht | ht
        · exact h1 t ht
        · rw [ht]; exact hne
      · rw [List.map_append, List.map_singleton, List.nodup_append]
        refine ⟨h2, List.nodup_singleton _, ?_⟩
        intro a ha hb
        rw [List.mem_singleton] at hb
        rw [List.mem_map] at ha
        obtain ⟨t, ht, hta⟩ := ha
        exact hnot t ht (by rw [hta, hb])
      · intro t ht
        rw [List.mem_append, List.mem_singleton] at ht
        rcases ht with ht | ht
        · exact old3 t ht
        · refine ⟨seen.length, ?_, ?_⟩
          · rw [ht, List.get?_eq_getElem?, List.getElem?_append_right (le_refl _)]
            simp
          · intro j hj b hb
            rw [List.get?_eq_getElem?, List.getElem?_append_left hj] at hb
            have hbm : b ∈ seen := by
              obtain ⟨hlt, heq⟩ := List.getElem?_eq_some_iff.mp hb
              rw [← heq]
              exact List.getElem_mem hlt
            intro e
            rw [ht] at e
            obtain ⟨t', ht', hte⟩ := h4 b hbm (by rw [e]; exact hne)
            exact hnot t' ht' (by rw [hte, e])
      · intro b hb hbn
        rw [List.mem_append, List.mem_singleton] at hb
        rcases hb with hb | hb
        · obtain ⟨t, ht, hte⟩ := h4 b hb hbn
          exact ⟨t, List.mem_append_left _ ht, hte⟩
        · exact ⟨tbl, List.mem_append_right _ (List.mem_singleton_self _), by rw [hb]⟩
  · rw [if_neg hn]
    have he : tbl.TblName = "" := by
      by_contra hc
      exact hn ((string_length_pos _).mpr hc)
    refine ⟨h1, h2, old3, ?_⟩
    intro b hb hbn
    rw [List.mem_append, List.mem_singleton] at hb
    rcases hb with hb | hb
    · exact h4 b hb hbn
    · rw [hb] at hbn; exact absurd he hbn

theorem BuildTDF_loop_kept (buf : List byte) (endptr : Nat) :
    ∀ (fuel ptr : Nat) (table_num : Int) (seen acc : List Table) (status : Nat)
      (tl : List Table),
      BuildTDF_loop buf endptr fuel ptr table_num acc = Outcome.ret (status, tl) →
      tables_kept seen acc →
      (status = SUCCESS →
        tables_kept (seen ++ BuildTDF_blobs buf endptr fuel ptr table_num) tl) ∧
      (status ≠ SUCCESS → tl = []) := by
  intro fuel
  induction fuel with
  | zero => intro ptr n seen acc status tl h; simp [BuildTDF_loop] at h
  | succ fuel ih =>
    intro ptr n seen acc status tl h hk
    unfold BuildTDF_loop at h
    unfold BuildTDF_blobs
    by_cases hp : ptr < endptr
    · rw [if_pos hp] at h
      rw [if_pos hp]
      unfold readTableDefinition at h
      rcases hparse : readTableDefinition_parse n buf ptr endptr with o | e | _
      · rcases o with _ | ⟨tbl, len⟩
        · rw [hparse] at h
          simp only [if_true] at h
          injection h with h
          injection h with hs ht
          subst hs; subst ht
          exact ⟨fun h => absurd h (by decide), fun _ => rfl⟩
        · rw [hparse] at h
          have hstep := tables_kept_step seen acc tbl hk
          simp only at h ⊢
          have hlen : ¬ ((len : Int) = -1) := by omega
          have h' : BuildTDF_loop buf endptr fuel (ptr + len) (n + 1)
              (if tbl.TblName.length > 0 then
                (if true ≠ acc.any (fun t => decide (t.TblName = tbl.TblName)) then acc ++ [tbl]
                 else acc)
               else acc) = Outcome.ret (status, tl) := by
            split_ifs at h ⊢ <;> simpa [hlen] using h
          have := ih (ptr + len) (n + 1) (seen ++ [tbl]) _ status tl h' hstep
          rw [List.append_assoc, List.singleton_append] at this
          exact this
      · rw [hparse] at h; simp at h
      · rw [hparse] at h; simp at h
    · rw [if_neg hp] at h
      rw [if_neg hp]
      injection h with h
      injection h with hs ht
      subst hs; subst ht
      rw [List.append_nil]
      exact ⟨fun _ => hk, fun h => absurd rfl h⟩

theorem loadTableStorageHistory_mem (info : String → Option (Nat × NSec × Nat × Nat))
    (l : List Table) (t : Table) (h : t ∈ loadTableStorageHistory info l) :
    ∃ t0 ∈ l, t.TblName = t0.TblName ∧ t.definition = t0.definition := by
  unfold loadTableStorageHistory at h
  rw [List.mem_map] at h
  obtain ⟨t0, ht0, he⟩ := h
  refine ⟨t0, ht0, ?_⟩
  rcases hi : info t0.TblName with _ | ⟨a, b, c, d⟩
  · rw [hi] at he; subst he; exact ⟨rfl, rfl⟩
  · rw [hi] at he; subst he; exact ⟨rfl, rfl⟩

theorem loadTableStorageHistory_names (info : String → Option (Nat × NSec × Nat × Nat))
    (l : List Table) :
    (loadTableStorageHistory info l).map (fun t => t.TblName) = l.map (fun t => t.TblName) := by
  unfold loadTableStorageHistory
  rw [List.map_map]
  apply List.map_congr_left
  intro t _
  simp only [Function.comp]
  rcases info t.TblName with _ | ⟨a, b, c, d⟩ <;> rfl

theorem BuildTDF_table_list_aux (tdf : Option (List byte))
    (info : String → Option (Nat × NSec × Nat × Nat)) (status : Nat) (tl : List Table)
    (h : BuildTDF tdf info = Outcome.ret (status, tl)) :
    (∀ t ∈ tl, t.TblName ≠ "") ∧ (tl.map (fun t => t.TblName)).Nodup ∧
    (∀ t ∈ tl, ∃ buf i b, tdf = some buf ∧
      (BuildTDF_blobs buf buf.length (buf.length + 1) 1 1).get? i = some b ∧
      t.definition = b.definition ∧
      ∀ j, j < i → ∀ c, (BuildTDF_blobs buf buf.length (buf.length + 1) 1 1).get? j = some c →
        c.TblName ≠ t.TblName) ∧
    (status = SUCCESS → ∀ buf, tdf = some buf →
      ∀ b ∈ BuildTDF_blobs buf buf.length (buf.length + 1) 1 1, b.TblName ≠ "" →
        ∃ t ∈ tl, t.TblName = b.TblName) := by
  have hempty : ∀ s, tl = [] → s ≠ SUCCESS → status = s →
      (∀ t ∈ tl, t.TblName ≠ "") ∧ (tl.map (fun t => t.TblName)).Nodup ∧
      (∀ t ∈ tl, ∃ buf i b, tdf = some buf ∧
        (BuildTDF_blobs buf buf.length (buf.length + 1) 1 1).get? i = some b ∧
        t.definition = b.definition ∧
        ∀ j, j < i → ∀ c, (BuildTDF_blobs buf buf.length (buf.length + 1) 1 1).get? j = some c →
          c.TblName ≠ t.TblName) ∧
      (status = SUCCESS → ∀ buf, tdf = some buf →
        ∀ b ∈ BuildTDF_blobs buf buf.length (buf.length + 1) 1 1, b.TblName ≠ "" →
          ∃ t ∈ tl, t.TblName = b.TblName) := by
    intro s ht hs hst
    subst ht
    refine ⟨by simp, by simp, by simp, ?_⟩
    intro h1
    rw [hst] at h1
    exact absurd h1 hs
  unfold BuildTDF at h
  rcases tdf with _ | buf
  · simp only at h
    injection h with h
    injection h with hs ht
    exact hempty FAILURE ht.symm (by decide) hs.symm
  · simp only at h
    by_cases hl : buf.length = 0
    · rw [if_pos hl] at h
      injection h with h
      injection h with hs ht
      exact hempty FAILURE ht.symm (by decide) hs.symm
    · rw [if_neg hl] at h
      rcases hloop : BuildTDF_loop buf buf.length (buf.length + 1) 1 1 [] with ⟨s0, tl0⟩ | e | _
      · rw [hloop] at h
        simp only at h
        obtain ⟨hk, hf⟩ := BuildTDF_loop_kept buf buf.length (buf.length + 1) 1 1 [] [] s0 tl0
          hloop tables_kept_nil
        by_cases hs0 : s0 = SUCCESS
        · rw [if_pos hs0] at h
          injection h with h
          injection h with hs ht
          obtain ⟨k1, k2, k3, k4⟩ := hk hs0
          rw [List.nil_append] at k3 k4
          subst ht
          refine ⟨?_, ?_, ?_, ?_⟩
          · intro t htm
            obtain ⟨t0, ht0, hn, _⟩ := loadTableStorageHistory_mem info tl0 t htm
            rw [hn]; exact k1 t0 ht0
          · rw [loadTableStorageHistory_names]; exact k2
          · intro t htm
            obtain ⟨t0, ht0, hn, hd⟩ := loadTableStorageHistory_mem info tl0 t htm
            obtain ⟨i, hi, hj⟩ := k3 t0 ht0
            refine ⟨buf, i, t0, rfl, hi, hd, ?_⟩
            intro j hji c hc
            rw [hn]
            exact hj j hji c hc
          · intro _ buf' hb' b hb hbn
            injection hb' with hb'
            subst hb'
            obtain ⟨t0, ht0, hte⟩ := k4 b hb hbn
            have hm : t0.TblName ∈ (loadTableStorageHistory info tl0).map (fun t => t.TblName) := by
              rw [loadTableStorageHistory_names]
              exact List.mem_map_of_mem _ ht0
            rw [List.mem_map] at hm
            obtain ⟨t, ht, hte2⟩ := hm
            exact ⟨t, ht, by rw [hte2, hte]⟩
        · rw [if_neg hs0] at h
          injection h with h
          injection h with hs ht
          have := hf hs0
          exact hempty s0 (by rw [← ht, this]) hs0 hs.symm
      · rw [hloop] at h; simp at h
      · rw [hloop] at h; simp at h


/-! ### `BuildTDF` returns -/

theorem CalcSig_loop_returns (ptr : List byte) (len : Nat) (hlen : len < 65536) :
    ∀ (fuel n ret : Nat), n ≤ len → len - n < fuel →
      ∃ s, CalcSig_loop ptr len fuel n ret = some s := by
  intro fuel
  induction fuel with
  | zero => intro n ret _ h; omega
  | succ fuel ih =>
    intro n ret hn hf
    rw [CalcSig_loop_succ]
    by_cases h : n < len
    · rw [if_pos h, Nat.mod_eq_of_lt (by omega)]
      exact ih (n + 1) _ (by omega) (by omega)
    · rw [if_neg h]
      exact ⟨ret, rfl⟩

theorem CalcSig_returns (buf : List byte) (len seed : Nat) (hlen : len < 65536) :
    ∃ s, CalcSig buf len seed = some s :=
  CalcSig_loop_returns buf len hlen 65536 0 seed (by omega) (by omega)

theorem readFieldList_subdim_bounds (buf : List byte) (endptr : Nat) :
    ∀ (fuel ptr : Nat) (SubDim : List Nat) (r : Nat × List Nat),
      readFieldList_subdim buf endptr fuel ptr SubDim = r →
      ptr ≤ r.1 ∧ (r.1 ≤ ptr ∨ r.1 ≤ endptr + 3) := by
  intro fuel
  induction fuel with
  | zero => intro ptr sd r h; subst h; simp [readFieldList_subdim]
  | succ fuel ih =>
    intro ptr sd r h
    subst h
    unfold readFieldList_subdim
    by_cases h : ptr < endptr
    · rw [if_pos h]
      simp only
      split_ifs with h2
      · have := ih (ptr + 4) (sd ++ [PBDeserialize (List.drop ptr buf) 4]) _ rfl
        omega
      · simp only; omega
    · rw [if_neg h]
      simp

theorem PBDeserialize_1_past (buf : List byte) (p : Nat)
    (h : PBDeserialize (buf.drop p) 1 ≠ 0) : p < buf.length := by
  by_contra hc
  rw [List.drop_eq_nil_of_le (by omega)] at h
  exact h (by simp [PBDeserialize, PBDeserialize_loop])

/-- A pass of the loop of `readFieldList` that does not fail moves `ptr`
forward, to at most four bytes past `endptr`, and the field it has decoded
carries the type and the name read at `ptr`, whatever the name. -/
theorem readFieldList_pass_some (buf : List byte) (endptr ptr : Nat) (var : Field) (p : Nat)
    (v : Field) (h : readFieldList_pass buf endptr ptr var = some (p, v)) :
    ptr < p ∧ p ≤ endptr + 4 ∧
    v.FieldType = toByte ((buf.getD ptr 0).val &&& 0x7f) ∧
    v.FieldName = string_of_bytes (GetVarLenString (buf.drop (ptr + 1))) := by
  unfold readFieldList_pass at h
  simp only at h
  split_ifs at h with h1 h2 h3 h4 h5 h6 h7
  injection h with h
  injection h with hp hv
  generalize hr : readFieldList_subdim buf endptr _ _ _ = r at hp hv
  obtain ⟨b1, b2⟩ := readFieldList_subdim_bounds buf endptr _ _ _ _ hr
  subst hv
  refine ⟨by omega, by omega, rfl, rfl⟩

theorem readFieldList_loop_returns (buf : List byte) (endptr : Nat) :
    ∀ (fuel ptr : Nat) (var : Field) (fl : List Field), buf.length < fuel + ptr → 0 < fuel →
      ∃ r, readFieldList_loop buf endptr fuel ptr var fl = Outcome.ret r ∧
        ∀ p fl', r = some (p, fl') → ptr < p ∧ p ≤ endptr + 4 := by
  intro fuel
  induction fuel with
  | zero => intro ptr var fl _ h; omega
  | succ fuel ih =>
    intro ptr var fl hf _
    unfold readFieldList_loop
    rcases hpass : readFieldList_pass buf endptr ptr var with _ | ⟨p, v⟩
    · exact ⟨none, rfl, fun p fl' h => by simp at h⟩
    · obtain ⟨b1, b2, _, _⟩ := readFieldList_pass_some buf endptr ptr var p v hpass
      simp only
      by_cases hn : PBDeserialize (buf.drop p) 1 ≠ 0
      · rw [if_pos hn]
        have hlt := PBDeserialize_1_past buf p hn
        obtain ⟨r, hr, hb⟩ := ih p v (fl ++ [v]) (by omega) (by omega)
        refine ⟨r, hr, ?_⟩
        intro q fl' hq
        have := hb q fl' hq
        omega
      · rw [if_neg hn]
        refine ⟨_, rfl, ?_⟩
        intro q fl' hq
        injection hq with hq
        injection hq with hq1 hq2
        omega

theorem readFieldList_returns (buf : List byte) (byte_ptr endptr : Nat) (fl : List Field) :
    ∃ r, readFieldList buf byte_ptr endptr fl = Outcome.ret r ∧
      ∀ nbytes fl', r = some (nbytes, fl') → 1 ≤ nbytes ∧ byte_ptr + nbytes ≤ endptr + 5 := by
  unfold readFieldList
  obtain ⟨r, hr, hb⟩ := readFieldList_loop_returns buf endptr (buf.length + 1) byte_ptr
    { FieldType := 0, FieldName := "", Dimension := 0 } fl (by omega) (by omega)
  rw [hr]
  rcases r with _ | ⟨p, fl1⟩
  · exact ⟨none, rfl, fun n fl' h => by simp at h⟩
  · refine ⟨_, rfl, ?_⟩
    intro n fl' hq
    injection hq with hq
    injection hq with hq1 hq2
    have := hb p fl1 rfl
    omega

theorem readTableDefinition_parse_returns (table_num : Int) (buf : List byte)
    (byte_ptr endptr : Nat) (hend : endptr + 5 < 65536) :
    ∃ r, readTableDefinition_parse table_num buf byte_ptr endptr = Outcome.ret r ∧
      ∀ tbl len, r = some (tbl, len) → 1 ≤ len := by
  unfold readTableDefinition_parse
  simp only
  split_ifs with h1 h2 h3 h4 h5 h6 h7
  all_goals first
    | exact ⟨none, rfl, fun p fl' h => by simp at h⟩
    | skip
  obtain ⟨r, hr, hb⟩ := readFieldList_returns buf
    (byte_ptr + ((GetVarLenString (List.drop byte_ptr buf)).length + 1) + 4 + 1 + 4 + 4 + 4 + 4)
    endptr []
  rw [hr]
  rcases r with _ | ⟨nbytes, fl1⟩
  · exact ⟨none, rfl, fun p fl' h => by simp at h⟩
  · obtain ⟨c1, c2⟩ := hb nbytes fl1 rfl
    simp only
    obtain ⟨s, hs⟩ := CalcSig_returns (List.drop byte_ptr buf)
      ((byte_ptr + ((GetVarLenString (List.drop byte_ptr buf)).length + 1) + 4 + 1 + 4 + 4 + 4
        + 4 + nbytes - byte_ptr) % 4294967296) 43690
      (by omega)
    rw [hs]
    refine ⟨_, rfl, ?_⟩
    intro tbl len h
    injection h with h
    injection h with ht hl
    omega

theorem BuildTDF_loop_returns (buf : List byte) (endptr : Nat) (hend : endptr + 5 < 65536) :
    ∀ (fuel ptr : Nat) (table_num : Int) (tl : List Table), endptr < fuel + ptr → 0 < fuel →
      ∃ r, BuildTDF_loop buf endptr fuel ptr table_num tl = Outcome.ret r := by
  intro fuel
  induction fuel with
  | zero => intro ptr n tl _ h; omega
  | succ fuel ih =>
    intro ptr n tl hf _
    unfold BuildTDF_loop
    by_cases hp : ptr < endptr
    · rw [if_pos hp]
      unfold readTableDefinition
      obtain ⟨r, hr, hb⟩ := readTableDefinition_parse_returns n buf ptr endptr hend
      rw [hr]
      rcases r with _ | ⟨tbl, len⟩
      · exact ⟨_, rfl⟩
      · have hl := hb tbl len rfl
        have hlen : ¬ ((len : Int) = -1) := by omega
        simp only
        split_ifs <;> simp only [hlen, if_false, Int.toNat_ofNat] <;>
          exact ih (ptr + len) (n + 1) _ (by omega) (by omega)
    · rw [if_neg hp]
      exact ⟨_, rfl⟩

/-- A table definitions file of less than 65531 bytes is parsed to the end:
`BuildTDF` returns. -/
theorem BuildTDF_returns (buf : List byte) (info : String → Option (Nat × NSec × Nat × Nat))
    (h : buf.length + 5 < 65536) :
    ∃ status tl, BuildTDF (some buf) info = Outcome.ret (status, tl) := by
  unfold BuildTDF
  simp only
  by_cases hl : buf.length = 0
  · rw [if_pos hl]; exact ⟨_, _, rfl⟩
  · rw [if_neg hl]
    obtain ⟨⟨s, tl⟩, hr⟩ := BuildTDF_loop_returns buf buf.length h (buf.length + 1) 1 1 []
      (by omega) (by omega)
    rw [hr]
    simp only
    split_ifs <;> exact ⟨_, _, rfl⟩

/-- C25: a table definitions file of less than 65531 bytes is parsed to the
end (`BuildTDF` returns), and whenever `BuildTDF` returns, its table list holds
no table with an empty name and no two tables with the same name, and every
table kept is the one built from the first table definition (blob) of the file
that carries its name: it has the definition of that blob, and no earlier blob
has the name.  When the file has parsed (`SUCCESS`), a table is kept for every
non-empty name that occurs in the file. -/
theorem BuildTDF_table_list (tdf : Option (List byte))
    (info : String → Option (Nat × NSec × Nat × Nat)) :
    (∀ buf, tdf = some buf → buf.length + 5 < 65536 →
      ∃ status tl, BuildTDF tdf info = Outcome.ret (status, tl)) ∧
    (∀ status tl, BuildTDF tdf info = Outcome.ret (status, tl) →
      (∀ t ∈ tl, t.TblName ≠ "") ∧ (tl.map (fun t => t.TblName)).Nodup ∧
      (∀ t ∈ tl, ∃ buf i b, tdf = some buf ∧
        (BuildTDF_blobs buf buf.length (buf.length + 1) 1 1).get? i = some b ∧
        t.definition = b.definition ∧
        ∀ j, j < i → ∀ c, (BuildTDF_blobs buf buf.length (buf.length + 1) 1 1).get? j = some c →
          c.TblName ≠ t.TblName) ∧
      (status = SUCCESS → ∀ buf, tdf = some buf →
        ∀ b ∈ BuildTDF_blobs buf buf.length (buf.length + 1) 1 1, b.TblName ≠ "" →
          ∃ t ∈ tl, t.TblName = b.TblName)) := by
  constructor
  · intro buf hb hl
    subst hb
    exact BuildTDF_returns buf info hl
  · intro status tl h
    exact BuildTDF_table_list_aux tdf info status tl h

set_option maxRecDepth 1000000 in
/-- C25, witness: a file with the table definitions `A`, one with an empty
name, `B`, and a second `A`: the table list holds `A` (table number 1, the
first definition) and `B` (table number 3). -/
theorem BuildTDF_table_list_witness :
    BuildTDF (some sample_tdf) (fun _ => none) = Outcome.ret (SUCCESS, sample_tdf_tables) ∧
    (∀ t ∈ sample_tdf_tables, t.TblName ≠ "") ∧
    (sample_tdf_tables.map (fun t => t.TblName)).Nodup :=
  ⟨by decide,
   ((BuildTDF_table_list (some sample_tdf) (fun _ => none)).2 SUCCESS sample_tdf_tables
     (by decide)).1,
   ((BuildTDF_table_list (some sample_tdf) (fun _ => none)).2 SUCCESS sample_tdf_tables
     (by decide)).2.1⟩

theorem readFieldList_loop_names (buf : List byte) (endptr : Nat) :
    ∀ (fuel ptr : Nat) (var : Field) (fl : List Field) (p : Nat) (fl' : List Field),
      readFieldList_loop buf endptr fuel ptr var fl = Outcome.ret (some (p, fl')) →
      fl'.length = fl.length + (readFieldList_starts buf endptr fuel ptr var).length ∧
      fl'.map (fun f => f.FieldName)
        = fl.map (fun f => f.FieldName)
          ++ (readFieldList_starts buf endptr fuel ptr var).map
              (fun s => string_of_bytes (GetVarLenString (buf.drop (s + 1)))) := by
  intro fuel
  induction fuel with
  | zero => intro ptr var fl p fl' h; simp [readFieldList_loop] at h
  | succ fuel ih =>
    intro ptr var fl p fl' h
    unfold readFieldList_loop at h
    unfold readFieldList_starts
    rcases hpass : readFieldList_pass buf endptr ptr var with _ | ⟨q, v⟩
    · rw [hpass] at h; simp at h
    · rw [hpass] at h
      obtain ⟨_, _, _, hname⟩ := readFieldList_pass_some buf endptr ptr var q v hpass
      simp only at h ⊢
      by_cases hn : PBDeserialize (buf.drop q) 1 ≠ 0
      · rw [if_pos hn] at h
        rw [if_pos hn]
        obtain ⟨h1, h2⟩ := ih q v (fl ++ [v]) p fl' h
        constructor
        · rw [h1]; simp; omega
        · rw [h2]; simp [hname]
      · rw [if_neg hn] at h
        rw [if_neg hn]
        injection h with h
        injection h with h
        injection h with hp hfl
        subst hfl
        simp [hname]

/-- C26 (amended): the parser keeps every field: when `readFieldList` parses
the field list of a table definition, it appends one `Field` for each field
definition of the blob, in the order of the file, with the name read from the
blob, also when that name is the empty string. -/
theorem readFieldList_keeps_fields (buf : List byte) (byte_ptr endptr : Nat)
    (field_list : List Field) (nbytes : Nat) (fl : List Field)
    (h : readFieldList buf byte_ptr endptr field_list = Outcome.ret (some (nbytes, fl))) :
    fl.length = field_list.length
      + (readFieldList_starts buf endptr (buf.length + 1) byte_ptr
          { FieldType := 0, FieldName := "", Dimension := 0 }).length ∧
    fl.map (fun f => f.FieldName)
      = field_list.map (fun f => f.FieldName)
        ++ (readFieldList_starts buf endptr (buf.length + 1) byte_ptr
              { FieldType := 0, FieldName := "", Dimension := 0 }).map
            (fun s => string_of_bytes (GetVarLenString (buf.drop (s + 1)))) := by
  unfold readFieldList at h
  rcases hl : readFieldList_loop buf endptr (buf.length + 1) byte_ptr
      { FieldType := 0, FieldName := "", Dimension := 0 } field_list with o | e | _
  · rcases o with _ | ⟨p, fl1⟩
    · rw [hl] at h; simp at h
    · rw [hl] at h
      simp only at h
      injection h with h
      injection h with h
      injection h with hp hfl
      subst hfl
      exact readFieldList_loop_names buf endptr _ _ _ _ _ _ hl
  · rw [hl] at h; simp at h
  · rw [hl] at h; simp at h

set_option maxRecDepth 1000000 in
/-- C26, witness: the field list of two field definitions, the second with an
empty name: both fields are in the list. -/
theorem readFieldList_keeps_fields_witness :
    readFieldList (sample_field_blob 6 [0x78] 1 ++ sample_field_blob 9 [] 1 ++ [0x00]) 0 38 []
      = Outcome.ret (some (38,
          [{ FieldType := 6, FieldName := "x", BegIdx := 1, Dimension := 1 },
           { FieldType := 9, FieldName := "", BegIdx := 1, Dimension := 1 }])) ∧
    ([{ FieldType := 6, FieldName := "x", BegIdx := 1, Dimension := 1 },
      { FieldType := 9, FieldName := "", BegIdx := 1, Dimension := 1 }] : List Field).length
      = ([] : List Field).length
        + (readFieldList_starts
            (sample_field_blob 6 [0x78] 1 ++ sample_field_blob 9 [] 1 ++ [0x00]) 38
            ((sample_field_blob 6 [0x78] 1 ++ sample_field_blob 9 [] 1 ++ [0x00]).length + 1) 0
            { FieldType := 0, FieldName := "", Dimension := 0 }).length :=
  ⟨by decide,
   (readFieldList_keeps_fields _ 0 38 [] 38 _ (by decide)).1⟩

set_option maxRecDepth 1000000 in
/-- C26, counterexample: the definition of table `B` has one field, whose name
is empty: the field is in the field list of the parsed table. -/
theorem readFieldList_empty_name_kept :
    BuildTDF (some sample_tdf_empty_field) (fun _ => none)
      = Outcome.ret (SUCCESS,
          [{ TblName := "B", TblNum := 1, TblSize := 10, TimeType := 14,
             TblTimeInterval := ⟨60, 0⟩,
             field_list := [{ FieldType := 9, FieldName := "", BegIdx := 1, Dimension := 1 }],
             TblSignature := 6643 }]) := by
  decide

/-- C27 (the code at the failing input): a connection constructed with
`vtime = 10` (entry 2 of the table).  The array `vtimeArray__` has seven
elements, so that the entries 200 and 600 are not in it.  Successive calls of
`retryOnFail` return true six times, and set `vtime__` to 20, 30, 50, 100 and
then, reading past the end of the array, to 7 (the value of `vtimeIndex__`) and
7 again (the value of `vtime__` itself) instead of 200 and 600; `vtime__` does
not increase strictly.  From `vtime = 200` (entry 7) the one call that returns
true leaves `vtime__` at 200. -/
theorem retryOnFail_past_array :
    (SerialConn.init 10).vtimeArray__ = [2, 5, 10, 20, 30, 50, 100] ∧
    (SerialConn.init 10).vtimeIndex__ = 2 ∧ (SerialConn.init 10).vtime__ = 10 ∧
    retryOnFail_calls 7 (SerialConn.init 10)
      = [(true, 20), (true, 30), (true, 50), (true, 100), (true, 7), (true, 7), (false, 7)] ∧
    (SerialConn.init 200).vtimeIndex__ = 7 ∧ (SerialConn.init 200).vtime__ = 200 ∧
    retryOnFail_calls 2 (SerialConn.init 200) = [(true, 200), (false, 200)] := by
  decide

set_option maxRecDepth 1000000 in
/-- C30 (the code at the failing input): the logger answers the clock query
with the time 1631152000 (seconds since 1970) and the host clock is 100 s
ahead, so that the clock-set transaction is made (the second packet sent asks
for an adjustment of 100 s).  When the logger does not answer the set request,
or answers with a response that carries a failure code and the transaction
number of the query (not a valid response to the set request),
`ClockTransaction` returns 0 and `checkLoggerTime` returns normally with the
check marked complete.  When the response to the set request carries a failure
code, `checkLoggerTime` raises `AppException`. -/
theorem checkLoggerTime_no_response :
    (ClockTransaction (sample_bmp5 [clock_response 1 0 1000000000] []) 0 0).1
      = Outcome.ret 1631152000 ∧
    (checkLoggerTime (sample_process [clock_response 1 0 1000000000]) 1631152100).1
      = Outcome.ret () ∧
    (checkLoggerTime (sample_process [clock_response 1 0 1000000000])
      1631152100).2.loggerTimeCheckComplete__ = true ∧
    ((checkLoggerTime (sample_process [clock_response 1 0 1000000000])
      1631152100).2.bmp5ImplObj__.base.pbuf__.devOut.map (fun p => (p.drop 9).take 12))
      = [[0x17, 0x01, 0x00, 0x00, 0x00, 0x00, 0x00, 0x00, 0x00, 0x00, 0x00, 0x00],
         [0x17, 0x02, 0x00, 0x00, 0x00, 0x00, 0x00, 0x64, 0x00, 0x00, 0x00, 0x00]] ∧
    (checkLoggerTime (sample_process [clock_response 1 0 1000000000,
      clock_response 1 1 1000000000]) 1631152100).1 = Outcome.ret () ∧
    (checkLoggerTime (sample_process [clock_response 1 0 1000000000,
      clock_response 1 1 1000000000]) 1631152100).2.loggerTimeCheckComplete__ = true ∧
    (checkLoggerTime (sample_process [clock_response 1 0 1000000000,
      clock_response 2 1 1000000000]) 1631152100).1
      = Outcome.throw Exception.AppException := by
  decide

/-! ## pb5_proc.cpp: what a failed table does to the collection -/

/-- One pass of the loop of `collect` on a table that is in the list. -/
theorem collect_loop_pass (fuel0 : Nat) (ReloadTDF : BMP5Obj → Nat × BMP5Obj)
    (Tables : List TableOpt) (fuel : Nat) (count : Int) (recollect_tdf : Bool)
    (p : PB5CollectionProcess) (called : List String) (table_opt : TableOpt)
    (hlt : count < (Tables.length : Int))
    (ht : Tables.get? count.toNat = some table_opt) :
    collect_loop fuel0 ReloadTDF Tables (fuel + 1) count recollect_tdf p called =
      match CollectData fuel0 p.bmp5ImplObj__ table_opt with
      | (Outcome.ret _, o) =>
        collect_loop fuel0 ReloadTDF Tables fuel (count + 1) recollect_tdf
          { p with bmp5ImplObj__ := o } (called ++ [table_opt.TableName])
      | (Outcome.diverge, o) =>
        (Outcome.diverge, { p with bmp5ImplObj__ := o }, called ++ [table_opt.TableName])
      | (Outcome.throw Exception.invalid_argument, o) =>
        collect_loop fuel0 ReloadTDF Tables fuel (count + 1) recollect_tdf
          { p with bmp5ImplObj__ := o } (called ++ [table_opt.TableName])
      | (Outcome.throw Exception.StorageException, o) =>
        (Outcome.ret (), { p with bmp5ImplObj__ := o }, called ++ [table_opt.TableName])
      | (Outcome.throw Exception.InvalidTDFException, o) =>
        if recollect_tdf = false then
          collect_loop fuel0 ReloadTDF Tables fuel
            ((if (ReloadTDF o).1 = SUCCESS then count - 1 else count) + 1) true
            { p with bmp5ImplObj__ := (ReloadTDF o).2 } (called ++ [table_opt.TableName])
        else (Outcome.ret (), { p with bmp5ImplObj__ := o }, called ++ [table_opt.TableName])
      | (Outcome.throw _, o) =>
        collect_loop fuel0 ReloadTDF Tables fuel (count + 1) recollect_tdf
          { p with bmp5ImplObj__ := o } (called ++ [table_opt.TableName]) := by
  rw [collect_loop, if_pos hlt, ht]

/-- The passes given to the loop of `collect` are enough: the loop runs out of
passes only when a call of `CollectData` does not return. -/
theorem collect_loop_fuel (fuel0 : Nat) (ReloadTDF : BMP5Obj → Nat × BMP5Obj)
    (Tables : List TableOpt) :
    ∀ (fuel : Nat) (count : Int) (recollect_tdf : Bool) (p : PB5CollectionProcess)
      (called : List String),
      0 ≤ count →
      Tables.length - count.toNat + (if recollect_tdf = false then 1 else 0) < fuel →
      (collect_loop fuel0 ReloadTDF Tables fuel count recollect_tdf p called).1 =
        Outcome.diverge →
      ∃ o t, t ∈ Tables ∧ (CollectData fuel0 o t).1 = Outcome.diverge := by
  intro fuel
  induction fuel with
  | zero =>
    intro count recollect_tdf p called h0 hf hd
    omega
  | succ fuel ih =>
    intro count recollect_tdf p called h0 hf hd
    by_cases hlt : count < (Tables.length : Int)
    · have hn : count.toNat < Tables.length := by omega
      have ht : Tables.get? count.toNat = some (Tables.get ⟨count.toNat, hn⟩) :=
        List.get?_eq_get hn
      have hmem : Tables.get ⟨count.toNat, hn⟩ ∈ Tables := List.get_mem _ _ _
      rw [collect_loop_pass fuel0 ReloadTDF Tables fuel count recollect_tdf p called _ hlt ht]
        at hd
      rcases hc : CollectData fuel0 p.bmp5ImplObj__ (Tables.get ⟨count.toNat, hn⟩)
        with ⟨out, o⟩
      rw [hc] at hd
      cases out with
      | ret v =>
        exact ih _ _ _ _ (by omega) (by split_ifs at hf ⊢ <;> omega) hd
      | diverge =>
        exact ⟨_, _, hmem, by rw [hc]⟩
      | throw e =>
        cases e with
        | invalid_argument =>
          exact ih _ _ _ _ (by omega) (by split_ifs at hf ⊢ <;> omega) hd
        | StorageException => simp at hd
        | InvalidTDFException =>
          simp only at hd
          by_cases hr : recollect_tdf = false
          · rw [if_pos hr] at hd
            rw [if_pos hr] at hf
            refine ih _ _ _ _ ?_ ?_ hd
            · split_ifs <;> omega
            · have e : (if (true = false) then 1 else 0 : Nat) = 0 := by decide
              rw [e]
              by_cases hs : (ReloadTDF o).1 = SUCCESS
              · rw [if_pos hs, sub_add_cancel]
                omega
              · rw [if_neg hs]
                omega
          · rw [if_neg hr] at hd
            simp at hd
        | CommException =>
          exact ih _ _ _ _ (by omega) (by split_ifs at hf ⊢ <;> omega) hd
        | PakBusException =>
          exact ih _ _ _ _ (by omega) (by split_ifs at hf ⊢ <;> omega) hd
        | AppException =>
          exact ih _ _ _ _ (by omega) (by split_ifs at hf ⊢ <;> omega) hd
    · rw [collect_loop, if_neg hlt] at hd
      simp at hd

set_option maxRecDepth 1000000 in
set_option maxHeartbeats 4000000 in
/-- C31 (counterexample): a failed table can end the collection.  With the
tables `T` and `U` configured, a storage failure while the output of `T` is
opened ends `collect` after the first query: `CollectData` is called for `T`
only and one packet has been sent.  When the logger answers the query for `T`
with the code for which `CollectData` raises `InvalidTDFException`, and again
after the table definitions were loaded anew, `collect` ends after the second
call for `T`.  In both runs `U` is never collected. -/
theorem collect_stops_after_failure :
    (collect 20 sample_reload
        (sample_process_TU [collect_response 1 3 1 (sample_record 1000 7)]
          (fun c => decide (c = WriterCall.initWrite "T")))
        [{ TableName := "T" }, { TableName := "U" }]).1 = Outcome.ret () ∧
    (collect 20 sample_reload
        (sample_process_TU [collect_response 1 3 1 (sample_record 1000 7)]
          (fun c => decide (c = WriterCall.initWrite "T")))
        [{ TableName := "T" }, { TableName := "U" }]).2.2 = ["T"] ∧
    (collect 20 sample_reload
        (sample_process_TU [collect_response 1 3 1 (sample_record 1000 7)]
          (fun c => decide (c = WriterCall.initWrite "T")))
        [{ TableName := "T" }, { TableName := "U" }]).2.1.bmp5ImplObj__.base.pbuf__.devOut.length
      = 1 ∧
    (CollectData 20
        (sample_process_TU [collect_response 1 3 1 (sample_record 1000 7)]
          (fun c => decide (c = WriterCall.initWrite "T"))).bmp5ImplObj__
        { TableName := "T" }).1 = Outcome.throw Exception.StorageException ∧
    (collect 20 sample_reload
        (sample_process_TU [collect_refusal 1 0x01, collect_refusal 2 0x01] (fun _ => false))
        [{ TableName := "T" }, { TableName := "U" }]).1 = Outcome.ret () ∧
    (collect 20 sample_reload
        (sample_process_TU [collect_refusal 1 0x01, collect_refusal 2 0x01] (fun _ => false))
        [{ TableName := "T" }, { TableName := "U" }]).2.2 = ["T", "T"] := by
  decide

/-- C31 (amended): one pass of the loop of `collect` on a table of the list.
A table that the table definitions do not hold makes `CollectData` raise
`invalid_argument`, and after `invalid_argument` the loop goes on with the
next table.  After `StorageException`, and after `InvalidTDFException` when
the table definitions were already loaded anew, the loop ends: `collect`
returns and calls `CollectData` for no later table. -/
theorem collect_table_failure (fuel0 : Nat) (ReloadTDF : BMP5Obj → Nat × BMP5Obj)
    (Tables : List TableOpt) (fuel : Nat) (count : Int) (recollect_tdf : Bool)
    (p : PB5CollectionProcess) (called : List String) (table_opt : TableOpt)
    (hlt : count < (Tables.length : Int))
    (ht : Tables.get? count.toNat = some table_opt) :
    (getTableRef p.bmp5ImplObj__.tableList__ table_opt.TableName = none →
      CollectData fuel0 p.bmp5ImplObj__ table_opt =
        (Outcome.throw Exception.invalid_argument, p.bmp5ImplObj__)) ∧
    ((CollectData fuel0 p.bmp5ImplObj__ table_opt).1 =
        Outcome.throw Exception.invalid_argument →
      collect_loop fuel0 ReloadTDF Tables (fuel + 1) count recollect_tdf p called =
        collect_loop fuel0 ReloadTDF Tables fuel (count + 1) recollect_tdf
          { p with bmp5ImplObj__ := (CollectData fuel0 p.bmp5ImplObj__ table_opt).2 }
          (called ++ [table_opt.TableName])) ∧
    ((CollectData fuel0 p.bmp5ImplObj__ table_opt).1 =
          Outcome.throw Exception.StorageException ∨
        ((CollectData fuel0 p.bmp5ImplObj__ table_opt).1 =
          Outcome.throw Exception.InvalidTDFException ∧ recollect_tdf = true) →
      collect_loop fuel0 ReloadTDF Tables (fuel + 1) count recollect_tdf p called =
        (Outcome.ret (),
          { p with bmp5ImplObj__ := (CollectData fuel0 p.bmp5ImplObj__ table_opt).2 },
          called ++ [table_opt.TableName])) := by
  refine ⟨?_, ?_, ?_⟩
  · intro h
    rw [CollectData, h]
  · intro h
    rw [collect_loop_pass fuel0 ReloadTDF Tables fuel count recollect_tdf p called _ hlt ht]
    rcases hc : CollectData fuel0 p.bmp5ImplObj__ table_opt with ⟨out, o⟩
    rw [hc] at h
    simp only at h
    subst h
    rfl
  · intro h
    rw [collect_loop_pass fuel0 ReloadTDF Tables fuel count recollect_tdf p called _ hlt ht]
    rcases hc : CollectData fuel0 p.bmp5ImplObj__ table_opt with ⟨out, o⟩
    rw [hc] at h
    simp only at h
    rcases h with h | ⟨h, hr⟩
    · subst h
      rfl
    · subst h
      subst hr
      rfl

set_option maxRecDepth 1000000 in
set_option maxHeartbeats 4000000 in
/-- C31 (amended), at an example: the table `X` is not in the table
definitions, `collect` goes on with `U` and stores its three records. -/
theorem collect_table_failure_witness :
    (collect 20 sample_reload
        (sample_process_TU
          [collect_response_U 1 3 1 (sample_record 1000 7),
            collect_response_U 2 1 3
              (sample_record 880 5 ++ sample_record 940 6 ++ sample_record 1000 7)]
          (fun _ => false))
        [{ TableName := "X" }, { TableName := "U" }]).2.2 = ["X", "U"] ∧
    record_indices (collect 20 sample_reload
        (sample_process_TU
          [collect_response_U 1 3 1 (sample_record 1000 7),
            collect_response_U 2 1 3
              (sample_record 880 5 ++ sample_record 940 6 ++ sample_record 1000 7)]
          (fun _ => false))
        [{ TableName := "X" }, { TableName := "U" }]).2.1.bmp5ImplObj__.tblDataWriter__.calls
      = [1, 2, 3] ∧
    CollectData 20
        (sample_process_TU
          [collect_response_U 1 3 1 (sample_record 1000 7),
            collect_response_U 2 1 3
              (sample_record 880 5 ++ sample_record 940 6 ++ sample_record 1000 7)]
          (fun _ => false)).bmp5ImplObj__ { TableName := "X" } =
      (Outcome.throw Exception.invalid_argument,
        (sample_process_TU
          [collect_response_U 1 3 1 (sample_record 1000 7),
            collect_response_U 2 1 3
              (sample_record 880 5 ++ sample_record 940 6 ++ sample_record 1000 7)]
          (fun _ => false)).bmp5ImplObj__) :=
  ⟨by decide, by decide,
    (collect_table_failure 20 sample_reload [{ TableName := "X" }, { TableName := "U" }] 3 0
      false
      (sample_process_TU
        [collect_response_U 1 3 1 (sample_record 1000 7),
          collect_response_U 2 1 3
            (sample_record 880 5 ++ sample_record 940 6 ++ sample_record 1000 7)]
        (fun _ => false)) [] { TableName := "X" } (by decide) (by decide)).1 (by decide)⟩

/-! ## pb5_proc.cpp: a silent logger during the collection -/

set_option maxRecDepth 1000000 in
set_option maxHeartbeats 4000000 in
/-- C32 (the code at the failing input): the logger is silent while the
table `T` is collected and answers afterwards.  The fourth empty read makes
`CollectData` raise `CommException` for `T`; `collect` handles it like every
other `AppException`, goes on with the table `U`, stores its three records and
returns: the error does not leave `collect`, and six requests have been sent
instead of four. -/
theorem collect_swallows_CommException :
    (CollectData 20 (sample_process_TU [[], [], [], []] (fun _ => false)).bmp5ImplObj__
        { TableName := "T" }).1 = Outcome.throw Exception.CommException ∧
    (collect 20 sample_reload
        (sample_process_TU
          [[], [], [], [],
            collect_response_U 5 3 1 (sample_record 1000 7),
            collect_response_U 6 1 3
              (sample_record 880 5 ++ sample_record 940 6 ++ sample_record 1000 7)]
          (fun _ => false))
        [{ TableName := "T" }, { TableName := "U" }]).1 = Outcome.ret () ∧
    (collect 20 sample_reload
        (sample_process_TU
          [[], [], [], [],
            collect_response_U 5 3 1 (sample_record 1000 7),
            collect_response_U 6 1 3
              (sample_record 880 5 ++ sample_record 940 6 ++ sample_record 1000 7)]
          (fun _ => false))
        [{ TableName := "T" }, { TableName := "U" }]).2.2 = ["T", "U"] ∧
    record_indices (collect 20 sample_reload
        (sample_process_TU
          [[], [], [], [],
            collect_response_U 5 3 1 (sample_record 1000 7),
            collect_response_U 6 1 3
              (sample_record 880 5 ++ sample_record 940 6 ++ sample_record 1000 7)]
          (fun _ => false))
        [{ TableName := "T" }, { TableName := "U" }]).2.1.bmp5ImplObj__.tblDataWriter__.calls
      = [1, 2, 3] ∧
    (collect 20 sample_reload
        (sample_process_TU
          [[], [], [], [],
            collect_response_U 5 3 1 (sample_record 1000 7),
            collect_response_U 6 1 3
              (sample_record 880 5 ++ sample_record 940 6 ++ sample_record 1000 7)]
          (fun _ => false))
        [{ TableName := "T" }, { TableName := "U" }]).2.1.bmp5ImplObj__.base.pbuf__.devOut.length
      = 6 := by
  decide

/-! ### The packets of a received buffer -/

theorem find_sync_spec (ibuf : List byte) (last : Nat) :
    ∀ (fuel first : Nat), last - first ≤ fuel → first ≤ last →
      first ≤ find_sync ibuf fuel first last ∧ find_sync ibuf fuel first last ≤ last ∧
      (∀ k, first ≤ k → k < find_sync ibuf fuel first last → ibuf.getD k 0 ≠ SerSyncByte__) ∧
      (find_sync ibuf fuel first last < last →
        ibuf.getD (find_sync ibuf fuel first last) 0 = SerSyncByte__) := by
  intro fuel
  induction fuel with
  | zero =>
    intro first hf hle
    simp only [find_sync]
    exact ⟨le_refl _, hle, fun k h1 h2 => by omega, fun h => by omega⟩
  | succ n ih =>
    intro first hf hle
    simp only [find_sync]
    by_cases hlt : first < last
    · rw [if_pos hlt]
      by_cases hs : ibuf.getD first 0 = SerSyncByte__
      · rw [if_pos hs]
        exact ⟨le_refl _, hle, fun k h1 h2 => by omega, fun _ => hs⟩
      · rw [if_neg hs]
        obtain ⟨h1, h2, h3, h4⟩ := ih (first + 1) (by omega) (by omega)
        refine ⟨by omega, h2, ?_, h4⟩
        intro k hk1 hk2
        by_cases hkf : k = first
        · rw [hkf]; exact hs
        · exact h3 k (by omega) hk2
    · rw [if_neg hlt]
      exact ⟨hle, le_refl _, fun k h1 h2 => by omega, fun h => by omega⟩

theorem sync_count_split (ibuf : List byte) (p m i : Nat) (h1 : p ≤ m) (h2 : m ≤ i) :
    sync_count ibuf p i = sync_count ibuf p m + sync_count ibuf m i := by
  unfold sync_count
  have e : List.range' p (i - p) = List.range' p (m - p) ++ List.range' m (i - m) := by
    have := List.range'_append p (m - p) (i - m) 1
    rw [Nat.one_mul, show p + (m - p) = m from by omega,
      show i - m + (m - p) = i - p from by omega] at this
    exact this.symm
  rw [e, List.filter_append, List.length_append]

theorem sync_count_none (ibuf : List byte) (p i : Nat)
    (h : ∀ k, p ≤ k → k < i → ibuf.getD k 0 ≠ SerSyncByte__) : sync_count ibuf p i = 0 := by
  unfold sync_count
  rw [List.length_eq_zero, List.filter_eq_nil_iff]
  intro k hk
  rw [List.mem_range'_1] at hk
  simpa using h k hk.1 (by omega)

theorem sync_count_one (ibuf : List byte) (p : Nat) (h : ibuf.getD p 0 = SerSyncByte__) :
    sync_count ibuf p (p + 1) = 1 := by
  unfold sync_count
  rw [Nat.add_sub_cancel_left]
  simp only [List.range', List.filter, h, decide_True, List.length_singleton]

theorem split_loop_mono (ibuf : List byte) (end_ : Nat) (pk : Packet) :
    ∀ (fuel p : Nat) (queue : List Packet), pk ∈ queue →
      pk ∈ split_loop ibuf end_ fuel p queue := by
  intro fuel
  induction fuel with
  | zero => intro p queue h; exact h
  | succ n ih =>
    intro p queue h
    simp only [split_loop]
    split_ifs
    · exact List.mem_append_left _ h
    · exact ih _ _ (List.mem_append_left _ h)
    · exact h
    · exact h

theorem split_loop_emits (ibuf : List byte) (end_ i j : Nat) (hij : i < j) (hj : j ≤ end_)
    (hi : ibuf.getD i 0 = SerSyncByte__) (hjs : ibuf.getD j 0 = SerSyncByte__)
    (hbetween : ∀ k, i < k → k < j → ibuf.getD k 0 ≠ SerSyncByte__) :
    ∀ (fuel p : Nat) (queue : List Packet), p ≤ i → sync_count ibuf p i % 2 = 0 →
      end_ + 1 - p ≤ fuel →
      (⟨i, j, true⟩ : Packet) ∈ split_loop ibuf end_ fuel p queue := by
  intro fuel
  induction fuel with
  | zero => intro p queue hp _ hf; omega
  | succ n ih =>
    intro p queue hp heven hf
    simp only [split_loop]
    rw [if_pos (by omega)]
    obtain ⟨b1, b2, b3, b4⟩ := find_sync_spec ibuf end_ (end_ - p) p (le_refl _) (by omega)
    generalize find_sync ibuf (end_ - p) p end_ = b at b1 b2 b3 b4
    have hbi : b ≤ i := by
      by_contra hc
      exact b3 i hp (by omega) hi
    have hbs : ibuf.getD b 0 = SerSyncByte__ := b4 (by omega)
    rw [if_pos hbs, if_neg (by omega)]
    obtain ⟨e1, e2, e3, e4⟩ := find_sync_spec ibuf end_ (end_ - (b + 1)) (b + 1) (le_refl _)
      (by omega)
    generalize find_sync ibuf (end_ - (b + 1)) (b + 1) end_ = e at e1 e2 e3 e4
    by_cases hb : b = i
    · subst hb
      have hej : e = j := by
        by_contra hne
        by_cases hlt : e < j
        · exact hbetween e (by omega) hlt (e4 (by omega))
        · exact e3 j (by omega) (by omega) hjs
      subst hej
      apply split_loop_mono
      rw [List.mem_append, List.mem_singleton]
      right
      rw [show decide (ibuf.getD e 0 = SerSyncByte__) = true from decide_eq_true hjs]
    · have hc1 := sync_count_split ibuf p b i b1 hbi
      have hc2 := sync_count_split ibuf b (b + 1) i (by omega) (by omega)
      have hc3 := sync_count_none ibuf p b b3
      have hc4 := sync_count_one ibuf b hbs
      have hei : e < i := by
        by_contra hc
        have := sync_count_none ibuf (b + 1) i (fun k hk1 hk2 => e3 k hk1 (by omega))
        omega
      have hes : ibuf.getD e 0 = SerSyncByte__ := e4 (by omega)
      have hc5 := sync_count_split ibuf (b + 1) e i e1 (by omega)
      have hc6 := sync_count_split ibuf e (e + 1) i (by omega) (by omega)
      have hc7 := sync_count_none ibuf (b + 1) e e3
      have hc8 := sync_count_one ibuf e hes
      exact ih (e + 1) _ (by omega) (by omega) (by omega)

/-- C33 (amended): for every received buffer (the bytes at the offsets 0 to
`end_`) and every two consecutive sync bytes in it, at the offsets `i < j`,
before which the buffer holds an even number of sync bytes,
`split_sequence_to_packets` emits a complete packet that begins at `i` and ends
at `j`: its payload is the bytes strictly between those two syncs. -/
theorem split_sequence_to_packets_pairs (ibuf : List byte) (end_ i j : Nat) (queue : List Packet)
    (hij : i < j) (hj : j ≤ end_)
    (hi : ibuf.getD i 0 = SerSyncByte__) (hjs : ibuf.getD j 0 = SerSyncByte__)
    (hbetween : ∀ k, i < k → k < j → ibuf.getD k 0 ≠ SerSyncByte__)
    (heven : sync_count ibuf 0 i % 2 = 0) :
    (⟨i, j, true⟩ : Packet) ∈ split_sequence_to_packets ibuf end_ queue ∧
    payload ibuf ⟨i, j, true⟩ = (ibuf.drop (i + 1)).take (j - i - 1) :=
  ⟨split_loop_emits ibuf end_ i j hij hj hi hjs hbetween (end_ + 1) 0 queue (Nat.zero_le _)
    heven (by omega), rfl⟩

/-- C33, witness: two sync bytes, then the payload `01 02` between two sync
bytes. -/
theorem split_sequence_to_packets_pairs_witness :
    (⟨2, 5, true⟩ : Packet) ∈
      split_sequence_to_packets [0xbd, 0xbd, 0xbd, 0x01, 0x02, 0xbd] 5 [] ∧
    payload [0xbd, 0xbd, 0xbd, 0x01, 0x02, 0xbd] ⟨2, 5, true⟩ = [0x01, 0x02] :=
  ⟨(split_sequence_to_packets_pairs [0xbd, 0xbd, 0xbd, 0x01, 0x02, 0xbd] 5 2 5 []
      (by decide) (by decide) (by decide) (by decide)
      (by intro k h1 h2; interval_cases k <;> decide) (by decide)).1,
   by decide⟩

/-- C33, counterexample: one extra sync byte before the packet `BD 01 02 BD`.
The scanner pairs the extra sync with the opening sync and takes the closing
sync for the start of an incomplete packet: no packet with the payload `01 02`
is emitted. -/
theorem split_sequence_to_packets_extra_sync :
    split_sequence_to_packets [0xbd, 0xbd, 0x01, 0x02, 0xbd] 4 []
      = [⟨0, 1, true⟩, ⟨4, 4, false⟩] ∧
    ∀ pk ∈ split_sequence_to_packets [0xbd, 0xbd, 0x01, 0x02, 0xbd] 4 [],
      ¬ (pk.Complete = true ∧ payload [0xbd, 0xbd, 0x01, 0x02, 0xbd] pk = [0x01, 0x02]) := by
  decide

set_option maxRecDepth 1000000 in
/-- C34 (the code at the failing input): table `T` is configured with a file
span of 600 s, and the writer is the one `TableDataManager` creates (file span
3600 s).  `storeRecord` does not use its parameter `file_span`, so that its
result is the same for every two values of it: the record at
second 880 opens a span whose boundary is `3600 * (floor (880 / 3600) + 1) =
3600`, not `600 * (floor (880 / 600) + 1) = 1200`, in a call of `storeRecord`
and in a whole run of `CollectData`; the records at 940 and 1000 s do not open
a new span. -/
theorem storeRecord_ignores_file_span :
    (∀ (w : AsciiWriter) (tbl_ref : Table) (buf : List byte) (data rec_num : Nat)
      (S S1 : Int) (parseTimestamp : Bool),
      storeRecord w tbl_ref buf data rec_num S parseTimestamp
        = storeRecord w tbl_ref buf data rec_num S1 parseTimestamp) ∧
    (storeRecord {} (sample_table [sample_field 6 1] 10 1 ⟨60, 0⟩) (sample_record 880 5) 0 1 600
      true).2.2.1.NewFileTime = 3600 ∧
    ((CollectData 20
      (sample_bmp5 [collect_response 1 3 1 (sample_record 1000 7),
                    collect_response 2 1 3 (sample_record 880 5 ++ sample_record 940 6
                      ++ sample_record 1000 7)]
        [sample_table [sample_field 6 1] 10 1 ⟨60, 0⟩])
      { TableName := "T", TableSpan := 600 }).2.tableList__.map (fun t => t.NewFileTime))
      = [3600] ∧
    record_times (CollectData 20
      (sample_bmp5 [collect_response 1 3 1 (sample_record 1000 7),
                    collect_response 2 1 3 (sample_record 880 5 ++ sample_record 940 6
                      ++ sample_record 1000 7)]
        [sample_table [sample_field 6 1] 10 1 ⟨60, 0⟩])
      { TableName := "T", TableSpan := 600 }).2.tblDataWriter__.calls
      = [⟨880, 0⟩, ⟨940, 0⟩, ⟨1000, 0⟩] :=
  ⟨fun _ _ _ _ _ _ _ _ => rfl, by decide⟩

/-- C35 (the code at the failing input): `factor` is `10 xor 3 = 9`, not
`10^3`, and the field is printed with `%d`.  For a record time of 500 ms
(`nsec = 500000000`) the fractional field is `55555555`, not `500`; for 5 ms it
is `555555`, not `005`; for `nsec = 0` it is `0`, not `000`. -/
theorem GetTimestamp_fraction_not_millis :
    GetTimestamp_factor = 9 ∧
    GetTimestamp_nsecs ⟨1000, 500000000⟩ = 55555555 ∧
    GetTimestamp_fraction ⟨1000, 500000000⟩ = "55555555" ∧
    GetTimestamp_fraction ⟨1000, 5000000⟩ = "555555" ∧
    GetTimestamp_fraction ⟨1000, 0⟩ = "0" := by
  decide

set_option maxRecDepth 1000000 in
/-- C36 (the code at the failing input): a file of 42 bytes that ends one byte
before the definition of its table `B` is complete (the zero that ends the
field list is missing).  `readTableDefinition` does not return -1: it returns
the length 42 of the complete definition, which starts at offset 1, and keeps
the table; the last byte it has read, `next_num` at offset 42, is past the end
of the buffer.  On a file that ends inside a table name, `GetVarLenString`
reads the offsets 1 and 2 of a buffer of 2 bytes. -/
theorem readTableDefinition_reads_past_end :
    sample_tdf_truncated.length = 42 ∧
    sample_tdf_truncated ++ [0x00] = sample_tdf_empty_field ∧
    readTableDefinition [] 1 sample_tdf_truncated 1 sample_tdf_truncated.length
      = Outcome.ret (42,
          [{ TblName := "B", TblNum := 1, TblSize := 10, TimeType := 14,
             TblTimeInterval := ⟨60, 0⟩,
             field_list := [{ FieldType := 9, FieldName := "", BegIdx := 1, Dimension := 1 }],
             TblSignature := 6643 }]) ∧
    BuildTDF (some sample_tdf_truncated) (fun _ => none)
      = BuildTDF (some sample_tdf_empty_field) (fun _ => none) ∧
    sample_tdf_open_name.length = 2 ∧
    GetVarLenString_reads sample_tdf_open_name 1 = [1, 2] := by
  decide

set_option maxRecDepth 1000000 in
/-- C37 (the code at the failing input): a table definition with two fields,
`x` with the sub-dimensions 2 and 3 and `y` with none.  The variable `var` of
`readFieldList` is declared outside the loop and its `SubDim` is never
cleared: the parsed field `y` has the sub-dimensions 2 and 3 of `x`. -/
theorem readFieldList_SubDim_accumulates :
    BuildTDF (some sample_tdf_subdim) (fun _ => none)
      = Outcome.ret (SUCCESS,
          [{ TblName := "B", TblNum := 1, TblSize := 10, TimeType := 14,
             TblTimeInterval := ⟨60, 0⟩,
             field_list :=
               [{ FieldType := 6, FieldName := "x", BegIdx := 1, Dimension := 6,
                  SubDim := [2, 3] },
                { FieldType := 9, FieldName := "y", BegIdx := 1, Dimension := 1,
                  SubDim := [2, 3] }],
             TblSignature := 27634 }]) := by
  decide

/-! ### `storeRecord` and the cursor of the table -/

theorem storeRecord_dims_calls (var : Field) (buf : List byte) :
    ∀ (n : Nat) (w : AsciiWriter) (data : Nat),
      ∃ cs, (storeRecord_dims var buf n w data).2.1.calls = w.calls ++ cs ∧
        (storeRecord_dims var buf n w data).2.1.raises = w.raises ∧
        (((storeRecord_dims var buf n w data).1 = Outcome.ret () ∧
            ∀ c ∈ cs, w.raises c = false) ∨
          ((storeRecord_dims var buf n w data).1 = Outcome.throw Exception.StorageException ∧
            ∃ c ∈ cs, w.raises c = true)) := by
  intro n
  induction n with
  | zero => intro w data; exact ⟨[], by simp [storeRecord_dims], rfl, Or.inl ⟨rfl, by simp⟩⟩
  | succ n ih =>
    intro w data
    simp only [storeRecord_dims, AsciiWriter.call]
    by_cases hr : w.raises (storeDataSample var (List.drop data buf)).1 = true
    · rw [if_pos hr]
      exact ⟨[(storeDataSample var (List.drop data buf)).1], rfl, rfl,
        Or.inr ⟨rfl, _, List.mem_singleton_self _, hr⟩⟩
    · rw [if_neg hr]
      obtain ⟨cs, h1, h2, h3⟩ :=
        ih { w with calls := w.calls ++ [(storeDataSample var (List.drop data buf)).1] }
          (data + (storeDataSample var (List.drop data buf)).2)
      refine ⟨(storeDataSample var (List.drop data buf)).1 :: cs, ?_, h2, ?_⟩
      · rw [h1]; simp
      · rcases h3 with ⟨g1, g2⟩ | ⟨g1, c, hc, g2⟩
        · refine Or.inl ⟨g1, ?_⟩
          intro c hc
          rw [List.mem_cons] at hc
          rcases hc with hc | hc
          · rw [hc]; simpa using hr
          · exact g2 c hc
        · exact Or.inr ⟨g1, c, List.mem_cons_of_mem _ hc, g2⟩

theorem storeRecord_fields_calls (buf : List byte) :
    ∀ (fields : List Field) (w : AsciiWriter) (data : Nat),
      ∃ cs, (storeRecord_fields buf fields w data).2.1.calls = w.calls ++ cs ∧
        (storeRecord_fields buf fields w data).2.1.raises = w.raises ∧
        (((storeRecord_fields buf fields w data).1 = Outcome.ret () ∧
            ∀ c ∈ cs, w.raises c = false) ∨
          ((storeRecord_fields buf fields w data).1
              = Outcome.throw Exception.StorageException ∧
            ∃ c ∈ cs, w.raises c = true)) := by
  intro fields
  induction fields with
  | nil => intro w data; exact ⟨[], by simp [storeRecord_fields], rfl, Or.inl ⟨rfl, by simp⟩⟩
  | cons f rest ih =>
    intro w data
    simp only [storeRecord_fields]
    obtain ⟨cs, h1, h2, h3⟩ := storeRecord_dims_calls f buf
      (if f.FieldType = 11 ∨ f.FieldType = 16 then 1 else (toInt32 f.Dimension).toNat) w data
    rcases hr : storeRecord_dims f buf
      (if f.FieldType = 11 ∨ f.FieldType = 16 then 1 else (toInt32 f.Dimension).toNat) w data
      with ⟨o, w1, d1⟩
    rw [hr] at h1 h2 h3
    simp only at h1 h2 h3
    rcases h3 with ⟨g1, g2⟩ | ⟨g1, c, hc, g2⟩
    · subst g1
      simp only
      obtain ⟨cs2, k1, k2, k3⟩ := ih w1 d1
      refine ⟨cs ++ cs2, by rw [k1, h1, List.append_assoc], by rw [k2, h2], ?_⟩
      rw [h2] at k3
      rcases k3 with ⟨m1, m2⟩ | ⟨m1, c, hc, m2⟩
      · refine Or.inl ⟨m1, ?_⟩
        intro c hc
        rw [List.mem_append] at hc
        rcases hc with hc | hc
        · exact g2 c hc
        · exact m2 c hc
      · exact Or.inr ⟨m1, c, List.mem_append_right _ hc, m2⟩
    · subst g1
      simp only
      exact ⟨cs, h1, h2, Or.inr ⟨trivial, c, hc, g2⟩⟩

/-- C38: `storeRecord` updates the cursor atomically.  The calls it makes to
the writer start with `processRecordBegin` for the time given to the record.
Either no call raises: then it returns `SUCCESS`, `NextRecord` has increased
by 1 (as a `uint4`) and `LastRecordTime` is the time given to the record; or a
call raises: then `StorageException` is raised and `NextRecord` and
`LastRecordTime` keep their values from before the call. -/
theorem storeRecord_atomic (w : AsciiWriter) (tbl_ref : Table) (buf : List byte)
    (data rec_num : Nat) (file_span : Int) (parseTimestamp : Bool) :
    ∃ cs,
      (storeRecord w tbl_ref buf data rec_num file_span parseTimestamp).2.1.calls
        = w.calls ++ WriterCall.processRecordBegin tbl_ref.TblName (toInt32 rec_num)
            (if parseTimestamp then parseRecordTime (buf.drop data)
             else tbl_ref.LastRecordTime.plusEq tbl_ref.TblTimeInterval) :: cs ∧
      (((storeRecord w tbl_ref buf data rec_num file_span parseTimestamp).1
            = Outcome.ret SUCCESS ∧
          (∀ c ∈ WriterCall.processRecordBegin tbl_ref.TblName (toInt32 rec_num)
              (if parseTimestamp then parseRecordTime (buf.drop data)
               else tbl_ref.LastRecordTime.plusEq tbl_ref.TblTimeInterval) :: cs,
            w.raises c = false) ∧
          (storeRecord w tbl_ref buf data rec_num file_span parseTimestamp).2.2.1.NextRecord
            = (tbl_ref.NextRecord + 1) % 4294967296 ∧
          (tbl_ref.NextRecord < 4294967295 →
            (storeRecord w tbl_ref buf data rec_num file_span parseTimestamp).2.2.1.NextRecord
              = tbl_ref.NextRecord + 1) ∧
          (storeRecord w tbl_ref buf data rec_num file_span parseTimestamp).2.2.1.LastRecordTime
            = (if parseTimestamp then parseRecordTime (buf.drop data)
               else tbl_ref.LastRecordTime.plusEq tbl_ref.TblTimeInterval)) ∨
        ((storeRecord w tbl_ref buf data rec_num file_span parseTimestamp).1
            = Outcome.throw Exception.StorageException ∧
          (∃ c ∈ WriterCall.processRecordBegin tbl_ref.TblName (toInt32 rec_num)
              (if parseTimestamp then parseRecordTime (buf.drop data)
               else tbl_ref.LastRecordTime.plusEq tbl_ref.TblTimeInterval) :: cs,
            w.raises c = true) ∧
          (storeRecord w tbl_ref buf data rec_num file_span parseTimestamp).2.2.1.NextRecord
            = tbl_ref.NextRecord ∧
          (storeRecord w tbl_ref buf data rec_num file_span parseTimestamp).2.2.1.LastRecordTime
            = tbl_ref.LastRecordTime)) := by
  generalize hrt : (if parseTimestamp = true then parseRecordTime (List.drop data buf)
    else tbl_ref.LastRecordTime.plusEq tbl_ref.TblTimeInterval) = recordTime
  have hpb : ∀ b : Bool × AsciiWriter × Table,
      b = w.processRecordBegin tbl_ref (toInt32 rec_num) recordTime →
      b.1 = w.raises (WriterCall.processRecordBegin tbl_ref.TblName (toInt32 rec_num)
        recordTime) ∧
      b.2.1 = { w with calls := w.calls ++ [WriterCall.processRecordBegin tbl_ref.TblName
        (toInt32 rec_num) recordTime] } ∧
      b.2.2.NextRecord = tbl_ref.NextRecord ∧ b.2.2.LastRecordTime = tbl_ref.LastRecordTime := by
    intro b hb
    subst hb
    unfold AsciiWriter.processRecordBegin AsciiWriter.call
    simp only
    split_ifs <;> exact ⟨by simp_all, rfl, rfl, rfl⟩
  unfold storeRecord
  simp only [hrt]
  obtain ⟨b1, b2, b3, b4⟩ := hpb _ rfl
  rcases hb : w.processRecordBegin tbl_ref (toInt32 rec_num) recordTime with ⟨r0, w0, t0⟩
  rw [hb] at b1 b2 b3 b4
  simp only at b1 b2 b3 b4 ⊢
  by_cases hr0 : r0 = true
  · rw [if_pos hr0]
    refine ⟨[], by rw [b2], Or.inr ⟨rfl, ⟨_, List.mem_singleton_self _, ?_⟩, b3, b4⟩⟩
    rw [← b1]; exact hr0
  · rw [if_neg hr0]
    have hr0' : w.raises (WriterCall.processRecordBegin tbl_ref.TblName (toInt32 rec_num)
        recordTime) = false := by
      rw [← b1]; simpa using hr0
    obtain ⟨cs, h1, h2, h3⟩ := storeRecord_fields_calls buf tbl_ref.field_list w0
      (if parseTimestamp = true then data + 8 else data)
    rcases hf : storeRecord_fields buf tbl_ref.field_list w0
      (if parseTimestamp = true then data + 8 else data) with ⟨o, w1, d1⟩
    rw [hf] at h1 h2 h3
    simp only at h1 h2 h3
    have hw0c : w0.calls = w.calls ++ [WriterCall.processRecordBegin tbl_ref.TblName
        (toInt32 rec_num) recordTime] := by rw [b2]
    have hw0r : w0.raises = w.raises := by rw [b2]
    rw [hw0r] at h2 h3
    rcases h3 with ⟨g1, g2⟩ | ⟨g1, c, hc, g2⟩
    · subst g1
      simp only [AsciiWriter.call]
      by_cases he : w1.raises (WriterCall.processRecordEnd tbl_ref.TblName) = true
      · rw [if_pos he]
        refine ⟨cs ++ [WriterCall.processRecordEnd tbl_ref.TblName], ?_, Or.inr ⟨rfl, ?_, b3, b4⟩⟩
        · simp only; rw [h1, hw0c]; simp
        · refine ⟨WriterCall.processRecordEnd tbl_ref.TblName, by simp, ?_⟩
          rw [← h2]; exact he
      · rw [if_neg he]
        refine ⟨cs ++ [WriterCall.processRecordEnd tbl_ref.TblName], ?_, Or.inl ⟨rfl, ?_, ?_, ?_, rfl⟩⟩
        · simp only; rw [h1, hw0c]; simp
        · intro c hc
          rw [List.mem_cons, List.mem_append, List.mem_singleton] at hc
          rcases hc with hc | hc | hc
          · rw [hc]; exact hr0'
          · exact g2 c hc
          · rw [hc, ← h2]; simpa using he
        · simp only; rw [b3]
        · intro hlt
          simp only
          rw [b3]
          omega
    · subst g1
      simp only
      refine ⟨cs, by rw [h1, hw0c]; simp, Or.inr ⟨trivial, ⟨c, List.mem_cons_of_mem _ hc, g2⟩, b3, b4⟩⟩

/-- C38, witness: a record of table `T` whose cursor is at 1, with a writer
that never raises: `NextRecord` is 2 afterwards. -/
theorem storeRecord_atomic_witness :
    (storeRecord {} (sample_table [sample_field 6 1] 10 1 ⟨60, 0⟩) (sample_record 880 5) 0 1
      3600 true).2.2.1.NextRecord = 2 ∧
    ∃ cs,
      (storeRecord {} (sample_table [sample_field 6 1] 10 1 ⟨60, 0⟩) (sample_record 880 5) 0 1
        3600 true).2.1.calls
        = ({} : AsciiWriter).calls ++ WriterCall.processRecordBegin "T" (toInt32 1)
            (if true then parseRecordTime ((sample_record 880 5).drop 0)
             else (sample_table [sample_field 6 1] 10 1 ⟨60, 0⟩).LastRecordTime.plusEq
               (sample_table [sample_field 6 1] 10 1 ⟨60, 0⟩).TblTimeInterval) :: cs :=
  ⟨by decide,
   (storeRecord_atomic {} (sample_table [sample_field 6 1] 10 1 ⟨60, 0⟩) (sample_record 880 5)
     0 1 3600 true).imp (fun _ h => h.1)⟩

set_option maxRecDepth 1000000 in
set_option maxHeartbeats 4000000 in
/-- C39 (the code at the failing inputs).  First: `record_size = 12`, and a
fragment at offset 0 with 13 data bytes `41` arrives while the buffer holds
`EE` from earlier use.  The code copies 12 bytes from the record time on (the
8 bytes of the time and 4 data bytes), finds `data_len = 12 >= record_size` and
decodes: the decoder reads the 20 bytes at the offsets 0 to 19, of which 12 to
19 were written by no fragment, and the writer receives a string that ends in
eight bytes `EE`.  Second: `record_size = 8192`, so that the buffer has 8192
bytes, and a fragment at offset 8190 with 9 data bytes: the copy writes the
offsets 8190 to 8197, and the bytes at 8192 and 8193 are past the end of the
buffer. -/
theorem get_records_fragment_unsafe :
    (get_records_packet 0x20 12 3600 1
      (fragment_received_on 0xee 1 42 0 1000 (List.replicate 13 0x41)
        [sample_table [sample_field 11 12] 10 42 ⟨60, 0⟩])
      (sample_table [sample_field 11 12] 10 42 ⟨60, 0⟩)
      { collect_mode := 0x06, P1 := 42, P2 := 43 }
      (fragment_packet 1 42 0 1000 (List.replicate 13 0x41))).2.1.tblDataWriter__.calls
      = [WriterCall.processRecordBegin "T" 42 ⟨1000, 0⟩,
         WriterCall.storeString "f"
           [0x41, 0x41, 0x41, 0x41, 0xee, 0xee, 0xee, 0xee, 0xee, 0xee, 0xee, 0xee],
         WriterCall.processRecordEnd "T"] ∧
    getRecordSize (sample_table [sample_field 11 8192] 10 42 ⟨60, 0⟩) = 8192 ∧
    (fragment_received_on 0xee 1 42 8190 1000 (List.replicate 9 0x41)
      [sample_table [sample_field 11 8192] 10 42 ⟨60, 0⟩]).dataBufSize__ = 8192 ∧
    (List.range 10).map (fun k => (get_records_packet 0x20 8192 3600 1
      (fragment_received_on 0xee 1 42 8190 1000 (List.replicate 9 0x41)
        [sample_table [sample_field 11 8192] 10 42 ⟨60, 0⟩])
      (sample_table [sample_field 11 8192] 10 42 ⟨60, 0⟩)
      { collect_mode := 0x08, P1 := 42, P2 := 8190, data_len := 8180 }
      (fragment_packet 1 42 8190 1000 (List.replicate 9 0x41))).2.1.dataBuf__ (8189 + k))
      = [0xee, 0x00, 0x00, 0x03, 0xe8, 0x00, 0x00, 0x00, 0x00, 0xee] := by
  decide!

/-- After `readFromDevice` has raised, a further empty read cycle returns: the
counter has passed `MAX_SUCCESSIVE_BAD_READ`, which the code tests with `==`. -/
theorem readFromDevice_after_raise (pb : pakbuf) (h1 : pb.nbytes_last_read = 0)
    (h2 : 3 ≤ pb.successive_bad_read) (h3 : pb.successive_bad_read < 4294967295)
    (h4 : pb.devIn.headD [] = []) :
    (readFromDevice pb).1 = Outcome.ret 0 ∧
    (readFromDevice pb).2.nbytes_last_read = 0 ∧
    (readFromDevice pb).2.successive_bad_read = pb.successive_bad_read + 1 := by
  unfold readFromDevice
  simp only [h4, List.length_nil, h1, and_self, if_true, MAX_SUCCESSIVE_BAD_READ]
  rw [if_neg (by omega)]
  refine ⟨rfl, rfl, ?_⟩
  simp only
  omega

/-- C40 (the code at the failing input): a device that stays silent.  From
the initial state the fourth call of `readFromDevice` raises `CommException`,
and each of the calls after it returns 0 bytes without an error. -/
theorem readFromDevice_one_shot :
    read_outcomes 10 (pakbuf.init 0 512 [] [])
      = [Outcome.ret 0, Outcome.ret 0, Outcome.ret 0,
         Outcome.throw Exception.CommException,
         Outcome.ret 0, Outcome.ret 0, Outcome.ret 0, Outcome.ret 0, Outcome.ret 0,
         Outcome.ret 0] := by
  decide

end PbCdlComm
